import Mathlib

/-!
# moth-lite: ring buffer, subscriber loops and RSSP framing

A shallow embedding of `server/data-buffer.go`, of the subscriber and publisher
loops of `server/api-pang-ws.go`, `server/api-pang-tcp.go` and
`server/api-pang-udp.go`, and of the RSSP codecs.

Conventions of the embedding.

* A Go `string` and a Go `[]byte` are byte sequences: `List UInt8`.
* A Go `int` is an `Int`; ring positions are bounded by the slot count (30), so no
  arithmetic here is near the 64-bit range.  Go's `%` truncates toward zero: `Int.tmod`.
* A method on `*Buffer` takes the ring and gives back its result with the ring it
  leaves behind; a run-time panic (index out of range, division by zero) is `none`.
-/

namespace Moth

/-- Go `byte`. -/
abbrev Byte := UInt8

/-- Go `string`: an immutable sequence of bytes. -/
abbrev GoString := List UInt8

/-! ## data-buffer.go -/

def TRACK_MIN_BUFFERS : Int := 2
def TRACK_MAX_BUFFERS : Int := 10
def BUFFER_MIN_SLOTS : Int := 2
def BUFFER_MAX_SLOTS : Int := 30
def BUFFER_LEN_SLOTS : Int := 20
def BUFFER_CAP_SLOTS : Int := 30
def BUFFER_GAP_SLOTS : Int := 2
def BUFFER_NUM_FORE : Int := 0
def BUFFER_NUM_BACK : Int := 1

/-- The `Slot` struct.  `Head` is an `interface{}` that is either nil (the zero value) or
holds the session id string of the writer; `Time` is an abstract clock reading. -/
structure Slot where
  FrameType : Int
  Head : Option GoString
  To : GoString
  Mime : GoString
  Time : Nat
  Length : Int
  Mark : GoString
  Data : List Byte
deriving DecidableEq, Repr

/-- The zero value of `Slot`, what `make([]Slot, n)` fills the array with. -/
def Slot.zero : Slot :=
  { FrameType := 0, Head := none, To := [], Mime := [], Time := 0, Length := 0, Mark := [], Data := [] }

/-- The `Buffer` struct.  `locked` is the state of the embedded `sync.RWMutex`:
true while a writer holds it. -/
structure Buffer where
  ID : GoString
  Label : GoString
  Mime : GoString
  PosRead : Int
  PosWrite : Int
  SizeLen : Int
  SizeCap : Int
  Slots : List Slot
  locked : Bool
deriving DecidableEq, Repr

/-- Modelled from the spec: `Abs` is called by `setReadPos` and declared in none of the
source files; the spec writes the test of `setReadPos` as `|posWrite - last| > 2`, so
`Abs` is the absolute value of an integer. -/
def Abs (x : Int) : Int := if x < 0 then -x else x

/-- `NewBuffer(label, n, m)`: `n` zero slots, active length `m`; the id comes from the
caller (`GetXidString()`).  `make` panics on a negative length. -/
def NewBuffer (id label : GoString) (n m : Int) : Option Buffer :=
  if n < 0 then none
  else some
    { ID := id, Label := label, Mime := [], PosRead := 0, PosWrite := 0,
      SizeLen := m, SizeCap := n, Slots := List.replicate n.toNat Slot.zero, locked := false }

namespace Buffer

/-- `d.Lock()`: take the write lock.  A held lock makes the caller wait; in a sequential
run nobody releases it, so there is no result. -/
def Lock (d : Buffer) : Option Buffer :=
  if d.locked then none else some { d with locked := true }

/-- `d.Unlock()`: release the write lock; unlocking a free mutex is a fatal error. -/
def Unlock (d : Buffer) : Option Buffer :=
  if d.locked then some { d with locked := false } else none

/-- `setBufferSizeLen(sz)`. -/
def setBufferSizeLen (d : Buffer) (sz : Int) : Buffer :=
  if sz > 1 ∧ sz ≤ d.SizeCap then { d with SizeLen := sz } else d

/-- `readSlotByPos(pos)`: `b = d.Slots[pos]`. -/
def readSlotByPos (d : Buffer) (pos : Int) : Option (Slot × Buffer) :=
  if 0 ≤ pos then
    match d.Slots[pos.toNat]? with
    | some b => some (b, d)
    | none => none
  else none

/-- The three assignments of `writeSlot`, between the lock and the deferred unlock. -/
def writeSlotBody (d : Buffer) (b : Slot) : Option Buffer :=
  if 0 ≤ d.PosWrite ∧ d.PosWrite < d.Slots.length then
    let d1 := { d with Slots := d.Slots.set d.PosWrite.toNat b }
    let d2 := { d1 with PosRead := d1.PosWrite }
    if d2.SizeLen = 0 then none
    else some { d2 with PosWrite := Int.tmod (d2.PosWrite + 1) d2.SizeLen }
  else none

/-- `writeSlot(b, flock)`. -/
def writeSlot (d : Buffer) (b : Slot) (flock : Bool) : Option Buffer :=
  if flock then
    match d.Lock with
    | none => none
    | some d1 =>
      match d1.writeSlotBody b with
      | none => none
      | some d2 => d2.Unlock
  else d.writeSlotBody b

/-- `setReadPos(lpos)` on the integers: what the code returns when the difference
`d.PosWrite - lpos` and the sum `lpos + 1` stay within Go's 64-bit `int`, as they do for a
cursor and a write position inside a ring.  `setReadPos64` below has the wrap of the
64-bit `int`; the two agree on that range (`setReadPos64_eq`). -/
def setReadPos (d : Buffer) (lpos : Int) : Option (Int × Buffer) :=
  if Abs (d.PosWrite - lpos) > BUFFER_GAP_SLOTS then
    some (d.PosWrite, d)
  else if d.SizeLen = 0 then none
  else some (Int.tmod (lpos + 1) d.SizeLen, d)

end Buffer

/-- The value of a Go `int` (64 bits, two's complement) expression whose mathematical
value is `x`: a sum or a difference that leaves the range wraps around. -/
def wrapInt64 (x : Int) : Int := (x + 2 ^ 63) % 2 ^ 64 - 2 ^ 63

/-- `setReadPos(lpos)` with the arithmetic of Go's 64-bit `int`: the difference
`d.PosWrite - lpos` and the sum `lpos + 1` wrap around when they leave the range. -/
def Buffer.setReadPos64 (d : Buffer) (lpos : Int) : Option (Int × Buffer) :=
  if Abs (wrapInt64 (d.PosWrite - lpos)) > BUFFER_GAP_SLOTS then
    some (d.PosWrite, d)
  else if d.SizeLen = 0 then none
  else some (Int.tmod (wrapInt64 (lpos + 1)) d.SizeLen, d)

/-! ## Go runtime and library pieces the codecs use -/

/-- Errors of the transports. -/
inductive Error where
  | EOF
  | ErrUnexpectedEOF
  | timeout
  | write
deriving DecidableEq, Repr

/-- `s[lo:hi]` on a slice whose capacity is its length; out of range is a panic. -/
def slice (s : List Byte) (lo hi : Nat) : Option (List Byte) :=
  if lo ≤ hi ∧ hi ≤ s.length then some ((s.take hi).drop lo) else none

/-- The array `s` after the sub-slice that starts at `lo` has come to hold `t`. -/
def putSlice (s : List Byte) (lo : Nat) (t : List Byte) : List Byte :=
  s.take lo ++ t ++ s.drop (lo + t.length)

/-- Builtin `copy(dst, src)`: the first `min(len dst, len src)` bytes of `dst` are overwritten. -/
def copy (dst src : List Byte) : List Byte :=
  src.take dst.length ++ dst.drop src.length

/-- `binary.BigEndian.PutUint32(b, v)` of the Go standard library, `v` a `uint32`. -/
def PutUint32 (b : List Byte) (v : Nat) : Option (List Byte) :=
  if b.length < 4 then none
  else some ([UInt8.ofNat (v / 2 ^ 24), UInt8.ofNat (v / 2 ^ 16), UInt8.ofNat (v / 2 ^ 8),
    UInt8.ofNat v] ++ b.drop 4)

/-- `binary.BigEndian.Uint32(b)` of the Go standard library. -/
def Uint32 (b : List Byte) : Option Nat :=
  match b with
  | b0 :: b1 :: b2 :: b3 :: _ =>
    some (b3.toNat + b2.toNat * 2 ^ 8 + b1.toNat * 2 ^ 16 + b0.toNat * 2 ^ 24)
  | _ => none

/-- `io.ReadFull(conn, buf)` with `len(buf) = n` on a connection whose remaining input is
`conn` and then ends: the bytes read (or the error) and the input left. -/
def ReadFull (conn : List Byte) (n : Nat) : Except Error (List Byte) × List Byte :=
  if n = 0 then (.ok [], conn)
  else if conn.length = 0 then (.error .EOF, conn)
  else if conn.length < n then (.error .ErrUnexpectedEOF, [])
  else (.ok (conn.take n), conn.drop n)

/-! ## api-pang-common.go, api-pang-udp.go: constants -/

/-- `"RTXT"`. -/
def RSSP_MARK_RTXT : GoString := [82, 84, 88, 84]
/-- `"RBIN"`. -/
def RSSP_MARK_RBIN : GoString := [82, 66, 73, 78]
/-- `"RCTL"`. -/
def RSSP_MARK_RCTL : GoString := [82, 67, 84, 76]
/-- `"REXT"`. -/
def RSSP_MARK_REXT : GoString := [82, 69, 88, 84]
def RSSP_MARK_SIZE : Nat := 4
def RSSP_MAX_TEXT_SIZE : Nat := 1024
def RSSP_MAX_DATA_SIZE : Nat := 1024 * 1024
def RSSP_UDP_MTU_SIZE : Nat := 1500
def RSSP_UDP_MSG_SIZE : Nat := 1472

/-- `websocket.TextMessage`. -/
def TextMessage : Int := 1
/-- `websocket.BinaryMessage`. -/
def BinaryMessage : Int := 2

/-! ## api-pang-tcp.go: RSSP over TCP -/

/-- `TCPSendMessage(conn, timeover, prefix, data)`: the `message` it hands to `conn.Write`. -/
def TCPSendMessage (pfx : GoString) (data : List Byte) : Option (List Byte) := do
  let dataLength := data.length % 2 ^ 32
  let message := List.replicate (4 + 4 + data.length) (0 : Byte)
  let s1 ← slice message 0 4
  let message := putSlice message 0 (copy s1 pfx)
  let s2 ← slice message 4 8
  let s2 ← PutUint32 s2 dataLength
  let message := putSlice message 4 s2
  let s3 ← slice message 8 message.length
  let message := putSlice message 8 (copy s3 data)
  pure message

/-- The results of `TCPRecvMessage` (`prefix`, `data`, `err`) and the input it leaves. -/
structure TCPRecv where
  pfx : GoString
  data : List Byte
  err : Option Error
  rest : List Byte
deriving DecidableEq, Repr

/-- `TCPRecvMessage(conn, timeover)` on a connection whose remaining input is `conn`. -/
def TCPRecvMessage (conn : List Byte) : TCPRecv :=
  match ReadFull conn 4 with
  | (.error e, conn1) => { pfx := [], data := [], err := some e, rest := conn1 }
  | (.ok fourCC, conn1) =>
    match ReadFull conn1 4 with
    | (.error e, conn2) => { pfx := fourCC, data := [], err := some e, rest := conn2 }
    | (.ok lengthBytes, conn2) =>
      match Uint32 lengthBytes with
      | none => { pfx := fourCC, data := [], err := some .ErrUnexpectedEOF, rest := conn2 }
      | some dataLength =>
        match ReadFull conn2 dataLength with
        | (.error e, conn3) =>
          { pfx := fourCC,
            data := conn2.take dataLength ++ List.replicate (dataLength - conn2.length) 0,
            err := some e, rest := conn3 }
        | (.ok data, conn3) => { pfx := fourCC, data := data, err := none, rest := conn3 }

/-! ## api-pang-udp.go: RSSP over UDP -/

/-- The `for len(message) > RSSP_UDP_MSG_SIZE` loop of `UDPSendMessage`: the datagrams it
writes and the `message` left; each round shortens `message`, so `len(message)` rounds
are enough. -/
def UDPSendMessage.loop : Nat → List Byte → List (List Byte) × List Byte
  | 0, message => ([], message)
  | fuel + 1, message =>
    if message.length > RSSP_UDP_MSG_SIZE then
      let r := UDPSendMessage.loop fuel (message.drop RSSP_UDP_MSG_SIZE)
      (message.take RSSP_UDP_MSG_SIZE :: r.1, r.2)
    else ([], message)

/-- `UDPSendMessage(conn, addr, timeover, suffix, data)`: the datagrams it hands to
`conn.Write`, in order.  `dataLength` is a `uint32`, and so are `dataLength+4` and
`dataLength+8`. -/
def UDPSendMessage (suffix : GoString) (data : List Byte) : Option (List (List Byte)) := do
  let dataLength := data.length % 2 ^ 32
  let message := List.replicate (data.length + 4 + 4) (0 : Byte)
  let s1 ← slice message 0 dataLength
  let message := putSlice message 0 (copy s1 data)
  let s2 ← slice message dataLength ((dataLength + 4) % 2 ^ 32)
  let s2 ← PutUint32 s2 dataLength
  let message := putSlice message dataLength s2
  let s3 ← slice message ((dataLength + 4) % 2 ^ 32) ((dataLength + 8) % 2 ^ 32)
  let message := putSlice message ((dataLength + 4) % 2 ^ 32) (copy s3 suffix)
  let r := UDPSendMessage.loop message.length message
  if r.2.length > 0 then pure (r.1 ++ [r.2]) else pure r.1

/-- The results of `UDPRecvMessage` (`suffix`, `data`, `err`) and the datagrams it has
not read. -/
structure UDPRecv where
  suffix : GoString
  data : List Byte
  err : Option Error
  rest : List (List Byte)
deriving DecidableEq, Repr

/-- The `for` loop of `UDPRecvMessage` on the queue of datagrams that arrive before the
deadline: `data` so far, then the datagrams.  It gives the `suffix` and `data` at the
`break` and the datagrams left, or the read error. -/
def UDPRecvMessage.loop (data : List Byte) :
    List (List Byte) → Except Error (GoString × List Byte × List (List Byte))
  | [] => .error .timeout
  | dgram :: conn =>
    let data1 := data ++ dgram.take RSSP_MAX_DATA_SIZE
    if data1.length > 8 then
      let suffix := data1.drop (data1.length - RSSP_MARK_SIZE)
      if suffix = RSSP_MARK_RBIN ∨ suffix = RSSP_MARK_RTXT then .ok (suffix, data1, conn)
      else UDPRecvMessage.loop data1 conn
    else UDPRecvMessage.loop data1 conn

/-- `UDPRecvMessage(conn, timeover)`. -/
def UDPRecvMessage (conn : List (List Byte)) : Option UDPRecv :=
  match UDPRecvMessage.loop [] conn with
  | .error e => some { suffix := [], data := [], err := some e, rest := [] }
  | .ok (suffix, data, conn1) => do
    let lengthBytes ← slice data (data.length - 8) (data.length - 4)
    let _dataLength ← Uint32 lengthBytes
    let data1 ← slice data 0 (data.length - 8)
    pure { suffix := suffix, data := data1, err := none, rest := conn1 }

/-! ## Strings, maps and time of the Go runtime -/

/-- A Go string literal of ASCII characters. -/
def go (s : String) : GoString := s.toList.map (fun c => UInt8.ofNat c.toNat)

/-- Whether `s` begins with `t` (`strings.HasPrefix` of the Go standard library). -/
def startsWith : GoString → GoString → Bool
  | _, [] => true
  | [], _ :: _ => false
  | a :: s, b :: t => a == b && startsWith s t

/-- `strings.Contains(s, substr)` of the Go standard library. -/
def Contains : GoString → GoString → Bool
  | [], substr => substr.isEmpty
  | a :: s, substr => startsWith (a :: s) substr || Contains s substr

/-- A Go `map[string]*T`: its entries, in the order in which this `range` goes through
them.  Go fixes no order, and no theorem below depends on one. -/
abbrev GoMap (α : Type) := List (GoString × α)

/-- The order in which one `range` loop meets the entries of a map.  Go leaves it
unspecified and it can differ from one loop to the next: a `RangeOrder` gives, for the
entries stored, the sequence in which a loop meets them. -/
abbrev RangeOrder (α : Type) := GoMap α → GoMap α

/-- A range order only rearranges the entries: the loop meets each of them once. -/
def RangeOrder.Valid {α : Type} (order : RangeOrder α) : Prop := ∀ m, (order m).Perm m

namespace GoMap

/-- `m[k]`, a nil pointer being `none`. -/
def lookup {α : Type} : GoMap α → GoString → Option α
  | [], _ => none
  | (k1, v) :: m, k => if k1 = k then some v else lookup m k

/-- `delete(m, k)`. -/
def remove {α : Type} (m : GoMap α) (k : GoString) : GoMap α :=
  m.filter (fun e => e.1 ≠ k)

/-- `m[k] = v`. -/
def store {α : Type} (m : GoMap α) (k : GoString) (v : α) : GoMap α :=
  remove m k ++ [(k, v)]

/-- A write through the pointer that `m` holds under `k`. -/
def update {α : Type} (m : GoMap α) (k : GoString) (f : α → α) : GoMap α :=
  m.map (fun e => if e.1 = k then (e.1, f e.2) else e)

end GoMap

/-- `time.Time`, in nanoseconds since the zero time `time.Time{}`. -/
abbrev Time := Nat

/-- `time.Duration`, in nanoseconds. -/
abbrev Duration := Int

def Nanosecond : Duration := 1
def Microsecond : Duration := 1000 * Nanosecond
def Millisecond : Duration := 1000 * Microsecond
def Second : Duration := 1000 * Millisecond
def Hour : Duration := 3600 * Second

/-- `t.Add(d)`. -/
def Time.Add (t : Time) (d : Duration) : Time := ((t : Int) + d).toNat

/-- `t.After(u)`. -/
def Time.After (t u : Time) : Bool := decide (u < t)

/-! ## data-base.go, data-buffer.go: session, channel, source and track

A struct field that the model has is named as in the source and starts from the Go zero
value.  The pointers `chn` and `trk` of a session are followed: in the buffer loops the
session carries the channel and the track it points to; in the studio maps a session
points by `ChannelID`, `SourceID` and `TrackID`, and the channel is the map entry. -/

/-- `type State int`. -/
abbrev State := Int
def Idle : State := 0
def Using : State := 1

def WAIT_BASE_SECONDS : Int := 30
def WAIT_MAX_SECONDS : Int := 3600
def TIME_WAIT_BASE_SECONDS : Duration := WAIT_BASE_SECONDS * Second
def TIME_WAIT_MAX_SECONDS : Duration := WAIT_MAX_SECONDS * Second

/-- `State.String()`. -/
def State.String (s : State) : GoString := if s = Idle then go "idle" else go "using"

/-- The `Track` struct (data-buffer.go).  `Cards` is a Go map: `none` is the nil map, the
zero value, which can be read and cannot be written. -/
structure Track where
  ID : GoString := []
  Label : GoString := []
  Mime : GoString := []
  Mode : GoString := []
  Style : GoString := []
  Num : Int := 0
  Rings : List Buffer := []
  Cards : Option (GoMap GoString) := none
  InBytes : Int := 0
  OutBytes : Int := 0
deriving DecidableEq, Repr

/-- The `Source` struct (data-buffer.go). -/
structure Source where
  ID : GoString := []
  Label : GoString := []
  Num : Int := 0
  Tracks : GoMap Track := []
deriving DecidableEq, Repr

/-- The `Channel` struct with its embedded `Common` and `Metric` (without `Type`, which
no function below reads).  `Publishers` and `Subscribers` hold their sessions by id. -/
structure Channel where
  ID : GoString := []
  Name : GoString := []
  Style : GoString := []
  State : Moth.State := 0
  Blocked : Bool := false
  AtCreated : Time := 0
  AtUpdated : Time := 0
  AtExpired : Time := 0
  AtUsed : Time := 0
  InBytes : Int := 0
  OutBytes : Int := 0
  StreamKey : GoString := []
  Sources : GoMap Source := []
  Publishers : GoMap Unit := []
  Subscribers : GoMap Unit := []
  EventState : Moth.State := 0
  RecordAuto : Bool := false
  TransAuto : Bool := false
deriving DecidableEq, Repr

/-- The `Session` struct with its embedded `Common` and `Metric`. -/
structure Session where
  ID : GoString := []
  Name : GoString := []
  State : Moth.State := 0
  AtCreated : Time := 0
  AtUsed : Time := 0
  InBytes : Int := 0
  OutBytes : Int := 0
  BridgeID : GoString := []
  ChannelID : GoString := []
  SourceID : GoString := []
  TrackID : GoString := []
  RequestID : GoString := []
  TimeOver : Duration := 0
  TimeUnit : Duration := 0
  chn : Channel := {}
  trk : Track := {}
deriving DecidableEq, Repr

/-- `isState(state)`. -/
def Session.isState (d : Session) (state : Moth.State) : Bool := d.State == state

/-- `setState(state)`. -/
def Session.setState (d : Session) (state : Moth.State) : Session := { d with State := state }

/-- `isState(state)` on the channel. -/
def Channel.isState (d : Channel) (state : Moth.State) : Bool := d.State == state

/-- `getLengthTime()`, `now` being what `time.Now()` returns. -/
def Slot.getLengthTime (d : Slot) (now : Nat) : Slot :=
  { d with Length := d.Data.length, Time := now }

/-- How one pass through a loop body ends. -/
inductive Outcome (σ : Type) where
  | next (st : σ)
  | done (st : σ) (err : Option Error)
  | panic
deriving DecidableEq, Repr

/-! ## Publisher receive loop over TCP -/

/-- What `recvTrackBufferInTCPMessage` works on: the ring, the session, the input that is
still to come on the connection, the clock. -/
structure RecvState where
  b : Buffer
  s : Session
  conn : List Byte
  clock : Nat
deriving DecidableEq, Repr

/-- One pass of the `for` loop of `recvTrackBufferInTCPMessage(conn, s, flock)`; the
function returns through the deferred `s.setState(Idle)`. -/
def recvTrackBufferInTCPMessage.iter (flock : Bool) (st : RecvState) : Outcome RecvState :=
  if st.s.isState Using && st.s.chn.isState Using then
    let bs : Slot := { Slot.zero with Head := some st.s.ID, FrameType := BinaryMessage,
                                      Mark := RSSP_MARK_RBIN }
    let r := TCPRecvMessage st.conn
    let bs := { bs with Mark := r.pfx, Data := r.data }
    match r.err with
    | some e => .done { st with conn := r.rest, s := st.s.setState Idle } (some e)
    | none =>
      let bs1 := if bs.Mark = RSSP_MARK_RTXT then { bs with FrameType := TextMessage } else bs
      let s1 := if bs.Mark = RSSP_MARK_RTXT then
          { st.s with trk := { st.s.trk with Mime := bs.Data } } else st.s
      let bs2 := bs1.getLengthTime st.clock
      match st.b.writeSlot bs2 flock with
      | none => .panic
      | some b1 =>
        .next { b := b1, conn := r.rest, clock := st.clock + 1,
                s := { s1 with InBytes := s1.InBytes + bs2.Length,
                               trk := { s1.trk with InBytes := s1.trk.InBytes + bs2.Length },
                               chn := { s1.chn with InBytes := s1.chn.InBytes + bs2.Length } } }
  else .done { st with s := st.s.setState Idle } none

/-- The loop of `recvTrackBufferInTCPMessage`, at most `fuel` passes; a pass that goes on
has taken at least 8 bytes from the connection, so `len(conn) + 1` passes end it. -/
def recvTrackBufferInTCPMessage.loop (flock : Bool) : Nat → RecvState → Outcome RecvState
  | 0, st => .next st
  | fuel + 1, st =>
    match recvTrackBufferInTCPMessage.iter flock st with
    | .next st1 => recvTrackBufferInTCPMessage.loop flock fuel st1
    | r => r

/-- `recvTrackBufferInTCPMessage(conn, s, flock)`. -/
def recvTrackBufferInTCPMessage (flock : Bool) (st : RecvState) : Outcome RecvState :=
  recvTrackBufferInTCPMessage.loop flock (st.conn.length + 1) st

/-! ## Subscriber send loops -/

/-- A write on the transport of a subscriber. -/
inductive Wire where
  | ws (messageType : Int) (data : List Byte)
  | tcp (message : List Byte)
  | udp (datagram : List Byte)
deriving DecidableEq, Repr

/-- A transport write with the slot it was made from (`none`: the mime message that the
loop sends ahead of the slots). -/
structure Emit where
  src : Option Slot
  wire : Wire
deriving DecidableEq, Repr

/-- What a send loop works on: the session, the cursor `lpos`, the transport writes made
so far (oldest first). -/
structure SendState where
  s : Session
  lpos : Int
  out : List Emit
deriving DecidableEq, Repr

/-- What one pass of a send loop finds around it: the ring as the publishers have left it,
the session and channel states as other goroutines have left them, whether
`time.Now().After(etime)`, whether the transport write succeeds. -/
structure SendEnv where
  b : Buffer
  sState : State
  cState : State
  after : Bool
  wok : Bool
deriving DecidableEq, Repr

/-- The session with the states the environment has set. -/
def SendEnv.session (e : SendEnv) (s : Session) : Session :=
  { s with State := e.sState, chn := { s.chn with State := e.cState } }

/-- The three `OutBytes` counters after `bs` has been sent. -/
def Session.addOutBytes (s : Session) (bs : Slot) : Session :=
  { s with OutBytes := s.OutBytes + bs.Length,
           trk := { s.trk with OutBytes := s.trk.OutBytes + bs.Length },
           chn := { s.chn with OutBytes := s.chn.OutBytes + bs.Length } }

/-- One pass of the `for` loop of `sendTrackBufferInWSMessage(ws, s, fout)`. -/
def sendTrackBufferInWSMessage.iter (fout : Bool) (e : SendEnv) (st : SendState) :
    Outcome SendState :=
  let s := e.session st.s
  if s.isState Using && s.chn.isState Using then
    if st.lpos = e.b.PosWrite then
      if e.after && fout then .done { st with s := s.setState Idle } none
      else .next { st with s := s }
    else
      match e.b.readSlotByPos st.lpos with
      | none => .panic
      | some (bs, b1) =>
        match bs.Head with
        | none => .panic
        | some head =>
          if head ≠ s.ID then
            if e.wok then
              match b1.setReadPos st.lpos with
              | none => .panic
              | some (rpos, _) =>
                .next { s := s.addOutBytes bs, lpos := rpos,
                        out := st.out ++ [{ src := some bs, wire := .ws bs.FrameType bs.Data }] }
            else .done { st with s := s.setState Idle } (some .write)
          else
            match b1.setReadPos st.lpos with
            | none => .panic
            | some (rpos, _) => .next { st with s := s, lpos := rpos }
  else .done { st with s := s.setState Idle } none

/-- One pass of the `for` loop of `sendTrackBufferInTCPMessage(conn, s, fout)`. -/
def sendTrackBufferInTCPMessage.iter (fout : Bool) (e : SendEnv) (st : SendState) :
    Outcome SendState :=
  let s := e.session st.s
  if s.isState Using && s.chn.isState Using then
    if st.lpos = e.b.PosWrite then
      if e.after && fout then .done { st with s := s.setState Idle } none
      else .next { st with s := s }
    else
      match e.b.readSlotByPos st.lpos with
      | none => .panic
      | some (bs, b1) =>
        match bs.Head with
        | none => .panic
        | some head =>
          if head ≠ s.ID then
            match TCPSendMessage bs.Mark bs.Data with
            | none => .panic
            | some message =>
              if e.wok then
                match b1.setReadPos st.lpos with
                | none => .panic
                | some (rpos, _) =>
                  .next { s := s.addOutBytes bs, lpos := rpos,
                          out := st.out ++ [{ src := some bs, wire := .tcp message }] }
              else .done { st with s := s.setState Idle } (some .write)
          else
            match b1.setReadPos st.lpos with
            | none => .panic
            | some (rpos, _) => .next { st with s := s, lpos := rpos }
  else .done { st with s := s.setState Idle } none

/-- One pass of the `for` loop of `sendTrackBufferInUDPMessage(udp, s, fout)`.  A failed
write leaves the loop by `break`, and the `err` it set is local to the `if`: the function
returns nil.  The cursor moves by `(lpos + 1) % b.SizeLen`, without `setReadPos`. -/
def sendTrackBufferInUDPMessage.iter (fout : Bool) (e : SendEnv) (st : SendState) :
    Outcome SendState :=
  let s := e.session st.s
  if s.isState Using && s.chn.isState Using then
    if st.lpos = e.b.PosWrite then
      if e.after && fout then .done { st with s := s } none
      else .next { st with s := s }
    else
      match e.b.readSlotByPos st.lpos with
      | none => .panic
      | some (bs, b1) =>
        match bs.Head with
        | none => .panic
        | some head =>
          if head ≠ s.ID then
            if e.wok then
              if b1.SizeLen = 0 then .panic
              else
                .next { s := s.addOutBytes bs, lpos := Int.tmod (st.lpos + 1) b1.SizeLen,
                        out := st.out ++ [{ src := some bs, wire := .udp bs.Data }] }
            else .done { st with s := s } none
          else
            if b1.SizeLen = 0 then .panic
            else .next { st with s := s, lpos := Int.tmod (st.lpos + 1) b1.SizeLen }
  else .done { st with s := s } none

/-- A send loop run against the passes that the environment allows; when they are used up
the loop is still running. -/
def sendLoop (iter : SendEnv → SendState → Outcome SendState) :
    List SendEnv → SendState → Outcome SendState
  | [], st => .next st
  | e :: es, st =>
    match iter e st with
    | .next st1 => sendLoop iter es st1
    | r => r

/-- `sendTrackBufferInWSMessage(ws, s, fout)`: the mime message, `lpos := b.PosWrite`, the
loop.  `e0` is what the function finds when it starts. -/
def sendTrackBufferInWSMessage (fout : Bool) (e0 : SendEnv) (es : List SendEnv) (s0 : Session) :
    Outcome SendState :=
  let s := e0.session s0
  if s.chn.isState Using && s.trk.Mime ≠ [] then
    if e0.wok then
      sendLoop (sendTrackBufferInWSMessage.iter fout) es
        { s := s, lpos := e0.b.PosWrite,
          out := [{ src := none, wire := .ws TextMessage s.trk.Mime }] }
    else .done { s := s.setState Idle, lpos := 0, out := [] } (some .write)
  else
    sendLoop (sendTrackBufferInWSMessage.iter fout) es { s := s, lpos := e0.b.PosWrite, out := [] }

/-- `sendTrackBufferInTCPMessage(conn, s, fout)`. -/
def sendTrackBufferInTCPMessage (fout : Bool) (e0 : SendEnv) (es : List SendEnv) (s0 : Session) :
    Outcome SendState :=
  let s := e0.session s0
  if s.chn.isState Using && s.trk.Mime ≠ [] then
    match TCPSendMessage RSSP_MARK_RTXT s.trk.Mime with
    | none => .panic
    | some message =>
      if e0.wok then
        sendLoop (sendTrackBufferInTCPMessage.iter fout) es
          { s := s, lpos := e0.b.PosWrite, out := [{ src := none, wire := .tcp message }] }
      else .done { s := s.setState Idle, lpos := 0, out := [] } (some .write)
  else
    sendLoop (sendTrackBufferInTCPMessage.iter fout) es { s := s, lpos := e0.b.PosWrite, out := [] }

/-- `sendTrackBufferInUDPMessage(udp, s, fout)`. -/
def sendTrackBufferInUDPMessage (fout : Bool) (e0 : SendEnv) (es : List SendEnv) (s0 : Session) :
    Outcome SendState :=
  sendLoop (sendTrackBufferInUDPMessage.iter fout) es
    { s := e0.session s0, lpos := e0.b.PosWrite, out := [] }

/-- The state an outcome carries, if any. -/
def Outcome.state? {σ : Type} : Outcome σ → Option σ
  | .next st => some st
  | .done st _ => some st
  | .panic => none

/-! ## One writer and one reader on a ring: interleavings -/

/-- A step of the interleaving: a publisher's `writeSlot(bs, flock)`, or the moment the
subscriber loop gets to run one pass. -/
inductive RingStep where
  | write (bs : Slot) (flock : Bool)
  | read
deriving DecidableEq, Repr

/-- The ring, the reader's cursor, and the histories: slots written and slots read,
oldest first. -/
structure RingRun where
  b : Buffer
  lpos : Int
  written : List Slot
  seen : List Slot
deriving DecidableEq, Repr

/-- One step.  The reader's pass is the one of the send loops: nothing when
`lpos == b.PosWrite`, otherwise `bs := b.readSlotByPos(lpos)` and then
`lpos = b.setReadPos(lpos)`. -/
def RingRun.step (r : RingRun) : RingStep → Option RingRun
  | .write bs flock =>
    match r.b.writeSlot bs flock with
    | none => none
    | some b1 => some { r with b := b1, written := r.written ++ [bs] }
  | .read =>
    if r.lpos = r.b.PosWrite then some r
    else
      match r.b.readSlotByPos r.lpos with
      | none => none
      | some (bs, b1) =>
        match b1.setReadPos r.lpos with
        | none => none
        | some (rpos, b2) => some { r with b := b2, lpos := rpos, seen := r.seen ++ [bs] }

/-- A sequence of steps. -/
def RingRun.run (r : RingRun) : List RingStep → Option RingRun
  | [] => some r
  | x :: xs =>
    match r.step x with
    | none => none
    | some r1 => r1.run xs

/-! ### Rings used for evaluation -/

/-- A ring as `NewBuffer("fore", 30, 20)` makes it, with the write position moved to `pw`. -/
def ringAt (pw : Int) : Buffer :=
  { ID := [], Label := [102, 111, 114, 101], Mime := [], PosRead := 0, PosWrite := pw,
    SizeLen := 20, SizeCap := 30, Slots := List.replicate 30 Slot.zero, locked := false }

/-- A ring of 20 active slots whose write position is `2^63 - 2`, an `int` one below the
largest. -/
def ringTop : Buffer := { ringAt 0 with PosWrite := 2 ^ 63 - 2 }

/-- A one-byte binary slot written by session `"a"`. -/
def slotA : Slot :=
  { FrameType := 2, Head := some [97], To := [], Mime := [], Time := 0, Length := 1,
    Mark := [82, 66, 73, 78], Data := [7] }

/-- A session `"a"` in state `Using` on a channel in state `Using`. -/
def sessA : Session :=
  { ID := [97], Name := [], State := Using, InBytes := 0, OutBytes := 0,
    chn := { State := Using, InBytes := 0, OutBytes := 0 },
    trk := { Label := [], Mime := [], InBytes := 0, OutBytes := 0 } }

/-- The publisher `sessA` in front of the ring `ringAt 0`, with `conn` still to come. -/
def recvAt (conn : List Byte) : RecvState :=
  { b := ringAt 0, s := sessA, conn := conn, clock := 0 }

/-- The slot that the receive loop of `sessA` makes of the frame `XXXX`, length 1, byte 7. -/
def slotX : Slot :=
  { FrameType := 2, Head := some [97], To := [], Mime := [], Time := 0, Length := 1,
    Mark := [88, 88, 88, 88], Data := [7] }

/-- What a pass of the subscriber `sessA` finds: write position 1, its own `slotA` in
slot 0, session and channel in use, the transport ready. -/
def envA : SendEnv :=
  { b := { ringAt 1 with Slots := slotA :: List.replicate 29 Slot.zero },
    sState := Using, cState := Using, after := false, wok := true }

/-- The send loop of `sessA` with its cursor on slot 0 and nothing sent yet. -/
def stA : SendState := { s := sessA, lpos := 0, out := [] }

/-- The invariant of an interleaving on a ring of active length `L` whose first write goes
to position `p0`.  With `n` slots written so far: the write position is `(p0 + n) mod L`;
the cursor is `(p0 + m) mod L` for some `m ≤ n` such that the slots seen are a subsequence
of the first `m` slots written; and each of the last `L` slots written is in the ring at
its position. -/
def RingInv (L p0 : Nat) (r : RingRun) : Prop :=
  r.b.SizeLen = L ∧ r.b.locked = false ∧ L ≤ r.b.Slots.length ∧
  r.b.PosWrite = ((p0 + r.written.length) % L : Nat) ∧
  (∃ m, m ≤ r.written.length ∧ r.lpos = ((p0 + m) % L : Nat) ∧
    r.seen.Sublist (r.written.take m)) ∧
  ∀ k, k < r.written.length → r.written.length ≤ k + L →
    r.b.Slots[(p0 + k) % L]? = r.written[k]?

/-- The slots that the write steps of an interleaving write, in order. -/
def RingStep.writes : List RingStep → List Slot
  | [] => []
  | .write bs _ :: xs => bs :: RingStep.writes xs
  | .read :: xs => RingStep.writes xs

/-! ## Session timeout, track buffer size -/

/-- `setTimeoutInUnit(tout, tunit)`. -/
def Session.setTimeoutInUnit (d : Session) (tout : Int) (tunit : GoString) : Session :=
  let d1 : Session :=
    if tunit = go "zero" then { d with TimeUnit := 0 }
    else if tunit = go "nano" then { d with TimeUnit := Nanosecond }
    else if tunit = go "micro" then { d with TimeUnit := Microsecond }
    else if tunit = go "milli" then { d with TimeUnit := Millisecond }
    else if tunit = go "sec" then { d with TimeUnit := Second }
    else { d with TimeUnit := Millisecond }
  if tout > 0 ∧ tout < WAIT_MAX_SECONDS then { d1 with TimeOver := tout * Second }
  else { d1 with TimeOver := TIME_WAIT_BASE_SECONDS }

/-- `NewTrackDualBuffers(tlabel, n, m)`; the three ids are what `GetXidString()` returns
for the track and its two rings. -/
def NewTrackDualBuffers (tid foreID backID tlabel : GoString) (n m : Int) : Option Track :=
  match NewBuffer foreID (go "fore") n m, NewBuffer backID (go "back") n m with
  | some fore, some back => some { ID := tid, Label := tlabel, Num := 2, Rings := [fore, back] }
  | _, _ => none

/-- `setTrackBufferSize(blen)`. -/
def Track.setTrackBufferSize (d : Track) (blen : Int) : Track :=
  if blen < BUFFER_MIN_SLOTS ∨ blen > BUFFER_MAX_SLOTS then d
  else { d with Rings := d.Rings.map (fun r => r.setBufferSizeLen blen) }

/-- `resetTrackInfo()` of the track. -/
def Track.resetTrackInfo (d : Track) : Track :=
  { d with Mode := [], Label := [], Mime := [] }

/-- A call that changes a ring: `writeSlot(b, flock)` or `setBufferSizeLen(sz)` on the
ring, or `setTrackBufferSize(blen)` on the track that holds it. -/
inductive RingOp where
  | writeSlot (b : Slot) (flock : Bool)
  | setBufferSizeLen (sz : Int)
  | setTrackBufferSize (blen : Int)
deriving DecidableEq, Repr

/-- The ring after one call; `setTrackBufferSize` reaches the ring as a ring of its track. -/
def RingOp.apply (d : Buffer) : RingOp → Option Buffer
  | .writeSlot b flock => d.writeSlot b flock
  | .setBufferSizeLen sz => some (d.setBufferSizeLen sz)
  | .setTrackBufferSize blen =>
    (({ Rings := [d] } : Track).setTrackBufferSize blen).Rings.head?

/-- The ring after a sequence of calls. -/
def RingOp.run (d : Buffer) : List RingOp → Option Buffer
  | [] => some d
  | op :: ops =>
    match op.apply d with
    | none => none
    | some d1 => RingOp.run d1 ops

/-! ## data-mesh.go, data-base.go: group, bridge, worker and punch -/

/-- The `Group` struct with its embedded `Common`; its two maps hold their members by id. -/
structure Group where
  ID : GoString := []
  Name : GoString := []
  State : Moth.State := 0
  AtCreated : Time := 0
  AtUsed : Time := 0
  Channels : GoMap Unit := []
  Sessions : GoMap Unit := []
deriving DecidableEq, Repr

/-- The `Spot` struct: one end of a bridge. -/
structure Spot where
  Proto : GoString := []
  Addr : GoString := []
  API : GoString := []
  ChannelID : GoString := []
  SourceLabel : GoString := []
  TrackLabel : GoString := []
deriving DecidableEq, Repr

/-- The `Bridge` struct with its embedded `Common` and `Metric`. -/
structure Bridge where
  ID : GoString := []
  Name : GoString := []
  State : Moth.State := 0
  Blocked : Bool := false
  AtCreated : Time := 0
  AtUsed : Time := 0
  InBytes : Int := 0
  OutBytes : Int := 0
  RequestID : GoString := []
  Timeout : Int := 0
  From : Spot := {}
  To : Spot := {}
  Attr : GoString := []
  Direction : GoString := []
  TransCodec : GoString := []
deriving DecidableEq, Repr

/-- The `Worker` struct with its embedded `Common`. -/
structure Worker where
  ID : GoString := []
  Name : GoString := []
  State : Moth.State := 0
  AtCreated : Time := 0
  AtUsed : Time := 0
  SessionID : GoString := []
  ChannelID : GoString := []
  GroupID : GoString := []
  Proto : GoString := []
  Addr : GoString := []
  Style : GoString := []
deriving DecidableEq, Repr

/-- The `Punch` struct with its embedded `Common`. -/
structure Punch where
  ID : GoString := []
  Name : GoString := []
  State : Moth.State := 0
  AtCreated : Time := 0
  AtExpired : Time := 0
  AtUsed : Time := 0
  SessionID : GoString := []
  ChannelID : GoString := []
  SourceID : GoString := []
  TrackID : GoString := []
  ResourceID : GoString := []
  Role : GoString := []
  Addr : GoString := []
deriving DecidableEq, Repr

/-! ## data-studio.go: the studio and its maps -/

/-- The `Studio` struct: the six maps of entities, each keyed by id. -/
structure Studio where
  Sessions : GoMap Session := []
  Channels : GoMap Channel := []
  Groups : GoMap Group := []
  Punches : GoMap Punch := []
  Bridges : GoMap Bridge := []
  Workers : GoMap Worker := []
deriving DecidableEq, Repr

/-- `len(m)`: the number of keys. -/
def GoMap.len {α : Type} (m : GoMap α) : Int := ((m.map Prod.fst).dedup.length : Nat)

/-- `deleteTrackByLabel(tlabel)`. -/
def Source.deleteTrackByLabel (d : Source) (tlabel : GoString) : Source :=
  let tracks := d.Tracks.remove tlabel
  { d with Tracks := tracks, Num := GoMap.len tracks }

/-- `deleteSourceByLabel(slabel)`. -/
def Channel.deleteSourceByLabel (d : Channel) (slabel : GoString) : Channel :=
  { d with Sources := d.Sources.remove slabel }

/-- The inner loop of `purgeAllSourceTracks` on the source `s`: for each track met,
`s.deleteTrackByLabel(t.Label)`.  A key deleted before the loop reaches it is not met. -/
def Source.purgeTracks (s : Source) : Source :=
  s.Tracks.foldl
    (fun s1 e =>
      match s1.Tracks.lookup e.1 with
      | none => s1
      | some t => s1.deleteTrackByLabel t.Label)
    s

/-- One pass of a `range` loop over a map whose body may delete from the map: the entry
`e` of the order is met unless its key has been deleted, and its value is the one the map
holds now. -/
def GoMap.rangeStep {α : Type} (act : GoMap α → GoString → α → GoMap α) (m : GoMap α)
    (e : GoString × α) : GoMap α :=
  match m.lookup e.1 with
  | none => m
  | some v => act m e.1 v

/-- A `range` loop over the map `m` whose body `act` works on the map itself. -/
def GoMap.range {α : Type} (act : GoMap α → GoString → α → GoMap α) (m : GoMap α) : GoMap α :=
  m.foldl (GoMap.rangeStep act) m

/-- `purgeAllSourceTracks()`: on an `Idle` channel, for each source met its tracks are
deleted by label through the pointer and then `deleteSourceByLabel(s.Label)`. -/
def Channel.purgeAllSourceTracks (d : Channel) : Channel :=
  if !d.isState Idle then d
  else
    { d with
      Sources := GoMap.range
        (fun m k s => (m.update k (fun _ => s.purgeTracks)).remove s.purgeTracks.Label)
        d.Sources }

/-- `resetAllSourceTracks()`: on an `Idle` channel every track gets style `mono` and an
empty mime. -/
def Channel.resetAllSourceTracks (d : Channel) : Channel :=
  if !d.isState Idle then d
  else
    { d with
      Sources := d.Sources.map (fun e =>
        (e.1, { e.2 with
          Tracks := e.2.Tracks.map (fun t => (t.1, { t.2 with Style := go "mono", Mime := [] })) })) }

/-- `close()` of the channel (the event channel it also closes is not modelled). -/
def Channel.close (d : Channel) : Channel := d.purgeAllSourceTracks

/-- `reset()` of the channel. -/
def Channel.reset (d : Channel) : Channel := d.resetAllSourceTracks

/-- `isValidStreamKey(key)`. -/
def Channel.isValidStreamKey (d : Channel) (key : GoString) : Bool :=
  d.StreamKey == [] || d.StreamKey == key

/-- `isEventState(state)`. -/
def Channel.isEventState (d : Channel) (state : Moth.State) : Bool := d.EventState == state

namespace Studio

/-- `findSessionByID(pid)`. -/
def findSessionByID (d : Studio) (pid : GoString) : Option Session := d.Sessions.lookup pid

/-- `addSession(p)`; the second component is the pointer it returns. -/
def addSession (d : Studio) (p : Session) : Studio × Option Session :=
  let d1 := { d with Sessions := d.Sessions.store p.ID p }
  (d1, d1.Sessions.lookup p.ID)

/-- `deleteSession(p)`. -/
def deleteSession (d : Studio) (p : Session) : Studio :=
  { d with Sessions := d.Sessions.remove p.ID }

/-- `findChannelByID(pid)`. -/
def findChannelByID (d : Studio) (pid : GoString) : Option Channel := d.Channels.lookup pid

/-- `addChannel(p)`. -/
def addChannel (d : Studio) (p : Channel) : Studio × Option Channel :=
  let d1 := { d with Channels := d.Channels.store p.ID p }
  (d1, d1.Channels.lookup p.ID)

/-- `deleteChannel(p)`: `p.close()` and then the delete; the second component is `p`
after `close`. -/
def deleteChannel (d : Studio) (p : Channel) : Studio × Channel :=
  let p1 := p.close
  ({ d with Channels := d.Channels.remove p1.ID }, p1)

/-- `findGroupByID(pid)`. -/
def findGroupByID (d : Studio) (pid : GoString) : Option Group := d.Groups.lookup pid

/-- `addGroup(p)`. -/
def addGroup (d : Studio) (p : Group) : Studio × Option Group :=
  let d1 := { d with Groups := d.Groups.store p.ID p }
  (d1, d1.Groups.lookup p.ID)

/-- `deleteGroup(p)`. -/
def deleteGroup (d : Studio) (p : Group) : Studio :=
  { d with Groups := d.Groups.remove p.ID }

/-- `findBridgeByID(pid)`. -/
def findBridgeByID (d : Studio) (pid : GoString) : Option Bridge := d.Bridges.lookup pid

/-- `addBridge(p)`. -/
def addBridge (d : Studio) (p : Bridge) : Studio × Option Bridge :=
  let d1 := { d with Bridges := d.Bridges.store p.ID p }
  (d1, d1.Bridges.lookup p.ID)

/-- `deleteBridge(p)`. -/
def deleteBridge (d : Studio) (p : Bridge) : Studio :=
  { d with Bridges := d.Bridges.remove p.ID }

/-- `findWorkerByID(pid)`. -/
def findWorkerByID (d : Studio) (pid : GoString) : Option Worker := d.Workers.lookup pid

/-- `addWorker(p)`. -/
def addWorker (d : Studio) (p : Worker) : Studio × Option Worker :=
  let d1 := { d with Workers := d.Workers.store p.ID p }
  (d1, d1.Workers.lookup p.ID)

/-- `deleteWorker(p)`. -/
def deleteWorker (d : Studio) (p : Worker) : Studio :=
  { d with Workers := d.Workers.remove p.ID }

/-- `findPunchByID(pid)`. -/
def findPunchByID (d : Studio) (pid : GoString) : Option Punch := d.Punches.lookup pid

/-- `addPunch(p)`. -/
def addPunch (d : Studio) (p : Punch) : Studio × Option Punch :=
  let d1 := { d with Punches := d.Punches.store p.ID p }
  (d1, d1.Punches.lookup p.ID)

/-- `deletePunch(p)`. -/
def deletePunch (d : Studio) (p : Punch) : Studio :=
  { d with Punches := d.Punches.remove p.ID }

end Studio

/-! ## query-option.go -/

/-- The `URL` part of `QueryOption`. -/
structure QueryURL where
  Scheme : GoString := []
  Path : GoString := []
  Addr : GoString := []
deriving DecidableEq, Repr

/-- The `Session` part of `QueryOption`. -/
structure QuerySession where
  ID : GoString := []
  Name : GoString := []
  Unit : GoString := []
  Timeout : Int := 0
  Wait : GoString := []
  Style : GoString := []
  ReqID : GoString := []
deriving DecidableEq, Repr

/-- The `Channel` part of `QueryOption`. -/
structure QueryChannel where
  ID : GoString := []
  Name : GoString := []
  Style : GoString := []
  Key : GoString := []
  Code : GoString := []
  Record : GoString := []
  Trans : GoString := []
  Period : GoString := []
deriving DecidableEq, Repr

/-- The `Source` part of `QueryOption`. -/
structure QuerySource where
  Label : GoString := []
deriving DecidableEq, Repr

/-- The `Track` part of `QueryOption`. -/
structure QueryTrack where
  Label : GoString := []
  Mode : GoString := []
  Style : GoString := []
  Filter : GoString := []
  Codec : GoString := []
  Proc : GoString := []
  Bitrate : GoString := []
  Parallel : Int := 0
deriving DecidableEq, Repr

/-- The `Buffer` part of `QueryOption`. -/
structure QueryBuffer where
  Label : GoString := []
  Total : Int := 0
  Order : Int := 0
  Cap : Int := 0
  Len : Int := 0
deriving DecidableEq, Repr

/-- The `Addr` struct. -/
structure Addr where
  Network : GoString := []
  Host : GoString := []
  Port : GoString := []
  Mime : GoString := []
deriving DecidableEq, Repr

/-- The `Stream` part of `QueryOption`. -/
structure QueryStream where
  Addr : Moth.Addr := {}
  Mime : GoString := []
  Role : GoString := []
deriving DecidableEq, Repr

/-- The `QueryOption` struct. -/
structure QueryOption where
  URL : QueryURL := {}
  Stream : QueryStream := {}
  Format : GoString := []
  Session : QuerySession := {}
  Channel : QueryChannel := {}
  Source : QuerySource := {}
  Track : QueryTrack := {}
  Buffer : QueryBuffer := {}
deriving DecidableEq, Repr

/-! ## data-studio.go, data-media.go: sessions and channels of the studio -/

namespace Studio

/-- `countSessionsByState(state)`. -/
def countSessionsByState (d : Studio) (state : GoString) : Int :=
  if state = [] then GoMap.len d.Sessions
  else ((d.Sessions.countP (fun e => e.2.State.String == state) : Nat) : Int)

/-- `countSessionsByChannelID(cid)`. -/
def countSessionsByChannelID (d : Studio) (cid : GoString) : Int :=
  ((d.Sessions.countP (fun e => e.2.ChannelID == cid) : Nat) : Int)

/-- `countChannelsByState(state)`. -/
def countChannelsByState (d : Studio) (state : GoString) : Int :=
  if state = [] then GoMap.len d.Channels
  else ((d.Channels.countP (fun e => e.2.State.String == state) : Nat) : Int)

/-- `findPublisherByResource(cid, source, track)`: the first session met on the resource
whose name contains `/pub`, `/seb` or `/meb`. -/
def findPublisherByResource (d : Studio) (cid source track : GoString) : Option Session :=
  (d.Sessions.find? (fun e =>
    (e.2.ChannelID == cid && e.2.SourceID == source && e.2.TrackID == track) &&
    (Contains e.2.Name (go "/pub") || Contains e.2.Name (go "/seb") ||
      Contains e.2.Name (go "/meb")))).map Prod.snd

/-- `checkResourceAvailable(qo)`. -/
def checkResourceAvailable (d : Studio) (qo : QueryOption) : Bool :=
  if qo.Track.Style = go "multi" ∨
      (d.findPublisherByResource qo.Channel.ID qo.Source.Label qo.Track.Label).isNone then true
  else false

/-- `setChannelByIDState(pid, state)`: the write goes through the pointer the map holds
under `pid`; the second component is that pointer, nil being `none`. -/
def setChannelByIDState (d : Studio) (pid : GoString) (state : Moth.State) :
    Studio × Option Channel :=
  match d.Channels.lookup pid with
  | none => (d, none)
  | some _ =>
    let d1 := { d with
      Channels := d.Channels.update pid (fun r =>
        let r1 := { r with State := state }
        if r1.State = Idle then r1.reset else r1) }
    (d1, d1.Channels.lookup pid)

/-- `afterSetChannelIdleByID(id)`. -/
def afterSetChannelIdleByID (d : Studio) (id : GoString) : Studio × Bool :=
  if d.countSessionsByChannelID id = 0 then
    match d.setChannelByIDState id Idle with
    | (d1, some _) => (d1, true)
    | (d1, none) => (d1, false)
  else (d, false)

end Studio

/-- `NewSessionPointer()`; `id` is what `GetXidString()` returns and `now` what
`time.Now()` returns. -/
def NewSessionPointer (id : GoString) (now : Time) : Session :=
  { ID := id, State := Idle, AtCreated := now, AtUsed := now }

/-- `NewSessionPointerWithNameRequest(name, reqid)`. -/
def NewSessionPointerWithNameRequest (id : GoString) (now : Time) (name reqid : GoString) :
    Session :=
  { NewSessionPointer id now with State := Using, Name := name, RequestID := reqid }

/-- `NewSessionPointerWithName(name)`. -/
def NewSessionPointerWithName (id : GoString) (now : Time) (name : GoString) : Session :=
  { NewSessionPointer id now with State := Using, Name := name }

/-- `close()` of the session (the event channel it also closes is not modelled). -/
def Session.close (d : Session) : Session := { d with State := Idle }

namespace Studio

/-- `addNewSessionWithNameRequest(name, reqid)`. -/
def addNewSessionWithNameRequest (d : Studio) (id : GoString) (now : Time)
    (name reqid : GoString) : Studio × Option Session :=
  d.addSession (NewSessionPointerWithNameRequest id now name reqid)

/-- `addNewSessionWithName(name)`. -/
def addNewSessionWithName (d : Studio) (id : GoString) (now : Time) (name : GoString) :
    Studio × Option Session :=
  d.addSession (NewSessionPointerWithName id now name)

/-- `deleteSessionWithClose(p)`; the second component is `p` after the call. -/
def deleteSessionWithClose (d : Studio) (p : Session) : Studio × Session :=
  let p1 := ({ p with State := Idle } : Session).close
  (d.deleteSession p1, p1)

end Studio

/-- Whether the session is a publisher session registered on `(c, s, t)`: its `ChannelID`,
`SourceID`, `TrackID` are `c`, `s`, `t` and its name contains `/pub`, `/seb` or `/meb`. -/
def Session.publisherOn (v : Session) (c s t : GoString) : Bool :=
  (v.ChannelID == c && v.SourceID == s && v.TrackID == t) &&
  (Contains v.Name (go "/pub") || Contains v.Name (go "/seb") || Contains v.Name (go "/meb"))

/-- A publisher session `s1` on `(ch1, base, video)`. -/
def sessP : Session :=
  { ID := go "s1", Name := go "/pang/ws/pub", State := Using, ChannelID := go "ch1",
    SourceID := go "base", TrackID := go "video" }

/-- A static channel `ch1` in use. -/
def chanA : Channel :=
  { ID := go "ch1", Name := go "one", Style := go "static", State := Using }

/-- A studio with the channel `ch1` and the publisher session `s1` on it. -/
def studioA : Studio :=
  { Sessions := [(go "s1", sessP)], Channels := [(go "ch1", chanA)] }

/-- A request on `(ch1, base, video)` with the given track style. -/
def queryA (style : GoString) : QueryOption :=
  { URL := { Path := go "/pang/ws/pub" }, Channel := { ID := go "ch1" },
    Source := { Label := go "base" }, Track := { Label := go "video", Style := style } }

/-! ## data-studio.go, manager-cmd.go: creating, resolving and cleaning channels -/

def TIME_EXPIRE_DYNAMIC : Duration := 24 * Hour
def TIME_EXPIRE_INSTANT : Duration := 1 * Hour

/-- `NewChannelPointer()`; `id` is what `GetXidString()` returns and `now` what
`time.Now()` returns. -/
def NewChannelPointer (id : GoString) (now : Time) : Channel :=
  { ID := id, Style := go "static", State := Idle, AtCreated := now, AtUsed := now }

/-- The `Command` struct of the manager (the fields the channel commands read). -/
structure Command where
  ID : GoString := []
  Name : GoString := []
  State : GoString := []
  Style : GoString := []
  Op : GoString := []
  Obj : GoString := []
  Opt : GoString := []
  Value : GoString := []
  Format : GoString := []
deriving DecidableEq, Repr

namespace Studio

/-- `findChannelByName(name)`: the first channel with that name that the loop meets,
`order` being the order in which this loop meets the channels. -/
def findChannelByName (d : Studio) (order : RangeOrder Channel) (name : GoString) :
    Option Channel :=
  ((order d.Channels).find? (fun e => e.2.Name == name)).map Prod.snd

/-- `findChannelByNameStyle(name, style)`: the first channel with that style and name that
the loop meets, `order` being the order in which this loop meets the channels. -/
def findChannelByNameStyle (d : Studio) (order : RangeOrder Channel) (name style : GoString) :
    Option Channel :=
  ((order d.Channels).find? (fun e => e.2.Style == style && e.2.Name == name)).map Prod.snd

/-- `addChannelInNameStyleOptions(name, style, key, record, trans)`; `id` and `now` are
what `NewChannelPointer` gets, `now1` is the later `time.Now()` of the expiry. -/
def addChannelInNameStyleOptions (d : Studio) (id : GoString) (now now1 : Time)
    (name style key record trans : GoString) : Studio × Option Channel :=
  let p := NewChannelPointer id now
  let p : Channel := if name ≠ [] then { p with Name := name } else { p with Name := p.ID }
  let p : Channel := if key ≠ [] then { p with StreamKey := key } else p
  let p : Channel := { p with Style := style }
  let options := fun (p : Channel) =>
    let p : Channel :=
      if record = go "on" then { p with RecordAuto := true }
      else if record = go "off" then { p with RecordAuto := false }
      else p
    let p : Channel :=
      if trans = go "on" then { p with TransAuto := true }
      else if trans = go "off" then { p with TransAuto := false }
      else p
    d.addChannel p
  if p.Style = go "static" then options p
  else if p.Style = go "dynamic" then
    options { p with AtExpired := now1.Add TIME_EXPIRE_DYNAMIC }
  else if p.Style = go "instant" then
    options { p with AtExpired := now1.Add TIME_EXPIRE_INSTANT }
  else (d, none)

/-- `setChannelByQueryOption(qo)`; `isXid` is `IsXidString` of the xid library, `order` is
the order in which the loop of `findChannelByNameStyle` meets the channels in this call,
and `id`, `now`, `now1` are what a channel created here gets. -/
def setChannelByQueryOption (isXid : GoString → Bool) (order : RangeOrder Channel)
    (d : Studio) (id : GoString) (now now1 : Time) (qo : QueryOption) :
    Studio × Option Channel :=
  let channel := qo.Channel
  if !isXid channel.ID then
    let channel : QueryChannel := { channel with Style := channel.ID }
    if channel.Style = go "instant" ∨ channel.Style = go "dynamic" then
      match d.findChannelByNameStyle order channel.Name channel.Style with
      | some r => (d, some r)
      | none =>
        d.addChannelInNameStyleOptions id now now1 channel.Name channel.Style channel.Key
          channel.Record channel.Trans
    else if channel.Style = go "static" then
      (d, d.findChannelByNameStyle order channel.Name channel.Style)
    else (d, none)
  else (d, none)

/-- The body of the loop of `cleanChannels` on the channel `v` met under the key `k`. -/
def cleanChannels.body (now : Time) (m : GoMap Channel) (k : GoString) (v : Channel) :
    GoMap Channel :=
  if !v.isState Idle || !v.isEventState Idle then m
  else if v.Style = go "static" then
    if GoMap.len v.Sources = 0 then m
    else if now.After (v.AtUsed.Add Hour) then m.update k (fun c => c.purgeAllSourceTracks)
    else m
  else if now.After v.AtExpired then m.remove v.ID
  else m

/-- `cleanChannels()`, `now` being what `time.Now()` returns during the sweep. -/
def cleanChannels (d : Studio) (now : Time) : Studio :=
  { d with Channels := GoMap.range (cleanChannels.body now) d.Channels }

end Studio

/-- `Command.addChannel()` of the manager on the studio; `isXid` is `IsXidString`, `order`
is the order in which the loop of `findChannelByName` meets the channels, `id` and `now`
are what `NewChannelPointer` gets, `now1` is the later `time.Now()` of the expiry.
The result is the studio and whether the command ended without error (writing
`conf/channels.json` is not modelled). -/
def Command.addChannel (isXid : GoString → Bool) (order : RangeOrder Channel)
    (cmd : Command) (d : Studio) (id : GoString) (now now1 : Time) : Studio × Bool :=
  let p := NewChannelPointer id now
  if isXid cmd.ID ∧ (d.findChannelByID cmd.ID).isSome then (d, false)
  else
    let p : Channel := if isXid cmd.ID then { p with ID := cmd.ID } else p
    let p : Channel := if cmd.Value ≠ [] then { p with Name := cmd.Value } else p
    let finish := fun (p : Channel) =>
      let p : Channel := if cmd.Opt = go "block" then { p with Blocked := true } else p
      if (d.findChannelByName order p.Name).isSome then (d, false)
      else ((d.addChannel p).1, true)
    if cmd.Style = [] then finish { p with Style := go "static" }
    else if cmd.Style = go "static" ∨ cmd.Style = go "dynamic" then
      finish { p with Style := cmd.Style }
    else if cmd.Style = go "instant" then
      finish { p with Style := cmd.Style, AtExpired := now1.Add TIME_EXPIRE_INSTANT }
    else (d, false)

/-- The entries of a Go map have distinct keys. -/
def GoMap.Keyed {α : Type} (m : GoMap α) : Prop := (m.map Prod.fst).Nodup

/-- Every channel of the map is stored under its own id, as `addChannel` stores it. -/
def ChannelsById (m : GoMap Channel) : Prop := GoMap.Keyed m ∧ ∀ e ∈ m, e.2.ID = e.1

/-- Every source of the channel is stored under its own label, as `addSourceByLabel`
stores it. -/
def SourcesByLabel (c : Channel) : Prop :=
  GoMap.Keyed c.Sources ∧ ∀ e ∈ c.Sources, e.2.Label = e.1

instance GoMap.Keyed.decidable {α : Type} (m : GoMap α) : Decidable (GoMap.Keyed m) :=
  inferInstanceAs (Decidable (m.map Prod.fst).Nodup)

instance ChannelsById.decidable (m : GoMap Channel) : Decidable (ChannelsById m) :=
  inferInstanceAs (Decidable (GoMap.Keyed m ∧ ∀ e ∈ m, e.2.ID = e.1))

instance SourcesByLabel.decidable (c : Channel) : Decidable (SourcesByLabel c) :=
  inferInstanceAs (Decidable (GoMap.Keyed c.Sources ∧ ∀ e ∈ c.Sources, e.2.Label = e.1))

/-- A request that names the channel `x` of style `dynamic`. -/
def queryD : QueryOption :=
  { Channel := { ID := go "dynamic", Name := go "x" }, Source := { Label := go "base" },
    Track := { Label := go "video" } }

/-- What the sweep is to leave of the channel `v` at the time `now`, `none` for a removed
channel: a channel in use or with its event handler in use is left as it is; a static one
is purged of its sources when idle for more than an hour; another one is removed when
past its expiry. -/
def cleanChannels.left (now : Time) (v : Channel) : Option Channel :=
  if v.State ≠ Idle ∨ v.EventState ≠ Idle then some v
  else if v.Style = go "static" then
    if v.AtUsed + 3600000000000 < now then some v.purgeAllSourceTracks else some v
  else if v.AtExpired < now then none
  else some v

/-- A static channel `ch2`, idle since the time 10, with one source of one track. -/
def chanS : Channel :=
  { ID := go "ch2", Name := go "two", Style := go "static", AtUsed := 10,
    Sources := [(go "base", { ID := go "so1", Label := go "base", Num := 1,
                              Tracks := [(go "video", { ID := go "tr1", Label := go "video" })] })] }

/-- A dynamic channel `ch3`, idle, that expires at the time 100. -/
def chanD : Channel :=
  { ID := go "ch3", Name := go "three", Style := go "dynamic", AtExpired := 100 }

/-- A studio with the channels `ch1` (in use), `ch2` (static, idle) and `ch3` (dynamic,
idle). -/
def studioC : Studio :=
  { Channels := [(go "ch1", chanA), (go "ch2", chanS), (go "ch3", chanD)] }

/-- The manager command `add channel` with the given style for a channel named `x`. -/
def cmdAdd (style : GoString) : Command :=
  { Op := go "add", Obj := go "channel", Style := style, Value := go "x" }

/-! ## data-base.go, data-buffer.go: publishers, subscribers, sources and tracks of a channel -/

/-- `addPublisher(s)`. -/
def Channel.addPublisher (d : Channel) (s : Session) (now : Time) : Channel :=
  { d with Publishers := d.Publishers.store s.ID (), AtUpdated := now }

/-- `deletePublisher(s)`. -/
def Channel.deletePublisher (d : Channel) (s : Session) : Channel :=
  { d with Publishers := d.Publishers.remove s.ID }

/-- `addSubscriber(s)`. -/
def Channel.addSubscriber (d : Channel) (s : Session) (now : Time) : Channel :=
  { d with Subscribers := d.Subscribers.store s.ID (), AtUsed := now }

/-- `deleteSubscriber(s)`. -/
def Channel.deleteSubscriber (d : Channel) (s : Session) : Channel :=
  { d with Subscribers := d.Subscribers.remove s.ID }

/-- `NewSource(label)`; `id` is what `GetXidString()` returns. -/
def NewSource (id label : GoString) : Source := { ID := id, Label := label, Tracks := [] }

/-- `addSourceByLabel(slabel)`. -/
def Channel.addSourceByLabel (d : Channel) (id slabel : GoString) : Channel :=
  { d with Sources := d.Sources.store slabel (NewSource id slabel) }

/-- `addTrackByLabel(tlabel, ncap, nuse)`: the source with the track in place; `none` when
`make` panics. -/
def Source.addTrackByLabel (d : Source) (tid foreID backID tlabel : GoString) (ncap nuse : Int) :
    Option Source :=
  match d.Tracks.lookup tlabel with
  | some _ => some d
  | none =>
    match NewTrackDualBuffers tid foreID backID tlabel ncap nuse with
    | none => none
    | some t =>
      let tracks := d.Tracks.store tlabel t
      some { d with Tracks := tracks, Num := GoMap.len tracks }

/-- What `GetXidString()` returns to one request: the ids of its session and of the source,
the track and the two rings it may create. -/
structure Fresh where
  session : GoString := []
  source : GoString := []
  track : GoString := []
  fore : GoString := []
  back : GoString := []
deriving DecidableEq, Repr

/-- `addSourceTrackByLabel(slabel, tlabel)`: the channel with the source and the track in
place; `none` when the call returns an error or panics. -/
def Channel.addSourceTrackByLabel (d : Channel) (ids : Fresh) (slabel tlabel : GoString) :
    Option Channel :=
  let d1 : Channel :=
    match d.Sources.lookup slabel with
    | some _ => d
    | none => d.addSourceByLabel ids.source slabel
  match d1.Sources.lookup slabel with
  | none => none
  | some s =>
    match s.addTrackByLabel ids.track ids.fore ids.back tlabel BUFFER_CAP_SLOTS
        BUFFER_LEN_SLOTS with
    | none => none
    | some s1 =>
      match s1.Tracks.lookup tlabel with
      | none => none
      | some _ => some { d1 with Sources := d1.Sources.update slabel (fun _ => s1) }

/-- A write through the pointer to the track `tlabel` of the source `slabel`. -/
def Channel.onTrack (d : Channel) (slabel tlabel : GoString) (f : Track → Track) : Channel :=
  { d with
    Sources := d.Sources.update slabel (fun s => { s with Tracks := s.Tracks.update tlabel f }) }

/-- `resetTrackInfo()` of the session, on the track it points to. -/
def Track.resetBySession (t : Track) : Track := { t with Mime := [], InBytes := 0, OutBytes := 0 }

/-- The fields of `mConfig` the entry points read. -/
structure Config where
  NumPubs : Int := 0
  NumSubs : Int := 0
deriving DecidableEq, Repr

/-- How an entry point ends before its buffer loop: it returned an error, or it reached
the loop. -/
inductive Admission where
  | refused
  | serving
deriving DecidableEq, Repr

namespace Studio

/-- A write through the session pointer `s`: the map holds the session as it is now. -/
def putSession (d : Studio) (s : Session) : Studio :=
  { d with Sessions := d.Sessions.update s.ID (fun _ => s) }

/-- A write through the channel pointer that the map holds under `key`. -/
def onChannel (d : Studio) (key : GoString) (f : Channel → Channel) : Studio :=
  { d with Channels := d.Channels.update key f }

end Studio
/-! ## api-pang-ws.go, api-pang-tcp.go, api-pang-udp.go, api-cast-ws.go: entry points

Each entry point is cut at its buffer loop.  `enter` is the part before the loop: when it
returns an error the deferred calls registered so far have run, last first.  `leave` is the
deferred calls that run when the loop returns.  `pushEvent` writes to event channels
only and is left out; `ids` and `now` are what `GetXidString()` and `time.Now()` return. -/

/-- `PangWSPublisher`, up to `handleBuffersByPangWSAPI`. -/
def PangWSPublisher.enter (cfg : Config) (d : Studio) (ids : Fresh) (now : Time)
    (qo : QueryOption) : Studio × Admission :=
  if !d.checkResourceAvailable qo then (d, .refused)
  else
    let s := NewSessionPointerWithNameRequest ids.session now qo.URL.Path qo.Session.ReqID
    let d := (d.addSession s).1
    match d.setChannelByIDState qo.Channel.ID Using with
    | (d, none) =>
      (((d.deleteSessionWithClose s).1.afterSetChannelIdleByID qo.Channel.ID).1, .refused)
    | (d, some chn) =>
      let s : Session := { s with ChannelID := chn.ID }
      let d := d.putSession s
      let d := d.onChannel qo.Channel.ID (fun c => c.addPublisher s now)
      let out := fun (d : Studio) =>
        ((((d.onChannel qo.Channel.ID (fun c => c.deletePublisher s)).deleteSessionWithClose
          s).1.afterSetChannelIdleByID qo.Channel.ID).1, Admission.refused)
      if d.countChannelsByState (go "using") > cfg.NumPubs then out d
      else if chn.Blocked || !chn.isValidStreamKey qo.Channel.Key then out d
      else
        match (d.Channels.lookup qo.Channel.ID).bind
            (fun c => c.addSourceTrackByLabel ids qo.Source.Label qo.Track.Label) with
        | none => out d
        | some _ =>
          let d := d.onChannel qo.Channel.ID (fun c =>
            (c.addSourceTrackByLabel ids qo.Source.Label qo.Track.Label).getD c)
          let d := d.onChannel qo.Channel.ID (fun c =>
            c.onTrack qo.Source.Label qo.Track.Label (fun t =>
              { t with Mode := qo.Track.Mode, Style := qo.Track.Style }))
          let d := d.onChannel qo.Channel.ID (fun c =>
            c.onTrack qo.Source.Label qo.Track.Label (fun t =>
              t.setTrackBufferSize qo.Buffer.Len))
          let s : Session :=
            ({ s with SourceID := qo.Source.Label, TrackID := qo.Track.Label }).setTimeoutInUnit
              qo.Session.Timeout qo.Session.Unit
          let d := d.putSession s
          let d := d.onChannel qo.Channel.ID (fun c => { c with AtUsed := now })
          (d, .serving)

/-- `PangWSPublisher`: the deferred calls after the loop. -/
def PangWSPublisher.leave (d : Studio) (s : Session) (qo : QueryOption) : Studio :=
  let d := d.onChannel qo.Channel.ID (fun c =>
    c.onTrack qo.Source.Label qo.Track.Label Track.resetBySession)
  let d := d.onChannel qo.Channel.ID (fun c => c.deletePublisher s)
  ((d.deleteSessionWithClose s).1.afterSetChannelIdleByID qo.Channel.ID).1

/-- `PangTCPPublisher`, up to `handleBuffersByPangTCPAPI`. -/
def PangTCPPublisher.enter (cfg : Config) (d : Studio) (ids : Fresh) (now : Time)
    (qo : QueryOption) : Studio × Admission :=
  if !d.checkResourceAvailable qo then (d, .refused)
  else
    let s := NewSessionPointerWithName ids.session now qo.URL.Path
    let d := (d.addSession s).1
    match d.setChannelByIDState qo.Channel.ID Using with
    | (d, none) =>
      (((d.deleteSessionWithClose s).1.afterSetChannelIdleByID qo.Channel.ID).1, .refused)
    | (d, some chn) =>
      let s : Session := { s with ChannelID := chn.ID }
      let d := d.putSession s
      let d := d.onChannel qo.Channel.ID (fun c => c.addPublisher s now)
      let out := fun (d : Studio) =>
        ((((d.onChannel qo.Channel.ID (fun c => c.deletePublisher s)).deleteSessionWithClose
          s).1.afterSetChannelIdleByID qo.Channel.ID).1, Admission.refused)
      if d.countChannelsByState (go "using") > cfg.NumPubs then out d
      else if chn.Blocked || !chn.isValidStreamKey qo.Channel.Key then out d
      else
        match (d.Channels.lookup qo.Channel.ID).bind
            (fun c => c.addSourceTrackByLabel ids qo.Source.Label qo.Track.Label) with
        | none => out d
        | some _ =>
          let d := d.onChannel qo.Channel.ID (fun c =>
            (c.addSourceTrackByLabel ids qo.Source.Label qo.Track.Label).getD c)
          let d := d.onChannel qo.Channel.ID (fun c =>
            c.onTrack qo.Source.Label qo.Track.Label (fun t =>
              { t with Mode := qo.Track.Mode, Style := qo.Track.Style }))
          let s : Session :=
            ({ s with SourceID := qo.Source.Label, TrackID := qo.Track.Label }).setTimeoutInUnit
              qo.Session.Timeout qo.Session.Unit
          let d := d.putSession s
          (d, .serving)

/-- `PangTCPPublisher`: the deferred calls after the loop. -/
def PangTCPPublisher.leave (d : Studio) (s : Session) (qo : QueryOption) : Studio :=
  let d := d.onChannel qo.Channel.ID (fun c =>
    c.onTrack qo.Source.Label qo.Track.Label Track.resetBySession)
  let d := d.onChannel qo.Channel.ID (fun c => c.deletePublisher s)
  ((d.deleteSessionWithClose s).1.afterSetChannelIdleByID qo.Channel.ID).1

/-- `PangUDPPublisher`, up to its message loop. -/
def PangUDPPublisher.enter (d : Studio) (ids : Fresh) (now : Time) (qo : QueryOption) :
    Studio × Admission :=
  if !d.checkResourceAvailable qo then (d, .refused)
  else
    let s := NewSessionPointerWithName ids.session now qo.URL.Path
    let d := (d.addSession s).1
    match d.setChannelByIDState qo.Channel.ID Using with
    | (d, none) =>
      (((d.deleteSessionWithClose s).1.afterSetChannelIdleByID qo.Channel.ID).1, .refused)
    | (d, some chn) =>
      let d := d.onChannel qo.Channel.ID (fun c => { c with AtUsed := now })
      let s : Session := { s with ChannelID := chn.ID }
      let d := d.putSession s
      let out := fun (d : Studio) =>
        (((d.deleteSessionWithClose s).1.afterSetChannelIdleByID qo.Channel.ID).1,
          Admission.refused)
      if chn.Blocked || !chn.isValidStreamKey qo.Channel.Key then out d
      else
        match (d.Channels.lookup qo.Channel.ID).bind
            (fun c => c.addSourceTrackByLabel ids qo.Source.Label qo.Track.Label) with
        | none => out d
        | some _ =>
          let d := d.onChannel qo.Channel.ID (fun c =>
            (c.addSourceTrackByLabel ids qo.Source.Label qo.Track.Label).getD c)
          let d := d.onChannel qo.Channel.ID (fun c =>
            c.onTrack qo.Source.Label qo.Track.Label (fun t =>
              { t with Mode := qo.Track.Mode, Style := qo.Track.Style }))
          let s : Session :=
            ({ s with SourceID := qo.Source.Label, TrackID := qo.Track.Label }).setTimeoutInUnit
              qo.Session.Timeout qo.Session.Unit
          let d := d.putSession s
          (d, .serving)

/-- `PangUDPPublisher`: the deferred calls after the loop. -/
def PangUDPPublisher.leave (d : Studio) (s : Session) (qo : QueryOption) : Studio :=
  ((d.deleteSessionWithClose s).1.afterSetChannelIdleByID qo.Channel.ID).1

/-- `CastWSPublisher`, up to `handleBuffersByCastAPI`. -/
def CastWSPublisher.enter (d : Studio) (ids : Fresh) (now : Time) (qo : QueryOption) :
    Studio × Admission :=
  let s := NewSessionPointerWithName ids.session now qo.URL.Path
  let d := (d.addSession s).1
  match d.setChannelByIDState qo.Channel.ID Using with
  | (d, none) =>
    (((d.deleteSessionWithClose s).1.afterSetChannelIdleByID qo.Channel.ID).1, .refused)
  | (d, some c) =>
    let d := d.onChannel qo.Channel.ID (fun c => { c with AtUsed := now })
    let s : Session := { s with ChannelID := c.ID }
    let d := d.putSession s
    let out := fun (d : Studio) =>
      (((d.deleteSessionWithClose s).1.afterSetChannelIdleByID qo.Channel.ID).1,
        Admission.refused)
    if c.Blocked || !c.isValidStreamKey qo.Channel.Key then out d
    else
      match (d.Channels.lookup qo.Channel.ID).bind
          (fun c => c.addSourceTrackByLabel ids qo.Source.Label qo.Track.Label) with
      | none => out d
      | some _ =>
        let d := d.onChannel qo.Channel.ID (fun c =>
          (c.addSourceTrackByLabel ids qo.Source.Label qo.Track.Label).getD c)
        let s : Session :=
          ({ s with SourceID := qo.Source.Label, TrackID := qo.Track.Label }).setTimeoutInUnit
            qo.Session.Timeout qo.Session.Unit
        let d := d.putSession s
        (d, .serving)

/-- `CastWSPublisher`: the deferred calls after the loop. -/
def CastWSPublisher.leave (d : Studio) (s : Session) (qo : QueryOption) : Studio :=
  ((d.deleteSessionWithClose s).1.afterSetChannelIdleByID qo.Channel.ID).1

/-- `PangWSSubscriber`, up to `handleBuffersByPangWSAPI`. -/
def PangWSSubscriber.enter (cfg : Config) (d : Studio) (ids : Fresh) (now : Time)
    (qo : QueryOption) : Studio × Admission :=
  let s := NewSessionPointerWithNameRequest ids.session now qo.URL.Path qo.Session.ReqID
  let d := (d.addSession s).1
  match d.setChannelByIDState qo.Channel.ID Using with
  | (d, none) =>
    (((d.deleteSessionWithClose s).1.afterSetChannelIdleByID qo.Channel.ID).1, .refused)
  | (d, some chn) =>
    let s : Session := { s with ChannelID := chn.ID }
    let d := d.putSession s
    let d := d.onChannel qo.Channel.ID (fun c => c.addSubscriber s now)
    let out := fun (d : Studio) =>
      ((((d.onChannel qo.Channel.ID (fun c => c.deleteSubscriber s)).deleteSessionWithClose
        s).1.afterSetChannelIdleByID qo.Channel.ID).1, Admission.refused)
    if d.countSessionsByState (go "using") > cfg.NumSubs then out d
    else if chn.Blocked || !chn.isValidStreamKey qo.Channel.Key then out d
    else
      match (d.Channels.lookup qo.Channel.ID).bind
          (fun c => c.addSourceTrackByLabel ids qo.Source.Label qo.Track.Label) with
      | none => out d
      | some _ =>
        let d := d.onChannel qo.Channel.ID (fun c =>
          (c.addSourceTrackByLabel ids qo.Source.Label qo.Track.Label).getD c)
        let s : Session :=
          ({ s with SourceID := qo.Source.Label, TrackID := qo.Track.Label }).setTimeoutInUnit
            qo.Session.Timeout qo.Session.Unit
        let d := d.putSession s
        let d := d.onChannel qo.Channel.ID (fun c => { c with AtUsed := now })
        (d, .serving)

/-- `PangTCPSubscriber`, up to `handleBuffersByPangTCPAPI`. -/
def PangTCPSubscriber.enter (cfg : Config) (d : Studio) (ids : Fresh) (now : Time)
    (qo : QueryOption) : Studio × Admission :=
  let s := NewSessionPointerWithNameRequest ids.session now qo.URL.Path qo.Session.ReqID
  let d := (d.addSession s).1
  match d.setChannelByIDState qo.Channel.ID Using with
  | (d, none) =>
    (((d.deleteSessionWithClose s).1.afterSetChannelIdleByID qo.Channel.ID).1, .refused)
  | (d, some chn) =>
    let s : Session := { s with ChannelID := chn.ID }
    let d := d.putSession s
    let d := d.onChannel qo.Channel.ID (fun c => c.addSubscriber s now)
    let out := fun (d : Studio) =>
      ((((d.onChannel qo.Channel.ID (fun c => c.deleteSubscriber s)).deleteSessionWithClose
        s).1.afterSetChannelIdleByID qo.Channel.ID).1, Admission.refused)
    if d.countSessionsByState (go "using") > cfg.NumSubs then out d
    else if chn.Blocked || !chn.isValidStreamKey qo.Channel.Key then out d
    else
      match (d.Channels.lookup qo.Channel.ID).bind
          (fun c => c.addSourceTrackByLabel ids qo.Source.Label qo.Track.Label) with
      | none => out d
      | some _ =>
        let d := d.onChannel qo.Channel.ID (fun c =>
          (c.addSourceTrackByLabel ids qo.Source.Label qo.Track.Label).getD c)
        let s : Session :=
          ({ s with SourceID := qo.Source.Label, TrackID := qo.Track.Label }).setTimeoutInUnit
            qo.Session.Timeout qo.Session.Unit
        let d := d.putSession s
        let d := d.onChannel qo.Channel.ID (fun c => { c with AtUsed := now })
        (d, .serving)

/-- `PangUDPSubscriber`, up to its message loop. -/
def PangUDPSubscriber.enter (d : Studio) (ids : Fresh) (now : Time) (qo : QueryOption) :
    Studio × Admission :=
  let s := NewSessionPointerWithName ids.session now qo.URL.Path
  let d := (d.addSession s).1
  match d.setChannelByIDState qo.Channel.ID Using with
  | (d, none) =>
    (((d.deleteSessionWithClose s).1.afterSetChannelIdleByID qo.Channel.ID).1, .refused)
  | (d, some chn) =>
    let d := d.onChannel qo.Channel.ID (fun c => { c with AtUsed := now })
    let s : Session := { s with ChannelID := chn.ID }
    let d := d.putSession s
    let out := fun (d : Studio) =>
      (((d.deleteSessionWithClose s).1.afterSetChannelIdleByID qo.Channel.ID).1,
        Admission.refused)
    if chn.Blocked || !chn.isValidStreamKey qo.Channel.Key then out d
    else
      match (d.Channels.lookup qo.Channel.ID).bind
          (fun c => c.addSourceTrackByLabel ids qo.Source.Label qo.Track.Label) with
      | none => out d
      | some _ =>
        let d := d.onChannel qo.Channel.ID (fun c =>
          (c.addSourceTrackByLabel ids qo.Source.Label qo.Track.Label).getD c)
        let s : Session :=
          ({ s with SourceID := qo.Source.Label, TrackID := qo.Track.Label }).setTimeoutInUnit
            qo.Session.Timeout qo.Session.Unit
        let d := d.putSession s
        (d, .serving)

/-- `CastWSSubscriber`, up to `handleBuffersByCastAPI`. -/
def CastWSSubscriber.enter (d : Studio) (ids : Fresh) (now : Time) (qo : QueryOption) :
    Studio × Admission :=
  let s := NewSessionPointerWithName ids.session now qo.URL.Path
  let d := (d.addSession s).1
  match d.setChannelByIDState qo.Channel.ID Using with
  | (d, none) =>
    (((d.deleteSessionWithClose s).1.afterSetChannelIdleByID qo.Channel.ID).1, .refused)
  | (d, some chn) =>
    let s : Session := { s with ChannelID := chn.ID }
    let d := d.putSession s
    let d := d.onChannel qo.Channel.ID (fun c => { c with AtUsed := now })
    let out := fun (d : Studio) =>
      (((d.deleteSessionWithClose s).1.afterSetChannelIdleByID qo.Channel.ID).1,
        Admission.refused)
    if chn.Blocked || !chn.isValidStreamKey qo.Channel.Key then out d
    else
      match (d.Channels.lookup qo.Channel.ID).bind
          (fun c => c.addSourceTrackByLabel ids qo.Source.Label qo.Track.Label) with
      | none => out d
      | some _ =>
        let d := d.onChannel qo.Channel.ID (fun c =>
          (c.addSourceTrackByLabel ids qo.Source.Label qo.Track.Label).getD c)
        let s : Session :=
          ({ s with SourceID := qo.Source.Label, TrackID := qo.Track.Label }).setTimeoutInUnit
            qo.Session.Timeout qo.Session.Unit
        let d := d.putSession s
        (d, .serving)

/-- The writes of `setChannelByIDState` on the channel `r`. -/
def Channel.withState (r : Channel) (state : Moth.State) : Channel :=
  let r1 := { r with State := state }
  if r1.State = Idle then r1.reset else r1

/-- The sources and tracks of the channel by label, with the rings of each track: what
creating a source or a track or writing a slot changes. -/
def Channel.rings (c : Channel) : List (GoString × List (GoString × List Buffer)) :=
  c.Sources.map (fun e => (e.1, e.2.Tracks.map (fun t => (t.1, t.2.Rings))))

/-- The ids of the channels of a map, by key. -/
def GoMap.ids (m : GoMap Channel) : List (GoString × GoString) := m.map (fun e => (e.1, e.2.ID))

/-- The sources, tracks and rings of the channels of a map, by key. -/
def GoMap.rings (m : GoMap Channel) :
    List (GoString × List (GoString × List (GoString × List Buffer))) :=
  m.map (fun e => (e.1, e.2.rings))

/-- A studio with the idle static channel `ch1` that is not blocked and has no key. -/
def studioB : Studio := { Channels := [(go "ch1", { chanA with State := Idle })] }

/-- The ids `GetXidString()` gives to the n-th request. -/
def idsA (n : Nat) : Fresh :=
  { session := go "s" ++ [UInt8.ofNat (48 + n)], source := go "so" ++ [UInt8.ofNat (48 + n)],
    track := go "tr" ++ [UInt8.ofNat (48 + n)], fore := go "fo" ++ [UInt8.ofNat (48 + n)],
    back := go "ba" ++ [UInt8.ofNat (48 + n)] }

/-! ## api-pang-ws.go, data-media.go, data-mesh.go: the puller of a bridge -/

/-- `countSessionsByBridgeID(bid)`. -/
def Studio.countSessionsByBridgeID (d : Studio) (bid : GoString) : Int :=
  ((d.Sessions.countP (fun e => e.2.BridgeID == bid) : Nat) : Int)

/-- `setBridgeByIDState(id, state)`: the write goes through the pointer the map holds under
`id`; the second component is that pointer, nil being `none`. -/
def Studio.setBridgeByIDState (d : Studio) (id : GoString) (state : Moth.State) :
    Studio × Option Bridge :=
  match d.Bridges.lookup id with
  | none => (d, none)
  | some _ =>
    let d1 := { d with Bridges := d.Bridges.update id (fun r => { r with State := state }) }
    (d1, d1.Bridges.lookup id)

/-- `afterSetBridgeIdleByID(id)`. -/
def Studio.afterSetBridgeIdleByID (d : Studio) (id : GoString) : Studio × Bool :=
  if d.countSessionsByBridgeID id = 0 then
    match d.setBridgeByIDState id Idle with
    | (d1, some _) => (d1, true)
    | (d1, none) => (d1, false)
  else (d, false)

/-- A write through the bridge pointer that the map holds under `key`. -/
def Studio.onBridge (d : Studio) (key : GoString) (f : Bridge → Bridge) : Studio :=
  { d with Bridges := d.Bridges.update key f }

/-- `PangWSPuller(b, ws, qo)`, up to `handleBuffersByPangWSAPI`; `bid` is the key of the
bridge `b` in the studio.  There is no call of `checkResourceAvailable` and no test of
`Blocked` or of the stream key. -/
def PangWSPuller.enter (cfg : Config) (d : Studio) (ids : Fresh) (now : Time)
    (bid : GoString) (qo : QueryOption) : Studio × Admission :=
  let d := d.onBridge bid (fun b => { b with State := Using, AtUsed := now })
  let s := NewSessionPointerWithNameRequest ids.session now qo.URL.Path qo.Session.ReqID
  let d := (d.addSession s).1
  match d.setChannelByIDState qo.Channel.ID Using with
  | (d, none) =>
    ((((d.deleteSessionWithClose s).1.afterSetChannelIdleByID
      qo.Channel.ID).1.afterSetBridgeIdleByID bid).1, .refused)
  | (d, some chn) =>
    let s : Session := { s with ChannelID := chn.ID }
    let d := d.putSession s
    let d := d.onChannel qo.Channel.ID (fun c => c.addPublisher s now)
    let out := fun (d : Studio) =>
      (((((d.onChannel qo.Channel.ID (fun c => c.deletePublisher s)).deleteSessionWithClose
        s).1.afterSetChannelIdleByID qo.Channel.ID).1.afterSetBridgeIdleByID bid).1,
        Admission.refused)
    if d.countChannelsByState (go "using") > cfg.NumPubs then out d
    else
      match (d.Channels.lookup qo.Channel.ID).bind
          (fun c => c.addSourceTrackByLabel ids qo.Source.Label qo.Track.Label) with
      | none => out d
      | some _ =>
        let d := d.onChannel qo.Channel.ID (fun c =>
          (c.addSourceTrackByLabel ids qo.Source.Label qo.Track.Label).getD c)
        let d := d.onChannel qo.Channel.ID (fun c =>
          c.onTrack qo.Source.Label qo.Track.Label (fun t =>
            { t with Mode := qo.Track.Mode, Style := qo.Track.Style }))
        let s : Session :=
          ({ s with BridgeID := bid, SourceID := qo.Source.Label,
                    TrackID := qo.Track.Label }).setTimeoutInUnit
            qo.Session.Timeout qo.Session.Unit
        let d := d.putSession s
        let d := d.onChannel qo.Channel.ID (fun c => { c with AtUsed := now })
        (d, .serving)

/-- `PangWSPuller`: the deferred calls after the loop. -/
def PangWSPuller.leave (d : Studio) (s : Session) (bid : GoString) (qo : QueryOption) :
    Studio :=
  let d := d.onChannel qo.Channel.ID (fun c =>
    c.onTrack qo.Source.Label qo.Track.Label Track.resetBySession)
  let d := d.onChannel qo.Channel.ID (fun c => c.deletePublisher s)
  (((d.deleteSessionWithClose s).1.afterSetChannelIdleByID
    qo.Channel.ID).1.afterSetBridgeIdleByID bid).1

/-- What an entry point leaves when it is called with the request `qo` and the fresh ids
`ids` on the studio `d`: the channels keep their keys and ids; a refused request leaves the
sessions and the sources, tracks and rings of every channel as they were; a request that
reaches the buffer loop passed the resource check (when the entry point has one), found
its channel not blocked and with a stream key that is empty or the key of the request,
and has its session registered on that channel, source and track under the name of the
route. -/
def Admitted (check : Bool) (d : Studio) (ids : Fresh) (qo : QueryOption)
    (r : Studio × Admission) : Prop :=
  GoMap.ids r.1.Channels = GoMap.ids d.Channels ∧
  (r.2 = Admission.refused →
    r.1.Sessions = d.Sessions ∧ GoMap.rings r.1.Channels = GoMap.rings d.Channels) ∧
  (r.2 = Admission.serving →
    (check = true → d.checkResourceAvailable qo = true) ∧
    ∃ c, d.Channels.lookup qo.Channel.ID = some c ∧ c.Blocked = false ∧
      (c.StreamKey = [] ∨ c.StreamKey = qo.Channel.Key) ∧
      ∃ s, r.1.Sessions = d.Sessions ++ [(ids.session, s)] ∧ s.ID = ids.session ∧
        s.Name = qo.URL.Path ∧ s.ChannelID = c.ID ∧ s.SourceID = qo.Source.Label ∧
        s.TrackID = qo.Track.Label)

/-- The part of `Admitted` that does not speak of the gate on the channel: the channels
keep their keys and ids, a refused request leaves the sessions as they were, and a request
that reaches the buffer loop passed the resource check (when the entry point has one) and
has its session registered on its channel, source and track under the name of the
route. -/
def Registered (check : Bool) (d : Studio) (ids : Fresh) (qo : QueryOption)
    (r : Studio × Admission) : Prop :=
  GoMap.ids r.1.Channels = GoMap.ids d.Channels ∧
  (r.2 = Admission.refused → r.1.Sessions = d.Sessions) ∧
  (r.2 = Admission.serving →
    (check = true → d.checkResourceAvailable qo = true) ∧
    ∃ c, d.Channels.lookup qo.Channel.ID = some c ∧
      ∃ s, r.1.Sessions = d.Sessions ++ [(ids.session, s)] ∧ s.ID = ids.session ∧
        s.Name = qo.URL.Path ∧ s.ChannelID = c.ID ∧ s.SourceID = qo.Source.Label ∧
        s.TrackID = qo.Track.Label)

/-! ## Writers of a forward ring: admissions and exits in sequence -/

/-- The entry points that write the forward ring of a track.  `puller bid` is
`PangWSPuller` for the bridge stored under `bid`, when the `To.API` of the bridge is
`/pang/ws/pub`: `pullSourceTrack` gives that path to the request, and
`handleBuffersByPangWSAPI` then runs the receive loop on ring 0 without lock. -/
inductive Writer where
  | pangWS
  | pangTCP
  | pangUDP
  | castWS
  | puller (bid : GoString)
deriving DecidableEq, Repr

/-- The route of the entry point: the handlers of main.go and `TCPParseRequest` call it
for a request with this path, and `pullSourceTrack` calls the puller with the `To.API` of
the bridge as path. -/
def Writer.path : Writer → GoString
  | .pangWS => go "/pang/ws/pub"
  | .pangTCP => go "/pang/tcp/pub"
  | .pangUDP => go "/pang/udp/pub"
  | .castWS => go "/cast/ws/pub"
  | .puller _ => go "/pang/ws/pub"

/-- The query option an entry point gets: `qo.URL.Path` is the path of the request. -/
def Writer.dispatch (w : Writer) (qo : QueryOption) : QueryOption :=
  { qo with URL := { qo.URL with Path := w.path } }

/-- Whether the entry point starts with `checkResourceAvailable`. -/
def Writer.checks : Writer → Bool
  | .pangWS => true
  | .pangTCP => true
  | .pangUDP => true
  | .castWS => false
  | .puller _ => false

/-- Whether the entry point stores the channel and the track it found in the session
(`s.chn`, `s.trk`), which the buffer loops read.  `CastWSPublisher` keeps them in the locals
`c` and `trk` and leaves `s.chn` and `s.trk` nil. -/
def Writer.binds : Writer → Bool
  | .pangWS => true
  | .pangTCP => true
  | .pangUDP => true
  | .castWS => false
  | .puller _ => true

/-- The entry point up to its buffer loop. -/
def Writer.enter (w : Writer) (cfg : Config) (d : Studio) (ids : Fresh) (now : Time)
    (qo : QueryOption) : Studio × Admission :=
  match w with
  | .pangWS => PangWSPublisher.enter cfg d ids now (w.dispatch qo)
  | .pangTCP => PangTCPPublisher.enter cfg d ids now (w.dispatch qo)
  | .pangUDP => PangUDPPublisher.enter d ids now (w.dispatch qo)
  | .castWS => CastWSPublisher.enter d ids now (w.dispatch qo)
  | .puller bid => PangWSPuller.enter cfg d ids now bid (w.dispatch qo)

/-- The deferred calls of the entry point after its buffer loop. -/
def Writer.leave (w : Writer) (d : Studio) (s : Session) (qo : QueryOption) : Studio :=
  match w with
  | .pangWS => PangWSPublisher.leave d s qo
  | .pangTCP => PangTCPPublisher.leave d s qo
  | .pangUDP => PangUDPPublisher.leave d s qo
  | .castWS => CastWSPublisher.leave d s qo
  | .puller bid => PangWSPuller.leave d s bid qo

/-- A session in the buffer loop of a writer entry point, with the request that started
it. -/
structure Active where
  sid : GoString
  writer : Writer
  qo : QueryOption
deriving DecidableEq, Repr

/-- Whether the session was admitted on channel `c`, source `s`, track `t`. -/
def Active.on (a : Active) (c s t : GoString) : Bool :=
  a.qo.Channel.ID == c && a.qo.Source.Label == s && a.qo.Track.Label == t

/-- The studio and the writer sessions that are in their buffer loops. -/
structure Floor where
  studio : Studio
  active : List Active
deriving DecidableEq, Repr

/-- One event: a request reaches a writer entry point, which runs up to its buffer loop,
or the buffer loop of an admitted session returns. -/
inductive Move where
  | enter (w : Writer) (ids : Fresh) (now : Time) (qo : QueryOption)
  | leave (sid : GoString)
deriving DecidableEq, Repr

/-- Whether the request of the move does not ask for style `multi`. -/
def Move.mono : Move → Bool
  | .enter _ _ _ qo => qo.Track.Style != go "multi"
  | .leave _ => true

/-- One event on the floor.  There is no result when the session id given to a request is
in use (`GetXidString` gives fresh ids), when the session that leaves is not in a loop, or
when the request panics: a request that reaches the receive loop through an entry point
that left `s.trk` nil panics at the first statement of the loop, which reads
`s.trk.Label`. -/
def Floor.step (cfg : Config) (f : Floor) : Move → Option Floor
  | .enter w ids now qo =>
    if (f.studio.Sessions.lookup ids.session).isSome then none
    else
      match w.enter cfg f.studio ids now qo with
      | (d, .refused) => some { studio := d, active := f.active }
      | (d, .serving) =>
        if w.binds then
          some { studio := d, active := f.active ++ [{ sid := ids.session, writer := w,
                                                        qo := w.dispatch qo }] }
        else none
  | .leave sid =>
    match f.active.find? (fun a => a.sid == sid), f.studio.Sessions.lookup sid with
    | some a, some s =>
      some { studio := a.writer.leave f.studio s a.qo,
             active := f.active.filter (fun a => a.sid != sid) }
    | _, _ => none

/-- A sequence of events on the floor. -/
def Floor.run (cfg : Config) (f : Floor) : List Move → Option Floor
  | [] => some f
  | m :: ms =>
    match f.step cfg m with
    | none => none
    | some f1 => Floor.run cfg f1 ms

/-- What holds of the floor between events: the channels are stored under their ids, the
keys of the session map are the ids of the sessions in a loop, each of these sessions is
registered under the route of its entry point on the channel, source and track of its
request, and a session admitted through an entry point with a resource check has no
session admitted before it on the same channel, source and track. -/
def FloorInv (f : Floor) : Prop :=
  ChannelsById f.studio.Channels ∧
  f.studio.Sessions.map Prod.fst = f.active.map Active.sid ∧
  (∀ a ∈ f.active, ∃ s, f.studio.Sessions.lookup a.sid = some s ∧ s.ID = a.sid ∧
    s.Name = a.writer.path ∧ s.ChannelID = a.qo.Channel.ID ∧
    s.SourceID = a.qo.Source.Label ∧ s.TrackID = a.qo.Track.Label) ∧
  f.active.Pairwise (fun a b => b.writer.checks = true →
    ¬ (a.qo.Channel.ID = b.qo.Channel.ID ∧ a.qo.Source.Label = b.qo.Source.Label ∧
      a.qo.Track.Label = b.qo.Track.Label))

/-- A studio with the channel `ch1` blocked and keyed `k`. -/
def studioK : Studio :=
  { Channels := [(go "ch1", { chanA with State := Idle, Blocked := true, StreamKey := go "k" })] }

/-- A request on `(ch1, base, video)` with the key `k`. -/
def queryK : QueryOption :=
  { Channel := { ID := go "ch1", Key := go "k" }, Source := { Label := go "base" },
    Track := { Label := go "video" } }


/-- The limits of the licence used for evaluation. -/
def cfgA : Config := { NumPubs := 10, NumSubs := 10 }

/-- The floor with the studio `studioB` and nobody in a loop. -/
def floorB : Floor := { studio := studioB, active := [] }

/-- A pull bridge `b9` into the channel `ch1`, with `/pang/ws/pub` as `To.API`. -/
def bridgeP : Bridge :=
  { ID := go "b9", Name := go "b9", Attr := go "none", Direction := go "pull", Timeout := 10,
    From := { Proto := go "ws", Addr := go "far:8080", API := go "/pang/ws/sub",
              ChannelID := go "ch7" },
    To := { Proto := go "ws", API := go "/pang/ws/pub", ChannelID := go "ch1" } }

/-- The floor with the studio `studioB`, to which the bridge `b9` is added, and nobody in a
loop. -/
def floorP : Floor :=
  { studio := { studioB with Bridges := [(go "b9", bridgeP)] }, active := [] }

/-- A request to `PangWSPublisher` on `(ch1, base, video)` and then the puller of the
bridge `b9` for the same channel, source and track, neither of style `multi`. -/
def movesPull : List Move :=
  [Move.enter .pangWS (idsA 1) 7 (queryA []), Move.enter (.puller (go "b9")) (idsA 2) 8 (queryA [])]

/-- A request to `PangWSPublisher` and then one to `PangTCPPublisher` on
`(ch1, base, video)`. -/
def movesTwo : List Move :=
  [Move.enter .pangWS (idsA 1) 7 (queryA []), Move.enter .pangTCP (idsA 2) 8 (queryA [])]

/-- A request to `PangWSPublisher` on `(ch1, base, video)`, one to `PangTCPPublisher` on the
same resource, the exit of the first, and a request to `PangUDPPublisher`. -/
def movesPang : List Move :=
  [Move.enter .pangWS (idsA 1) 7 (queryA []), Move.enter .pangTCP (idsA 2) 8 (queryA []),
    Move.leave (go "s1"), Move.enter .pangUDP (idsA 3) 9 (queryA [])]


/-! ## A reader in lock step with the writer -/

/-- The schedule in which every `writeSlot` is followed by one pass of the reader. -/
def lockstep : List (Slot × Bool) → List RingStep
  | [] => []
  | w :: ws => .write w.1 w.2 :: .read :: lockstep ws


/-! ## api-pang-ws.go: extended text messages, the receive pass, the choice of rings -/

/-- `IsExtTextMessage(data)`. -/
def IsExtTextMessage (data : List Byte) : Bool :=
  if data.length < 8 then false
  else if data.take 4 = go "REXT" then true
  else false

/-- `ProcExtTextMessage(s, trk, data)`: the track and whether an error is returned; `none`
is the panic of an assignment to an entry of the nil map. -/
def ProcExtTextMessage (s : Session) (trk : Track) (data : List Byte) : Option (Track × Bool) :=
  if data.length < 12 then some (trk, true)
  else
    let xhead := (data.drop 4).take 4
    let xbody := data.drop 8
    if xhead = go "MIME" then some ({ trk with Mime := xbody }, false)
    else if xhead = go "CARD" then
      match trk.Cards with
      | none => none
      | some cards => some ({ trk with Cards := some (cards.store s.ID xbody) }, false)
    else if xhead = go "XCMD" ∨ xhead = go "XACK" ∨ xhead = go "XERR" then some (trk, false)
    else some (trk, true)

/-- One pass of the loop of `recvTrackBufferInWSMessage(ws, s, flock)` in which
`ws.ReadMessage()` returns the frame `(mt, data)` without error: the ring and the session
after the pass, `none` for a panic.  `clock` is what `time.Now()` returns. -/
def recvTrackBufferInWSMessage.pass (flock : Bool) (b : Buffer) (s : Session) (clock : Nat)
    (mt : Int) (data : List Byte) : Option (Buffer × Session) :=
  let bs : Slot := { Slot.zero with Head := some s.ID, FrameType := mt, Mark := RSSP_MARK_RBIN,
                                    Data := data }
  let text : Option (Slot × Session) :=
    if bs.FrameType = TextMessage then
      let bs1 : Slot := { bs with Mark := RSSP_MARK_RTXT }
      if IsExtTextMessage bs1.Data then
        match ProcExtTextMessage s s.trk bs1.Data with
        | none => none
        | some (trk, _) => some (bs1, { s with trk := trk })
      else some (bs1, { s with trk := { s.trk with Mime := bs1.Data } })
    else some (bs, s)
  match text with
  | none => none
  | some (bs1, s1) =>
    let bs2 := bs1.getLengthTime clock
    match b.writeSlot bs2 flock with
    | none => none
    | some b1 =>
      some (b1, { s1 with InBytes := s1.InBytes + bs2.Length,
                          trk := { s1.trk with InBytes := s1.trk.InBytes + bs2.Length },
                          chn := { s1.chn with InBytes := s1.chn.InBytes + bs2.Length } })

/-- The slot that a pass of `recvTrackBufferInWSMessage` writes for a text frame: head the
session id, the mark `RTXT`, the frame as data, and the length and time that
`getLengthTime` sets. -/
def recvTrackBufferInWSMessage.textSlot (s : Session) (clock : Nat) (data : List Byte) :
    Slot :=
  ({ Slot.zero with Head := some s.ID, FrameType := TextMessage, Mark := RSSP_MARK_RTXT,
                    Data := data } : Slot).getLengthTime clock

/-- A buffer loop that `handleBuffersByPangWSAPI` starts: on which ring of the track, in
which direction, and with which flag (`flock` of the receive loop, `fout` of the send
loop). -/
inductive Started where
  | recv (ring : Int) (flock : Bool)
  | send (ring : Int) (fout : Bool)
deriving DecidableEq, Repr

/-- What `handleBuffersByPangWSAPI` does: the loop it starts as a goroutine, the loop it
runs itself, and whether it returns the error of an unsupported name. -/
structure Handling where
  spawned : Option Started := none
  called : Option Started := none
  unsupported : Bool := false
deriving DecidableEq, Repr

/-- `handleBuffersByPangWSAPI(ws, s, mode)` up to the loops it starts; `none` is the panic
of an index outside `trk.Rings`. -/
def Track.handleBuffersByPangWSAPI (trk : Track) (s : Session) (mode : GoString) :
    Option Handling :=
  if s.Name = go "/pang/ws/pub" then
    match trk.Rings[BUFFER_NUM_FORE.toNat]?, trk.Rings[BUFFER_NUM_BACK.toNat]? with
    | some _, some _ =>
      some { spawned := if mode = go "bundle" then some (.send BUFFER_NUM_BACK false) else none,
             called := some (.recv BUFFER_NUM_FORE false) }
    | _, _ => none
  else if s.Name = go "/pang/ws/sub" then
    match trk.Rings[BUFFER_NUM_BACK.toNat]?, trk.Rings[BUFFER_NUM_FORE.toNat]? with
    | some _, some _ =>
      some { spawned := if mode = go "bundle" then some (.recv BUFFER_NUM_BACK true) else none,
             called := some (.send BUFFER_NUM_FORE true) }
    | _, _ => none
  else if s.Name = go "/pang/ws/meb" then
    match trk.Rings[BUFFER_NUM_FORE.toNat]? with
    | some _ =>
      some { spawned := some (.recv BUFFER_NUM_FORE true),
             called := some (.send BUFFER_NUM_FORE false) }
    | none => none
  else some { unsupported := true }

/-- The frame `REXT` `MIME` followed by the body. -/
def frameMIME (body : List Byte) : List Byte := go "REXT" ++ go "MIME" ++ body

/-- The frame `REXT` `CARD` followed by the body. -/
def frameCARD (body : List Byte) : List Byte := go "REXT" ++ go "CARD" ++ body

/-- The track `video` that `addSourceTrackByLabel` creates in the source `base` of a
channel without sources. -/
def trackNew : Option Track :=
  ((({} : Channel).addSourceTrackByLabel (idsA 1) (go "base") (go "video")).bind
    (fun c => c.Sources.lookup (go "base"))).bind (fun s => s.Tracks.lookup (go "video"))

/-- A track with two rings as `NewTrackDualBuffers` makes it. -/
def trackA : Track :=
  { ID := go "tr1", Label := go "video", Num := 2, Rings := [ringAt 0, ringAt 0] }


/-! ## data-mesh.go, manager-cmd.go: starting bridges, the sweep of the bridges -/

/-- A goroutine `pushSourceTrack` (`pull = false`) or `pullSourceTrack` (`pull = true`)
that the start of a bridge launches: the bridge and the source and track labels it is
launched for. -/
structure Relay where
  bridge : GoString
  pull : Bool
  source : GoString
  track : GoString
deriving DecidableEq, Repr

/-- `findChannelByIDState(pid, state)`. -/
def Studio.findChannelByIDState (d : Studio) (pid : GoString) (state : State) :
    Option Channel :=
  match d.Channels.lookup pid with
  | none => none
  | some r => if r.State ≠ state then none else some r

/-- The loop over the sources and their tracks that `startPushBridge` and
`startPullBridge` share: one goroutine for every track with a MIME that passes the label
filters of `b.From`. -/
def Bridge.relays (b : Bridge) (pull : Bool) (sources : GoMap Source) : List Relay :=
  sources.flatMap (fun e =>
    if b.From.SourceLabel ≠ [] ∧ b.From.SourceLabel ≠ e.2.Label then []
    else e.2.Tracks.flatMap (fun t =>
      if t.2.Mime = [] then []
      else if b.From.TrackLabel ≠ [] ∧ b.From.TrackLabel ≠ t.2.Label then []
      else [{ bridge := b.ID, pull := pull, source := e.2.Label, track := t.2.Label }]))

/-- `startPushBridge(b)`: the goroutines launched, `none` for the error return. -/
def Studio.startPushBridge (d : Studio) (b : Bridge) : Option (List Relay) :=
  match d.findChannelByIDState b.From.ChannelID Using with
  | none => none
  | some chn => some (b.relays false chn.Sources)

/-- `startPullBridge(b)`; `remote` is the answer of the other server to
`getResourceListByChannelID` (`none` for an error). -/
def Studio.startPullBridge (remote : Bridge → Option (GoMap Source)) (d : Studio)
    (b : Bridge) : Option (List Relay) :=
  match remote b with
  | none => none
  | some sources =>
    match d.findChannelByID b.To.ChannelID with
    | none => none
    | some _ => some (b.relays true sources)

/-- `startBridge(b)`. -/
def Studio.startBridge (remote : Bridge → Option (GoMap Source)) (d : Studio) (b : Bridge) :
    Option (List Relay) :=
  if b.Direction = go "pull" then d.startPullBridge remote b
  else d.startPushBridge b

/-- What a sweep of the bridges did: the bridges on which `startBridge` was called, in the
order of the loop, the goroutines launched, and whether an error was returned. -/
structure Sweep where
  called : List GoString := []
  relays : List Relay := []
  err : Bool := false
deriving DecidableEq, Repr

/-- The loop of `checkBridges(attr)` over the bridges that remain. -/
def Studio.checkBridges.loop (remote : Bridge → Option (GoMap Source)) (d : Studio)
    (attr : GoString) : List (GoString × Bridge) → Sweep
  | [] => {}
  | (_, v) :: rest =>
    if v.Blocked then loop remote d attr rest
    else if v.Attr = attr then
      match d.startBridge remote v with
      | none => { called := [v.ID], err := true }
      | some rs =>
        let r := loop remote d attr rest
        { called := v.ID :: r.called, relays := rs ++ r.relays, err := r.err }
    else loop remote d attr rest

/-- `checkBridges(attr)`. -/
def Studio.checkBridges (remote : Bridge → Option (GoMap Source)) (d : Studio)
    (attr : GoString) : Sweep :=
  Studio.checkBridges.loop remote d attr d.Bridges

/-- The case `start` of `Command.runBridge`: the goroutines launched, `none` for an error
return. -/
def Command.runBridge.start (remote : Bridge → Option (GoMap Source)) (cmd : Command)
    (d : Studio) : Option (List Relay) :=
  match d.findBridgeByID cmd.ID with
  | none => none
  | some p =>
    if p.State = Using ∨ p.Blocked = true then none
    else d.startBridge remote p

/-- A channel `ch4` in use whose track `video` of the source `base` has a MIME. -/
def chanM : Channel :=
  { ID := go "ch4", Name := go "four", Style := go "static", State := Using,
    Sources := [(go "base", { ID := go "so1", Label := go "base", Num := 1,
                              Tracks := [(go "video", { ID := go "tr1", Label := go "video",
                                                        Mime := go "video/h264" })] })] }

/-- A push bridge from the channel `ch4` with the given id, state, block flag and
attribute. -/
def bridgeM (id : GoString) (state : State) (blocked : Bool) (attr : GoString) : Bridge :=
  { ID := id, Name := id, State := state, Blocked := blocked, Attr := attr,
    Direction := go "push", Timeout := 10, From := { Proto := go "int", ChannelID := go "ch4" },
    To := { Proto := go "ws", ChannelID := go "ch9" } }

/-- A studio with the channel `ch4` and four bridges from it: `b1` (`ever`, running), `b2`
(`ever`, idle), `b3` (`none`, idle) and `b4` (`ever`, idle, blocked). -/
def studioM : Studio :=
  { Channels := [(go "ch4", chanM)],
    Bridges := [(go "b1", bridgeM (go "b1") Using false (go "ever")),
                (go "b2", bridgeM (go "b2") Idle false (go "ever")),
                (go "b3", bridgeM (go "b3") Idle false (go "none")),
                (go "b4", bridgeM (go "b4") Idle true (go "ever"))] }


/-! ## query-option.go: the options of a request -/

/-- `url.Values`: the values given for each key. -/
abbrev Values := GoMap (List GoString)

/-- `Values.Get(key)`: the first value of the key, the empty string when there is none. -/
def Values.Get (v : Values) (key : GoString) : GoString :=
  match GoMap.lookup v key with
  | some (x :: _) => x
  | _ => []

/-! The blocks of `GetQueryOptionFromQuery`, in the order of the source. -/

namespace GetQueryOptionFromQuery

/-- The stream address, the role and the format with its default. -/
def stream (query : Values) (qo : QueryOption) : QueryOption :=
  let qo : QueryOption := { qo with Stream := { qo.Stream with
    Addr := { qo.Stream.Addr with Host := query.Get (go "host"), Port := query.Get (go "port") },
    Role := query.Get (go "role") } }
  let qo : QueryOption := { qo with Format := query.Get (go "format") }
  if qo.Format = [] then { qo with Format := go "text" } else qo

/-- The channel parameters. -/
def channel (query : Values) (qo : QueryOption) : QueryOption :=
  { qo with Channel := { qo.Channel with
    ID := query.Get (go "channel"), Name := query.Get (go "name"), Key := query.Get (go "key"),
    Record := query.Get (go "record"), Trans := query.Get (go "trans"),
    Period := query.Get (go "period") } }

/-- The source label with its default. -/
def source (query : Values) (qo : QueryOption) : QueryOption :=
  let qo : QueryOption := { qo with Source := { qo.Source with Label := query.Get (go "source") } }
  if qo.Source.Label = [] then
    { qo with Source := { qo.Source with Label := go "base" } } else qo

/-- The track label with its default. -/
def track (query : Values) (qo : QueryOption) : QueryOption :=
  let qo : QueryOption := { qo with Track := { qo.Track with Label := query.Get (go "track") } }
  if qo.Track.Label = [] then
    { qo with Track := { qo.Track with Label := go "video" } } else qo

/-- The track mode with its default. -/
def mode (query : Values) (qo : QueryOption) : QueryOption :=
  let qo : QueryOption := { qo with Track := { qo.Track with Mode := query.Get (go "mode") } }
  if qo.Track.Mode = [] then
    { qo with Track := { qo.Track with Mode := go "single" } } else qo

/-- The track style with its default. -/
def style (query : Values) (qo : QueryOption) : QueryOption :=
  let qo : QueryOption := { qo with Track := { qo.Track with Style := query.Get (go "style") } }
  if qo.Track.Style = [] then
    { qo with Track := { qo.Track with Style := go "mono" } } else qo

/-- The track filter with its default. -/
def filter (query : Values) (qo : QueryOption) : QueryOption :=
  let qo : QueryOption := { qo with Track := { qo.Track with Filter := query.Get (go "filter") } }
  if qo.Track.Filter = [] then
    { qo with Track := { qo.Track with Filter := go "group" } } else qo

/-- The codec, processing and bitrate texts and the number of parallel streams. -/
def codec (atoi : GoString → Option Int) (query : Values) (qo : QueryOption) : QueryOption :=
  let qo : QueryOption := { qo with Track := { qo.Track with
    Codec := query.Get (go "codec"), Proc := query.Get (go "proc"),
    Bitrate := query.Get (go "bitrate") } }
  let parallel := query.Get (go "parallel")
  if parallel ≠ [] then
    match atoi parallel with
    | none => qo
    | some n => { qo with Track := { qo.Track with Parallel := n } }
  else qo

/-- The session texts and the time unit with its default. -/
def session (query : Values) (qo : QueryOption) : QueryOption :=
  let qo : QueryOption := { qo with Session := { qo.Session with
    ReqID := query.Get (go "reqid"), ID := query.Get (go "session"),
    Wait := query.Get (go "wait"), Unit := query.Get (go "unit") } }
  if qo.Session.Unit = [] then
    { qo with Session := { qo.Session with Unit := go "milli" } } else qo

/-- The timeout of the session. -/
def timeout (atoi : GoString → Option Int) (query : Values) (qo : QueryOption) : QueryOption :=
  let timeout := query.Get (go "timeout")
  if timeout ≠ [] then
    match atoi timeout with
    | none => qo
    | some n => { qo with Session := { qo.Session with Timeout := n } }
  else qo

/-- The total number of buffers and, read only with it, the order number. -/
def total (atoi : GoString → Option Int) (query : Values) (qo : QueryOption) : QueryOption :=
  let total := query.Get (go "buf_total")
  if total ≠ [] then
    let qo : QueryOption := match atoi total with
      | none => qo
      | some n => { qo with Buffer := { qo.Buffer with Total := n } }
    let order := query.Get (go "buf_order")
    if order ≠ [] then
      match atoi order with
      | none => qo
      | some n => { qo with Buffer := { qo.Buffer with Order := n } }
    else qo
  else qo

/-- The number of slots to allocate. -/
def cap (atoi : GoString → Option Int) (query : Values) (qo : QueryOption) : QueryOption :=
  let cap := query.Get (go "buf_cap")
  if cap ≠ [] then
    match atoi cap with
    | none => qo
    | some n => { qo with Buffer := { qo.Buffer with Cap := n } }
  else qo

/-- The number of slots to use. -/
def len (atoi : GoString → Option Int) (query : Values) (qo : QueryOption) : QueryOption :=
  let len := query.Get (go "buf_len")
  if len ≠ [] then
    match atoi len with
    | none => qo
    | some n => { qo with Buffer := { qo.Buffer with Len := n } }
  else qo

end GetQueryOptionFromQuery

/-- The part of `GetQueryOptionFromQuery(query)` before the call of
`setChannelByQueryOption`: the options read from the query, block after block in the order
of the source.  `atoi` is `strconv.Atoi` (`none` for an error). -/
def GetQueryOptionFromQuery.read (atoi : GoString → Option Int) (query : Values) :
    QueryOption :=
  let qo : QueryOption := {}
  let qo := GetQueryOptionFromQuery.stream query qo
  let qo := GetQueryOptionFromQuery.channel query qo
  let qo := GetQueryOptionFromQuery.source query qo
  let qo := GetQueryOptionFromQuery.track query qo
  let qo := GetQueryOptionFromQuery.mode query qo
  let qo := GetQueryOptionFromQuery.style query qo
  let qo := GetQueryOptionFromQuery.filter query qo
  let qo := GetQueryOptionFromQuery.codec atoi query qo
  let qo := GetQueryOptionFromQuery.session query qo
  let qo := GetQueryOptionFromQuery.timeout atoi query qo
  let qo := GetQueryOptionFromQuery.total atoi query qo
  let qo := GetQueryOptionFromQuery.cap atoi query qo
  let qo := GetQueryOptionFromQuery.len atoi query qo
  qo

/-- `GetQueryOptionFromQuery(query)` on the studio: the studio, the options and whether
the error returned is not nil (the result `err` is never assigned: the errors of
`strconv.Atoi` are in variables of the inner blocks).  `isXid`, `order`, `id`, `now`,
`now1` are those of `setChannelByQueryOption`. -/
def GetQueryOptionFromQuery (atoi : GoString → Option Int) (isXid : GoString → Bool)
    (order : RangeOrder Channel) (d : Studio) (id : GoString) (now now1 : Time)
    (query : Values) : Studio × QueryOption × Bool :=
  let qo := GetQueryOptionFromQuery.read atoi query
  match Studio.setChannelByQueryOption isXid order d id now now1 qo with
  | (d1, some ch) => (d1, { qo with Channel := { qo.Channel with ID := ch.ID } }, false)
  | (d1, none) => (d1, qo, false)

/-- The value of an integer parameter of the query: 0 when the text is empty or
`strconv.Atoi` rejects it, the integer parsed otherwise. -/
def parsedOr0 (atoi : GoString → Option Int) (s : GoString) : Int :=
  if s = [] then 0 else (atoi s).getD 0

/-- The value of a text parameter of the query with a default. -/
def textOr (dflt : GoString) (s : GoString) : GoString :=
  if s = [] then dflt else s


/-! ## util-crypto.go: AES-256-GCM, the single AES block, RSA with OAEP

The Go standard library is not part of the program: its primitives are parameters, and
what the functions below rely on is stated as hypotheses of the theorems. -/

/-- `crypto/cipher.AEAD` as `cipher.NewGCM` returns it: the nonce size, the sealed data
(ciphertext and tag) of a plaintext under a nonce and additional data, and the opening of
sealed data (`none` for an authentication error). -/
structure AEAD where
  NonceSize : Nat
  sealData : List Byte → List Byte → List Byte → List Byte
  openData : List Byte → List Byte → List Byte → Option (List Byte)

/-- `aesgcm.Seal(dst, nonce, plaintext, additionalData)`: the sealed data appended to
`dst`. -/
def AEAD.Seal (g : AEAD) (dst nonce plaintext additionalData : List Byte) : List Byte :=
  dst ++ g.sealData nonce plaintext additionalData

/-- `aesgcm.Open(dst, nonce, ciphertext, additionalData)`: the plaintext appended to
`dst`, `none` for an error. -/
def AEAD.Open (g : AEAD) (dst nonce ciphertext additionalData : List Byte) :
    Option (List Byte) :=
  (g.openData nonce ciphertext additionalData).map (fun p => dst ++ p)

/-- `crypto/cipher.Block` as `aes.NewCipher` returns it: the block size and the two
permutations of a block. -/
structure Block where
  BlockSize : Nat
  enc : List Byte → List Byte
  dec : List Byte → List Byte

/-- `c.Encrypt(dst, src)` of `crypto/aes`: it panics (`none`) when `src` or `dst` has less
than a block, and otherwise encrypts the first block of `src` into the first block of
`dst`; the rest of `dst` is untouched. -/
def Block.Encrypt (c : Block) (dst src : List Byte) : Option (List Byte) :=
  if src.length < c.BlockSize then none
  else if dst.length < c.BlockSize then none
  else some (c.enc (src.take c.BlockSize) ++ dst.drop c.BlockSize)

/-- `c.Decrypt(dst, src)` of `crypto/aes`, as `Block.Encrypt`. -/
def Block.Decrypt (c : Block) (dst src : List Byte) : Option (List Byte) :=
  if src.length < c.BlockSize then none
  else if dst.length < c.BlockSize then none
  else some (c.dec (src.take c.BlockSize) ++ dst.drop c.BlockSize)

/-- What `util-crypto.go` uses of the standard library: `aes.NewCipher` and `cipher.NewGCM`
(`none` for an error), `hex.EncodeToString` and the bytes that `hex.DecodeString` returns,
`base64.StdEncoding.EncodeToString` and the bytes that `DecodeString` returns, and of
`crypto/rsa`, for key types `Pub` and `Priv`, the size of the modulus in bytes, the OAEP
encryption of a message that is not too long (with the random seed it draws) and the OAEP
decryption (`none` for an error). -/
structure CryptoLib (Pub Priv : Type) where
  NewCipher : List Byte → Option Block
  NewGCM : Block → Option AEAD
  hexEncode : List Byte → GoString
  hexDecode : GoString → List Byte
  b64Encode : List Byte → GoString
  b64Decode : GoString → List Byte
  Size : Pub → Nat
  oaepEnc : Pub → List Byte → List Byte → List Byte
  oaepDec : Priv → List Byte → Option (List Byte)

/-- `sha512.Size`, the length of the hash that both RSA functions pass. -/
def sha512Size : Nat := 64

/-- `rsa.EncryptOAEP(hash, rng, pub, msg, nil)`: the error `ErrMessageTooLong` (`none`)
when `len(msg) > pub.Size() - 2*hash.Size() - 2`, the encryption otherwise; `seed` is what
is read from `rng`. -/
def CryptoLib.EncryptOAEP {Pub Priv : Type} (lib : CryptoLib Pub Priv) (hashSize : Nat)
    (seed : List Byte) (pub : Pub) (msg : List Byte) : Option (List Byte) :=
  if (msg.length : Int) > (lib.Size pub : Int) - 2 * hashSize - 2 then none
  else some (lib.oaepEnc pub seed msg)

/-- `io.ReadFull(rand.Reader, buf)` on a buffer of `n` bytes: `rand` is `none` when the
read fails and otherwise gives the byte read at each index. -/
def readFull (rand : Option (Nat → Byte)) (n : Nat) : Option (List Byte) :=
  rand.map (fun f => (List.range n).map f)

/-- `AES256GSMEncrypt(secretKey, secondKey, plaintext)`: the ciphertext, `none` for an
error. -/
def AES256GSMEncrypt {Pub Priv : Type} (lib : CryptoLib Pub Priv) (rand : Option (Nat → Byte))
    (secretKey secondKey plaintext : List Byte) : Option (List Byte) :=
  if secretKey.length ≠ 32 then none
  else
    match lib.NewCipher secretKey with
    | none => none
    | some block =>
      match lib.NewGCM block with
      | none => none
      | some aesgcm =>
        match readFull rand aesgcm.NonceSize with
        | none => none
        | some nonce => some (aesgcm.Seal nonce nonce plaintext secondKey)

/-- `AES256GSMDecrypt(secretKey, ciphertext, secondKey)`: the outer `none` is the panic of
the slice `ciphertext[:nonceSize]` out of range, the inner `none` an error. -/
def AES256GSMDecrypt {Pub Priv : Type} (lib : CryptoLib Pub Priv)
    (secretKey ciphertext secondKey : List Byte) : Option (Option (List Byte)) :=
  if secretKey.length ≠ 32 then some none
  else
    match lib.NewCipher secretKey with
    | none => some none
    | some block =>
      match lib.NewGCM block with
      | none => some none
      | some aesgcm =>
        let nonceSize := aesgcm.NonceSize
        if ciphertext.length < nonceSize then none
        else
          let nonce := ciphertext.take nonceSize
          let pureCiphertext := ciphertext.drop nonceSize
          some (aesgcm.Open [] nonce pureCiphertext secondKey)

/-- `encryptMessage(key, message)`; `none` is a panic. -/
def encryptMessage {Pub Priv : Type} (lib : CryptoLib Pub Priv) (key message : GoString) :
    Option GoString :=
  match lib.NewCipher key with
  | none => some []
  | some c =>
    let msgByte : List Byte := List.replicate message.length 0
    match c.Encrypt msgByte message with
    | none => none
    | some msgByte => some (lib.hexEncode msgByte)

/-- `decryptMessage(key, message)`; `none` is a panic. -/
def decryptMessage {Pub Priv : Type} (lib : CryptoLib Pub Priv) (key message : GoString) :
    Option GoString :=
  let txt := lib.hexDecode message
  match lib.NewCipher key with
  | none => some []
  | some c =>
    let msgByte : List Byte := List.replicate txt.length 0
    match c.Decrypt msgByte txt with
    | none => none
    | some msgByte => some msgByte

/-- `EncryptRSAWithPublicKey(secretMessage, key)`. -/
def EncryptRSAWithPublicKey {Pub Priv : Type} (lib : CryptoLib Pub Priv) (seed : List Byte)
    (secretMessage : GoString) (key : Pub) : GoString :=
  match lib.EncryptOAEP sha512Size seed key secretMessage with
  | none => []
  | some ciphertext => lib.b64Encode ciphertext

/-- `DecryptRSAWithPrivateKey(cipherText, privKey)`. -/
def DecryptRSAWithPrivateKey {Pub Priv : Type} (lib : CryptoLib Pub Priv)
    (cipherText : GoString) (privKey : Priv) : GoString :=
  let ct := lib.b64Decode cipherText
  match lib.oaepDec privKey ct with
  | none => []
  | some secrettext => secrettext

/-- A stand-in for an AES block cipher: a block of 16 bytes is encrypted and decrypted by
reversing it. -/
def toyBlock : Block := { BlockSize := 16, enc := List.reverse, dec := List.reverse }

/-- A stand-in for an AEAD with nonces of 12 bytes: sealing reverses the plaintext and
appends the nonce and the additional data as a tag, opening checks the tag. -/
def toyGCM : AEAD :=
  { NonceSize := 12,
    sealData := fun nonce p a => p.reverse ++ (nonce ++ a),
    openData := fun nonce c a =>
      if c.drop (c.length - (nonce ++ a).length) = nonce ++ a then
        some (c.take (c.length - (nonce ++ a).length)).reverse
      else none }

/-- A stand-in for the library on which the functions can be run: every key of 32 bytes
gives `toyBlock`, every block cipher gives `toyGCM`, the two codecs are the identity, an
RSA public key is the size of its modulus in bytes, and OAEP reverses the message after
a first byte and rejects the empty ciphertext. -/
def toyLib : CryptoLib Nat Unit where
  NewCipher := fun key => if key.length = 32 then some toyBlock else none
  NewGCM := fun _ => some toyGCM
  hexEncode := id
  hexDecode := id
  b64Encode := id
  b64Decode := id
  Size := id
  oaepEnc := fun _ _ msg => 1 :: msg.reverse
  oaepDec := fun _ ct =>
    match ct with
    | [] => none
    | _ :: r => some r.reverse

/-- A key of 32 bytes. -/
def key32 : List Byte := List.replicate 32 7

/-- `Command.setChannel()` of the manager on the studio: the studio and whether the
command ended without error.  The writes go through the pointer that the map holds under
`cmd.ID`; `now` is the `time.Now()` of an instant expiry and `now1` the later one of
`AtUpdated` (writing `conf/channels.json` is not modelled). -/
def Command.setChannel (cmd : Command) (d : Studio) (now now1 : Time) : Studio × Bool :=
  match d.findChannelByID cmd.ID with
  | none => (d, false)
  | some p =>
    let finish := fun (d : Studio) =>
      ({ d with Channels := d.Channels.update cmd.ID (fun c => { c with AtUpdated := now1 }) },
        true)
    let put := fun (f : Channel → Channel) =>
      ({ d with Channels := d.Channels.update cmd.ID f } : Studio)
    if cmd.Opt = go "state" then
      if cmd.State = go "close" then
        if p.isState Using then finish (put (fun c => { c with State := Idle }))
        else finish d
      else finish d
    else if cmd.Opt = go "block" then
      if cmd.State = go "on" then finish (put (fun c => { c with Blocked := true }))
      else if cmd.State = go "off" then finish (put (fun c => { c with Blocked := false }))
      else finish d
    else if cmd.Opt = go "key" then
      if cmd.State = go "off" then finish (put (fun c => { c with StreamKey := [] }))
      else if cmd.Value ≠ [] then finish (put (fun c => { c with StreamKey := cmd.Value }))
      else finish d
    else if cmd.Opt = go "name" then
      if cmd.Value ≠ [] then finish (put (fun c => { c with Name := cmd.Value }))
      else (d, false)
    else if cmd.Opt = go "style" then
      if cmd.Style = go "static" then
        finish (put (fun c => { c with Style := cmd.Style, AtExpired := 0 }))
      else if cmd.Style = go "instant" then
        finish (put (fun c =>
          { c with Style := cmd.Style, AtExpired := now.Add TIME_EXPIRE_INSTANT }))
      else if cmd.Style = go "dynamic" then finish (put (fun c => { c with Style := cmd.Style }))
      else (put (fun c => { c with Style := cmd.Style }), false)
    else (d, false)

/-- A studio with two dynamic channels, `k1` named `x` and `k2` named `y`. -/
def studioXY : Studio :=
  { Channels := [(go "k1", { ID := go "k1", Name := go "x", Style := go "dynamic" }),
                 (go "k2", { ID := go "k2", Name := go "y", Style := go "dynamic" })] }

/-- The studio `studioXY` after the manager command that names the channel `k2` as `x`, at
the time 7: two dynamic channels named `x`. -/
def studioTwin : Studio :=
  { Channels := [(go "k1", { ID := go "k1", Name := go "x", Style := go "dynamic" }),
                 (go "k2", { ID := go "k2", Name := go "x", Style := go "dynamic",
                             AtUpdated := 7 })] }

/-- The track `t` of the source `s` of the channel `c` of the studio. -/
def Studio.trackOf (d : Studio) (c s t : GoString) : Option Track :=
  ((d.Channels.lookup c).bind (fun ch => ch.Sources.lookup s)).bind (fun so => so.Tracks.lookup t)

/-- What `handleBuffersByPangWSAPI` runs for the session `sid` of the floor on the track of
its request. -/
def Floor.loopOf (f : Floor) (sid : GoString) : Option Handling :=
  match f.active.find? (fun a => a.sid == sid), f.studio.Sessions.lookup sid with
  | some a, some s =>
    (f.studio.trackOf a.qo.Channel.ID a.qo.Source.Label a.qo.Track.Label).bind
      (fun trk => trk.handleBuffersByPangWSAPI s a.qo.Track.Mode)
  | _, _ => none

/-! # Theorems -/

/-! ## Lemmas on the ring -/

theorem Abs_eq_abs (x : Int) : Abs x = |x| := by
  unfold Abs
  split
  · rw [abs_of_neg (by assumption)]
  · rw [abs_of_nonneg (by omega)]

theorem writeSlotBody_eq (d : Buffer) (s : Slot)
    (h0 : 0 ≤ d.PosWrite) (h1 : d.PosWrite < d.SizeLen) (h2 : d.SizeLen ≤ d.Slots.length) :
    d.writeSlotBody s = some
      { d with Slots := d.Slots.set d.PosWrite.toNat s, PosRead := d.PosWrite,
               PosWrite := (d.PosWrite + 1) % d.SizeLen } := by
  have hlt : d.PosWrite < (d.Slots.length : Int) := lt_of_lt_of_le h1 h2
  have hne : d.SizeLen ≠ 0 := by omega
  have hmod : Int.tmod (d.PosWrite + 1) d.SizeLen = (d.PosWrite + 1) % d.SizeLen :=
    Int.tmod_eq_emod (by omega) (by omega)
  simp [Buffer.writeSlotBody, h0, hlt, hne, hmod]

theorem writeSlot_eq (d : Buffer) (s : Slot) (flock : Bool) (hfree : d.locked = false)
    (h0 : 0 ≤ d.PosWrite) (h1 : d.PosWrite < d.SizeLen) (h2 : d.SizeLen ≤ d.Slots.length) :
    d.writeSlot s flock = some
      { d with Slots := d.Slots.set d.PosWrite.toNat s, PosRead := d.PosWrite,
               PosWrite := (d.PosWrite + 1) % d.SizeLen } := by
  cases flock
  · simpa [Buffer.writeSlot] using writeSlotBody_eq d s h0 h1 h2
  · have hb := writeSlotBody_eq { d with locked := true } s h0 h1 h2
    simp only [Buffer.writeSlot, Buffer.Lock, hfree, if_true]
    simp [hb, Buffer.Unlock, hfree]

/-- C1. On a ring with `0 ≤ PosWrite < SizeLen ≤ len(Slots)` whose mutex is free,
`writeSlot(s, flock)` returns; the slot at the old `PosWrite` is `s`, `PosRead` is the old
`PosWrite`, `PosWrite` is `(old PosWrite + 1) mod SizeLen`, every other slot and every other
field (`SizeLen`, `SizeCap`, id, label, mime, the mutex) is as before, and the ring left
behind is the same for `flock = true` and `flock = false`. -/
theorem writeSlot_spec (d : Buffer) (s : Slot) (flock : Bool) (hfree : d.locked = false)
    (h0 : 0 ≤ d.PosWrite) (h1 : d.PosWrite < d.SizeLen) (h2 : d.SizeLen ≤ d.Slots.length) :
    ∃ d1, d.writeSlot s flock = some d1 ∧
      d1.Slots[d.PosWrite.toNat]? = some s ∧
      d1.PosRead = d.PosWrite ∧
      d1.PosWrite = (d.PosWrite + 1) % d.SizeLen ∧
      d1.Slots.length = d.Slots.length ∧
      (∀ i : Nat, i ≠ d.PosWrite.toNat → d1.Slots[i]? = d.Slots[i]?) ∧
      d1.SizeLen = d.SizeLen ∧ d1.SizeCap = d.SizeCap ∧
      d1.ID = d.ID ∧ d1.Label = d.Label ∧ d1.Mime = d.Mime ∧ d1.locked = d.locked ∧
      d.writeSlot s true = d.writeSlot s false := by
  refine ⟨_, writeSlot_eq d s flock hfree h0 h1 h2, ?_, rfl, rfl, ?_, ?_, rfl, rfl, rfl, rfl,
    rfl, rfl, ?_⟩
  · have hlt : d.PosWrite.toNat < d.Slots.length := by
      have : d.PosWrite < (d.Slots.length : Int) := lt_of_lt_of_le h1 h2
      omega
    simp [List.getElem?_set, hlt]
  · simp
  · intro i hi
    simp [List.getElem?_set, Ne.symm hi]
  · rw [writeSlot_eq d s true hfree h0 h1 h2, writeSlot_eq d s false hfree h0 h1 h2]

/-- Witness of C1: a write of `slotA` into the ring of 20 active slots at position 19. -/
theorem writeSlot_spec_witness :
    ∃ d1, (ringAt 19).writeSlot slotA true = some d1 ∧
      d1.Slots[(ringAt 19).PosWrite.toNat]? = some slotA ∧
      d1.PosRead = (ringAt 19).PosWrite ∧
      d1.PosWrite = ((ringAt 19).PosWrite + 1) % (ringAt 19).SizeLen ∧
      d1.Slots.length = (ringAt 19).Slots.length ∧
      (∀ i : Nat, i ≠ (ringAt 19).PosWrite.toNat → d1.Slots[i]? = (ringAt 19).Slots[i]?) ∧
      d1.SizeLen = (ringAt 19).SizeLen ∧ d1.SizeCap = (ringAt 19).SizeCap ∧
      d1.ID = (ringAt 19).ID ∧ d1.Label = (ringAt 19).Label ∧ d1.Mime = (ringAt 19).Mime ∧
      d1.locked = (ringAt 19).locked ∧
      (ringAt 19).writeSlot slotA true = (ringAt 19).writeSlot slotA false :=
  writeSlot_spec (ringAt 19) slotA true rfl (by decide) (by decide) (by decide)

theorem wrapInt64_eq (x : Int) (h0 : -2 ^ 63 ≤ x) (h1 : x < 2 ^ 63) : wrapInt64 x = x := by
  unfold wrapInt64
  rw [Int.emod_eq_of_lt (by omega) (by omega)]
  omega

theorem setReadPos64_eq (d : Buffer) (lpos : Int)
    (hd0 : -2 ^ 63 ≤ d.PosWrite - lpos) (hd1 : d.PosWrite - lpos < 2 ^ 63)
    (hn0 : -2 ^ 63 ≤ lpos + 1) (hn1 : lpos + 1 < 2 ^ 63) :
    d.setReadPos64 lpos = d.setReadPos lpos := by
  simp only [Buffer.setReadPos64, Buffer.setReadPos, wrapInt64_eq _ hd0 hd1,
    wrapInt64_eq _ hn0 hn1]

/-- C2, as stated, fails where the sum `last + 1` leaves the range of Go's `int`.  On the
ring of 20 active slots with `PosWrite = 2^63 - 2`, the cursor `2^63 - 1` has
`|PosWrite - last| = 1`, not above 2, yet `setReadPos(last)` is `-8` and not
`(last + 1) mod 20 = 8`: the sum wraps to `-2^63`. -/
theorem setReadPos_spec_counterexample :
    |ringTop.PosWrite - (2 ^ 63 - 1)| = 1 ∧ ringTop.SizeLen = 20 ∧
    ringTop.setReadPos64 (2 ^ 63 - 1) = some (-8, ringTop) ∧
    ((2 ^ 63 - 1 : Int) + 1) % 20 = 8 ∧ Int.tmod ((2 ^ 63 - 1 : Int) + 1) 20 = 8 ∧
    ringTop.setReadPos64 (2 ^ 63 - 1) ≠ some (((2 ^ 63 - 1 : Int) + 1) % 20, ringTop) := by
  decide

/-- C2, amended. For every ring and every cursor `last` for which the difference
`PosWrite - last` and the sum `last + 1` stay within Go's 64-bit `int`, as they do for
every cursor and write position inside a ring: `setReadPos(last)` returns `PosWrite` when
`|PosWrite - last| > 2`; otherwise, on a ring whose `SizeLen` is not zero, it returns
`(last + 1) % SizeLen` (Go's remainder, which is the mathematical `mod` when
`last + 1 ≥ 0` and `SizeLen > 0`).  In both cases the ring is left as it was. -/
theorem setReadPos_spec (d : Buffer) (last : Int)
    (hd0 : -2 ^ 63 < d.PosWrite - last) (hd1 : d.PosWrite - last < 2 ^ 63)
    (hn0 : -2 ^ 63 ≤ last + 1) (hn1 : last + 1 < 2 ^ 63) :
    (|d.PosWrite - last| > 2 → d.setReadPos64 last = some (d.PosWrite, d)) ∧
    (¬ |d.PosWrite - last| > 2 → d.SizeLen ≠ 0 →
      d.setReadPos64 last = some (Int.tmod (last + 1) d.SizeLen, d)) ∧
    (0 ≤ last + 1 → 0 < d.SizeLen → Int.tmod (last + 1) d.SizeLen = (last + 1) % d.SizeLen) ∧
    d.setReadPos64 last = d.setReadPos last := by
  have he := setReadPos64_eq d last (by omega) hd1 hn0 hn1
  refine ⟨?_, ?_, ?_, he⟩
  · intro h
    rw [he]
    simp [Buffer.setReadPos, Abs_eq_abs, BUFFER_GAP_SLOTS, h]
  · intro h hne
    rw [he]
    simp [Buffer.setReadPos, Abs_eq_abs, BUFFER_GAP_SLOTS, h, hne]
  · intro h hl
    exact Int.tmod_eq_emod h hl.le

/-- Witness of C2 (amended): cursors 3 and 9 against the write position 7 of a 20-slot
ring. -/
theorem setReadPos_spec_witness :
    (ringAt 7).setReadPos64 3 = some (7, ringAt 7) ∧
    (ringAt 7).setReadPos64 9 = some (10, ringAt 7) ∧
    Int.tmod (9 + 1) (ringAt 7).SizeLen = (9 + 1) % (ringAt 7).SizeLen ∧
    (ringAt 7).setReadPos64 9 = (ringAt 7).setReadPos 9 :=
  ⟨(setReadPos_spec (ringAt 7) 3 (by decide) (by decide) (by decide) (by decide)).1 (by decide),
   (setReadPos_spec (ringAt 7) 9 (by decide) (by decide) (by decide) (by decide)).2.1
     (by decide) (by decide),
   (setReadPos_spec (ringAt 7) 9 (by decide) (by decide) (by decide) (by decide)).2.2.1
     (by decide) (by decide),
   (setReadPos_spec (ringAt 7) 9 (by decide) (by decide) (by decide) (by decide)).2.2.2⟩

theorem setReadPos_eq (d : Buffer) (c : Int) (hL : 0 < d.SizeLen) (hc : 0 ≤ c) :
    d.setReadPos c =
      some (if |d.PosWrite - c| > 2 then d.PosWrite else (c + 1) % d.SizeLen, d) := by
  have hne : d.SizeLen ≠ 0 := by omega
  have hmod : Int.tmod (c + 1) d.SizeLen = (c + 1) % d.SizeLen :=
    Int.tmod_eq_emod (by omega) (by omega)
  by_cases h : |d.PosWrite - c| > 2
  · simp [Buffer.setReadPos, Abs_eq_abs, BUFFER_GAP_SLOTS, h]
  · simp [Buffer.setReadPos, Abs_eq_abs, BUFFER_GAP_SLOTS, h, hne, hmod]

/-- C3, as stated, fails where the write position has wrapped and the cursor has not.
In the ring of 20 active slots with `PosWrite = 1`, the cursor 19 lags by
`(1 - 19) mod 20 = 2`, yet `setReadPos(19)` is `1` and not `(19 + 1) mod 20 = 0`: slot 0 is
skipped.  With `PosWrite = 0`, the cursor 2 lags by `18 > 2`, yet `setReadPos(2)` is `3` and
not `PosWrite`. -/
theorem setReadPos_lag_counterexample :
    (2 ≤ (ringAt 1).SizeLen ∧ 0 ≤ (ringAt 1).PosWrite ∧ (ringAt 1).PosWrite < (ringAt 1).SizeLen ∧
      (0 : Int) ≤ 19 ∧ 19 < (ringAt 1).SizeLen ∧
      ((ringAt 1).PosWrite - 19) % (ringAt 1).SizeLen ≤ 2 ∧
      (ringAt 1).setReadPos 19 = some (1, ringAt 1) ∧
      (ringAt 1).setReadPos 19 ≠ some ((19 + 1) % (ringAt 1).SizeLen, ringAt 1)) ∧
    (2 ≤ (ringAt 0).SizeLen ∧ 0 ≤ (ringAt 0).PosWrite ∧ (ringAt 0).PosWrite < (ringAt 0).SizeLen ∧
      (0 : Int) ≤ 2 ∧ 2 < (ringAt 0).SizeLen ∧
      ((ringAt 0).PosWrite - 2) % (ringAt 0).SizeLen > 2 ∧
      (ringAt 0).setReadPos 2 = some (3, ringAt 0) ∧
      (ringAt 0).setReadPos 2 ≠ some ((ringAt 0).PosWrite, ringAt 0)) := by
  decide

/-- C3, amended.  On a ring of active length `L ≥ 2` with `PosWrite` and the cursor `c` in
`[0, L)`: when `c ≤ PosWrite` the lag `(PosWrite - c) mod L` is `PosWrite - c`, and
`setReadPos(c)` is `(c + 1) mod L` for a lag of at most 2 and `PosWrite` for a larger lag;
when `PosWrite < c` the test is on `c - PosWrite` in place of the lag: `(c + 1) mod L` when
`c - PosWrite ≤ 2`, `PosWrite` otherwise.  The ring is left as it was. -/
theorem setReadPos_lag (d : Buffer) (c : Int) (hL : 2 ≤ d.SizeLen)
    (hw0 : 0 ≤ d.PosWrite) (hw1 : d.PosWrite < d.SizeLen) (hc0 : 0 ≤ c) (hc1 : c < d.SizeLen) :
    (c ≤ d.PosWrite → (d.PosWrite - c) % d.SizeLen = d.PosWrite - c) ∧
    (c ≤ d.PosWrite → (d.PosWrite - c) % d.SizeLen ≤ 2 →
      d.setReadPos c = some ((c + 1) % d.SizeLen, d)) ∧
    (c ≤ d.PosWrite → (d.PosWrite - c) % d.SizeLen > 2 →
      d.setReadPos c = some (d.PosWrite, d)) ∧
    (d.PosWrite < c → c - d.PosWrite ≤ 2 → d.setReadPos c = some ((c + 1) % d.SizeLen, d)) ∧
    (d.PosWrite < c → c - d.PosWrite > 2 → d.setReadPos c = some (d.PosWrite, d)) := by
  have hlag : c ≤ d.PosWrite → (d.PosWrite - c) % d.SizeLen = d.PosWrite - c := fun h =>
    Int.emod_eq_of_lt (by omega) (by omega)
  rw [setReadPos_eq d c (by omega) hc0]
  refine ⟨hlag, ?_, ?_, ?_, ?_⟩
  · intro h hl
    rw [hlag h] at hl
    rw [if_neg]
    rw [abs_of_nonneg (by omega)]
    omega
  · intro h hl
    rw [hlag h] at hl
    rw [if_pos]
    rw [abs_of_nonneg (by omega)]
    omega
  · intro h hl
    rw [if_neg]
    rw [abs_of_neg (by omega)]
    omega
  · intro h hl
    rw [if_pos]
    rw [abs_of_neg (by omega)]
    omega

/-- Witness of the amended C3: write position 7, cursor 5, in the 20-slot ring. -/
theorem setReadPos_lag_witness :
    (((5 : Int) ≤ (ringAt 7).PosWrite → ((ringAt 7).PosWrite - 5) % (ringAt 7).SizeLen = (ringAt 7).PosWrite - 5) ∧
    ((5 : Int) ≤ (ringAt 7).PosWrite → ((ringAt 7).PosWrite - 5) % (ringAt 7).SizeLen ≤ 2 →
      (ringAt 7).setReadPos 5 = some ((5 + 1) % (ringAt 7).SizeLen, ringAt 7)) ∧
    ((5 : Int) ≤ (ringAt 7).PosWrite → ((ringAt 7).PosWrite - 5) % (ringAt 7).SizeLen > 2 →
      (ringAt 7).setReadPos 5 = some ((ringAt 7).PosWrite, ringAt 7)) ∧
    ((ringAt 7).PosWrite < 5 → 5 - (ringAt 7).PosWrite ≤ 2 →
      (ringAt 7).setReadPos 5 = some ((5 + 1) % (ringAt 7).SizeLen, ringAt 7)) ∧
    ((ringAt 7).PosWrite < 5 → 5 - (ringAt 7).PosWrite > 2 →
      (ringAt 7).setReadPos 5 = some ((ringAt 7).PosWrite, ringAt 7))) ∧
    (ringAt 7).setReadPos 5 = some (6, ringAt 7) :=
  ⟨setReadPos_lag (ringAt 7) 5 (by decide) (by decide) (by decide) (by decide) (by decide),
   by decide⟩

/-- C4, as stated, fails when the write wraps `PosWrite` to 0.  In the ring of 20 active
slots, after a write at `p = 19` the write position is 0; the cursor `c = 1` satisfies
`c ≤ p - 2`, yet `setReadPos(1)` is `2` and not the new `PosWrite`. -/
theorem writeSlot_setReadPos_counterexample :
    ∃ d1, (ringAt 19).writeSlot slotA false = some d1 ∧ d1.PosWrite = 0 ∧
      (2 ≤ (ringAt 19).SizeLen ∧ (0 : Int) ≤ 1 ∧ 1 < (ringAt 19).SizeLen ∧
        1 ≤ (ringAt 19).PosWrite - 2) ∧
      d1.setReadPos 1 = some (2, d1) ∧ d1.setReadPos 1 ≠ some (d1.PosWrite, d1) := by
  refine ⟨_, writeSlot_eq (ringAt 19) slotA false rfl (by decide) (by decide) (by decide), ?_⟩
  decide

/-- C4, amended.  On a ring of active length `L ≥ 2` with a free mutex, after `writeSlot`
stores a slot at `p = PosWrite` in `[0, L)`, for every cursor `c` in `[0, L)` with
`c ≤ p - 2` and, when the write wraps (`p = L - 1`), `c ≥ 3`: `setReadPos(c)` returns the
new `PosWrite`, which is `(p + 1) mod L`. -/
theorem writeSlot_setReadPos (d : Buffer) (s : Slot) (flock : Bool) (c : Int)
    (hfree : d.locked = false) (hL : 2 ≤ d.SizeLen) (hp0 : 0 ≤ d.PosWrite)
    (hp1 : d.PosWrite < d.SizeLen) (hlen : d.SizeLen ≤ d.Slots.length)
    (hc0 : 0 ≤ c) (hc1 : c < d.SizeLen) (hc : c ≤ d.PosWrite - 2)
    (hwrap : d.PosWrite + 1 < d.SizeLen ∨ 3 ≤ c) :
    ∃ d1, d.writeSlot s flock = some d1 ∧ d1.PosWrite = (d.PosWrite + 1) % d.SizeLen ∧
      d1.setReadPos c = some (d1.PosWrite, d1) := by
  refine ⟨_, writeSlot_eq d s flock hfree hp0 hp1 hlen, rfl, ?_⟩
  rw [setReadPos_eq _ c (by simpa using (by omega : 0 < d.SizeLen)) hc0]
  rw [if_pos]
  show |(d.PosWrite + 1) % d.SizeLen - c| > 2
  rcases hwrap with h | h
  · rw [Int.emod_eq_of_lt (by omega) h, abs_of_nonneg (by omega)]
    omega
  · have hpL : d.PosWrite + 1 = d.SizeLen ∨ d.PosWrite + 1 < d.SizeLen := by omega
    rcases hpL with e | e
    · rw [e, Int.emod_self, abs_of_neg (by omega)]
      omega
    · rw [Int.emod_eq_of_lt (by omega) e, abs_of_nonneg (by omega)]
      omega

/-- Witness of the amended C4: a write at position 10, the cursor at 4. -/
theorem writeSlot_setReadPos_witness :
    ∃ d1, (ringAt 10).writeSlot slotA true = some d1 ∧
      d1.PosWrite = ((ringAt 10).PosWrite + 1) % (ringAt 10).SizeLen ∧
      d1.setReadPos 4 = some (d1.PosWrite, d1) :=
  writeSlot_setReadPos (ringAt 10) slotA true 4 rfl (by decide) (by decide) (by decide)
    (by decide) (by decide) (by decide) (by decide) (Or.inl (by decide))

/-! ## RSSP over TCP -/

theorem toNat_ofNat_byte (n : Nat) : (UInt8.ofNat n).toNat = n % 256 := rfl

theorem slice_mid (a b c : List Byte) (lo hi : Nat) (hlo : lo = a.length)
    (hhi : hi = a.length + b.length) : slice (a ++ b ++ c) lo hi = some b := by
  subst hlo hhi
  simp [slice, List.take_append_eq_append_take, List.drop_append_eq_append_drop]

theorem putSlice_mid (a b c t : List Byte) (lo : Nat) (hlo : lo = a.length)
    (h : t.length = b.length) : putSlice (a ++ b ++ c) lo t = a ++ t ++ c := by
  subst hlo
  simp [putSlice, List.take_append_eq_append_take, List.drop_append_eq_append_drop, h]

theorem copy_same_length (dst src : List Byte) (h : dst.length = src.length) :
    copy dst src = src := by
  simp [copy, h]

theorem PutUint32_four (b : List Byte) (v : Nat) (h : b.length = 4) :
    PutUint32 b v = some [UInt8.ofNat (v / 2 ^ 24), UInt8.ofNat (v / 2 ^ 16),
      UInt8.ofNat (v / 2 ^ 8), UInt8.ofNat v] := by
  have : b.drop 4 = [] := List.drop_eq_nil_of_le (by omega)
  simp [PutUint32, h, this]

theorem TCPSendMessage_eq (pfx : GoString) (data : List Byte) (hp : pfx.length = 4)
    (hd : data.length < 2 ^ 32) :
    TCPSendMessage pfx data = some (pfx ++ [UInt8.ofNat (data.length / 2 ^ 24),
      UInt8.ofNat (data.length / 2 ^ 16), UInt8.ofNat (data.length / 2 ^ 8),
      UInt8.ofNat data.length] ++ data) := by
  have hmod : data.length % 2 ^ 32 = data.length := Nat.mod_eq_of_lt hd
  generalize hL : [UInt8.ofNat (data.length / 2 ^ 24),
      UInt8.ofNat (data.length / 2 ^ 16), UInt8.ofNat (data.length / 2 ^ 8),
      UInt8.ofNat data.length] = L
  have hLlen : L.length = 4 := by rw [← hL]; rfl
  have e0 : List.replicate (4 + 4 + data.length) (0 : Byte)
      = [] ++ List.replicate 4 0 ++ List.replicate (4 + data.length) 0 := by
    rw [List.nil_append, ← List.replicate_add]; congr 1; omega
  have e0b : [] ++ pfx ++ List.replicate (4 + data.length) (0 : Byte)
      = pfx ++ List.replicate 4 0 ++ List.replicate data.length 0 := by
    rw [List.nil_append, List.append_assoc, ← List.replicate_add]
  have e0c : pfx ++ L ++ List.replicate data.length (0 : Byte)
      = (pfx ++ L) ++ List.replicate data.length 0 ++ [] := by simp
  unfold TCPSendMessage
  simp only [hmod, Option.bind_eq_bind]
  rw [e0, slice_mid [] (List.replicate 4 0) _ 0 4 rfl (by simp), Option.some_bind,
    copy_same_length _ pfx (by simp [hp]),
    putSlice_mid [] (List.replicate 4 0) _ pfx 0 rfl (by simp [hp]), e0b,
    slice_mid pfx (List.replicate 4 0) _ 4 8 hp.symm (by simp [hp]), Option.some_bind,
    PutUint32_four _ _ (by simp), Option.some_bind, hL,
    putSlice_mid pfx (List.replicate 4 0) _ L 4 hp.symm (by simp [hLlen]), e0c,
    slice_mid (pfx ++ L) (List.replicate data.length 0) [] 8 _ (by simp [hp, hLlen])
      (by simp [hp, hLlen]; omega), Option.some_bind,
    copy_same_length _ data (by simp),
    putSlice_mid (pfx ++ L) (List.replicate data.length 0) [] data 8 (by simp [hp, hLlen])
      (by simp)]
  simp

theorem Uint32_PutUint32 (n : Nat) (h : n < 2 ^ 32) (t : List Byte) :
    Uint32 ([UInt8.ofNat (n / 2 ^ 24), UInt8.ofNat (n / 2 ^ 16), UInt8.ofNat (n / 2 ^ 8),
      UInt8.ofNat n] ++ t) = some n := by
  simp only [Uint32, List.cons_append, List.nil_append, toNat_ofNat_byte, Option.some.injEq]
  norm_num at h ⊢
  omega

theorem ReadFull_append (a rest : List Byte) (n : Nat) (h : a.length = n) :
    ReadFull (a ++ rest) n = (.ok a, rest) := by
  subst h
  unfold ReadFull
  by_cases h0 : a.length = 0
  · have : a = [] := List.length_eq_zero.mp h0
    subst this
    simp
  · have h1 : ¬ (a.length + rest.length = 0) := by omega
    simp [h0, h1]

theorem TCPRecvMessage_frame (pfx data rest : List Byte) (hp : pfx.length = 4)
    (hd : data.length < 2 ^ 32) :
    TCPRecvMessage (pfx ++ [UInt8.ofNat (data.length / 2 ^ 24),
      UInt8.ofNat (data.length / 2 ^ 16), UInt8.ofNat (data.length / 2 ^ 8),
      UInt8.ofNat data.length] ++ data ++ rest)
      = { pfx := pfx, data := data, err := none, rest := rest } := by
  unfold TCPRecvMessage
  rw [List.append_assoc, List.append_assoc, ReadFull_append pfx _ 4 hp]
  simp only []
  rw [ReadFull_append [UInt8.ofNat (data.length / 2 ^ 24),
      UInt8.ofNat (data.length / 2 ^ 16), UInt8.ofNat (data.length / 2 ^ 8),
      UInt8.ofNat data.length] _ 4 rfl]
  simp only []
  have := Uint32_PutUint32 data.length hd []
  rw [List.append_nil] at this
  rw [this]
  simp only []
  rw [ReadFull_append data rest _ rfl]

/-- C7. For every mark among `RTXT`, `RBIN`, `RCTL`, `REXT` and every `data` of at most
1 MiB (the empty one included), `TCPSendMessage(mark, data)` writes a message, and
`TCPRecvMessage` on exactly these bytes returns `(mark, data)` with no error and leaves no
input. -/
theorem TCP_roundtrip (mark : GoString) (data : List Byte)
    (hm : mark = RSSP_MARK_RTXT ∨ mark = RSSP_MARK_RBIN ∨ mark = RSSP_MARK_RCTL ∨
      mark = RSSP_MARK_REXT)
    (hd : data.length ≤ RSSP_MAX_DATA_SIZE) :
    ∃ message, TCPSendMessage mark data = some message ∧
      TCPRecvMessage message = { pfx := mark, data := data, err := none, rest := [] } := by
  have hp : mark.length = 4 := by
    rcases hm with h | h | h | h <;> subst h <;> rfl
  have hd2 : data.length < 2 ^ 32 := by
    have : RSSP_MAX_DATA_SIZE < 2 ^ 32 := by decide
    omega
  refine ⟨_, TCPSendMessage_eq mark data hp hd2, ?_⟩
  have := TCPRecvMessage_frame mark data [] hp hd2
  rwa [List.append_nil] at this

/-- Witness of C7: an empty `RBIN` message. -/
theorem TCP_roundtrip_witness :
    ∃ message, TCPSendMessage RSSP_MARK_RBIN [] = some message ∧
      TCPRecvMessage message = { pfx := RSSP_MARK_RBIN, data := [], err := none, rest := [] } :=
  TCP_roundtrip RSSP_MARK_RBIN [] (Or.inr (Or.inl rfl)) (by decide)

/-- C8. For every 4-byte mark and every `data` with `|data| < 2^32`, the message that
`TCPSendMessage` writes is `mark ++ len4 ++ data`, of `8 + |data|` bytes, where `len4` is
4 bytes whose big-endian value is `|data|`: bytes 0..3 are the mark, bytes 4..7 the length,
the bytes from 8 on are `data` unchanged. -/
theorem TCPSendMessage_layout (mark : GoString) (data : List Byte) (hm : mark.length = 4)
    (hd : data.length < 2 ^ 32) :
    ∃ message len4, TCPSendMessage mark data = some message ∧
      message = mark ++ len4 ++ data ∧ len4.length = 4 ∧ Uint32 len4 = some data.length ∧
      message.length = 8 + data.length ∧
      message.take 4 = mark ∧ (message.drop 4).take 4 = len4 ∧ message.drop 8 = data := by
  refine ⟨_, _, TCPSendMessage_eq mark data hm hd, rfl, rfl, ?_, ?_, ?_, ?_, ?_⟩
  · have := Uint32_PutUint32 data.length hd []
    rwa [List.append_nil] at this
  · simp [hm]; omega
  · simp [hm]
  · simp [hm]
  · simp [List.drop_append_eq_append_drop, hm]

/-- Witness of C8: the text message `hi`. -/
theorem TCPSendMessage_layout_witness :
    ∃ message len4, TCPSendMessage RSSP_MARK_RTXT [104, 105] = some message ∧
      message = RSSP_MARK_RTXT ++ len4 ++ [104, 105] ∧ len4.length = 4 ∧
      Uint32 len4 = some ([104, 105] : List Byte).length ∧
      message.length = 8 + ([104, 105] : List Byte).length ∧
      message.take 4 = RSSP_MARK_RTXT ∧ (message.drop 4).take 4 = len4 ∧
      message.drop 8 = [104, 105] :=
  TCPSendMessage_layout RSSP_MARK_RTXT [104, 105] rfl (by decide)

theorem ReadFull_ok (conn : List Byte) (n : Nat) (h : n ≤ conn.length) :
    ReadFull conn n = (.ok (conn.take n), conn.drop n) := by
  have := ReadFull_append (conn.take n) (conn.drop n) n (by simp [h])
  rwa [List.take_append_drop] at this

theorem ReadFull_short (conn : List Byte) (n : Nat) (h : conn.length < n) :
    ∃ e r, ReadFull conn n = (.error e, r) := by
  unfold ReadFull
  have h0 : n ≠ 0 := by omega
  by_cases hc : conn.length = 0
  · exact ⟨.EOF, conn, by simp [h0, hc]⟩
  · exact ⟨.ErrUnexpectedEOF, [], by simp [h0, hc, h]⟩

theorem Uint32_take (l : List Byte) : Uint32 (l.take 4) = Uint32 l := by
  match l with
  | [] => rfl
  | [_] => rfl
  | [_, _] => rfl
  | [_, _, _] => rfl
  | _ :: _ :: _ :: _ :: _ => rfl

theorem Uint32_some_length (l : List Byte) (n : Nat) (h : Uint32 l = some n) : 4 ≤ l.length := by
  match l, h with
  | _ :: _ :: _ :: _ :: _, _ => simp

theorem Uint32_of_length (l : List Byte) (h : 4 ≤ l.length) : ∃ n, Uint32 l = some n := by
  match l, h with
  | _ :: _ :: _ :: _ :: _, _ => exact ⟨_, rfl⟩

theorem TCPRecvMessage_complete (conn : List Byte) (n : Nat)
    (hn : Uint32 (conn.drop 4) = some n) (hlen : 8 + n ≤ conn.length) :
    TCPRecvMessage conn =
      { pfx := conn.take 4, data := (conn.drop 8).take n, err := none,
        rest := conn.drop (8 + n) } := by
  unfold TCPRecvMessage
  rw [ReadFull_ok conn 4 (by omega)]
  simp only []
  rw [ReadFull_ok (conn.drop 4) 4 (by simp; omega)]
  simp only []
  rw [Uint32_take, hn]
  simp only []
  rw [ReadFull_ok _ n (by simp; omega)]
  simp [Nat.add_comm]

theorem TCPRecvMessage_short (conn : List Byte)
    (h : ∀ n, Uint32 (conn.drop 4) = some n → conn.length < 8 + n) :
    (TCPRecvMessage conn).err ≠ none := by
  unfold TCPRecvMessage
  by_cases h4 : conn.length < 4
  · obtain ⟨e, r, he⟩ := ReadFull_short conn 4 h4
    rw [he]; simp
  · rw [ReadFull_ok conn 4 (by omega)]
    simp only []
    by_cases h8 : conn.length < 8
    · obtain ⟨e, r, he⟩ := ReadFull_short (conn.drop 4) 4 (by simp; omega)
      rw [he]; simp
    · rw [ReadFull_ok (conn.drop 4) 4 (by simp; omega)]
      simp only []
      obtain ⟨n, hn⟩ := Uint32_of_length (conn.drop 4) (by simp; omega)
      rw [Uint32_take, hn]
      simp only []
      obtain ⟨e, r, he⟩ := ReadFull_short (List.drop 4 (List.drop 4 conn)) n
        (by have := h n hn; simp; omega)
      rw [he]; simp

/-- C9, as stated, fails: `TCPRecvMessage` checks neither the mark nor the declared length.
The stream `XXXX`, length 1, byte 7 is returned without error as `("XXXX", [7])`, and one
pass of the publisher receive loop writes it into slot 0 of the ring and moves `PosWrite`
to 1; the stream `RTXT`, length 1025, then 1025 bytes is returned without error although
1025 exceeds `RSSP_MAX_TEXT_SIZE`. -/
theorem TCPRecvMessage_unchecked_counterexample :
    (([88, 88, 88, 88] : GoString) ≠ RSSP_MARK_RTXT ∧ ([88, 88, 88, 88] : GoString) ≠ RSSP_MARK_RBIN ∧
      ([88, 88, 88, 88] : GoString) ≠ RSSP_MARK_RCTL ∧ ([88, 88, 88, 88] : GoString) ≠ RSSP_MARK_REXT ∧
      TCPRecvMessage [88, 88, 88, 88, 0, 0, 0, 1, 7]
        = { pfx := [88, 88, 88, 88], data := [7], err := none, rest := [] } ∧
      (recvTrackBufferInTCPMessage.iter false (recvAt [88, 88, 88, 88, 0, 0, 0, 1, 7])).state?.map
        (fun st => (st.b.Slots[0]?, st.b.PosWrite)) = some (some slotX, 1)) ∧
    (RSSP_MAX_TEXT_SIZE < 1025 ∧
      TCPRecvMessage (RSSP_MARK_RTXT ++ [0, 0, 4, 1] ++ List.replicate 1025 0)
        = { pfx := RSSP_MARK_RTXT, data := List.replicate 1025 0, err := none, rest := [] }) := by
  refine ⟨by decide, by decide, ?_⟩
  have h := TCPRecvMessage_frame RSSP_MARK_RTXT (List.replicate 1025 0) [] rfl
    (by rw [List.length_replicate]; norm_num)
  rw [List.length_replicate, List.append_nil] at h
  exact h

/-- C9, amended.  `TCPRecvMessage` returns no error exactly when the stream holds 4 mark
bytes, 4 length bytes and the declared number `n` of payload bytes; it then returns the
first 4 bytes as the mark, whatever they are, and the `n` bytes after the header as the
data, whatever `n` is.  When it returns an error, the pass of the publisher receive loop
returns (with that error when session and channel are `Using`) and the ring is as before:
no slot is written for that frame. -/
theorem TCPRecvMessage_error_iff (conn : List Byte) :
    ((TCPRecvMessage conn).err = none ↔
      ∃ n, Uint32 (conn.drop 4) = some n ∧ 8 + n ≤ conn.length) ∧
    (∀ n, Uint32 (conn.drop 4) = some n → 8 + n ≤ conn.length →
      TCPRecvMessage conn =
        { pfx := conn.take 4, data := (conn.drop 8).take n, err := none,
          rest := conn.drop (8 + n) }) ∧
    (∀ (flock : Bool) (st : RecvState), st.conn = conn → (TCPRecvMessage conn).err ≠ none →
      ∃ st1 e, recvTrackBufferInTCPMessage.iter flock st = .done st1 e ∧ st1.b = st.b ∧
        (st.s.State = Using → st.s.chn.State = Using → e = (TCPRecvMessage conn).err)) := by
  refine ⟨⟨?_, ?_⟩, TCPRecvMessage_complete conn, ?_⟩
  · intro h
    by_contra hne
    exact TCPRecvMessage_short conn (fun n hn => by
      by_contra hlt
      exact hne ⟨n, hn, by omega⟩) h
  · rintro ⟨n, hn, hlen⟩
    rw [TCPRecvMessage_complete conn n hn hlen]
  · intro flock st hst herr
    subst hst
    unfold recvTrackBufferInTCPMessage.iter
    by_cases hu : (st.s.isState Using && st.s.chn.isState Using) = true
    · rw [if_pos hu]
      cases hr : (TCPRecvMessage st.conn).err with
      | none => exact absurd hr herr
      | some e =>
        simp only [hr]
        exact ⟨_, _, rfl, rfl, fun _ _ => rfl⟩
    · rw [if_neg hu]
      refine ⟨_, _, rfl, rfl, fun h1 h2 => ?_⟩
      exfalso
      apply hu
      simp [Session.isState, Channel.isState, h1, h2]

/-- Witness of the amended C9: an `RBIN` frame that declares 2 bytes and holds 1. -/
theorem TCPRecvMessage_error_iff_witness :
    (TCPRecvMessage [82, 66, 73, 78, 0, 0, 0, 2, 5]).err ≠ none ∧
    ∃ st1 e, recvTrackBufferInTCPMessage.iter true (recvAt [82, 66, 73, 78, 0, 0, 0, 2, 5])
        = .done st1 e ∧ st1.b = (recvAt [82, 66, 73, 78, 0, 0, 0, 2, 5]).b ∧
      (sessA.State = Using → sessA.chn.State = Using →
        e = (TCPRecvMessage [82, 66, 73, 78, 0, 0, 0, 2, 5]).err) :=
  ⟨by decide,
   (TCPRecvMessage_error_iff [82, 66, 73, 78, 0, 0, 0, 2, 5]).2.2 true
     (recvAt [82, 66, 73, 78, 0, 0, 0, 2, 5]) rfl (by decide)⟩

/-! ## RSSP over UDP -/

theorem UDPSendMessage_eq (suffix : GoString) (data : List Byte) (hs : suffix.length = 4)
    (hd : data.length + 8 < 2 ^ 32) :
    UDPSendMessage suffix data =
      (let message := data ++ [UInt8.ofNat (data.length / 2 ^ 24),
          UInt8.ofNat (data.length / 2 ^ 16), UInt8.ofNat (data.length / 2 ^ 8),
          UInt8.ofNat data.length] ++ suffix
       let r := UDPSendMessage.loop message.length message
       if r.2.length > 0 then some (r.1 ++ [r.2]) else some r.1) := by
  have hmod : data.length % 2 ^ 32 = data.length := Nat.mod_eq_of_lt (by omega)
  have hmod4 : (data.length + 4) % 2 ^ 32 = data.length + 4 := Nat.mod_eq_of_lt (by omega)
  have hmod8 : (data.length + 8) % 2 ^ 32 = data.length + 8 := Nat.mod_eq_of_lt (by omega)
  generalize hL : [UInt8.ofNat (data.length / 2 ^ 24),
      UInt8.ofNat (data.length / 2 ^ 16), UInt8.ofNat (data.length / 2 ^ 8),
      UInt8.ofNat data.length] = L
  have hLlen : L.length = 4 := by rw [← hL]; rfl
  have e0 : List.replicate (data.length + 4 + 4) (0 : Byte)
      = [] ++ List.replicate data.length 0 ++ (List.replicate 4 0 ++ List.replicate 4 0) := by
    rw [List.nil_append, ← List.replicate_add, ← List.replicate_add]
  have e0b : [] ++ data ++ (List.replicate 4 (0 : Byte) ++ List.replicate 4 0)
      = data ++ List.replicate 4 0 ++ List.replicate 4 0 := by simp
  have e0c : data ++ L ++ List.replicate 4 (0 : Byte)
      = (data ++ L) ++ List.replicate 4 0 ++ [] := by simp
  unfold UDPSendMessage
  simp only [hmod, hmod4, hmod8, Option.bind_eq_bind]
  rw [e0, slice_mid [] (List.replicate data.length 0) _ 0 data.length rfl (by simp),
    Option.some_bind, copy_same_length _ data (by simp),
    putSlice_mid [] (List.replicate data.length 0) _ data 0 rfl (by simp), e0b,
    slice_mid data (List.replicate 4 0) _ data.length (data.length + 4) rfl (by simp),
    Option.some_bind, PutUint32_four _ _ (by simp), Option.some_bind, hL,
    putSlice_mid data (List.replicate 4 0) _ L data.length rfl (by simp [hLlen]), e0c,
    slice_mid (data ++ L) (List.replicate 4 0) [] (data.length + 4) (data.length + 8)
      (by simp [hLlen]) (by simp [hLlen]), Option.some_bind,
    copy_same_length _ suffix (by simp [hs]),
    putSlice_mid (data ++ L) (List.replicate 4 0) [] suffix (data.length + 4)
      (by simp [hLlen]) (by simp [hs])]
  simp

theorem drop_append_tail (acc dg : List Byte) (h : 4 ≤ dg.length) :
    (acc ++ dg).drop ((acc ++ dg).length - 4) = dg.drop (dg.length - 4) := by
  rw [List.length_append, List.drop_append_eq_append_drop]
  have h1 : acc.length + dg.length - 4 - acc.length = dg.length - 4 := by omega
  have h2 : acc.drop (acc.length + dg.length - 4) = [] :=
    List.drop_eq_nil_of_le (by omega)
  rw [h1, h2, List.nil_append]

theorem UDPRecvMessage_loop_chunks (rest : List (List Byte)) :
    ∀ (fuel : Nat) (m acc : List Byte), m.length ≤ fuel →
      (∀ dg ∈ (UDPSendMessage.loop fuel m).1,
        dg.drop (dg.length - 4) ≠ RSSP_MARK_RBIN ∧ dg.drop (dg.length - 4) ≠ RSSP_MARK_RTXT) →
      ∃ pre, pre ++ (UDPSendMessage.loop fuel m).2 = m ∧
        (UDPSendMessage.loop fuel m).2.length ≤ RSSP_UDP_MSG_SIZE ∧
        (0 < m.length → 0 < (UDPSendMessage.loop fuel m).2.length) ∧
        UDPRecvMessage.loop acc ((UDPSendMessage.loop fuel m).1 ++ rest)
          = UDPRecvMessage.loop (acc ++ pre) rest := by
  intro fuel
  induction fuel with
  | zero =>
    intro m acc hm _
    have : m = [] := List.length_eq_zero.mp (by omega)
    subst this
    exact ⟨[], by simp [UDPSendMessage.loop]⟩
  | succ fuel ih =>
    intro m acc hm hclean
    by_cases hbig : m.length > RSSP_UDP_MSG_SIZE
    · have hloop : UDPSendMessage.loop (fuel + 1) m
          = (m.take RSSP_UDP_MSG_SIZE :: (UDPSendMessage.loop fuel (m.drop RSSP_UDP_MSG_SIZE)).1,
             (UDPSendMessage.loop fuel (m.drop RSSP_UDP_MSG_SIZE)).2) := by
        simp [UDPSendMessage.loop, hbig]
      rw [hloop] at hclean ⊢
      have hsz : RSSP_UDP_MSG_SIZE = 1472 := rfl
      have htl : (m.take RSSP_UDP_MSG_SIZE).length = 1472 := by
        rw [List.length_take]; omega
      obtain ⟨pre, hpre, hlen, hpos, hrec⟩ :=
        ih (m.drop RSSP_UDP_MSG_SIZE) (acc ++ m.take RSSP_UDP_MSG_SIZE)
          (by rw [List.length_drop]; omega)
          (fun dg hdg => hclean dg (List.mem_cons_of_mem _ hdg))
      refine ⟨m.take RSSP_UDP_MSG_SIZE ++ pre, ?_, hlen, ?_, ?_⟩
      · rw [List.append_assoc, hpre, List.take_append_drop]
      · intro _
        exact hpos (by rw [List.length_drop]; omega)
      · have hc := hclean (m.take RSSP_UDP_MSG_SIZE) (List.mem_cons_self _ _)
        have htk : (m.take RSSP_UDP_MSG_SIZE).take RSSP_MAX_DATA_SIZE = m.take RSSP_UDP_MSG_SIZE :=
          List.take_of_length_le (by rw [htl]; decide)
        have hgt : (acc ++ m.take RSSP_UDP_MSG_SIZE).length > 8 := by
          rw [List.length_append, htl]; omega
        have hsuf := drop_append_tail acc (m.take RSSP_UDP_MSG_SIZE) (by rw [htl]; omega)
        show UDPRecvMessage.loop acc (m.take RSSP_UDP_MSG_SIZE ::
            ((UDPSendMessage.loop fuel (m.drop RSSP_UDP_MSG_SIZE)).1 ++ rest)) = _
        rw [UDPRecvMessage.loop]
        simp only [htk, hgt, if_true, RSSP_MARK_SIZE, hsuf, hc.1, hc.2, or_self, if_false]
        rw [hrec, List.append_assoc]
    · have hloop : UDPSendMessage.loop (fuel + 1) m = ([], m) := by
        simp [UDPSendMessage.loop, hbig]
      rw [hloop]
      exact ⟨[], by simp, by simpa using hbig, fun h => h, by simp⟩

theorem UDPRecvMessage_loop_last (mark data L pre last : List Byte) (more : List (List Byte))
    (hm : mark = RSSP_MARK_RBIN ∨ mark = RSSP_MARK_RTXT) (hL : L.length = 4)
    (h1 : 1 ≤ data.length) (hpre : pre ++ last = data ++ L ++ mark)
    (hlast : last.length ≤ RSSP_UDP_MSG_SIZE) :
    UDPRecvMessage.loop pre (last :: more) = .ok (mark, data ++ L ++ mark, more) := by
  have hml : mark.length = 4 := by rcases hm with h | h <;> subst h <;> rfl
  have htk : last.take RSSP_MAX_DATA_SIZE = last :=
    List.take_of_length_le (le_trans hlast (by decide))
  have hgt : (data ++ L ++ mark).length > 8 := by
    simp only [List.length_append, hL, hml]; omega
  have hsuf : (data ++ L ++ mark).drop ((data ++ L ++ mark).length - 4) = mark := by
    rw [drop_append_tail (data ++ L) mark (by omega), hml]
    simp
  rw [UDPRecvMessage.loop]
  simp only [htk, hpre, hgt, if_true, RSSP_MARK_SIZE, hsuf]
  rw [if_pos (by rcases hm with h | h <;> simp [h])]

theorem UDPRecvMessage_of_loop (mark data L : List Byte) (conn more : List (List Byte))
    (hL : L.length = 4) (hml : mark.length = 4) (n : Nat) (hn : Uint32 L = some n)
    (h : UDPRecvMessage.loop [] conn = .ok (mark, data ++ L ++ mark, more)) :
    UDPRecvMessage conn = some { suffix := mark, data := data, err := none, rest := more } := by
  unfold UDPRecvMessage
  rw [h]
  simp only [Option.bind_eq_bind]
  rw [slice_mid data L mark _ _ (by simp [hL, hml]) (by simp [hL, hml]),
    Option.some_bind, hn, Option.some_bind]
  have e : data ++ L ++ mark = [] ++ data ++ (L ++ mark) := by simp
  rw [e, slice_mid [] data (L ++ mark) 0 _ rfl (by simp [hL, hml]), Option.some_bind]
  rfl

theorem UDPSendMessage_loop_pieces :
    ∀ (fuel : Nat) (m : List Byte), m.length ≤ fuel →
      (UDPSendMessage.loop fuel m).1.flatten ++ (UDPSendMessage.loop fuel m).2 = m ∧
      (∀ dg ∈ (UDPSendMessage.loop fuel m).1, dg.length = RSSP_UDP_MSG_SIZE) ∧
      (UDPSendMessage.loop fuel m).2.length ≤ RSSP_UDP_MSG_SIZE ∧
      (0 < m.length → 0 < (UDPSendMessage.loop fuel m).2.length) := by
  intro fuel
  induction fuel with
  | zero =>
    intro m hm
    have : m = [] := List.length_eq_zero.mp (by omega)
    subst this
    simp [UDPSendMessage.loop]
  | succ fuel ih =>
    intro m hm
    by_cases hbig : m.length > RSSP_UDP_MSG_SIZE
    · have hsz : RSSP_UDP_MSG_SIZE = 1472 := rfl
      obtain ⟨h1, h2, h3, h4⟩ := ih (m.drop RSSP_UDP_MSG_SIZE) (by rw [List.length_drop]; omega)
      have hloop : UDPSendMessage.loop (fuel + 1) m
          = (m.take RSSP_UDP_MSG_SIZE :: (UDPSendMessage.loop fuel (m.drop RSSP_UDP_MSG_SIZE)).1,
             (UDPSendMessage.loop fuel (m.drop RSSP_UDP_MSG_SIZE)).2) := by
        simp [UDPSendMessage.loop, hbig]
      rw [hloop]
      refine ⟨?_, ?_, h3, fun _ => h4 (by rw [List.length_drop]; omega)⟩
      · simp only [List.flatten_cons, List.append_assoc, h1, List.take_append_drop]
      · intro dg hdg
        rcases List.mem_cons.mp hdg with h | h
        · rw [h, List.length_take]; omega
        · exact h2 dg h
    · have hloop : UDPSendMessage.loop (fuel + 1) m = ([], m) := by
        simp [UDPSendMessage.loop, hbig]
      rw [hloop]
      exact ⟨by simp, by simp, by simpa using hbig, fun h => h⟩

/-- C10, amended.  For every suffix mark among `RBIN`, `RTXT` and every `data` with
`1 ≤ |data| ≤ 1 MiB` such that no datagram but the last ends in the four bytes `RBIN` or
`RTXT`: `UDPSendMessage` produces datagrams of at most 1472 bytes whose concatenation is
`data ++ len4 ++ mark`, `len4` being `|data|` in 4 big-endian bytes, and `UDPRecvMessage`,
given them in order and then any later datagrams `more`, consumes exactly them and returns
`(mark, data)` without error. -/
theorem UDP_roundtrip (mark : GoString) (data : List Byte) (more : List (List Byte))
    (hm : mark = RSSP_MARK_RBIN ∨ mark = RSSP_MARK_RTXT)
    (h1 : 1 ≤ data.length) (hd : data.length ≤ RSSP_MAX_DATA_SIZE)
    (hclean : ∀ dgs, UDPSendMessage mark data = some dgs →
      ∀ dg ∈ dgs.dropLast, dg.drop (dg.length - 4) ≠ RSSP_MARK_RBIN ∧
        dg.drop (dg.length - 4) ≠ RSSP_MARK_RTXT) :
    ∃ dgs len4, UDPSendMessage mark data = some dgs ∧
      dgs.flatten = data ++ len4 ++ mark ∧ len4.length = 4 ∧ Uint32 len4 = some data.length ∧
      (∀ dg ∈ dgs, dg.length ≤ RSSP_UDP_MSG_SIZE) ∧
      UDPRecvMessage (dgs ++ more)
        = some { suffix := mark, data := data, err := none, rest := more } := by
  have hml : mark.length = 4 := by rcases hm with h | h <;> subst h <;> rfl
  have hmax : RSSP_MAX_DATA_SIZE = 1048576 := rfl
  have hd2 : data.length + 8 < 2 ^ 32 := by norm_num; omega
  have hsend := UDPSendMessage_eq mark data hml hd2
  have hU := Uint32_PutUint32 data.length (by omega) []
  rw [List.append_nil] at hU
  generalize hL : [UInt8.ofNat (data.length / 2 ^ 24),
      UInt8.ofNat (data.length / 2 ^ 16), UInt8.ofNat (data.length / 2 ^ 8),
      UInt8.ofNat data.length] = L at hsend hU
  have hLlen : L.length = 4 := by rw [← hL]; rfl
  simp only [] at hsend
  have hmpos : 0 < (data ++ L ++ mark).length := by
    simp only [List.length_append]; omega
  obtain ⟨hj, hlens, hlast, hpos⟩ := UDPSendMessage_loop_pieces (data ++ L ++ mark).length
    (data ++ L ++ mark) le_rfl
  rw [if_pos (hpos hmpos)] at hsend
  have hclean1 := hclean _ hsend
  refine ⟨_, L, hsend, ?_, hLlen, hU, ?_, ?_⟩
  · rw [List.flatten_append]
    simpa using hj
  · intro dg hdg
    rcases List.mem_append.mp hdg with h | h
    · exact (hlens dg h).le
    · rw [List.mem_singleton] at h
      rw [h]; exact hlast
  · rw [List.dropLast_concat] at hclean1
    obtain ⟨pre, hpre, _, _, hrec⟩ := UDPRecvMessage_loop_chunks
      ((UDPSendMessage.loop (data ++ L ++ mark).length (data ++ L ++ mark)).2 :: more)
      (data ++ L ++ mark).length (data ++ L ++ mark) [] le_rfl hclean1
    apply UDPRecvMessage_of_loop mark data L _ more hLlen hml _ hU
    rw [List.append_assoc, List.singleton_append, hrec, List.nil_append]
    exact UDPRecvMessage_loop_last mark data L pre _ more hm hLlen h1 hpre hlast

/-- Witness of the amended C10: the payload `[1, 2, 3]`, one datagram. -/
theorem UDP_roundtrip_witness :
    ∃ dgs len4, UDPSendMessage RSSP_MARK_RBIN [1, 2, 3] = some dgs ∧
      dgs.flatten = [1, 2, 3] ++ len4 ++ RSSP_MARK_RBIN ∧ len4.length = 4 ∧
      Uint32 len4 = some ([1, 2, 3] : List Byte).length ∧
      (∀ dg ∈ dgs, dg.length ≤ RSSP_UDP_MSG_SIZE) ∧
      UDPRecvMessage (dgs ++ [])
        = some { suffix := RSSP_MARK_RBIN, data := [1, 2, 3], err := none, rest := [] } :=
  UDP_roundtrip RSSP_MARK_RBIN [1, 2, 3] [] (Or.inl rfl) (by decide) (by decide)
    (fun dgs h dg hdg => by
      have e : UDPSendMessage RSSP_MARK_RBIN [1, 2, 3]
          = some [[1, 2, 3, 0, 0, 0, 3, 82, 66, 73, 78]] := by decide
      rw [e] at h
      cases h
      simp at hdg)

theorem UDPSendMessage_two (suffix : GoString) (data : List Byte) (hs : suffix.length = 4)
    (hd : data.length = RSSP_UDP_MSG_SIZE) :
    UDPSendMessage suffix data = some [data, [UInt8.ofNat (data.length / 2 ^ 24),
      UInt8.ofNat (data.length / 2 ^ 16), UInt8.ofNat (data.length / 2 ^ 8),
      UInt8.ofNat data.length] ++ suffix] := by
  have hsz : RSSP_UDP_MSG_SIZE = 1472 := rfl
  rw [UDPSendMessage_eq suffix data hs (by rw [hd, hsz]; norm_num)]
  generalize hL : [UInt8.ofNat (data.length / 2 ^ 24),
      UInt8.ofNat (data.length / 2 ^ 16), UInt8.ofNat (data.length / 2 ^ 8),
      UInt8.ofNat data.length] = L
  have hLlen : L.length = 4 := by rw [← hL]; rfl
  have hlen : (data ++ L ++ suffix).length = 1478 + 1 + 1 := by
    simp only [List.length_append, hd, hLlen, hs, hsz]
  have htake : (data ++ L ++ suffix).take RSSP_UDP_MSG_SIZE = data := by
    rw [List.append_assoc, ← hd, List.take_left]
  have hdrop : (data ++ L ++ suffix).drop RSSP_UDP_MSG_SIZE = L ++ suffix := by
    rw [List.append_assoc, ← hd, List.drop_left]
  have h8 : ¬ (L ++ suffix).length > RSSP_UDP_MSG_SIZE := by
    simp only [List.length_append, hLlen, hs, hsz]; omega
  have hgt : (data ++ L ++ suffix).length > RSSP_UDP_MSG_SIZE := by
    rw [hlen, hsz]; omega
  have hloop : UDPSendMessage.loop (1478 + 1 + 1) (data ++ L ++ suffix)
      = ([data], L ++ suffix) := by
    rw [UDPSendMessage.loop, if_pos hgt, htake, hdrop, UDPSendMessage.loop, if_neg h8]
  simp only [hlen, hloop]
  rw [if_pos (by simp only [List.length_append, hLlen, hs]; omega)]
  rfl

/-- C10, as stated, fails.  An empty payload gives the single datagram `len4 ++ RBIN` of 8
bytes; the receiver looks for the suffix only when it holds more than 8 bytes, so it reads
on and ends in the read error.  The payload of 1472 bytes that ends in `RBIN`, sent with
the mark `RTXT`, fills the first datagram; the receiver finds `RBIN` at its end and returns
`(RBIN, the first 1464 bytes)`, and the second datagram stays unread. -/
theorem UDP_roundtrip_counterexample :
    (UDPSendMessage RSSP_MARK_RBIN [] = some [[0, 0, 0, 0, 82, 66, 73, 78]] ∧
      UDPRecvMessage [[0, 0, 0, 0, 82, 66, 73, 78]]
        = some { suffix := [], data := [], err := some .timeout, rest := [] }) ∧
    (UDPSendMessage RSSP_MARK_RTXT (List.replicate 1464 5 ++ [5, 5, 5, 5] ++ RSSP_MARK_RBIN)
        = some [List.replicate 1464 5 ++ [5, 5, 5, 5] ++ RSSP_MARK_RBIN,
                [0, 0, 5, 192, 82, 84, 88, 84]] ∧
      UDPRecvMessage [List.replicate 1464 5 ++ [5, 5, 5, 5] ++ RSSP_MARK_RBIN,
                [0, 0, 5, 192, 82, 84, 88, 84]]
        = some { suffix := RSSP_MARK_RBIN, data := List.replicate 1464 5, err := none,
                 rest := [[0, 0, 5, 192, 82, 84, 88, 84]] }) := by
  have hlen : (List.replicate 1464 (5 : Byte) ++ [5, 5, 5, 5] ++ RSSP_MARK_RBIN).length = 1472 := by
    simp only [List.length_append, List.length_replicate]; rfl
  refine ⟨by decide, ?_, ?_⟩
  · have h := UDPSendMessage_two RSSP_MARK_RTXT
      (List.replicate 1464 5 ++ [5, 5, 5, 5] ++ RSSP_MARK_RBIN) rfl hlen
    rw [hlen] at h
    exact h
  · apply UDPRecvMessage_of_loop RSSP_MARK_RBIN (List.replicate 1464 5) [5, 5, 5, 5] _ _ rfl rfl
      _ rfl
    exact UDPRecvMessage_loop_last RSSP_MARK_RBIN (List.replicate 1464 5) [5, 5, 5, 5] [] _ _
      (Or.inl rfl) rfl (by rw [List.length_replicate]; omega) (List.nil_append _)
      (by rw [hlen]; decide)

/-! ## Subscriber send loops: self-echo suppression -/

theorem readSlotByPos_eq (b : Buffer) (pos : Int) (bs : Slot) (h0 : 0 ≤ pos)
    (h : b.Slots[pos.toNat]? = some bs) : b.readSlotByPos pos = some (bs, b) := by
  simp [Buffer.readSlotByPos, h0, h]

theorem session_using (e : SendEnv) (s : Session) (hs : e.sState = Using) (hc : e.cState = Using) :
    ((e.session s).isState Using && (e.session s).chn.isState Using) = true := by
  simp [SendEnv.session, Session.isState, Channel.isState, hs, hc]

theorem setReadPos_ne (b : Buffer) (c : Int) (hL : 2 ≤ b.SizeLen) (hc0 : 0 ≤ c)
    (hc1 : c < b.SizeLen) (hne : c ≠ b.PosWrite) :
    (if |b.PosWrite - c| > 2 then b.PosWrite else (c + 1) % b.SizeLen) ≠ c := by
  split
  · exact fun h => hne h.symm
  · intro h
    by_cases hw : c + 1 < b.SizeLen
    · rw [Int.emod_eq_of_lt (by omega) hw] at h
      omega
    · have : c + 1 = b.SizeLen := by omega
      rw [this, Int.emod_self] at h
      omega

theorem sendWS_iter_spec (fout : Bool) (e : SendEnv) (st : SendState) (bs : Slot)
    (hs : e.sState = Using) (hc : e.cState = Using) (hL : 2 ≤ e.b.SizeLen)
    (hc0 : 0 ≤ st.lpos) (hc1 : st.lpos < e.b.SizeLen) (hne : st.lpos ≠ e.b.PosWrite)
    (hslot : e.b.Slots[st.lpos.toNat]? = some bs) :
    (∀ st1, (sendTrackBufferInWSMessage.iter fout e st).state? = some st1 →
      st1.out = st.out ∨ (bs.Head ≠ some st.s.ID ∧
        st1.out = st.out ++ [{ src := some bs, wire := .ws bs.FrameType bs.Data }])) ∧
    (bs.Head = some st.s.ID →
      ∃ st1, sendTrackBufferInWSMessage.iter fout e st = .next st1 ∧ st1.out = st.out ∧
        st1.s.OutBytes = st.s.OutBytes ∧ st1.s.trk.OutBytes = st.s.trk.OutBytes ∧
        st1.s.chn.OutBytes = st.s.chn.OutBytes ∧
        st1.lpos = (if |e.b.PosWrite - st.lpos| > 2 then e.b.PosWrite
          else (st.lpos + 1) % e.b.SizeLen) ∧
        st1.lpos ≠ st.lpos) := by
  have hU := session_using e st.s hs hc
  have hR := readSlotByPos_eq e.b st.lpos bs hc0 hslot
  have hS := setReadPos_eq e.b st.lpos (by omega) hc0
  have hN := setReadPos_ne e.b st.lpos hL hc0 hc1 hne
  have hid : (e.session st.s).ID = st.s.ID := rfl
  constructor
  · intro st1 h
    simp only [sendTrackBufferInWSMessage.iter, hU, if_true, hne, if_false, hR, hS, hid] at h
    cases hh : bs.Head with
    | none => simp [hh, Outcome.state?] at h
    | some head =>
      simp only [hh] at h
      by_cases heq : head = st.s.ID
      · simp only [heq, ne_eq, not_true_eq_false, if_false, Outcome.state?,
          Option.some.injEq] at h
        left; rw [← h]
      · simp only [ne_eq, heq, not_false_eq_true, if_true] at h
        cases hw : e.wok with
        | true =>
          simp only [hw, if_true, Outcome.state?, Option.some.injEq] at h
          right
          exact ⟨fun hx => heq (Option.some.inj hx), by rw [← h]⟩
        | false =>
          simp only [hw, Bool.false_eq_true, if_false, Outcome.state?, Option.some.injEq] at h
          left; rw [← h]
  · intro hh
    simp only [sendTrackBufferInWSMessage.iter, hU, if_true, hne, if_false, hR, hS, hid, hh,
      ne_eq, not_true_eq_false]
    exact ⟨_, rfl, rfl, rfl, rfl, rfl, rfl, hN⟩

theorem sendTCP_iter_spec (fout : Bool) (e : SendEnv) (st : SendState) (bs : Slot)
    (hs : e.sState = Using) (hc : e.cState = Using) (hL : 2 ≤ e.b.SizeLen)
    (hc0 : 0 ≤ st.lpos) (hc1 : st.lpos < e.b.SizeLen) (hne : st.lpos ≠ e.b.PosWrite)
    (hslot : e.b.Slots[st.lpos.toNat]? = some bs) :
    (∀ st1, (sendTrackBufferInTCPMessage.iter fout e st).state? = some st1 →
      st1.out = st.out ∨ (bs.Head ≠ some st.s.ID ∧
        ∃ message, TCPSendMessage bs.Mark bs.Data = some message ∧
          st1.out = st.out ++ [{ src := some bs, wire := .tcp message }])) ∧
    (bs.Head = some st.s.ID →
      ∃ st1, sendTrackBufferInTCPMessage.iter fout e st = .next st1 ∧ st1.out = st.out ∧
        st1.s.OutBytes = st.s.OutBytes ∧ st1.s.trk.OutBytes = st.s.trk.OutBytes ∧
        st1.s.chn.OutBytes = st.s.chn.OutBytes ∧
        st1.lpos = (if |e.b.PosWrite - st.lpos| > 2 then e.b.PosWrite
          else (st.lpos + 1) % e.b.SizeLen) ∧
        st1.lpos ≠ st.lpos) := by
  have hU := session_using e st.s hs hc
  have hR := readSlotByPos_eq e.b st.lpos bs hc0 hslot
  have hS := setReadPos_eq e.b st.lpos (by omega) hc0
  have hN := setReadPos_ne e.b st.lpos hL hc0 hc1 hne
  have hid : (e.session st.s).ID = st.s.ID := rfl
  constructor
  · intro st1 h
    simp only [sendTrackBufferInTCPMessage.iter, hU, if_true, hne, if_false, hR, hS, hid] at h
    cases hh : bs.Head with
    | none => simp [hh, Outcome.state?] at h
    | some head =>
      simp only [hh] at h
      by_cases heq : head = st.s.ID
      · simp only [heq, ne_eq, not_true_eq_false, if_false, Outcome.state?,
          Option.some.injEq] at h
        left; rw [← h]
      · simp only [ne_eq, heq, not_false_eq_true, if_true] at h
        cases hm : TCPSendMessage bs.Mark bs.Data with
        | none => simp [hm, Outcome.state?] at h
        | some message =>
          simp only [hm] at h
          cases hw : e.wok with
          | true =>
            simp only [hw, if_true, Outcome.state?, Option.some.injEq] at h
            right
            exact ⟨fun hx => heq (Option.some.inj hx), message, rfl, by rw [← h]⟩
          | false =>
            simp only [hw, Bool.false_eq_true, if_false, Outcome.state?, Option.some.injEq] at h
            left; rw [← h]
  · intro hh
    simp only [sendTrackBufferInTCPMessage.iter, hU, if_true, hne, if_false, hR, hS, hid, hh,
      ne_eq, not_true_eq_false]
    exact ⟨_, rfl, rfl, rfl, rfl, rfl, rfl, hN⟩

theorem sendUDP_iter_spec (fout : Bool) (e : SendEnv) (st : SendState) (bs : Slot)
    (hs : e.sState = Using) (hc : e.cState = Using) (hL : 2 ≤ e.b.SizeLen)
    (hc0 : 0 ≤ st.lpos) (hc1 : st.lpos < e.b.SizeLen) (hne : st.lpos ≠ e.b.PosWrite)
    (hslot : e.b.Slots[st.lpos.toNat]? = some bs) :
    (∀ st1, (sendTrackBufferInUDPMessage.iter fout e st).state? = some st1 →
      st1.out = st.out ∨ (bs.Head ≠ some st.s.ID ∧
        st1.out = st.out ++ [{ src := some bs, wire := .udp bs.Data }])) ∧
    (bs.Head = some st.s.ID →
      ∃ st1, sendTrackBufferInUDPMessage.iter fout e st = .next st1 ∧ st1.out = st.out ∧
        st1.s.OutBytes = st.s.OutBytes ∧ st1.s.trk.OutBytes = st.s.trk.OutBytes ∧
        st1.s.chn.OutBytes = st.s.chn.OutBytes ∧
        st1.lpos = (st.lpos + 1) % e.b.SizeLen ∧
        st1.lpos ≠ st.lpos) := by
  have hU := session_using e st.s hs hc
  have hR := readSlotByPos_eq e.b st.lpos bs hc0 hslot
  have hZ : e.b.SizeLen ≠ 0 := by omega
  have hM : Int.tmod (st.lpos + 1) e.b.SizeLen = (st.lpos + 1) % e.b.SizeLen :=
    Int.tmod_eq_emod (by omega) (by omega)
  have hN : (st.lpos + 1) % e.b.SizeLen ≠ st.lpos := by
    intro h
    by_cases hw : st.lpos + 1 < e.b.SizeLen
    · rw [Int.emod_eq_of_lt (by omega) hw] at h
      omega
    · have : st.lpos + 1 = e.b.SizeLen := by omega
      rw [this, Int.emod_self] at h
      omega
  have hid : (e.session st.s).ID = st.s.ID := rfl
  constructor
  · intro st1 h
    simp only [sendTrackBufferInUDPMessage.iter, hU, if_true, hne, if_false, hR, hZ, hM,
      hid] at h
    cases hh : bs.Head with
    | none => simp [hh, Outcome.state?] at h
    | some head =>
      simp only [hh] at h
      by_cases heq : head = st.s.ID
      · simp only [heq, ne_eq, not_true_eq_false, if_false, Outcome.state?,
          Option.some.injEq] at h
        left; rw [← h]
      · simp only [ne_eq, heq, not_false_eq_true, if_true] at h
        cases hw : e.wok with
        | true =>
          simp only [hw, if_true, Outcome.state?, Option.some.injEq] at h
          right
          exact ⟨fun hx => heq (Option.some.inj hx), by rw [← h]⟩
        | false =>
          simp only [hw, Bool.false_eq_true, if_false, Outcome.state?, Option.some.injEq] at h
          left; rw [← h]
  · intro hh
    simp only [sendTrackBufferInUDPMessage.iter, hU, if_true, hne, if_false, hR, hZ, hM, hid,
      hh, ne_eq, not_true_eq_false]
    exact ⟨_, rfl, rfl, rfl, rfl, rfl, rfl, hN⟩

theorem sendWS_iter_inv (fout : Bool) (e : SendEnv) (st st1 : SendState)
    (h : (sendTrackBufferInWSMessage.iter fout e st).state? = some st1) :
    st1.s.ID = st.s.ID ∧ (st1.out = st.out ∨
      ∃ bs w, bs.Head ≠ some st.s.ID ∧ st1.out = st.out ++ [{ src := some bs, wire := w }]) := by
  unfold sendTrackBufferInWSMessage.iter at h
  simp only [] at h
  repeat' split at h
  all_goals simp only [Outcome.state?, Option.some.injEq, reduceCtorEq] at h
  all_goals subst h
  all_goals first
    | exact ⟨rfl, Or.inl rfl⟩
    | (refine ⟨rfl, Or.inr ⟨_, _, ?_, rfl⟩⟩
       simp_all [SendEnv.session])

theorem sendTCP_iter_inv (fout : Bool) (e : SendEnv) (st st1 : SendState)
    (h : (sendTrackBufferInTCPMessage.iter fout e st).state? = some st1) :
    st1.s.ID = st.s.ID ∧ (st1.out = st.out ∨
      ∃ bs w, bs.Head ≠ some st.s.ID ∧ st1.out = st.out ++ [{ src := some bs, wire := w }]) := by
  unfold sendTrackBufferInTCPMessage.iter at h
  simp only [] at h
  repeat' split at h
  all_goals simp only [Outcome.state?, Option.some.injEq, reduceCtorEq] at h
  all_goals subst h
  all_goals first
    | exact ⟨rfl, Or.inl rfl⟩
    | (refine ⟨rfl, Or.inr ⟨_, _, ?_, rfl⟩⟩
       simp_all [SendEnv.session])

theorem sendUDP_iter_inv (fout : Bool) (e : SendEnv) (st st1 : SendState)
    (h : (sendTrackBufferInUDPMessage.iter fout e st).state? = some st1) :
    st1.s.ID = st.s.ID ∧ (st1.out = st.out ∨
      ∃ bs w, bs.Head ≠ some st.s.ID ∧ st1.out = st.out ++ [{ src := some bs, wire := w }]) := by
  unfold sendTrackBufferInUDPMessage.iter at h
  simp only [] at h
  repeat' split at h
  all_goals simp only [Outcome.state?, Option.some.injEq, reduceCtorEq] at h
  all_goals subst h
  all_goals first
    | exact ⟨rfl, Or.inl rfl⟩
    | (refine ⟨rfl, Or.inr ⟨_, _, ?_, rfl⟩⟩
       simp_all [SendEnv.session])

theorem sendLoop_inv (iter : SendEnv → SendState → Outcome SendState) (id : GoString)
    (hstep : ∀ e st st1, (iter e st).state? = some st1 →
      st1.s.ID = st.s.ID ∧ (st1.out = st.out ∨
        ∃ bs w, bs.Head ≠ some st.s.ID ∧ st1.out = st.out ++ [{ src := some bs, wire := w }])) :
    ∀ (es : List SendEnv) (st st1 : SendState), st.s.ID = id →
      (∀ em ∈ st.out, ∀ bs, em.src = some bs → bs.Head ≠ some id) →
      (sendLoop iter es st).state? = some st1 →
      st1.s.ID = id ∧ ∀ em ∈ st1.out, ∀ bs, em.src = some bs → bs.Head ≠ some id := by
  have hP : ∀ e st st1, st.s.ID = id →
      (∀ em ∈ st.out, ∀ bs, em.src = some bs → bs.Head ≠ some id) →
      (iter e st).state? = some st1 →
      st1.s.ID = id ∧ ∀ em ∈ st1.out, ∀ bs, em.src = some bs → bs.Head ≠ some id := by
    intro e st st1 hid hout h
    obtain ⟨h1, h2⟩ := hstep e st st1 h
    refine ⟨h1.trans hid, ?_⟩
    rcases h2 with h2 | ⟨bs, w, hb, h2⟩
    · rw [h2]; exact hout
    · rw [h2]
      intro em hem bs1 hsrc
      rcases List.mem_append.mp hem with hm | hm
      · exact hout em hm bs1 hsrc
      · rw [List.mem_singleton] at hm
        subst hm
        simp only [Option.some.injEq] at hsrc
        subst hsrc
        rwa [hid] at hb
  intro es
  induction es with
  | nil =>
    intro st st1 hid hout h
    simp only [sendLoop, Outcome.state?, Option.some.injEq] at h
    subst h
    exact ⟨hid, hout⟩
  | cons e es ih =>
    intro st st1 hid hout h
    rw [sendLoop] at h
    cases hi : iter e st with
    | next st2 =>
      rw [hi] at h
      obtain ⟨h1, h2⟩ := hP e st st2 hid hout (by rw [hi]; rfl)
      exact ih st2 st1 h1 h2 h
    | done st2 err =>
      rw [hi] at h
      exact hP e st st1 hid hout (by rw [hi]; exact h)
    | panic =>
      rw [hi] at h
      simp [Outcome.state?] at h

theorem sendWS_run_inv (fout : Bool) (e0 : SendEnv) (es : List SendEnv) (s0 : Session)
    (st1 : SendState) (h : (sendTrackBufferInWSMessage fout e0 es s0).state? = some st1) :
    ∀ em ∈ st1.out, ∀ bs, em.src = some bs → bs.Head ≠ some s0.ID := by
  unfold sendTrackBufferInWSMessage at h
  simp only [] at h
  repeat' split at h
  · exact (sendLoop_inv _ s0.ID (sendWS_iter_inv fout) es _ st1 rfl (by simp) h).2
  · simp only [Outcome.state?, Option.some.injEq] at h
    subst h
    simp
  · exact (sendLoop_inv _ s0.ID (sendWS_iter_inv fout) es _ st1 rfl (by simp) h).2

theorem sendTCP_run_inv (fout : Bool) (e0 : SendEnv) (es : List SendEnv) (s0 : Session)
    (st1 : SendState) (h : (sendTrackBufferInTCPMessage fout e0 es s0).state? = some st1) :
    ∀ em ∈ st1.out, ∀ bs, em.src = some bs → bs.Head ≠ some s0.ID := by
  unfold sendTrackBufferInTCPMessage at h
  simp only [] at h
  repeat' split at h
  · simp [Outcome.state?] at h
  · exact (sendLoop_inv _ s0.ID (sendTCP_iter_inv fout) es _ st1 rfl (by simp) h).2
  · simp only [Outcome.state?, Option.some.injEq] at h
    subst h
    simp
  · exact (sendLoop_inv _ s0.ID (sendTCP_iter_inv fout) es _ st1 rfl (by simp) h).2

theorem sendUDP_run_inv (fout : Bool) (e0 : SendEnv) (es : List SendEnv) (s0 : Session)
    (st1 : SendState) (h : (sendTrackBufferInUDPMessage fout e0 es s0).state? = some st1) :
    ∀ em ∈ st1.out, ∀ bs, em.src = some bs → bs.Head ≠ some s0.ID := by
  unfold sendTrackBufferInUDPMessage at h
  exact (sendLoop_inv _ s0.ID (sendUDP_iter_inv fout) es _ st1 rfl (by simp) h).2

/-! ## One writer, one reader: the reader sees a subsequence of the writes -/

theorem pos_ne_of_lt (L p0 k n : Nat) (hk : k < n) (hn : n < k + L) :
    (p0 + k) % L ≠ (p0 + n) % L := by
  intro h
  have hd : n = k + (n - k) := by omega
  have h1 : (p0 + k + (n - k)) ≡ (p0 + k + 0) [MOD L] := by
    show (p0 + k + (n - k)) % L = (p0 + k + 0) % L
    rw [Nat.add_zero, h]
    congr 1
    omega
  have h2 := Nat.ModEq.add_left_cancel' (p0 + k) h1
  have h3 : (n - k) % L = 0 := by simpa [Nat.ModEq] using h2
  rw [Nat.mod_eq_of_lt (by omega)] at h3
  omega

theorem RingInv_write (L p0 : Nat) (r : RingRun) (bs : Slot) (flock : Bool) (hL : 2 ≤ L)
    (h : RingInv L p0 r) :
    ∃ r1, r.step (.write bs flock) = some r1 ∧ RingInv L p0 r1 ∧
      r1.written = r.written ++ [bs] ∧ r1.seen = r.seen := by
  obtain ⟨hsz, hfree, hlen, hpw, ⟨m, hm, hcur, hsub⟩, hslots⟩ := h
  have hposlt : (p0 + r.written.length) % L < L := Nat.mod_lt _ (by omega)
  have hw := writeSlot_eq r.b bs flock hfree (by rw [hpw]; omega)
    (by rw [hpw, hsz]; exact_mod_cast hposlt) (by rw [hsz]; exact_mod_cast hlen)
  refine ⟨{ r with
      b := { r.b with Slots := r.b.Slots.set r.b.PosWrite.toNat bs, PosRead := r.b.PosWrite,
                      PosWrite := (r.b.PosWrite + 1) % r.b.SizeLen },
      written := r.written ++ [bs] }, by simp only [RingRun.step, hw], ?_, rfl, rfl⟩
  refine ⟨hsz, hfree, by simpa using hlen, ?_, ⟨m, ?_, hcur, ?_⟩, ?_⟩
  · show (r.b.PosWrite + 1) % r.b.SizeLen = _
    rw [hpw, hsz, List.length_append, List.length_singleton]
    have : ((p0 + r.written.length) % L + 1) % L = (p0 + (r.written.length + 1)) % L := by
      rw [Nat.mod_add_mod]; rfl
    exact_mod_cast this
  · simp only [List.length_append, List.length_singleton]; omega
  · show r.seen.Sublist ((r.written ++ [bs]).take m)
    rw [List.take_append_of_le_length hm]
    exact hsub
  · intro k hk hkL
    simp only [List.length_append, List.length_singleton] at hk hkL
    show (r.b.Slots.set r.b.PosWrite.toNat bs)[(p0 + k) % L]? = (r.written ++ [bs])[k]?
    have hpn : r.b.PosWrite.toNat = (p0 + r.written.length) % L := by
      rw [hpw]; rfl
    rw [hpn]
    by_cases hkn : k = r.written.length
    · subst hkn
      rw [List.getElem?_set]
      simp only [if_true]
      rw [if_pos (by omega), List.getElem?_append_right (le_refl _)]
      simp
    · have hk' : k < r.written.length := by omega
      rw [List.getElem?_set, if_neg (Ne.symm (pos_ne_of_lt L p0 k _ hk' (by omega))),
        List.getElem?_append_left hk']
      exact hslots k hk' (by omega)

theorem seen_snoc_sublist (seen written : List Slot) (m k : Nat) (w : Slot) (hmk : m ≤ k)
    (hk : written[k]? = some w) (hsub : seen.Sublist (written.take m)) :
    (seen ++ [w]).Sublist (written.take (k + 1)) := by
  have hklt : k < written.length := by
    by_contra hge
    rw [List.getElem?_eq_none (by omega)] at hk
    exact absurd hk (by simp)
  have hw : written[k] = w := by
    rw [List.getElem?_eq_getElem hklt] at hk
    exact Option.some.inj hk
  rw [List.take_succ, hk]
  exact List.Sublist.append (hsub.trans (List.take_sublist_take_left written hmk)) (List.Sublist.refl _)

theorem RingInv_read (L p0 : Nat) (r : RingRun) (hL : 2 ≤ L) (h : RingInv L p0 r) :
    ∃ r1, r.step .read = some r1 ∧ RingInv L p0 r1 ∧ r1.written = r.written := by
  obtain ⟨hsz, hfree, hlen, hpw, ⟨m, hm, hcur, hsub⟩, hslots⟩ := h
  by_cases heq : r.lpos = r.b.PosWrite
  · exact ⟨r, by simp [RingRun.step, heq], ⟨hsz, hfree, hlen, hpw, ⟨m, hm, hcur, hsub⟩, hslots⟩,
      rfl⟩
  · have hmn : m < r.written.length := by
      rcases Nat.lt_or_ge m r.written.length with h1 | h1
      · exact h1
      · exfalso
        have : m = r.written.length := by omega
        apply heq
        rw [hcur, hpw, this]
    generalize hn : r.written.length = n at *
    generalize hq : (n - 1 - m) / L = q
    have hLpos : 0 < L := by omega
    have hq1 : L * q ≤ n - 1 - m := by rw [← hq]; exact Nat.mul_div_le _ _
    have hq2 : n - 1 - m < L * (q + 1) := by
      rw [← hq]; exact Nat.lt_mul_div_succ _ hLpos
    have hq3 : L * (q + 1) = L * q + L := by ring
    have hkn : m + L * q < n := by omega
    have hknL : n ≤ m + L * q + L := by omega
    have hposk : (p0 + (m + L * q)) % L = (p0 + m) % L := by
      rw [← Nat.add_assoc, Nat.add_mul_mod_self_left]
    have hsl := hslots (m + L * q) hkn hknL
    rw [hposk] at hsl
    have hklt : m + L * q < r.written.length := by omega
    rw [List.getElem?_eq_getElem hklt] at hsl
    have hlp0 : 0 ≤ r.lpos := by rw [hcur]; omega
    have hR := readSlotByPos_eq r.b r.lpos (r.written[m + L * q]) hlp0
      (by rw [hcur]; exact hsl)
    have hS := setReadPos_eq r.b r.lpos (by rw [hsz]; omega) hlp0
    have hseen := seen_snoc_sublist r.seen r.written m (m + L * q) (r.written[m + L * q])
      (by omega) (List.getElem?_eq_getElem hklt) hsub
    obtain ⟨c1, hc1⟩ : ∃ c1, c1 = (if |r.b.PosWrite - r.lpos| > 2 then r.b.PosWrite
        else (r.lpos + 1) % r.b.SizeLen) := ⟨_, rfl⟩
    rw [← hc1] at hS
    refine ⟨{ r with lpos := c1, seen := r.seen ++ [r.written[m + L * q]] },
      by simp only [RingRun.step, heq, if_false, hR, hS], ?_, rfl⟩
    refine ⟨hsz, hfree, hlen, by rw [hn]; exact hpw, ?_, by rw [hn]; exact hslots⟩
    show ∃ m1, m1 ≤ r.written.length ∧ c1 = ((p0 + m1) % L : Nat) ∧
      (r.seen ++ [r.written[m + L * q]]).Sublist (r.written.take m1)
    rw [hc1]
    split
    · exact ⟨n, by omega, hpw, hseen.trans (List.take_sublist_take_left r.written (by omega))⟩
    · refine ⟨m + L * q + 1, by omega, ?_, hseen⟩
      rw [hcur, hsz]
      have : ((p0 + m) % L + 1) % L = (p0 + (m + L * q + 1)) % L := by
        rw [Nat.mod_add_mod, show p0 + (m + L * q + 1) = p0 + m + 1 + L * q by omega,
          Nat.add_mul_mod_self_left]
      exact_mod_cast this

theorem RingInv_run (L p0 : Nat) (hL : 2 ≤ L) :
    ∀ (steps : List RingStep) (r : RingRun), RingInv L p0 r →
      ∃ r1, r.run steps = some r1 ∧ RingInv L p0 r1 ∧
        r1.written = r.written ++ RingStep.writes steps := by
  intro steps
  induction steps with
  | nil =>
    intro r h
    exact ⟨r, rfl, h, by simp [RingStep.writes]⟩
  | cons x xs ih =>
    intro r h
    cases x with
    | write bs flock =>
      obtain ⟨r1, hstep, hinv, hwr, _⟩ := RingInv_write L p0 r bs flock hL h
      obtain ⟨r2, hrun, hinv2, hwr2⟩ := ih r1 hinv
      refine ⟨r2, by simp only [RingRun.run, hstep, hrun], hinv2, ?_⟩
      rw [hwr2, hwr]
      simp [RingStep.writes]
    | read =>
      obtain ⟨r1, hstep, hinv, hwr⟩ := RingInv_read L p0 r hL h
      obtain ⟨r2, hrun, hinv2, hwr2⟩ := ih r1 hinv
      refine ⟨r2, by simp only [RingRun.run, hstep, hrun], hinv2, ?_⟩
      rw [hwr2, hwr]
      simp [RingStep.writes]

/-- C5. On a ring of fixed active length `L ≥ 2` with `0 ≤ PosWrite < L ≤ len(Slots)` and a
free mutex, and a reader whose cursor starts at `PosWrite`: every interleaving of
`writeSlot` steps and reader passes runs to its end without a run-time panic, the write
history is the sequence of slots of the write steps, and the sequence of slots the reader
has read is a subsequence of it: each slot read was written before, the slots are read in
write order, and no written slot is read twice. -/
theorem reader_sees_subsequence (r0 : RingRun) (steps : List RingStep)
    (hfree : r0.b.locked = false) (hL : 2 ≤ r0.b.SizeLen)
    (hlen : r0.b.SizeLen ≤ r0.b.Slots.length)
    (hw0 : 0 ≤ r0.b.PosWrite) (hw1 : r0.b.PosWrite < r0.b.SizeLen)
    (hcur : r0.lpos = r0.b.PosWrite) (hwr : r0.written = []) (hseen : r0.seen = []) :
    ∃ r, r0.run steps = some r ∧ r.written = RingStep.writes steps ∧
      r.seen.Sublist r.written ∧ r.b.SizeLen = r0.b.SizeLen := by
  have hLn : r0.b.SizeLen = (r0.b.SizeLen.toNat : Int) := (Int.toNat_of_nonneg (by omega)).symm
  have hPn : r0.b.PosWrite = (r0.b.PosWrite.toNat : Int) := (Int.toNat_of_nonneg hw0).symm
  have hinit : RingInv r0.b.SizeLen.toNat r0.b.PosWrite.toNat r0 := by
    refine ⟨hLn, hfree, by omega, ?_, ⟨0, by simp, ?_, by simp [hseen]⟩, ?_⟩
    · rw [hwr, List.length_nil, Nat.add_zero, Nat.mod_eq_of_lt (by omega)]
      exact hPn
    · rw [hcur, Nat.add_zero, Nat.mod_eq_of_lt (by omega)]
      exact hPn
    · intro k hk
      rw [hwr] at hk
      simp at hk
  obtain ⟨r, hrun, hinv, hw⟩ := RingInv_run r0.b.SizeLen.toNat r0.b.PosWrite.toNat (by omega)
    steps r0 hinit
  obtain ⟨hsz, _, _, _, ⟨m, _, _, hsub⟩, _⟩ := hinv
  refine ⟨r, hrun, by rw [hw, hwr, List.nil_append], hsub.trans (List.take_sublist _ _), ?_⟩
  rw [hsz, ← hLn]

/-- Witness of C5: three writes and three reader passes across the wrap of the ring. -/
theorem reader_sees_subsequence_witness :
    ∃ r, ({ b := ringAt 19, lpos := 19, written := [], seen := [] } : RingRun).run
        [.write slotA false, .read, .write slotX true, .write slotA true, .read, .read] = some r ∧
      r.written = RingStep.writes
        [.write slotA false, .read, .write slotX true, .write slotA true, .read, .read] ∧
      r.seen.Sublist r.written ∧ r.b.SizeLen = (ringAt 19).SizeLen :=
  reader_sees_subsequence { b := ringAt 19, lpos := 19, written := [], seen := [] } _
    rfl (by decide) (by decide) (by decide) (by decide) rfl rfl rfl

theorem sendWS_iter_cursor (fout : Bool) (e : SendEnv) (st st1 : SendState)
    (written seen : List Slot)
    (h : sendTrackBufferInWSMessage.iter fout e st = .next st1) :
    ∃ r1, ({ b := e.b, lpos := st.lpos, written := written, seen := seen } : RingRun).step .read
        = some r1 ∧ r1.lpos = st1.lpos := by
  unfold sendTrackBufferInWSMessage.iter at h
  simp only [] at h
  repeat' split at h
  all_goals simp only [Outcome.next.injEq, reduceCtorEq] at h
  all_goals subst h
  all_goals simp_all [RingRun.step, Buffer.readSlotByPos]

theorem sendTCP_iter_cursor (fout : Bool) (e : SendEnv) (st st1 : SendState)
    (written seen : List Slot)
    (h : sendTrackBufferInTCPMessage.iter fout e st = .next st1) :
    ∃ r1, ({ b := e.b, lpos := st.lpos, written := written, seen := seen } : RingRun).step .read
        = some r1 ∧ r1.lpos = st1.lpos := by
  unfold sendTrackBufferInTCPMessage.iter at h
  simp only [] at h
  repeat' split at h
  all_goals simp only [Outcome.next.injEq, reduceCtorEq] at h
  all_goals subst h
  all_goals simp_all [RingRun.step, Buffer.readSlotByPos]

/-- C6. In a pass of each subscriber send loop (WebSocket, TCP, UDP) that finds session
and channel in use, a ring of active length at least 2, and at the cursor `lpos` (in
`[0, SizeLen)`, not the write position) the slot `bs`: the transport output grows by at
most the one write made from `bs`, and only if `bs.Head` differs from the session id; when
`bs.Head` is the session id the pass goes on with the output and the three `OutBytes`
counters (session, track, channel) as they were and the cursor moved off `lpos`, to
`setReadPos(lpos)` (WebSocket, TCP) or to `(lpos + 1) mod SizeLen` (UDP).  Over a whole run of
any of the three functions, in any environment, no transport write comes from a slot whose
`Head` is the session id. -/
theorem self_echo_suppressed (fout : Bool) (e : SendEnv) (st : SendState) (bs : Slot)
    (hs : e.sState = Using) (hc : e.cState = Using) (hL : 2 ≤ e.b.SizeLen)
    (hc0 : 0 ≤ st.lpos) (hc1 : st.lpos < e.b.SizeLen) (hne : st.lpos ≠ e.b.PosWrite)
    (hslot : e.b.Slots[st.lpos.toNat]? = some bs) :
    ((∀ st1, (sendTrackBufferInWSMessage.iter fout e st).state? = some st1 →
        st1.out = st.out ∨ (bs.Head ≠ some st.s.ID ∧
          st1.out = st.out ++ [{ src := some bs, wire := .ws bs.FrameType bs.Data }])) ∧
      (bs.Head = some st.s.ID →
        ∃ st1, sendTrackBufferInWSMessage.iter fout e st = .next st1 ∧ st1.out = st.out ∧
          st1.s.OutBytes = st.s.OutBytes ∧ st1.s.trk.OutBytes = st.s.trk.OutBytes ∧
          st1.s.chn.OutBytes = st.s.chn.OutBytes ∧
          st1.lpos = (if |e.b.PosWrite - st.lpos| > 2 then e.b.PosWrite
            else (st.lpos + 1) % e.b.SizeLen) ∧
          st1.lpos ≠ st.lpos)) ∧
    ((∀ st1, (sendTrackBufferInTCPMessage.iter fout e st).state? = some st1 →
        st1.out = st.out ∨ (bs.Head ≠ some st.s.ID ∧
          ∃ message, TCPSendMessage bs.Mark bs.Data = some message ∧
            st1.out = st.out ++ [{ src := some bs, wire := .tcp message }])) ∧
      (bs.Head = some st.s.ID →
        ∃ st1, sendTrackBufferInTCPMessage.iter fout e st = .next st1 ∧ st1.out = st.out ∧
          st1.s.OutBytes = st.s.OutBytes ∧ st1.s.trk.OutBytes = st.s.trk.OutBytes ∧
          st1.s.chn.OutBytes = st.s.chn.OutBytes ∧
          st1.lpos = (if |e.b.PosWrite - st.lpos| > 2 then e.b.PosWrite
            else (st.lpos + 1) % e.b.SizeLen) ∧
          st1.lpos ≠ st.lpos)) ∧
    ((∀ st1, (sendTrackBufferInUDPMessage.iter fout e st).state? = some st1 →
        st1.out = st.out ∨ (bs.Head ≠ some st.s.ID ∧
          st1.out = st.out ++ [{ src := some bs, wire := .udp bs.Data }])) ∧
      (bs.Head = some st.s.ID →
        ∃ st1, sendTrackBufferInUDPMessage.iter fout e st = .next st1 ∧ st1.out = st.out ∧
          st1.s.OutBytes = st.s.OutBytes ∧ st1.s.trk.OutBytes = st.s.trk.OutBytes ∧
          st1.s.chn.OutBytes = st.s.chn.OutBytes ∧
          st1.lpos = (st.lpos + 1) % e.b.SizeLen ∧
          st1.lpos ≠ st.lpos)) ∧
    (∀ (e0 : SendEnv) (es : List SendEnv) (s0 : Session) (st1 : SendState),
      ((sendTrackBufferInWSMessage fout e0 es s0).state? = some st1 ∨
        (sendTrackBufferInTCPMessage fout e0 es s0).state? = some st1 ∨
        (sendTrackBufferInUDPMessage fout e0 es s0).state? = some st1) →
      ∀ em ∈ st1.out, ∀ bs1, em.src = some bs1 → bs1.Head ≠ some s0.ID) :=
  ⟨sendWS_iter_spec fout e st bs hs hc hL hc0 hc1 hne hslot,
   sendTCP_iter_spec fout e st bs hs hc hL hc0 hc1 hne hslot,
   sendUDP_iter_spec fout e st bs hs hc hL hc0 hc1 hne hslot,
   fun e0 es s0 st1 h => h.elim (sendWS_run_inv fout e0 es s0 st1)
     (fun h => h.elim (sendTCP_run_inv fout e0 es s0 st1) (sendUDP_run_inv fout e0 es s0 st1))⟩

/-- Witness of C6: the subscriber `sessA` over TCP finds its own `slotA` at the cursor. -/
theorem self_echo_suppressed_witness :
    ∃ st1, sendTrackBufferInTCPMessage.iter true envA stA = .next st1 ∧ st1.out = stA.out ∧
      st1.s.OutBytes = stA.s.OutBytes ∧ st1.s.trk.OutBytes = stA.s.trk.OutBytes ∧
      st1.s.chn.OutBytes = stA.s.chn.OutBytes ∧
      st1.lpos = (if |envA.b.PosWrite - stA.lpos| > 2 then envA.b.PosWrite
        else (stA.lpos + 1) % envA.b.SizeLen) ∧
      st1.lpos ≠ stA.lpos :=
  (self_echo_suppressed true envA stA slotA rfl rfl (by decide) (by decide) (by decide)
    (by decide) rfl).2.1.2 rfl


/-! ## Session timeout -/

/-- C20. For every integer `tout` and string `tunit`, `setTimeoutInUnit(tout, tunit)` sets
`TimeOver` to `tout` seconds when `1 ≤ tout ≤ 3599` and to 30 seconds otherwise, sets
`TimeUnit` to 0, 1 ns, 1 us, 1 ms, 1 s for `zero`, `nano`, `micro`, `milli`, `sec` and to
1 ms for every other string, and changes no other field of the session (durations are in
nanoseconds). -/
theorem setTimeoutInUnit_spec (d : Session) (tout : Int) (tunit : GoString) :
    (1 ≤ tout ∧ tout ≤ 3599 → (d.setTimeoutInUnit tout tunit).TimeOver = tout * 1000000000) ∧
    (¬ (1 ≤ tout ∧ tout ≤ 3599) → (d.setTimeoutInUnit tout tunit).TimeOver = 30 * 1000000000) ∧
    (tunit = go "zero" → (d.setTimeoutInUnit tout tunit).TimeUnit = 0) ∧
    (tunit = go "nano" → (d.setTimeoutInUnit tout tunit).TimeUnit = 1) ∧
    (tunit = go "micro" → (d.setTimeoutInUnit tout tunit).TimeUnit = 1000) ∧
    (tunit = go "milli" → (d.setTimeoutInUnit tout tunit).TimeUnit = 1000000) ∧
    (tunit = go "sec" → (d.setTimeoutInUnit tout tunit).TimeUnit = 1000000000) ∧
    (tunit ≠ go "zero" → tunit ≠ go "nano" → tunit ≠ go "micro" → tunit ≠ go "milli" →
      tunit ≠ go "sec" → (d.setTimeoutInUnit tout tunit).TimeUnit = 1000000) ∧
    d.setTimeoutInUnit tout tunit =
      { d with TimeOver := (d.setTimeoutInUnit tout tunit).TimeOver,
               TimeUnit := (d.setTimeoutInUnit tout tunit).TimeUnit } := by
  have key : d.setTimeoutInUnit tout tunit =
      { d with
        TimeUnit := (if tunit = go "zero" then 0 else if tunit = go "nano" then 1
          else if tunit = go "micro" then 1000 else if tunit = go "milli" then 1000000
          else if tunit = go "sec" then 1000000000 else 1000000),
        TimeOver := (if tout > 0 ∧ tout < 3600 then tout * 1000000000
          else 30 * 1000000000) } := by
    have hs : Second = 1000000000 := by decide
    have hm : Millisecond = 1000000 := by decide
    have hu : Microsecond = 1000 := by decide
    have hn : Nanosecond = 1 := by decide
    have hb : TIME_WAIT_BASE_SECONDS = 30 * 1000000000 := by decide
    have hw : WAIT_MAX_SECONDS = 3600 := by decide
    unfold Session.setTimeoutInUnit
    rw [hs, hm, hu, hn, hb, hw]
    split_ifs <;> rfl
  have e1 : (d.setTimeoutInUnit tout tunit).TimeOver =
      (if tout > 0 ∧ tout < 3600 then tout * 1000000000 else 30 * 1000000000) := by
    rw [key]
  have e2 : (d.setTimeoutInUnit tout tunit).TimeUnit =
      (if tunit = go "zero" then 0 else if tunit = go "nano" then 1
          else if tunit = go "micro" then 1000 else if tunit = go "milli" then 1000000
          else if tunit = go "sec" then 1000000000 else 1000000) := by
    rw [key]
  refine ⟨?_, ?_, ?_, ?_, ?_, ?_, ?_, ?_, ?_⟩
  · intro h
    rw [e1, if_pos (by omega)]
  · intro h
    rw [e1, if_neg (by omega)]
  · intro h
    rw [e2, if_pos h]
  · intro h
    rw [e2, h]; decide
  · intro h
    rw [e2, h]; decide
  · intro h
    rw [e2, h]; decide
  · intro h
    rw [e2, h]; decide
  · intro h1 h2 h3 h4 h5
    rw [e2, if_neg h1, if_neg h2, if_neg h3, if_neg h4, if_neg h5]
  · rw [← e1, ← e2] at key
    exact key

/-- Witness of C20: `setTimeoutInUnit(3600, "nano")` and `setTimeoutInUnit(5, "week")` on
the session `sessA`. -/
theorem setTimeoutInUnit_spec_witness :
    (sessA.setTimeoutInUnit 3600 (go "nano")).TimeOver = 30 * 1000000000 ∧
    (sessA.setTimeoutInUnit 3600 (go "nano")).TimeUnit = 1 ∧
    (sessA.setTimeoutInUnit 5 (go "week")).TimeOver = 5 * 1000000000 ∧
    (sessA.setTimeoutInUnit 5 (go "week")).TimeUnit = 1000000 :=
  ⟨(setTimeoutInUnit_spec sessA 3600 (go "nano")).2.1 (by decide),
   (setTimeoutInUnit_spec sessA 3600 (go "nano")).2.2.2.1 rfl,
   (setTimeoutInUnit_spec sessA 5 (go "week")).1 (by decide),
   (setTimeoutInUnit_spec sessA 5 (go "week")).2.2.2.2.2.2.2.1 (by decide) (by decide)
     (by decide) (by decide) (by decide)⟩

/-! ## Reachable ring states -/

/-- The bounds every reachable ring of a track keeps. -/
def RingBounds (d : Buffer) : Prop :=
  2 ≤ d.SizeLen ∧ d.SizeLen ≤ d.SizeCap ∧ d.SizeCap = 30 ∧ d.Slots.length = 30 ∧
  0 ≤ d.PosWrite ∧ d.PosWrite < d.SizeCap ∧ d.locked = false

theorem writeSlotBody_wide (d : Buffer) (s : Slot)
    (h0 : 0 ≤ d.PosWrite) (h1 : d.PosWrite < d.Slots.length) (h2 : 0 < d.SizeLen) :
    d.writeSlotBody s = some
      { d with Slots := d.Slots.set d.PosWrite.toNat s, PosRead := d.PosWrite,
               PosWrite := (d.PosWrite + 1) % d.SizeLen } := by
  have hne : d.SizeLen ≠ 0 := by omega
  have hmod : Int.tmod (d.PosWrite + 1) d.SizeLen = (d.PosWrite + 1) % d.SizeLen :=
    Int.tmod_eq_emod (by omega) (by omega)
  simp [Buffer.writeSlotBody, h0, h1, hne, hmod]

theorem writeSlot_wide (d : Buffer) (s : Slot) (flock : Bool) (hfree : d.locked = false)
    (h0 : 0 ≤ d.PosWrite) (h1 : d.PosWrite < d.Slots.length) (h2 : 0 < d.SizeLen) :
    d.writeSlot s flock = some
      { d with Slots := d.Slots.set d.PosWrite.toNat s, PosRead := d.PosWrite,
               PosWrite := (d.PosWrite + 1) % d.SizeLen } := by
  cases flock
  · simpa [Buffer.writeSlot] using writeSlotBody_wide d s h0 h1 h2
  · have hb := writeSlotBody_wide { d with locked := true } s h0 h1 h2
    simp only [Buffer.writeSlot, Buffer.Lock, hfree, if_true]
    simp [hb, Buffer.Unlock, hfree]

theorem setBufferSizeLen_bounds (d : Buffer) (sz : Int) (h : RingBounds d) :
    RingBounds (d.setBufferSizeLen sz) := by
  obtain ⟨a, b, c, e, f, g, l⟩ := h
  unfold Buffer.setBufferSizeLen
  split
  · rename_i hs
    exact ⟨by simpa using hs.1, by simpa using hs.2, c, e, f, g, l⟩
  · exact ⟨a, b, c, e, f, g, l⟩

theorem RingOp.apply_bounds (d : Buffer) (op : RingOp) (h : RingBounds d) :
    ∃ d1, op.apply d = some d1 ∧ RingBounds d1 ∧
      (∀ b flock, op = RingOp.writeSlot b flock → d1.PosWrite < d1.SizeLen) := by
  cases op with
  | writeSlot b flock =>
    obtain ⟨a, hb, c, e, f, g, l⟩ := h
    have hw := writeSlot_wide d b flock l f (by omega) (by omega)
    refine ⟨_, hw, ⟨a, hb, c, by simpa using e, ?_, ?_, l⟩, ?_⟩
    · exact Int.emod_nonneg _ (by omega)
    · have := Int.emod_lt_of_pos (d.PosWrite + 1) (show 0 < d.SizeLen by omega)
      show (d.PosWrite + 1) % d.SizeLen < d.SizeCap
      omega
    · intro _ _ _
      exact Int.emod_lt_of_pos (d.PosWrite + 1) (show 0 < d.SizeLen by omega)
  | setBufferSizeLen sz =>
    exact ⟨_, rfl, setBufferSizeLen_bounds d sz h, by intro b flock hh; cases hh⟩
  | setTrackBufferSize blen =>
    refine ⟨if blen < BUFFER_MIN_SLOTS ∨ blen > BUFFER_MAX_SLOTS then d
        else d.setBufferSizeLen blen, ?_, ?_, by intro b flock hh; cases hh⟩
    · simp only [RingOp.apply, Track.setTrackBufferSize]
      split <;> rfl
    · split
      · exact h
      · exact setBufferSizeLen_bounds d blen h

theorem RingOp.run_bounds (ops : List RingOp) (d : Buffer) (h : RingBounds d) :
    ∃ d1, RingOp.run d ops = some d1 ∧ RingBounds d1 := by
  induction ops generalizing d with
  | nil => exact ⟨d, rfl, h⟩
  | cons op ops ih =>
    obtain ⟨d1, h1, hb, _⟩ := RingOp.apply_bounds d op h
    obtain ⟨d2, h2, hb2⟩ := ih d1 hb
    exact ⟨d2, by simp [RingOp.run, h1, h2], hb2⟩

theorem RingOp.run_append (ops : List RingOp) (op : RingOp) (d d1 : Buffer)
    (h : RingOp.run d ops = some d1) : RingOp.run d (ops ++ [op]) = op.apply d1 := by
  induction ops generalizing d with
  | nil =>
    simp only [RingOp.run, Option.some.injEq] at h
    subst h
    simp only [List.nil_append, RingOp.run]
    cases op.apply d <;> rfl
  | cons o ops ih =>
    simp only [RingOp.run, List.cons_append] at h ⊢
    cases ho : o.apply d with
    | none => simp [ho] at h
    | some d2 =>
      simp only [ho] at h ⊢
      exact ih d2 h

theorem NewBuffer_bounds (id label : GoString) :
    ∃ d0, NewBuffer id label BUFFER_CAP_SLOTS BUFFER_LEN_SLOTS = some d0 ∧ RingBounds d0 := by
  refine ⟨_, rfl, ?_⟩
  refine ⟨?_, ?_, rfl, ?_, ?_, ?_, rfl⟩
  · show (2 : Int) ≤ BUFFER_LEN_SLOTS
    decide
  · show BUFFER_LEN_SLOTS ≤ BUFFER_CAP_SLOTS
    decide
  · show (List.replicate BUFFER_CAP_SLOTS.toNat Slot.zero).length = 30
    rw [List.length_replicate]
    decide
  · show (0 : Int) ≤ 0
    decide
  · show (0 : Int) < BUFFER_CAP_SLOTS
    decide

/-- C19 as stated fails: from the ring of `NewBuffer` with capacity 30 and active length 20,
three `writeSlot` calls followed by `setBufferSizeLen(2)` leave `PosWrite = 3` and
`SizeLen = 2`, so `PosWrite < SizeLen` does not hold in that reachable state. -/
theorem ring_reachable_counterexample :
    ∃ d0 d, NewBuffer (go "r") (go "fore") 30 20 = some d0 ∧
      RingOp.run d0 [RingOp.writeSlot slotA false, RingOp.writeSlot slotA false,
        RingOp.writeSlot slotA false, RingOp.setBufferSizeLen 2] = some d ∧
      d.PosWrite = 3 ∧ d.SizeLen = 2 ∧ ¬ (d.PosWrite < d.SizeLen) := by
  refine ⟨_, _, rfl, rfl, ?_, ?_, ?_⟩ <;> decide

/-- C19, amended. Every sequence of `writeSlot`, `setBufferSizeLen` and `setTrackBufferSize`
calls with arbitrary arguments, started on the ring of `NewBuffer` with capacity 30 and
active length 20, runs without a panic and ends in a ring with
`2 ≤ SizeLen ≤ SizeCap = 30 = len(Slots)`, `0 ≤ PosWrite < SizeCap` and a free mutex; and
when the sequence is followed by one more `writeSlot`, the ring it leaves has
`0 ≤ PosWrite < SizeLen`. -/
theorem ring_reachable_bounds (id label : GoString) (ops : List RingOp) (b : Slot)
    (flock : Bool) :
    ∃ d0, NewBuffer id label BUFFER_CAP_SLOTS BUFFER_LEN_SLOTS = some d0 ∧
      (∃ d, RingOp.run d0 ops = some d ∧
        2 ≤ d.SizeLen ∧ d.SizeLen ≤ d.SizeCap ∧ d.SizeCap = 30 ∧ d.Slots.length = 30 ∧
        0 ≤ d.PosWrite ∧ d.PosWrite < d.SizeCap ∧ d.locked = false) ∧
      (∃ d, RingOp.run d0 (ops ++ [RingOp.writeSlot b flock]) = some d ∧
        0 ≤ d.PosWrite ∧ d.PosWrite < d.SizeLen) := by
  obtain ⟨d0, h0, hb0⟩ := NewBuffer_bounds id label
  obtain ⟨d, hd, hbd⟩ := RingOp.run_bounds ops d0 hb0
  obtain ⟨d1, h1, hb1, hlt⟩ := RingOp.apply_bounds d (RingOp.writeSlot b flock) hbd
  refine ⟨d0, h0, ⟨d, hd, hbd⟩, ⟨d1, ?_, hb1.2.2.2.2.1, hlt b flock rfl⟩⟩
  rw [RingOp.run_append ops _ d0 d hd, h1]

/-! ## The studio maps -/

theorem GoMap.lookup_remove_self {α : Type} (m : GoMap α) (k : GoString) :
    (m.remove k).lookup k = none := by
  induction m with
  | nil => rfl
  | cons e m ih =>
    obtain ⟨k1, v⟩ := e
    by_cases h : k1 = k
    · simpa [GoMap.remove, List.filter_cons, h] using ih
    · have : (GoMap.remove ((k1, v) :: m) k) = (k1, v) :: GoMap.remove m k := by
        simp [GoMap.remove, List.filter_cons, h]
      rw [this]
      simp [GoMap.lookup, h, ih]

theorem GoMap.lookup_remove_ne {α : Type} (m : GoMap α) (k k1 : GoString) (h : k1 ≠ k) :
    (m.remove k).lookup k1 = m.lookup k1 := by
  induction m with
  | nil => rfl
  | cons e m ih =>
    obtain ⟨k2, v⟩ := e
    by_cases h2 : k2 = k
    · have hne : k2 ≠ k1 := by
        intro h3
        exact h (h3 ▸ h2)
      have : (GoMap.remove ((k2, v) :: m) k) = GoMap.remove m k := by
        simp [GoMap.remove, List.filter_cons, h2]
      rw [this, ih]
      simp [GoMap.lookup, hne]
    · have : (GoMap.remove ((k2, v) :: m) k) = (k2, v) :: GoMap.remove m k := by
        simp [GoMap.remove, List.filter_cons, h2]
      rw [this]
      simp only [GoMap.lookup, ih]

theorem GoMap.lookup_append {α : Type} (m n : GoMap α) (k : GoString) :
    GoMap.lookup (m ++ n) k = (GoMap.lookup m k).orElse (fun _ => GoMap.lookup n k) := by
  induction m with
  | nil => cases h : GoMap.lookup n k <;> simp [GoMap.lookup, h]
  | cons e m ih =>
    obtain ⟨k1, v⟩ := e
    by_cases h : k1 = k
    · simp [GoMap.lookup, h]
    · simp [GoMap.lookup, h, ih]

theorem GoMap.lookup_store_self {α : Type} (m : GoMap α) (k : GoString) (v : α) :
    (m.store k v).lookup k = some v := by
  simp [GoMap.store, GoMap.lookup_append, GoMap.lookup_remove_self, GoMap.lookup]

theorem GoMap.lookup_store_ne {α : Type} (m : GoMap α) (k k1 : GoString) (v : α)
    (h : k1 ≠ k) : (m.store k v).lookup k1 = m.lookup k1 := by
  have hk : k ≠ k1 := fun h1 => h h1.symm
  simp only [GoMap.store, GoMap.lookup_append, GoMap.lookup_remove_ne m k k1 h, GoMap.lookup,
    hk, if_false]
  cases GoMap.lookup m k1 <;> rfl

theorem Channel.close_ID (p : Channel) : p.close.ID = p.ID := by
  unfold Channel.close Channel.purgeAllSourceTracks
  split <;> rfl

/-- C15. For each studio map (sessions, channels, bridges, workers, punches, groups) and
every entity `p`: after `addX(p)` the lookup by `p.ID` returns `p` (and so does the pointer
`addX` returns), after `deleteX(p)` the lookup by `p.ID` returns nothing, and under every
other id `k` the lookup after either operation is the lookup before. -/
theorem studio_maps_add_delete (d : Studio) :
    (∀ p : Session,
      (d.addSession p).1.findSessionByID p.ID = some p ∧ (d.addSession p).2 = some p ∧
      (d.deleteSession p).findSessionByID p.ID = none ∧
      ∀ k, k ≠ p.ID → (d.addSession p).1.findSessionByID k = d.findSessionByID k ∧
        (d.deleteSession p).findSessionByID k = d.findSessionByID k) ∧
    (∀ p : Channel,
      (d.addChannel p).1.findChannelByID p.ID = some p ∧ (d.addChannel p).2 = some p ∧
      (d.deleteChannel p).1.findChannelByID p.ID = none ∧
      ∀ k, k ≠ p.ID → (d.addChannel p).1.findChannelByID k = d.findChannelByID k ∧
        (d.deleteChannel p).1.findChannelByID k = d.findChannelByID k) ∧
    (∀ p : Bridge,
      (d.addBridge p).1.findBridgeByID p.ID = some p ∧ (d.addBridge p).2 = some p ∧
      (d.deleteBridge p).findBridgeByID p.ID = none ∧
      ∀ k, k ≠ p.ID → (d.addBridge p).1.findBridgeByID k = d.findBridgeByID k ∧
        (d.deleteBridge p).findBridgeByID k = d.findBridgeByID k) ∧
    (∀ p : Worker,
      (d.addWorker p).1.findWorkerByID p.ID = some p ∧ (d.addWorker p).2 = some p ∧
      (d.deleteWorker p).findWorkerByID p.ID = none ∧
      ∀ k, k ≠ p.ID → (d.addWorker p).1.findWorkerByID k = d.findWorkerByID k ∧
        (d.deleteWorker p).findWorkerByID k = d.findWorkerByID k) ∧
    (∀ p : Punch,
      (d.addPunch p).1.findPunchByID p.ID = some p ∧ (d.addPunch p).2 = some p ∧
      (d.deletePunch p).findPunchByID p.ID = none ∧
      ∀ k, k ≠ p.ID → (d.addPunch p).1.findPunchByID k = d.findPunchByID k ∧
        (d.deletePunch p).findPunchByID k = d.findPunchByID k) ∧
    (∀ p : Group,
      (d.addGroup p).1.findGroupByID p.ID = some p ∧ (d.addGroup p).2 = some p ∧
      (d.deleteGroup p).findGroupByID p.ID = none ∧
      ∀ k, k ≠ p.ID → (d.addGroup p).1.findGroupByID k = d.findGroupByID k ∧
        (d.deleteGroup p).findGroupByID k = d.findGroupByID k) := by
  refine ⟨?_, ?_, ?_, ?_, ?_, ?_⟩
  · intro p
    exact ⟨GoMap.lookup_store_self _ _ _, GoMap.lookup_store_self _ _ _,
      GoMap.lookup_remove_self _ _, fun k hk =>
        ⟨GoMap.lookup_store_ne _ _ _ _ hk, GoMap.lookup_remove_ne _ _ _ hk⟩⟩
  · intro p
    have hid : p.close.ID = p.ID := Channel.close_ID p
    refine ⟨GoMap.lookup_store_self _ _ _, GoMap.lookup_store_self _ _ _, ?_, fun k hk =>
        ⟨GoMap.lookup_store_ne _ _ _ _ hk, ?_⟩⟩
    · show GoMap.lookup (GoMap.remove d.Channels p.close.ID) p.ID = none
      rw [hid]
      exact GoMap.lookup_remove_self _ _
    · show GoMap.lookup (GoMap.remove d.Channels p.close.ID) k = _
      rw [hid]
      exact GoMap.lookup_remove_ne _ _ _ hk
  · intro p
    exact ⟨GoMap.lookup_store_self _ _ _, GoMap.lookup_store_self _ _ _,
      GoMap.lookup_remove_self _ _, fun k hk =>
        ⟨GoMap.lookup_store_ne _ _ _ _ hk, GoMap.lookup_remove_ne _ _ _ hk⟩⟩
  · intro p
    exact ⟨GoMap.lookup_store_self _ _ _, GoMap.lookup_store_self _ _ _,
      GoMap.lookup_remove_self _ _, fun k hk =>
        ⟨GoMap.lookup_store_ne _ _ _ _ hk, GoMap.lookup_remove_ne _ _ _ hk⟩⟩
  · intro p
    exact ⟨GoMap.lookup_store_self _ _ _, GoMap.lookup_store_self _ _ _,
      GoMap.lookup_remove_self _ _, fun k hk =>
        ⟨GoMap.lookup_store_ne _ _ _ _ hk, GoMap.lookup_remove_ne _ _ _ hk⟩⟩
  · intro p
    exact ⟨GoMap.lookup_store_self _ _ _, GoMap.lookup_store_self _ _ _,
      GoMap.lookup_remove_self _ _, fun k hk =>
        ⟨GoMap.lookup_store_ne _ _ _ _ hk, GoMap.lookup_remove_ne _ _ _ hk⟩⟩

/-! ## Resource check and channel release -/

theorem findPublisherByResource_isNone (d : Studio) (c s t : GoString) :
    (d.findPublisherByResource c s t).isNone = true ↔
      ¬ ∃ e ∈ d.Sessions, e.2.publisherOn c s t = true := by
  unfold Studio.findPublisherByResource
  rw [Option.isNone_iff_eq_none, Option.map_eq_none', List.find?_eq_none]
  constructor
  · rintro h ⟨e, he, hp⟩
    exact h e he hp
  · intro h e he hp
    exact h ⟨e, he, hp⟩

/-- C11. For every studio session map and every request `qo` on channel `c`, source `s`,
track `t`: if a publisher session (name containing `/pub`, `/seb` or `/meb`) is registered
on `(c, s, t)`, `checkResourceAvailable` returns false when the style is not `multi` and
true when it is `multi`; if no such session is registered it returns true for every
style. -/
theorem checkResourceAvailable_spec (d : Studio) (qo : QueryOption) :
    ((∃ e ∈ d.Sessions, e.2.publisherOn qo.Channel.ID qo.Source.Label qo.Track.Label = true) →
      (qo.Track.Style ≠ go "multi" → d.checkResourceAvailable qo = false) ∧
      (qo.Track.Style = go "multi" → d.checkResourceAvailable qo = true)) ∧
    ((¬ ∃ e ∈ d.Sessions, e.2.publisherOn qo.Channel.ID qo.Source.Label qo.Track.Label = true) →
      d.checkResourceAvailable qo = true) := by
  have key := findPublisherByResource_isNone d qo.Channel.ID qo.Source.Label qo.Track.Label
  unfold Studio.checkResourceAvailable
  refine ⟨fun hex => ⟨fun hs => ?_, fun hs => ?_⟩, fun hno => ?_⟩
  · rw [if_neg]
    rintro (h | h)
    · exact hs h
    · exact (key.mp h) hex
  · rw [if_pos (Or.inl hs)]
  · rw [if_pos (Or.inr (key.mpr hno))]

/-- Witness of C11: with the publisher session `s1` registered on `(ch1, base, video)` a
request of style `mono` is refused and one of style `multi` is accepted; on the empty
studio the request of style `mono` is accepted. -/
theorem checkResourceAvailable_spec_witness :
    studioA.checkResourceAvailable (queryA (go "mono")) = false ∧
    studioA.checkResourceAvailable (queryA (go "multi")) = true ∧
    ({} : Studio).checkResourceAvailable (queryA (go "mono")) = true :=
  ⟨((checkResourceAvailable_spec studioA (queryA (go "mono"))).1
      ⟨(go "s1", sessP), List.mem_singleton.mpr rfl, by decide⟩).1 (by decide),
   ((checkResourceAvailable_spec studioA (queryA (go "multi"))).1
      ⟨(go "s1", sessP), List.mem_singleton.mpr rfl, by decide⟩).2 rfl,
   (checkResourceAvailable_spec ({} : Studio) (queryA (go "mono"))).2
      (by rintro ⟨e, he, _⟩; cases he)⟩
theorem GoMap.lookup_update {α : Type} (m : GoMap α) (k k1 : GoString) (f : α → α) :
    (m.update k f).lookup k1 = if k1 = k then (m.lookup k1).map f else m.lookup k1 := by
  induction m with
  | nil => simp [GoMap.update, GoMap.lookup]
  | cons e m ih =>
    obtain ⟨k2, v⟩ := e
    by_cases h2 : k2 = k
    · have hcons : GoMap.update ((k2, v) :: m) k f = (k2, f v) :: GoMap.update m k f := by
        simp [GoMap.update, h2]
      rw [hcons]
      by_cases h1 : k1 = k
      · have h21 : k2 = k1 := h2.trans h1.symm
        simp [GoMap.lookup, h21, h1]
      · have hne : ¬ k2 = k1 := fun h => h1 (h ▸ h2)
        simp only [GoMap.lookup, hne, if_false, ih, h1]
    · have hcons : GoMap.update ((k2, v) :: m) k f = (k2, v) :: GoMap.update m k f := by
        simp [GoMap.update, h2]
      rw [hcons]
      by_cases h3 : k2 = k1
      · have h1 : ¬ k1 = k := fun h => h2 (h3.trans h)
        simp [GoMap.lookup, h3, h1]
      · simp only [GoMap.lookup, h3, if_false, ih]

theorem Channel.reset_State (r : Channel) : r.reset.State = r.State := by
  unfold Channel.reset Channel.resetAllSourceTracks
  split <;> rfl

theorem countSessionsByChannelID_eq_zero (d : Studio) (id : GoString) :
    d.countSessionsByChannelID id = 0 ↔ ∀ e ∈ d.Sessions, e.2.ChannelID ≠ id := by
  unfold Studio.countSessionsByChannelID
  rw [Int.natCast_eq_zero, List.countP_eq_zero]
  simp

/-- C14. For every studio state and channel id, `afterSetChannelIdleByID(id)`: if no
session of the session map has `ChannelID = id` and the channel exists, it returns true,
the channel's state is `Idle` afterwards, and sessions and every other channel are as
before; if some session with `ChannelID = id` remains, or the channel does not exist, it
returns false and leaves the studio unchanged.  Hence, when the only sessions on an
existing channel are under the id of the exiting session `p`, after
`deleteSessionWithClose(p)` and `afterSetChannelIdleByID(id)` the channel is `Idle`. -/
theorem afterSetChannelIdleByID_spec (d : Studio) (id : GoString) :
    ((∀ e ∈ d.Sessions, e.2.ChannelID ≠ id) → ∀ c, d.Channels.lookup id = some c →
      (d.afterSetChannelIdleByID id).2 = true ∧
      (∃ c1, (d.afterSetChannelIdleByID id).1.Channels.lookup id = some c1 ∧
        c1.State = Idle) ∧
      (∀ k, k ≠ id →
        (d.afterSetChannelIdleByID id).1.Channels.lookup k = d.Channels.lookup k) ∧
      (d.afterSetChannelIdleByID id).1.Sessions = d.Sessions) ∧
    (((∃ e ∈ d.Sessions, e.2.ChannelID = id) ∨ d.Channels.lookup id = none) →
      d.afterSetChannelIdleByID id = (d, false)) ∧
    (∀ p : Session, (∀ e ∈ d.Sessions, e.2.ChannelID = id → e.1 = p.ID) →
      ∀ c, d.Channels.lookup id = some c →
      ((d.deleteSessionWithClose p).1.afterSetChannelIdleByID id).2 = true ∧
      ∃ c1, ((d.deleteSessionWithClose p).1.afterSetChannelIdleByID id).1.Channels.lookup id
          = some c1 ∧ c1.State = Idle) := by
  have main : ∀ d : Studio, (∀ e ∈ d.Sessions, e.2.ChannelID ≠ id) →
      ∀ c, d.Channels.lookup id = some c →
      (d.afterSetChannelIdleByID id).2 = true ∧
      (∃ c1, (d.afterSetChannelIdleByID id).1.Channels.lookup id = some c1 ∧
        c1.State = Idle) ∧
      (∀ k, k ≠ id →
        (d.afterSetChannelIdleByID id).1.Channels.lookup k = d.Channels.lookup k) ∧
      (d.afterSetChannelIdleByID id).1.Sessions = d.Sessions := by
    intro d hno c hc
    have h0 := (countSessionsByChannelID_eq_zero d id).mpr hno
    have hl : ∀ f : Channel → Channel,
        (d.Channels.update id f).lookup id = some (f c) := by
      intro f
      rw [GoMap.lookup_update, if_pos rfl, hc]
      rfl
    simp only [Studio.afterSetChannelIdleByID, h0, if_true, Studio.setChannelByIDState, hc, hl]
    refine ⟨trivial, ⟨_, rfl, ?_⟩, ?_, trivial⟩
    · simp [Channel.reset_State, Idle]
    · intro k hk
      rw [GoMap.lookup_update, if_neg hk]
  refine ⟨main d, ?_, ?_⟩
  · rintro (⟨e, he, hid⟩ | hnone)
    · have h0 : d.countSessionsByChannelID id ≠ 0 := by
        intro h
        exact (countSessionsByChannelID_eq_zero d id).mp h e he hid
      simp [Studio.afterSetChannelIdleByID, h0]
    · simp only [Studio.afterSetChannelIdleByID, Studio.setChannelByIDState, hnone]
      split <;> rfl
  · intro p hp c hc
    have hno : ∀ e ∈ (d.deleteSessionWithClose p).1.Sessions, e.2.ChannelID ≠ id := by
      intro e he hid
      have he1 : e ∈ d.Sessions.remove p.ID := he
      simp only [GoMap.remove, List.mem_filter, decide_eq_true_eq] at he1
      exact he1.2 (hp e he1.1 hid)
    obtain ⟨h1, h2, _, _⟩ := main (d.deleteSessionWithClose p).1 hno c hc
    exact ⟨h1, h2⟩

/-- Witness of C14 on the studio `studioA` (channel `ch1` in use, session `s1` on it):
with `s1` registered the call returns false and changes nothing; without sessions it
returns true and `ch1` is `Idle`; so it is after `s1` exits. -/
theorem afterSetChannelIdleByID_spec_witness :
    studioA.afterSetChannelIdleByID (go "ch1") = (studioA, false) ∧
    (({ Channels := [(go "ch1", chanA)] } : Studio).afterSetChannelIdleByID (go "ch1")).2
      = true ∧
    ((studioA.deleteSessionWithClose sessP).1.afterSetChannelIdleByID (go "ch1")).2 = true :=
  ⟨(afterSetChannelIdleByID_spec studioA (go "ch1")).2.1
      (Or.inl ⟨(go "s1", sessP), List.mem_singleton.mpr rfl, rfl⟩),
   ((afterSetChannelIdleByID_spec { Channels := [(go "ch1", chanA)] } (go "ch1")).1
      (by intro e he; cases he) chanA rfl).1,
   ((afterSetChannelIdleByID_spec studioA (go "ch1")).2.2 sessP
      (by
        intro e he _
        rw [List.mem_singleton.mp he]
        rfl) chanA rfl).1⟩

/-! ## Resolving a channel by name and style -/

theorem GoMap.remove_of_lookup_none {α : Type} (m : GoMap α) (k : GoString)
    (h : m.lookup k = none) : m.remove k = m := by
  induction m with
  | nil => rfl
  | cons e m ih =>
    obtain ⟨k1, v⟩ := e
    by_cases h1 : k1 = k
    · simp [GoMap.lookup, h1] at h
    · simp only [GoMap.lookup, h1, if_false] at h
      have hr : GoMap.remove ((k1, v) :: m) k = (k1, v) :: GoMap.remove m k := by
        simp [GoMap.remove, List.filter_cons, h1]
      rw [hr, ih h]

theorem RangeOrder.valid_id {α : Type} : RangeOrder.Valid (id : RangeOrder α) :=
  fun m => List.Perm.refl m

theorem RangeOrder.valid_reverse {α : Type} : RangeOrder.Valid (List.reverse : RangeOrder α) :=
  fun m => List.reverse_perm m

theorem RangeOrder.find_some {α : Type} (order : RangeOrder α) (ho : RangeOrder.Valid order)
    (m : GoMap α) (p : GoString × α → Bool) (h : ∃ e ∈ m, p e = true) :
    ∃ e ∈ m, p e = true ∧ (order m).find? p = some e := by
  obtain ⟨e, he, hp⟩ := h
  have hmem : e ∈ order m := (ho m).mem_iff.mpr he
  cases hf : (order m).find? p with
  | none =>
    exact absurd hp (by simpa using List.find?_eq_none.mp hf e hmem)
  | some e1 =>
    exact ⟨e1, (ho m).mem_iff.mp (List.mem_of_find?_eq_some hf), List.find?_some hf, rfl⟩

theorem RangeOrder.find_none {α : Type} (order : RangeOrder α) (ho : RangeOrder.Valid order)
    (m : GoMap α) (p : GoString × α → Bool) (h : ∀ e ∈ m, ¬ p e = true) :
    (order m).find? p = none := by
  rw [List.find?_eq_none]
  intro e he
  exact h e ((ho m).mem_iff.mp he)

theorem RangeOrder.find_unique {α : Type} (order : RangeOrder α) (ho : RangeOrder.Valid order)
    (m : GoMap α) (p : GoString × α → Bool) (e : GoString × α) (he : e ∈ m)
    (hp : p e = true) (hu : ∀ e1 ∈ m, p e1 = true → e1 = e) :
    (order m).find? p = some e := by
  obtain ⟨e1, h1, h2, h3⟩ := RangeOrder.find_some order ho m p ⟨e, he, hp⟩
  rw [h3, hu e1 h1 h2]

theorem findChannelByNameStyle_some (d : Studio) (order : RangeOrder Channel)
    (ho : RangeOrder.Valid order) (name style : GoString)
    (h : ∃ e ∈ d.Channels, e.2.Style = style ∧ e.2.Name = name) :
    ∃ e ∈ d.Channels, e.2.Style = style ∧ e.2.Name = name ∧
      d.findChannelByNameStyle order name style = some e.2 := by
  obtain ⟨e, he, hs, hn⟩ := h
  obtain ⟨e1, h1, h2, h3⟩ := RangeOrder.find_some order ho d.Channels
    (fun e => e.2.Style == style && e.2.Name == name) ⟨e, he, by simp [hs, hn]⟩
  simp only [Bool.and_eq_true, beq_iff_eq] at h2
  exact ⟨e1, h1, h2.1, h2.2, by simp only [Studio.findChannelByNameStyle, h3, Option.map_some']⟩

theorem findChannelByNameStyle_none (d : Studio) (order : RangeOrder Channel)
    (ho : RangeOrder.Valid order) (name style : GoString)
    (h : ∀ e ∈ d.Channels, ¬ (e.2.Style = style ∧ e.2.Name = name)) :
    d.findChannelByNameStyle order name style = none := by
  have := RangeOrder.find_none order ho d.Channels
    (fun e => e.2.Style == style && e.2.Name == name)
    (fun e he => by simpa using h e he)
  simp only [Studio.findChannelByNameStyle, this, Option.map_none']

theorem findChannelByNameStyle_unique (d : Studio) (order : RangeOrder Channel)
    (ho : RangeOrder.Valid order) (name style : GoString) (e : GoString × Channel)
    (he : e ∈ d.Channels) (hs : e.2.Style = style) (hn : e.2.Name = name)
    (hu : ∀ e1 ∈ d.Channels, e1.2.Style = style ∧ e1.2.Name = name → e1 = e) :
    d.findChannelByNameStyle order name style = some e.2 := by
  have := RangeOrder.find_unique order ho d.Channels
    (fun e => e.2.Style == style && e.2.Name == name) e he (by simp [hs, hn])
    (fun e1 h1 hp => hu e1 h1 (by simpa using hp))
  simp only [Studio.findChannelByNameStyle, this, Option.map_some']

theorem addChannelInNameStyleOptions_lazy (d : Studio) (id : GoString) (now now1 : Time)
    (name style key record trans : GoString) (hn : name ≠ [])
    (hs : style = go "instant" ∨ style = go "dynamic") (hfresh : d.Channels.lookup id = none) :
    ∃ c, d.addChannelInNameStyleOptions id now now1 name style key record trans =
        ({ d with Channels := d.Channels ++ [(id, c)] }, some c) ∧
      c.ID = id ∧ c.Name = name ∧ c.Style = style ∧ c.State = Idle ∧ c.EventState = Idle ∧
      c.AtCreated = now ∧
      c.AtExpired = now1.Add (if style = go "dynamic" then TIME_EXPIRE_DYNAMIC
        else TIME_EXPIRE_INSTANT) := by
  have hadd : ∀ p : Channel, p.ID = id →
      d.addChannel p = ({ d with Channels := d.Channels ++ [(id, p)] }, some p) := by
    intro p hp
    have h1 : GoMap.lookup (GoMap.store d.Channels p.ID p) p.ID = some p :=
      GoMap.lookup_store_self _ _ _
    simp only [Studio.addChannel, h1]
    rw [hp]
    simp only [GoMap.store, GoMap.remove_of_lookup_none _ _ hfresh]
  have hsi : ¬ go "instant" = go "static" := by decide
  have hsd : ¬ go "dynamic" = go "static" := by decide
  have hid : ¬ go "instant" = go "dynamic" := by decide
  unfold Studio.addChannelInNameStyleOptions
  simp only [hn, ne_eq, not_false_eq_true, if_true]
  rcases hs with hs | hs <;> subst hs <;> simp only [hsi, hsd, hid, if_true, if_false] <;>
    split_ifs <;>
    exact ⟨_, hadd _ rfl, rfl, rfl, rfl, rfl, rfl, rfl, rfl⟩

theorem Studio.eta_append (d : Studio) (id : GoString) (c : Channel) :
    ({ d with Channels := d.Channels ++ [(id, c)] } : Studio).Channels
      = d.Channels ++ [(id, c)] := rfl

/-- C16, as stated, fails on a studio in which two channels have the same name and style.
The manager command `set channel k2 name x` on the studio `studioXY` gives the studio
`studioTwin` with two dynamic channels named `x`; resolving the request `queryD` (name `x`,
parameter `dynamic`) on it returns the channel `k1` when the loop of
`findChannelByNameStyle` meets the channels in the order stored and the channel `k2` when
it meets them in the reverse order, so two resolutions need not return the same channel
id.  Neither adds a channel. -/
theorem setChannelByQueryOption_counterexample :
    Command.setChannel { ID := go "k2", Opt := go "name", Value := go "x" } studioXY 6 7
      = (studioTwin, true) ∧
    (Studio.setChannelByQueryOption (fun _ => false) id studioTwin (go "c9") 8 9 queryD).1
      = studioTwin ∧
    ((Studio.setChannelByQueryOption (fun _ => false) id studioTwin (go "c9") 8 9 queryD).2).map
      (fun c => c.ID) = some (go "k1") ∧
    (Studio.setChannelByQueryOption (fun _ => false) List.reverse studioTwin (go "c9") 8 9
      queryD).1 = studioTwin ∧
    ((Studio.setChannelByQueryOption (fun _ => false) List.reverse studioTwin (go "c9") 8 9
      queryD).2).map (fun c => c.ID) = some (go "k2") ∧
    go "k1" ≠ go "k2" := by
  decide

/-- C16, amended. For every studio state, every non-empty name, every channel parameter
that is not a valid id (the id a new channel gets being fresh) and every order in which
the loops meet the channels: if the parameter is `instant` or `dynamic`,
`setChannelByQueryOption` returns a channel of the studio with that name and style when
there is one, leaving the studio unchanged, and otherwise adds exactly one new entry, a
channel with the new id and that name and style, and returns it; resolving the same
request again on the resulting studio adds nothing and returns a channel with that name
and style, the same channel as the first time when at most one channel of the studio has
that name and style.  If the parameter is `static` it never adds a channel: it returns a
static channel of that name when there is one and nothing otherwise.  For any other
parameter it returns nothing and adds nothing. -/
theorem setChannelByQueryOption_spec (isXid : GoString → Bool) (order order2 : RangeOrder Channel)
    (d : Studio) (id : GoString) (now now1 : Time) (qo : QueryOption)
    (hx : isXid qo.Channel.ID = false) (hn : qo.Channel.Name ≠ [])
    (hfresh : d.Channels.lookup id = none)
    (ho : RangeOrder.Valid order) (ho2 : RangeOrder.Valid order2) :
    ((qo.Channel.ID = go "instant" ∨ qo.Channel.ID = go "dynamic") →
      ((∃ e ∈ d.Channels, e.2.Style = qo.Channel.ID ∧ e.2.Name = qo.Channel.Name) →
        ∃ e ∈ d.Channels, e.2.Style = qo.Channel.ID ∧ e.2.Name = qo.Channel.Name ∧
          d.setChannelByQueryOption isXid order id now now1 qo = (d, some e.2)) ∧
      ((∀ e ∈ d.Channels, ¬ (e.2.Style = qo.Channel.ID ∧ e.2.Name = qo.Channel.Name)) →
        ∃ c, d.setChannelByQueryOption isXid order id now now1 qo =
            ({ d with Channels := d.Channels ++ [(id, c)] }, some c) ∧
          c.ID = id ∧ c.Name = qo.Channel.Name ∧ c.Style = qo.Channel.ID) ∧
      (∃ c, (d.setChannelByQueryOption isXid order id now now1 qo).2 = some c ∧
        ∀ id2 now2 now3, ∃ c2,
          (d.setChannelByQueryOption isXid order id now now1 qo).1.setChannelByQueryOption isXid
              order2 id2 now2 now3 qo
            = ((d.setChannelByQueryOption isXid order id now now1 qo).1, some c2) ∧
          c2.Name = qo.Channel.Name ∧ c2.Style = qo.Channel.ID ∧
          ((∀ e1 ∈ d.Channels, ∀ e2 ∈ d.Channels,
              e1.2.Style = qo.Channel.ID ∧ e1.2.Name = qo.Channel.Name →
              e2.2.Style = qo.Channel.ID ∧ e2.2.Name = qo.Channel.Name → e1 = e2) →
            c2 = c))) ∧
    (qo.Channel.ID = go "static" →
      ((∃ e ∈ d.Channels, e.2.Style = go "static" ∧ e.2.Name = qo.Channel.Name) →
        ∃ e ∈ d.Channels, e.2.Style = go "static" ∧ e.2.Name = qo.Channel.Name ∧
          d.setChannelByQueryOption isXid order id now now1 qo = (d, some e.2)) ∧
      ((∀ e ∈ d.Channels, ¬ (e.2.Style = go "static" ∧ e.2.Name = qo.Channel.Name)) →
        d.setChannelByQueryOption isXid order id now now1 qo = (d, none))) ∧
    (qo.Channel.ID ≠ go "instant" → qo.Channel.ID ≠ go "dynamic" →
      qo.Channel.ID ≠ go "static" →
      d.setChannelByQueryOption isXid order id now now1 qo = (d, none)) := by
  have hsi : ¬ go "static" = go "instant" := by decide
  have hsd : ¬ go "static" = go "dynamic" := by decide
  have hfound : ∀ (order : RangeOrder Channel) (d : Studio) (id : GoString) (now now1 : Time)
      (c : Channel), (qo.Channel.ID = go "instant" ∨ qo.Channel.ID = go "dynamic") →
      d.findChannelByNameStyle order qo.Channel.Name qo.Channel.ID = some c →
      d.setChannelByQueryOption isXid order id now now1 qo = (d, some c) := by
    intro order d id now now1 c hs hc
    simp only [Studio.setChannelByQueryOption, hx, Bool.not_false, if_true, hs, hc]
  have hnew : (∀ e ∈ d.Channels, ¬ (e.2.Style = qo.Channel.ID ∧ e.2.Name = qo.Channel.Name)) →
      (qo.Channel.ID = go "instant" ∨ qo.Channel.ID = go "dynamic") →
      ∃ c, d.setChannelByQueryOption isXid order id now now1 qo =
          ({ d with Channels := d.Channels ++ [(id, c)] }, some c) ∧
        c.ID = id ∧ c.Name = qo.Channel.Name ∧ c.Style = qo.Channel.ID := by
    intro hnone hs
    have hf := findChannelByNameStyle_none d order ho _ _ hnone
    obtain ⟨c, hc, h1, h2, h3, _⟩ := addChannelInNameStyleOptions_lazy d id now now1
      qo.Channel.Name qo.Channel.ID qo.Channel.Key qo.Channel.Record qo.Channel.Trans hn hs
      hfresh
    refine ⟨c, ?_, h1, h2, h3⟩
    simp only [Studio.setChannelByQueryOption, hx, Bool.not_false, if_true, hs, hf, hc]
  have hexist : (qo.Channel.ID = go "instant" ∨ qo.Channel.ID = go "dynamic") →
      (∃ e ∈ d.Channels, e.2.Style = qo.Channel.ID ∧ e.2.Name = qo.Channel.Name) →
      ∃ e ∈ d.Channels, e.2.Style = qo.Channel.ID ∧ e.2.Name = qo.Channel.Name ∧
        d.setChannelByQueryOption isXid order id now now1 qo = (d, some e.2) := by
    intro hs hex
    obtain ⟨e, he, h1, h2, h3⟩ := findChannelByNameStyle_some d order ho _ _ hex
    exact ⟨e, he, h1, h2, hfound order d id now now1 e.2 hs h3⟩
  refine ⟨fun hs => ⟨hexist hs, fun hnone => hnew hnone hs, ?_⟩, fun hs => ⟨?_, ?_⟩,
    fun h1 h2 h3 => ?_⟩
  · by_cases hex : ∃ e ∈ d.Channels, e.2.Style = qo.Channel.ID ∧ e.2.Name = qo.Channel.Name
    · obtain ⟨e, he, h1, h2, h3⟩ := hexist hs hex
      refine ⟨e.2, by rw [h3], fun id2 now2 now3 => ?_⟩
      rw [h3]
      obtain ⟨e2, he2, h4, h5, h6⟩ := findChannelByNameStyle_some d order2 ho2 _ _ hex
      refine ⟨e2.2, hfound order2 d id2 now2 now3 e2.2 hs h6, h5, h4, fun hu => ?_⟩
      rw [hu e2 he2 e he ⟨h4, h5⟩ ⟨h1, h2⟩]
    · have hnone : ∀ e ∈ d.Channels,
          ¬ (e.2.Style = qo.Channel.ID ∧ e.2.Name = qo.Channel.Name) :=
        fun e he h => hex ⟨e, he, h⟩
      obtain ⟨c, hc, h1, h2, h3⟩ := hnew hnone hs
      refine ⟨c, by rw [hc], fun id2 now2 now3 => ?_⟩
      rw [hc]
      have hmem : (id, c) ∈ ({ d with Channels := d.Channels ++ [(id, c)] } : Studio).Channels := by
        rw [Studio.eta_append]; simp
      have huniq : ∀ e1 ∈ ({ d with Channels := d.Channels ++ [(id, c)] } : Studio).Channels,
          e1.2.Style = qo.Channel.ID ∧ e1.2.Name = qo.Channel.Name → e1 = (id, c) := by
        intro e1 he1 hm
        rw [Studio.eta_append, List.mem_append] at he1
        rcases he1 with he1 | he1
        · exact absurd hm (hnone e1 he1)
        · simpa using he1
      have hf := findChannelByNameStyle_unique _ order2 ho2 qo.Channel.Name qo.Channel.ID
        (id, c) hmem h3 h2 huniq
      exact ⟨c, hfound order2 _ id2 now2 now3 c hs hf, h2, h3, fun _ => rfl⟩
  · intro hex
    obtain ⟨e, he, h1, h2, h3⟩ := findChannelByNameStyle_some d order ho _ _ hex
    refine ⟨e, he, h1, h2, ?_⟩
    have hx1 : isXid (go "static") = false := hs ▸ hx
    simp only [Studio.setChannelByQueryOption, hs, hx1, Bool.not_false, if_true, hsi, hsd,
      or_self, if_false, h3]
  · intro hnone
    have hf := findChannelByNameStyle_none d order ho _ _ hnone
    have hx1 : isXid (go "static") = false := hs ▸ hx
    simp only [Studio.setChannelByQueryOption, hs, hx1, Bool.not_false, if_true, hsi, hsd,
      or_self, if_false, hf]
  · simp only [Studio.setChannelByQueryOption, hx, Bool.not_false, if_true, h1, h2, h3,
      or_self, if_false]

/-- Witness of C16 (amended): on the studio `studioXY`, whose one channel named `x` of
style `dynamic` is `k1`, the request `queryD` (name `x`, parameter `dynamic`) returns a
channel, and resolving it again, the loop meeting the channels in the reverse order,
returns the same channel and leaves the studio as it was. -/
theorem setChannelByQueryOption_spec_witness :
    ∃ c, (studioXY.setChannelByQueryOption (fun _ => false) id (go "c9") 5 6 queryD).2
        = some c ∧ c.ID = go "k1" ∧
      ∀ id2 now2 now3,
        (studioXY.setChannelByQueryOption (fun _ => false) id (go "c9") 5 6
              queryD).1.setChannelByQueryOption (fun _ => false) List.reverse id2 now2 now3
            queryD
          = (studioXY, some c) := by
  obtain ⟨c, hc, h⟩ := ((setChannelByQueryOption_spec (fun _ => false) id List.reverse
    studioXY (go "c9") 5 6 queryD rfl (by decide) (by decide) RangeOrder.valid_id
    RangeOrder.valid_reverse).1 (Or.inr rfl)).2.2
  have hc1 : c.ID = go "k1" := by
    have : (studioXY.setChannelByQueryOption (fun _ => false) id (go "c9") 5 6 queryD).2
        = some { ID := go "k1", Name := go "x", Style := go "dynamic" } := by decide
    rw [this] at hc
    rw [← Option.some.inj hc]
  refine ⟨c, hc, hc1, fun id2 now2 now3 => ?_⟩
  obtain ⟨c2, h1, _, _, h4⟩ := h id2 now2 now3
  rw [h1, h4 (by decide)]
  have : (studioXY.setChannelByQueryOption (fun _ => false) id (go "c9") 5 6 queryD).1
      = studioXY := by decide
  rw [this]

/-! ## The sweep of the channel map -/

theorem GoMap.lookup_eq_none_iff {α : Type} (m : GoMap α) (k : GoString) :
    m.lookup k = none ↔ ∀ e ∈ m, e.1 ≠ k := by
  induction m with
  | nil => simp [GoMap.lookup]
  | cons e m ih =>
    obtain ⟨k1, v⟩ := e
    by_cases h : k1 = k
    · simp [GoMap.lookup, h]
    · simp [GoMap.lookup, h, ih]

theorem GoMap.update_of_not_mem {α : Type} (m : GoMap α) (k : GoString) (f : α → α)
    (h : ∀ e ∈ m, e.1 ≠ k) : m.update k f = m := by
  unfold GoMap.update
  conv_rhs => rw [← List.map_id m]
  apply List.map_congr_left
  intro e he
  simp [h e he]

theorem GoMap.remove_of_not_mem {α : Type} (m : GoMap α) (k : GoString)
    (h : ∀ e ∈ m, e.1 ≠ k) : m.remove k = m :=
  GoMap.remove_of_lookup_none m k ((GoMap.lookup_eq_none_iff m k).mpr h)

theorem GoMap.lookup_mid {α : Type} (done rest : GoMap α) (k : GoString) (v : α)
    (h : ∀ e ∈ done, e.1 ≠ k) : GoMap.lookup (done ++ (k, v) :: rest) k = some v := by
  rw [GoMap.lookup_append, (GoMap.lookup_eq_none_iff done k).mpr h]
  simp [GoMap.lookup]

theorem GoMap.update_mid {α : Type} (done rest : GoMap α) (k : GoString) (v : α) (f : α → α)
    (h1 : ∀ e ∈ done, e.1 ≠ k) (h2 : ∀ e ∈ rest, e.1 ≠ k) :
    GoMap.update (done ++ (k, v) :: rest) k f = done ++ (k, f v) :: rest := by
  have e1 := GoMap.update_of_not_mem done k f h1
  have e2 := GoMap.update_of_not_mem rest k f h2
  unfold GoMap.update at e1 e2 ⊢
  rw [List.map_append, List.map_cons, e1, e2]
  simp

theorem GoMap.remove_mid {α : Type} (done rest : GoMap α) (k : GoString) (v : α)
    (h1 : ∀ e ∈ done, e.1 ≠ k) (h2 : ∀ e ∈ rest, e.1 ≠ k) :
    GoMap.remove (done ++ (k, v) :: rest) k = done ++ rest := by
  have e1 := GoMap.remove_of_not_mem done k h1
  have e2 := GoMap.remove_of_not_mem rest k h2
  unfold GoMap.remove at e1 e2 ⊢
  rw [List.filter_append, List.filter_cons, e1, e2]
  simp

/-- What one pass of a loop leaves under a key: `none` when the entry is deleted. -/
theorem GoMap.range_fold {α : Type} (act : GoMap α → GoString → α → GoMap α)
    (F : GoString → α → Option α) (P : GoString → α → Prop)
    (hact : ∀ done rest k v, (∀ e ∈ done, e.1 ≠ k) → (∀ e ∈ rest, e.1 ≠ k) → P k v →
      act (done ++ (k, v) :: rest) k v = done ++ ((F k v).map (fun v1 => (k, v1))).toList ++ rest)
    (rest : GoMap α) :
    ∀ done : GoMap α, GoMap.Keyed rest → (∀ e ∈ done, ∀ e1 ∈ rest, e.1 ≠ e1.1) →
      (∀ e ∈ rest, P e.1 e.2) →
      rest.foldl (GoMap.rangeStep act) (done ++ rest) =
        done ++ rest.filterMap (fun e => (F e.1 e.2).map (fun v1 => (e.1, v1))) := by
  induction rest with
  | nil => intro done _ _ _; simp
  | cons e rest ih =>
    obtain ⟨k, v⟩ := e
    intro done hk hd hp
    have hk1 : (∀ e ∈ rest, e.1 ≠ k) ∧ GoMap.Keyed rest := by
      unfold GoMap.Keyed at hk ⊢
      rw [List.map_cons, List.nodup_cons] at hk
      refine ⟨fun e he h => ?_, hk.2⟩
      have hm : e.1 ∈ List.map Prod.fst rest := List.mem_map_of_mem Prod.fst he
      rw [h] at hm
      exact hk.1 hm
    have hdk : ∀ e ∈ done, e.1 ≠ k := fun e he => hd e he (k, v) (List.mem_cons_self _ _)
    have hstep : GoMap.rangeStep act (done ++ (k, v) :: rest) (k, v) =
        done ++ ((F k v).map (fun v1 => (k, v1))).toList ++ rest := by
      unfold GoMap.rangeStep
      rw [GoMap.lookup_mid done rest k v hdk]
      exact hact done rest k v hdk hk1.1 (hp (k, v) (List.mem_cons_self _ _))
    rw [List.foldl_cons, hstep, ih (done ++ ((F k v).map (fun v1 => (k, v1))).toList) hk1.2]
    · rw [List.filterMap_cons]
      cases F k v <;> simp
    · intro e he e1 he1
      rw [List.mem_append] at he
      rcases he with he | he
      · exact hd e he e1 (List.mem_cons_of_mem _ he1)
      · cases hF : F k v with
        | none => simp [hF] at he
        | some v1 =>
          simp only [hF, Option.map_some', Option.toList_some, List.mem_singleton] at he
          rw [he]
          exact fun h => hk1.1 e1 he1 h.symm
    · exact fun e he => hp e (List.mem_cons_of_mem _ he)

theorem GoMap.range_eq {α : Type} (act : GoMap α → GoString → α → GoMap α)
    (F : GoString → α → Option α) (P : GoString → α → Prop)
    (hact : ∀ done rest k v, (∀ e ∈ done, e.1 ≠ k) → (∀ e ∈ rest, e.1 ≠ k) → P k v →
      act (done ++ (k, v) :: rest) k v = done ++ ((F k v).map (fun v1 => (k, v1))).toList ++ rest)
    (m : GoMap α) (hk : GoMap.Keyed m) (hp : ∀ e ∈ m, P e.1 e.2) :
    GoMap.range act m = m.filterMap (fun e => (F e.1 e.2).map (fun v1 => (e.1, v1))) := by
  have h := GoMap.range_fold act F P hact m [] hk (by intro e he; cases he) hp
  simpa [GoMap.range] using h

theorem GoMap.lookup_filterMap {α : Type} (F : GoString → α → Option α) (m : GoMap α)
    (hk : GoMap.Keyed m) (k : GoString) :
    GoMap.lookup (m.filterMap (fun e => (F e.1 e.2).map (fun v1 => (e.1, v1)))) k =
      (m.lookup k).bind (F k) := by
  induction m with
  | nil => rfl
  | cons e m ih =>
    obtain ⟨k1, v⟩ := e
    have hk1 : (∀ e ∈ m, e.1 ≠ k1) ∧ GoMap.Keyed m := by
      unfold GoMap.Keyed at hk ⊢
      rw [List.map_cons, List.nodup_cons] at hk
      refine ⟨fun e he h => ?_, hk.2⟩
      have hm : e.1 ∈ List.map Prod.fst m := List.mem_map_of_mem Prod.fst he
      rw [h] at hm
      exact hk.1 hm
    rw [List.filterMap_cons]
    by_cases h : k1 = k
    · subst h
      have hnone : GoMap.lookup
          (m.filterMap (fun e => (F e.1 e.2).map (fun v1 => (e.1, v1)))) k1 = none := by
        rw [ih hk1.2, (GoMap.lookup_eq_none_iff m k1).mpr hk1.1]
        rfl
      cases hF : F k1 v with
      | none => simp [hF, hnone, GoMap.lookup]
      | some v1 => simp [hF, GoMap.lookup]
    · cases hF : F k1 v with
      | none => simp [hF, GoMap.lookup, h, ih hk1.2]
      | some v1 => simp [hF, GoMap.lookup, h, ih hk1.2]

theorem Source.purgeTracks_Label (s : Source) : s.purgeTracks.Label = s.Label := by
  unfold Source.purgeTracks
  have h : ∀ (l : GoMap Track) (s0 : Source),
      (l.foldl
        (fun s1 e =>
          match s1.Tracks.lookup e.1 with
          | none => s1
          | some t => s1.deleteTrackByLabel t.Label)
        s0).Label = s0.Label := by
    intro l
    induction l with
    | nil => intro s0; rfl
    | cons e l ih =>
      intro s0
      rw [List.foldl_cons, ih]
      cases s0.Tracks.lookup e.1 <;> rfl
  exact h _ _

theorem Channel.purgeAllSourceTracks_Sources (c : Channel) (hi : c.State = Idle)
    (hwf : SourcesByLabel c) : c.purgeAllSourceTracks.Sources = [] := by
  have hst : (!c.isState Idle) = false := by simp [Channel.isState, hi]
  unfold Channel.purgeAllSourceTracks
  rw [if_neg (by simp [hst])]
  show GoMap.range _ c.Sources = []
  rw [GoMap.range_eq _ (fun _ _ => none) (fun k s => s.Label = k) _ c.Sources hwf.1 hwf.2]
  · simp
  · intro done rest k s h1 h2 hl
    simp only [Option.map_none', Option.toList_none, List.append_nil]
    rw [Source.purgeTracks_Label, hl, GoMap.update_mid done rest k s _ h1 h2,
      GoMap.remove_mid done rest k _ h1 h2]

theorem GoMap.len_eq_zero {α : Type} (m : GoMap α) (h : GoMap.len m = 0) : m = [] := by
  unfold GoMap.len at h
  cases m with
  | nil => rfl
  | cons e m =>
    exfalso
    have hmem : e.1 ∈ (List.map Prod.fst (e :: m)).dedup :=
      List.mem_dedup.mpr (List.mem_cons_self _ _)
    have hpos := List.length_pos_of_mem hmem
    have hz : (List.map Prod.fst (e :: m)).dedup.length = 0 := by exact_mod_cast h
    omega

theorem Channel.purgeAllSourceTracks_of_empty (c : Channel) (h : c.Sources = []) :
    c.purgeAllSourceTracks = c := by
  unfold Channel.purgeAllSourceTracks
  split
  · rfl
  · rw [h]
    cases c
    simp only [GoMap.range, List.foldl_nil] at *
    simp [h]

theorem hour_after (t now : Nat) :
    (Time.After now (Time.Add t Hour) = true) ↔ t + 3600000000000 < now := by
  have hH : (Hour : Int) = (3600000000000 : Int) := by decide
  show decide ((((t : Int) + (Hour : Int)).toNat : Nat) < now) = true ↔ _
  rw [hH, decide_eq_true_eq]
  constructor <;> intro h <;> omega

theorem cleanChannels_eq (d : Studio) (now : Time) (hwf : ChannelsById d.Channels) :
    (d.cleanChannels now).Channels =
      d.Channels.filterMap
        (fun e => (cleanChannels.left now e.2).map (fun v1 => (e.1, v1))) := by
  show GoMap.range (Studio.cleanChannels.body now) d.Channels = _
  refine GoMap.range_eq _ (fun _ v => cleanChannels.left now v) (fun k v => v.ID = k) ?_
    d.Channels hwf.1 hwf.2
  intro done rest k v h1 h2 hid
  unfold Studio.cleanChannels.body cleanChannels.left
  by_cases hu : v.State ≠ Idle ∨ v.EventState ≠ Idle
  · have hb : (!v.isState Idle || !v.isEventState Idle) = true := by
      rcases hu with hu | hu
      · simp [Channel.isState, hu]
      · simp [Channel.isEventState, hu]
    simp [hb, hu]
  · have hb : ¬ (!v.isState Idle || !v.isEventState Idle) = true := by
      push_neg at hu
      simp [Channel.isState, Channel.isEventState, hu.1, hu.2]
    beta_reduce
    rw [if_neg hb, if_neg hu]
    by_cases hs : v.Style = go "static"
    · rw [if_pos hs, if_pos hs]
      by_cases hl : GoMap.len v.Sources = 0
      · have hp := Channel.purgeAllSourceTracks_of_empty v (GoMap.len_eq_zero _ hl)
        rw [if_pos hl, hp]
        split <;> simp
      · rw [if_neg hl]
        by_cases ha : v.AtUsed + 3600000000000 < now
        · rw [if_pos ((hour_after _ _).mpr ha), if_pos ha, GoMap.update_mid done rest k v _ h1 h2]
          simp
        · rw [if_neg (fun h => ha ((hour_after _ _).mp h)), if_neg ha]
          simp
    · rw [if_neg hs, if_neg hs]
      by_cases he : v.AtExpired < now
      · have he1 : Time.After now v.AtExpired = true := by simp [Time.After, he]
        rw [if_pos he1, if_pos he, hid, GoMap.remove_mid done rest k v h1 h2]
        simp
      · have he1 : ¬ Time.After now v.AtExpired = true := by simp [Time.After, he]
        rw [if_neg he1, if_neg he]
        simp

theorem cleanChannels_lookup (d : Studio) (now : Time) (hwf : ChannelsById d.Channels)
    (k : GoString) :
    (d.cleanChannels now).Channels.lookup k =
      (d.Channels.lookup k).bind (cleanChannels.left now) := by
  rw [cleanChannels_eq d now hwf]
  exact GoMap.lookup_filterMap (fun _ v => cleanChannels.left now v) d.Channels hwf.1 k

/-- C18. For every studio state whose channels are stored under their ids and every
current time, `cleanChannels` leaves the other maps as they are and, for the channel `c`
under the key `k`: if `c` is static it is still in the map afterwards; if `c` is not
`Idle` or its event state is not `Idle` (so when either is `Using`) it is unchanged; if
`c` is `Idle`, event-idle and static, it is unchanged unless the current time is later
than `AtUsed` + 1 h, and then it is `c` after `purgeAllSourceTracks`, whose source map is
empty when the sources are stored under their labels; if `c` is not static it is removed
exactly when it is `Idle`, event-idle and the current time is later than `AtExpired`, and
is unchanged otherwise. -/
theorem cleanChannels_spec (d : Studio) (now : Time) (hwf : ChannelsById d.Channels)
    (k : GoString) (c : Channel) (hc : d.Channels.lookup k = some c) :
    (d.cleanChannels now).Sessions = d.Sessions ∧
    (c.Style = go "static" → (d.cleanChannels now).Channels.lookup k ≠ none) ∧
    ((c.State ≠ Idle ∨ c.EventState ≠ Idle) →
      (d.cleanChannels now).Channels.lookup k = some c) ∧
    (c.State = Idle → c.EventState = Idle → c.Style = go "static" →
      (¬ c.AtUsed + 3600000000000 < now →
        (d.cleanChannels now).Channels.lookup k = some c) ∧
      (c.AtUsed + 3600000000000 < now →
        (d.cleanChannels now).Channels.lookup k = some c.purgeAllSourceTracks ∧
        (SourcesByLabel c → c.purgeAllSourceTracks.Sources = []))) ∧
    (c.Style ≠ go "static" →
      ((d.cleanChannels now).Channels.lookup k = none ↔
        c.State = Idle ∧ c.EventState = Idle ∧ c.AtExpired < now) ∧
      ((d.cleanChannels now).Channels.lookup k ≠ none →
        (d.cleanChannels now).Channels.lookup k = some c)) := by
  have hl := cleanChannels_lookup d now hwf k
  rw [hc, Option.some_bind] at hl
  rw [hl]
  refine ⟨rfl, ?_, ?_, ?_, ?_⟩
  · intro hs
    unfold cleanChannels.left
    split_ifs <;> simp
  · intro hu
    unfold cleanChannels.left
    rw [if_pos hu]
  · intro h1 h2 hs
    have hu : ¬ (c.State ≠ Idle ∨ c.EventState ≠ Idle) := by simp [h1, h2]
    unfold cleanChannels.left
    rw [if_neg hu, if_pos hs]
    refine ⟨fun ha => by rw [if_neg ha], fun ha => ⟨by rw [if_pos ha], fun hw => ?_⟩⟩
    exact Channel.purgeAllSourceTracks_Sources c h1 hw
  · intro hs
    unfold cleanChannels.left
    by_cases hu : c.State ≠ Idle ∨ c.EventState ≠ Idle
    · rw [if_pos hu]
      refine ⟨⟨fun h => (by cases h), fun h => ?_⟩, fun _ => rfl⟩
      rcases hu with hu | hu
      · exact absurd h.1 hu
      · exact absurd h.2.1 hu
    · rw [if_neg hu, if_neg hs]
      have hi : c.State = Idle ∧ c.EventState = Idle := by
        push_neg at hu
        exact hu
      by_cases he : c.AtExpired < now
      · rw [if_pos he]
        exact ⟨⟨fun _ => ⟨hi.1, hi.2, he⟩, fun _ => rfl⟩, fun h => absurd rfl h⟩
      · rw [if_neg he]
        exact ⟨⟨fun h => (by cases h), fun h => absurd h.2.2 he⟩, fun _ => rfl⟩

/-- Witness of C18 on the studio `studioC` at a time later than every expiry: the channel
`ch1` in use is unchanged, the static idle channel `ch2` is kept and purged of its
sources, the dynamic idle channel `ch3` is removed. -/
theorem cleanChannels_spec_witness :
    (studioC.cleanChannels 4000000000000).Channels.lookup (go "ch1") = some chanA ∧
    ((studioC.cleanChannels 4000000000000).Channels.lookup (go "ch2")
        = some chanS.purgeAllSourceTracks ∧
      (SourcesByLabel chanS → chanS.purgeAllSourceTracks.Sources = [])) ∧
    (studioC.cleanChannels 4000000000000).Channels.lookup (go "ch3") = none :=
  ⟨(cleanChannels_spec studioC 4000000000000 (by decide) (go "ch1") chanA rfl).2.2.1
      (Or.inl (by decide)),
   ((cleanChannels_spec studioC 4000000000000 (by decide) (go "ch2") chanS rfl).2.2.2.1
      rfl rfl rfl).2 (by decide),
   ((cleanChannels_spec studioC 4000000000000 (by decide) (go "ch3") chanD rfl).2.2.2.2
      (by decide)).1.mpr ⟨rfl, rfl, by decide⟩⟩
/-! ## Expiry of a channel added by the manager -/

/-- C17, at the failing input. The manager command `add channel` with style `dynamic` and
name `x`, run at the time 5 on an empty studio to which `GetXidString` gives the id `c9`,
stores a dynamic channel created at 5 whose `AtExpired` is the zero time, and the sweep
`cleanChannels` 30 s later removes it, 24 h after its creation being far away.  The same
command with style `instant`, and the channel `x` created lazily with the parameter
`dynamic`, are both still in the map after that sweep.  The studio holds no channel when
the names are looked up, so the order of those loops (here the order stored, `id`) plays no
part. -/
theorem addChannel_dynamic_removed :
    ((Command.addChannel (fun _ => false) id (cmdAdd (go "dynamic")) {} (go "c9") 5 6).2 = true ∧
      ((Command.addChannel (fun _ => false) id (cmdAdd (go "dynamic")) {} (go "c9") 5 6).1.Channels.lookup
          (go "c9")).map (fun c => (c.Style, c.AtCreated, c.AtExpired))
        = some (go "dynamic", 5, 0)) ∧
    ((Command.addChannel (fun _ => false) id (cmdAdd (go "dynamic")) {} (go "c9") 5
        6).1.cleanChannels 30000000005).Channels.lookup (go "c9") = none ∧
    (30000000005 : Nat) < 5 + 24 * 3600000000000 ∧
    (((Command.addChannel (fun _ => false) id (cmdAdd (go "instant")) {} (go "c9") 5
        6).1.cleanChannels 30000000005).Channels.lookup (go "c9")).isSome = true ∧
    (((Studio.setChannelByQueryOption (fun _ => false) id {} (go "c9") 5 6
        queryD).1.cleanChannels 30000000005).Channels.lookup (go "c9")).isSome = true := by
  refine ⟨⟨?_, ?_⟩, ?_, ?_, ?_, ?_⟩ <;> decide

/-- The sibling path: a channel created lazily by `addChannelInNameStyleOptions` with
style `dynamic` (respectively `instant`) is still in the map after a sweep at any time
earlier than 24 h (respectively 1 h) after its creation. -/
theorem lazy_channel_kept (d : Studio) (id : GoString) (now now1 : Time)
    (name style key record trans : GoString) (hn : name ≠ [])
    (hs : style = go "instant" ∨ style = go "dynamic") (hfresh : d.Channels.lookup id = none)
    (hwf : ChannelsById d.Channels) (hclock : now ≤ now1) (t : Nat)
    (ht : t < now + (if style = go "dynamic" then 24 * 3600000000000 else 3600000000000)) :
    (((d.addChannelInNameStyleOptions id now now1 name style key record trans).1.cleanChannels
      t).Channels.lookup id).isSome = true := by
  obtain ⟨c, hc, h1, h2, h3, h4, h5, h6, h7⟩ :=
    addChannelInNameStyleOptions_lazy d id now now1 name style key record trans hn hs hfresh
  have hnk : ∀ e ∈ d.Channels, e.1 ≠ id := (GoMap.lookup_eq_none_iff _ _).mp hfresh
  have hwf1 : ChannelsById (d.Channels ++ [(id, c)]) := by
    refine ⟨?_, ?_⟩
    · unfold GoMap.Keyed
      rw [List.map_append, List.nodup_append]
      refine ⟨hwf.1, List.nodup_singleton _, ?_⟩
      intro a ha hb
      rw [List.map_singleton, List.mem_singleton] at hb
      obtain ⟨e, he, hea⟩ := List.mem_map.mp ha
      exact hnk e he (hea.trans hb)
    · intro e he
      rcases List.mem_append.mp he with he | he
      · exact hwf.2 e he
      · rw [List.mem_singleton.mp he]
        exact h1
  rw [hc]
  have hl := cleanChannels_lookup { d with Channels := d.Channels ++ [(id, c)] } t hwf1 id
  rw [hl]
  have hlk : GoMap.lookup (d.Channels ++ [(id, c)]) id = some c :=
    GoMap.lookup_mid d.Channels [] id c hnk
  show ((GoMap.lookup (d.Channels ++ [(id, c)]) id).bind (cleanChannels.left t)).isSome = true
  rw [hlk, Option.some_bind]
  have hst : ¬ c.Style = go "static" := by
    rw [h3]
    rcases hs with hs | hs <;> rw [hs] <;> decide
  have hD : TIME_EXPIRE_DYNAMIC = (24 * 3600000000000 : Int) := by decide
  have hI : TIME_EXPIRE_INSTANT = (3600000000000 : Int) := by decide
  have hclock1 : @LE.le Nat _ now now1 := hclock
  have hexp : ¬ c.AtExpired < t := by
    rw [h7]
    by_cases hdy : style = go "dynamic"
    · rw [if_pos hdy] at ht ⊢
      show ¬ (((now1 : Int) + TIME_EXPIRE_DYNAMIC).toNat < t)
      rw [hD]
      omega
    · rw [if_neg hdy] at ht ⊢
      show ¬ (((now1 : Int) + TIME_EXPIRE_INSTANT).toNat < t)
      rw [hI]
      omega
  unfold cleanChannels.left
  rw [if_neg (by simp [h4, h5]), if_neg hst, if_neg hexp]
  rfl

/-! ## Admission to the entry points -/

theorem Studio.eta_Channels (d : Studio) : ({ d with Channels := d.Channels } : Studio) = d := rfl

theorem setChannelByIDState_eq (d : Studio) (key : GoString) (st : Moth.State) :
    d.setChannelByIDState key st =
      (d.onChannel key (fun r => r.withState st),
        (d.Channels.lookup key).map (fun r => r.withState st)) := by
  unfold Studio.setChannelByIDState Studio.onChannel
  cases h : d.Channels.lookup key with
  | none =>
    have hu : d.Channels.update key (fun r => r.withState st) = d.Channels :=
      GoMap.update_of_not_mem _ _ _ ((GoMap.lookup_eq_none_iff _ _).mp h)
    simp only [hu, Option.map_none']
  | some c =>
    simp only [GoMap.lookup_update, if_true, h, Option.map_some']
    rfl

theorem afterSetChannelIdleByID_fst (d : Studio) (key : GoString) :
    (d.afterSetChannelIdleByID key).1 =
      if d.countSessionsByChannelID key = 0 then d.onChannel key (fun r => r.withState Idle)
      else d := by
  unfold Studio.afterSetChannelIdleByID
  split
  · rw [setChannelByIDState_eq]
    cases d.Channels.lookup key <;> rfl
  · rfl

@[simp]
theorem Channel.withState_ID (c : Channel) (st : Moth.State) : (c.withState st).ID = c.ID := by
  unfold Channel.withState Channel.reset Channel.resetAllSourceTracks
  simp only []
  split_ifs <;> rfl

@[simp]
theorem Channel.withState_Blocked (c : Channel) (st : Moth.State) :
    (c.withState st).Blocked = c.Blocked := by
  unfold Channel.withState Channel.reset Channel.resetAllSourceTracks
  simp only []
  split_ifs <;> rfl

@[simp]
theorem Channel.withState_StreamKey (c : Channel) (st : Moth.State) :
    (c.withState st).StreamKey = c.StreamKey := by
  unfold Channel.withState Channel.reset Channel.resetAllSourceTracks
  simp only []
  split_ifs <;> rfl

@[simp]
theorem Channel.withState_rings (c : Channel) (st : Moth.State) :
    (c.withState st).rings = c.rings := by
  unfold Channel.withState Channel.reset Channel.resetAllSourceTracks Channel.rings
  simp only []
  split_ifs <;> simp [List.map_map, Function.comp_def]

@[simp]
theorem GoMap.ids_update (m : GoMap Channel) (k : GoString) (f : Channel → Channel)
    (hf : ∀ c, (f c).ID = c.ID) : GoMap.ids (m.update k f) = GoMap.ids m := by
  unfold GoMap.ids GoMap.update
  rw [List.map_map]
  apply List.map_congr_left
  intro e _
  by_cases h : e.1 = k <;> simp [h, hf]

@[simp]
theorem GoMap.rings_update (m : GoMap Channel) (k : GoString) (f : Channel → Channel)
    (hf : ∀ c, (f c).rings = c.rings) : GoMap.rings (m.update k f) = GoMap.rings m := by
  unfold GoMap.rings GoMap.update
  rw [List.map_map]
  apply List.map_congr_left
  intro e _
  by_cases h : e.1 = k <;> simp [h, hf]

@[simp]
theorem Studio.onChannel_Sessions (d : Studio) (k : GoString) (f : Channel → Channel) :
    (d.onChannel k f).Sessions = d.Sessions := rfl

@[simp]
theorem Studio.putSession_Sessions (d : Studio) (s : Session) :
    (d.putSession s).Sessions = d.Sessions.update s.ID (fun _ => s) := rfl

@[simp]
theorem Studio.addSession_Sessions (d : Studio) (s : Session) :
    (d.addSession s).1.Sessions = d.Sessions.store s.ID s := rfl

@[simp]
theorem Studio.deleteSessionWithClose_Sessions (d : Studio) (s : Session) :
    (d.deleteSessionWithClose s).1.Sessions = d.Sessions.remove s.ID := rfl

@[simp]
theorem Studio.afterSet_Sessions (d : Studio) (k : GoString) :
    (d.afterSetChannelIdleByID k).1.Sessions = d.Sessions := by
  rw [afterSetChannelIdleByID_fst]
  split <;> rfl

@[simp]
theorem Studio.onChannel_Channels (d : Studio) (k : GoString) (f : Channel → Channel) :
    (d.onChannel k f).Channels = d.Channels.update k f := rfl

@[simp]
theorem Studio.putSession_Channels (d : Studio) (s : Session) :
    (d.putSession s).Channels = d.Channels := rfl

@[simp]
theorem Studio.addSession_Channels (d : Studio) (s : Session) :
    (d.addSession s).1.Channels = d.Channels := rfl

@[simp]
theorem Studio.deleteSessionWithClose_Channels (d : Studio) (s : Session) :
    (d.deleteSessionWithClose s).1.Channels = d.Channels := rfl

@[simp]
theorem Studio.afterSet_ids (d : Studio) (k : GoString) :
    GoMap.ids (d.afterSetChannelIdleByID k).1.Channels = GoMap.ids d.Channels := by
  rw [afterSetChannelIdleByID_fst]
  split
  · exact GoMap.ids_update _ _ _ (fun c => Channel.withState_ID c Idle)
  · rfl

@[simp]
theorem Studio.afterSet_rings (d : Studio) (k : GoString) :
    GoMap.rings (d.afterSetChannelIdleByID k).1.Channels = GoMap.rings d.Channels := by
  rw [afterSetChannelIdleByID_fst]
  split
  · exact GoMap.rings_update _ _ _ (fun c => Channel.withState_rings c Idle)
  · rfl

theorem GoMap.store_fresh {α : Type} (m : GoMap α) (k : GoString) (v : α)
    (h : m.lookup k = none) : m.store k v = m ++ [(k, v)] := by
  unfold GoMap.store
  rw [GoMap.remove_of_lookup_none m k h]

theorem GoMap.update_last {α : Type} (m : GoMap α) (k : GoString) (v : α) (f : α → α)
    (h : m.lookup k = none) : GoMap.update (m ++ [(k, v)]) k f = m ++ [(k, f v)] :=
  GoMap.update_mid m [] k v f ((GoMap.lookup_eq_none_iff m k).mp h) (by intro e he; cases he)

theorem GoMap.remove_last {α : Type} (m : GoMap α) (k : GoString) (v : α)
    (h : m.lookup k = none) : GoMap.remove (m ++ [(k, v)]) k = m := by
  have := GoMap.remove_mid m [] k v ((GoMap.lookup_eq_none_iff m k).mp h)
    (by intro e he; cases he)
  simpa using this

theorem Session.setTimeoutInUnit_ids (s : Session) (tout : Int) (tunit : GoString) :
    (s.setTimeoutInUnit tout tunit).ID = s.ID ∧ (s.setTimeoutInUnit tout tunit).Name = s.Name ∧
    (s.setTimeoutInUnit tout tunit).ChannelID = s.ChannelID ∧
    (s.setTimeoutInUnit tout tunit).SourceID = s.SourceID ∧
    (s.setTimeoutInUnit tout tunit).TrackID = s.TrackID := by
  unfold Session.setTimeoutInUnit
  simp only []
  split_ifs <;> exact ⟨rfl, rfl, rfl, rfl, rfl⟩

theorem Channel.addSourceTrackByLabel_ID (c c1 : Channel) (ids : Fresh) (sl tl : GoString)
    (h : c.addSourceTrackByLabel ids sl tl = some c1) : c1.ID = c.ID := by
  unfold Channel.addSourceTrackByLabel at h
  simp only [] at h
  split at h
  · cases h
  · split at h
    · cases h
    · split at h
      · cases h
      · cases h
        cases c.Sources.lookup sl <;> rfl

@[simp]
theorem Channel.addSourceTrackByLabel_getD_ID (c : Channel) (ids : Fresh) (sl tl : GoString) :
    ((c.addSourceTrackByLabel ids sl tl).getD c).ID = c.ID := by
  cases h : c.addSourceTrackByLabel ids sl tl with
  | none => rfl
  | some c1 => exact Channel.addSourceTrackByLabel_ID c c1 ids sl tl h

@[simp]
theorem Channel.addPublisher_ID (c : Channel) (s : Session) (now : Time) :
    (c.addPublisher s now).ID = c.ID := rfl

@[simp]
theorem Channel.deletePublisher_ID (c : Channel) (s : Session) :
    (c.deletePublisher s).ID = c.ID := rfl

@[simp]
theorem Channel.addSubscriber_ID (c : Channel) (s : Session) (now : Time) :
    (c.addSubscriber s now).ID = c.ID := rfl

@[simp]
theorem Channel.deleteSubscriber_ID (c : Channel) (s : Session) :
    (c.deleteSubscriber s).ID = c.ID := rfl

@[simp]
theorem Channel.onTrack_ID (c : Channel) (sl tl : GoString) (f : Track → Track) :
    (c.onTrack sl tl f).ID = c.ID := rfl

@[simp]
theorem Channel.atUsed_ID (c : Channel) (now : Time) :
    ({ c with AtUsed := now } : Channel).ID = c.ID := rfl

@[simp]
theorem Channel.addPublisher_rings (c : Channel) (s : Session) (now : Time) :
    (c.addPublisher s now).rings = c.rings := rfl

@[simp]
theorem Channel.deletePublisher_rings (c : Channel) (s : Session) :
    (c.deletePublisher s).rings = c.rings := rfl

@[simp]
theorem Channel.addSubscriber_rings (c : Channel) (s : Session) (now : Time) :
    (c.addSubscriber s now).rings = c.rings := rfl

@[simp]
theorem Channel.deleteSubscriber_rings (c : Channel) (s : Session) :
    (c.deleteSubscriber s).rings = c.rings := rfl

@[simp]
theorem Channel.atUsed_rings (c : Channel) (now : Time) :
    ({ c with AtUsed := now } : Channel).rings = c.rings := rfl

theorem Channel.gate_of_not (c : Channel) (key : GoString)
    (h : ¬ ((c.withState Using).Blocked || !(c.withState Using).isValidStreamKey key) = true) :
    c.Blocked = false ∧ (c.StreamKey = [] ∨ c.StreamKey = key) := by
  rw [Channel.withState_Blocked] at h
  unfold Channel.isValidStreamKey at h
  rw [Channel.withState_StreamKey] at h
  simp only [Bool.or_eq_true, Bool.not_eq_true', Bool.or_eq_false_iff, beq_eq_false_iff_ne,
    not_or, Bool.not_eq_true, Bool.not_eq_false, beq_iff_eq, not_and, not_not] at h
  refine ⟨h.1, ?_⟩
  by_cases hk : c.StreamKey = []
  · exact Or.inl hk
  · exact Or.inr (h.2 hk)

theorem PangWSPublisher_admitted (cfg : Config) (d : Studio) (ids : Fresh) (now : Time)
    (qo : QueryOption) (hfresh : d.Sessions.lookup ids.session = none) :
    Admitted true d ids qo (PangWSPublisher.enter cfg d ids now qo) := by
  unfold PangWSPublisher.enter
  by_cases hchk : d.checkResourceAvailable qo = true
  swap
  · have : (!d.checkResourceAvailable qo) = true := by simpa using hchk
    rw [if_pos this]
    exact ⟨rfl, fun _ => ⟨rfl, rfl⟩, fun h => by cases h⟩
  have hn : ¬ (!d.checkResourceAvailable qo) = true := by simp [hchk]
  rw [if_neg hn]
  simp only [setChannelByIDState_eq, Studio.addSession_Channels]
  have hid := Session.setTimeoutInUnit_ids
  have refused : ∀ X : Studio, GoMap.ids X.Channels = GoMap.ids d.Channels →
      X.Sessions = d.Sessions → GoMap.rings X.Channels = GoMap.rings d.Channels →
      Admitted true d ids qo (X, Admission.refused) :=
    fun X h1 h2 h3 => ⟨h1, fun _ => ⟨h2, h3⟩, fun h => by cases h⟩
  cases hc : d.Channels.lookup qo.Channel.ID with
  | none =>
    simp only [Option.map_none']
    refine refused _ ?_ ?_ ?_ <;>
      simp [NewSessionPointerWithNameRequest, NewSessionPointerWithName, NewSessionPointer,
        GoMap.store_fresh _ _ _ hfresh, GoMap.remove_last _ _ _ hfresh,
        GoMap.update_last _ _ _ _ hfresh, hid]
  | some c =>
    simp only [Option.map_some']
    have serving : ∀ (X : Studio) (s : Session), c.Blocked = false →
        (c.StreamKey = [] ∨ c.StreamKey = qo.Channel.Key) →
        GoMap.ids X.Channels = GoMap.ids d.Channels →
        X.Sessions = d.Sessions ++ [(ids.session, s)] → s.ID = ids.session →
        s.Name = qo.URL.Path → s.ChannelID = c.ID → s.SourceID = qo.Source.Label →
        s.TrackID = qo.Track.Label → Admitted true d ids qo (X, Admission.serving) :=
      fun X s hb hk h1 h2 h3 h4 h5 h6 h7 =>
        ⟨h1, fun h => (by cases h), fun _ => ⟨fun _ => hchk, c, hc, hb, hk, s, h2, h3, h4, h5,
          h6, h7⟩⟩
    split
    · refine refused _ ?_ ?_ ?_ <;>
        simp [NewSessionPointerWithNameRequest, NewSessionPointerWithName, NewSessionPointer,
          GoMap.store_fresh _ _ _ hfresh, GoMap.remove_last _ _ _ hfresh,
          GoMap.update_last _ _ _ _ hfresh, hid]
    · split
      · refine refused _ ?_ ?_ ?_ <;>
          simp [NewSessionPointerWithNameRequest, NewSessionPointerWithName, NewSessionPointer,
            GoMap.store_fresh _ _ _ hfresh, GoMap.remove_last _ _ _ hfresh,
            GoMap.update_last _ _ _ _ hfresh, hid]
      · rename_i hgate
        obtain ⟨hb, hk⟩ := Channel.gate_of_not c qo.Channel.Key hgate
        split
        · refine refused _ ?_ ?_ ?_ <;>
            simp [NewSessionPointerWithNameRequest, NewSessionPointerWithName, NewSessionPointer,
              GoMap.store_fresh _ _ _ hfresh, GoMap.remove_last _ _ _ hfresh,
              GoMap.update_last _ _ _ _ hfresh, hid]
        · refine serving _
            (({ NewSessionPointerWithNameRequest ids.session now qo.URL.Path qo.Session.ReqID with
                ChannelID := (c.withState Using).ID, SourceID := qo.Source.Label,
                TrackID := qo.Track.Label } : Session).setTimeoutInUnit
              qo.Session.Timeout qo.Session.Unit) hb hk ?_ ?_ ?_ ?_ ?_ ?_ ?_ <;>
            simp [NewSessionPointerWithNameRequest, NewSessionPointerWithName, NewSessionPointer,
              GoMap.store_fresh _ _ _ hfresh, GoMap.remove_last _ _ _ hfresh,
              GoMap.update_last _ _ _ _ hfresh, hid]

theorem PangTCPPublisher_admitted (cfg : Config) (d : Studio) (ids : Fresh) (now : Time)
    (qo : QueryOption) (hfresh : d.Sessions.lookup ids.session = none) :
    Admitted true d ids qo (PangTCPPublisher.enter cfg d ids now qo) := by
  unfold PangTCPPublisher.enter
  by_cases hchk : d.checkResourceAvailable qo = true
  swap
  · have : (!d.checkResourceAvailable qo) = true := by simpa using hchk
    rw [if_pos this]
    exact ⟨rfl, fun _ => ⟨rfl, rfl⟩, fun h => by cases h⟩
  have hn : ¬ (!d.checkResourceAvailable qo) = true := by simp [hchk]
  rw [if_neg hn]
  simp only [setChannelByIDState_eq, Studio.addSession_Channels]
  have hid := Session.setTimeoutInUnit_ids
  have refused : ∀ X : Studio, GoMap.ids X.Channels = GoMap.ids d.Channels →
      X.Sessions = d.Sessions → GoMap.rings X.Channels = GoMap.rings d.Channels →
      Admitted true d ids qo (X, Admission.refused) :=
    fun X h1 h2 h3 => ⟨h1, fun _ => ⟨h2, h3⟩, fun h => by cases h⟩
  cases hc : d.Channels.lookup qo.Channel.ID with
  | none =>
    simp only [Option.map_none']
    refine refused _ ?_ ?_ ?_ <;>
      simp [NewSessionPointerWithNameRequest, NewSessionPointerWithName, NewSessionPointer,
        GoMap.store_fresh _ _ _ hfresh, GoMap.remove_last _ _ _ hfresh,
        GoMap.update_last _ _ _ _ hfresh, hid]
  | some c =>
    simp only [Option.map_some']
    have serving : ∀ (X : Studio) (s : Session), c.Blocked = false →
        (c.StreamKey = [] ∨ c.StreamKey = qo.Channel.Key) →
        GoMap.ids X.Channels = GoMap.ids d.Channels →
        X.Sessions = d.Sessions ++ [(ids.session, s)] → s.ID = ids.session →
        s.Name = qo.URL.Path → s.ChannelID = c.ID → s.SourceID = qo.Source.Label →
        s.TrackID = qo.Track.Label → Admitted true d ids qo (X, Admission.serving) :=
      fun X s hb hk h1 h2 h3 h4 h5 h6 h7 =>
        ⟨h1, fun h => (by cases h), fun _ => ⟨fun _ => hchk, c, hc, hb, hk, s, h2, h3, h4, h5,
          h6, h7⟩⟩
    split
    · refine refused _ ?_ ?_ ?_ <;>
        simp [NewSessionPointerWithNameRequest, NewSessionPointerWithName, NewSessionPointer,
          GoMap.store_fresh _ _ _ hfresh, GoMap.remove_last _ _ _ hfresh,
          GoMap.update_last _ _ _ _ hfresh, hid]
    · split
      · refine refused _ ?_ ?_ ?_ <;>
          simp [NewSessionPointerWithNameRequest, NewSessionPointerWithName, NewSessionPointer,
            GoMap.store_fresh _ _ _ hfresh, GoMap.remove_last _ _ _ hfresh,
            GoMap.update_last _ _ _ _ hfresh, hid]
      · rename_i hgate
        obtain ⟨hb, hk⟩ := Channel.gate_of_not c qo.Channel.Key hgate
        split
        · refine refused _ ?_ ?_ ?_ <;>
            simp [NewSessionPointerWithNameRequest, NewSessionPointerWithName, NewSessionPointer,
              GoMap.store_fresh _ _ _ hfresh, GoMap.remove_last _ _ _ hfresh,
              GoMap.update_last _ _ _ _ hfresh, hid]
        · refine serving _
            (({ NewSessionPointerWithName ids.session now qo.URL.Path with
                ChannelID := (c.withState Using).ID, SourceID := qo.Source.Label,
                TrackID := qo.Track.Label } : Session).setTimeoutInUnit
              qo.Session.Timeout qo.Session.Unit) hb hk ?_ ?_ ?_ ?_ ?_ ?_ ?_ <;>
            simp [NewSessionPointerWithNameRequest, NewSessionPointerWithName, NewSessionPointer,
              GoMap.store_fresh _ _ _ hfresh, GoMap.remove_last _ _ _ hfresh,
              GoMap.update_last _ _ _ _ hfresh, hid]

theorem PangUDPPublisher_admitted (d : Studio) (ids : Fresh) (now : Time)
    (qo : QueryOption) (hfresh : d.Sessions.lookup ids.session = none) :
    Admitted true d ids qo (PangUDPPublisher.enter d ids now qo) := by
  unfold PangUDPPublisher.enter
  by_cases hchk : d.checkResourceAvailable qo = true
  swap
  · have : (!d.checkResourceAvailable qo) = true := by simpa using hchk
    rw [if_pos this]
    exact ⟨rfl, fun _ => ⟨rfl, rfl⟩, fun h => by cases h⟩
  have hn : ¬ (!d.checkResourceAvailable qo) = true := by simp [hchk]
  rw [if_neg hn]
  simp only [setChannelByIDState_eq, Studio.addSession_Channels]
  have hid := Session.setTimeoutInUnit_ids
  have refused : ∀ X : Studio, GoMap.ids X.Channels = GoMap.ids d.Channels →
      X.Sessions = d.Sessions → GoMap.rings X.Channels = GoMap.rings d.Channels →
      Admitted true d ids qo (X, Admission.refused) :=
    fun X h1 h2 h3 => ⟨h1, fun _ => ⟨h2, h3⟩, fun h => by cases h⟩
  cases hc : d.Channels.lookup qo.Channel.ID with
  | none =>
    simp only [Option.map_none']
    refine refused _ ?_ ?_ ?_ <;>
      simp [NewSessionPointerWithNameRequest, NewSessionPointerWithName, NewSessionPointer,
        GoMap.store_fresh _ _ _ hfresh, GoMap.remove_last _ _ _ hfresh,
        GoMap.update_last _ _ _ _ hfresh, hid]
  | some c =>
    simp only [Option.map_some']
    have serving : ∀ (X : Studio) (s : Session), c.Blocked = false →
        (c.StreamKey = [] ∨ c.StreamKey = qo.Channel.Key) →
        GoMap.ids X.Channels = GoMap.ids d.Channels →
        X.Sessions = d.Sessions ++ [(ids.session, s)] → s.ID = ids.session →
        s.Name = qo.URL.Path → s.ChannelID = c.ID → s.SourceID = qo.Source.Label →
        s.TrackID = qo.Track.Label → Admitted true d ids qo (X, Admission.serving) :=
      fun X s hb hk h1 h2 h3 h4 h5 h6 h7 =>
        ⟨h1, fun h => (by cases h), fun _ => ⟨fun _ => hchk, c, hc, hb, hk, s, h2, h3, h4, h5,
          h6, h7⟩⟩
    split
    · refine refused _ ?_ ?_ ?_ <;>
        simp [NewSessionPointerWithNameRequest, NewSessionPointerWithName, NewSessionPointer,
          GoMap.store_fresh _ _ _ hfresh, GoMap.remove_last _ _ _ hfresh,
          GoMap.update_last _ _ _ _ hfresh, hid]
    · rename_i hgate
      obtain ⟨hb, hk⟩ := Channel.gate_of_not c qo.Channel.Key hgate
      split
      · refine refused _ ?_ ?_ ?_ <;>
          simp [NewSessionPointerWithNameRequest, NewSessionPointerWithName, NewSessionPointer,
            GoMap.store_fresh _ _ _ hfresh, GoMap.remove_last _ _ _ hfresh,
            GoMap.update_last _ _ _ _ hfresh, hid]
      · refine serving _
          (({ NewSessionPointerWithName ids.session now qo.URL.Path with
              ChannelID := (c.withState Using).ID, SourceID := qo.Source.Label,
              TrackID := qo.Track.Label } : Session).setTimeoutInUnit
            qo.Session.Timeout qo.Session.Unit) hb hk ?_ ?_ ?_ ?_ ?_ ?_ ?_ <;>
          simp [NewSessionPointerWithNameRequest, NewSessionPointerWithName, NewSessionPointer,
            GoMap.store_fresh _ _ _ hfresh, GoMap.remove_last _ _ _ hfresh,
            GoMap.update_last _ _ _ _ hfresh, hid]

theorem CastWSPublisher_admitted (d : Studio) (ids : Fresh) (now : Time)
    (qo : QueryOption) (hfresh : d.Sessions.lookup ids.session = none) :
    Admitted false d ids qo (CastWSPublisher.enter d ids now qo) := by
  unfold CastWSPublisher.enter
  simp only [setChannelByIDState_eq, Studio.addSession_Channels]
  have hid := Session.setTimeoutInUnit_ids
  have refused : ∀ X : Studio, GoMap.ids X.Channels = GoMap.ids d.Channels →
      X.Sessions = d.Sessions → GoMap.rings X.Channels = GoMap.rings d.Channels →
      Admitted false d ids qo (X, Admission.refused) :=
    fun X h1 h2 h3 => ⟨h1, fun _ => ⟨h2, h3⟩, fun h => by cases h⟩
  cases hc : d.Channels.lookup qo.Channel.ID with
  | none =>
    simp only [Option.map_none']
    refine refused _ ?_ ?_ ?_ <;>
      simp [NewSessionPointerWithNameRequest, NewSessionPointerWithName, NewSessionPointer,
        GoMap.store_fresh _ _ _ hfresh, GoMap.remove_last _ _ _ hfresh,
        GoMap.update_last _ _ _ _ hfresh, hid]
  | some c =>
    simp only [Option.map_some']
    have serving : ∀ (X : Studio) (s : Session), c.Blocked = false →
        (c.StreamKey = [] ∨ c.StreamKey = qo.Channel.Key) →
        GoMap.ids X.Channels = GoMap.ids d.Channels →
        X.Sessions = d.Sessions ++ [(ids.session, s)] → s.ID = ids.session →
        s.Name = qo.URL.Path → s.ChannelID = c.ID → s.SourceID = qo.Source.Label →
        s.TrackID = qo.Track.Label → Admitted false d ids qo (X, Admission.serving) :=
      fun X s hb hk h1 h2 h3 h4 h5 h6 h7 =>
        ⟨h1, fun h => (by cases h), fun _ => ⟨fun h => (by cases h), c, hc, hb, hk, s, h2, h3, h4, h5,
          h6, h7⟩⟩
    split
    · refine refused _ ?_ ?_ ?_ <;>
        simp [NewSessionPointerWithNameRequest, NewSessionPointerWithName, NewSessionPointer,
          GoMap.store_fresh _ _ _ hfresh, GoMap.remove_last _ _ _ hfresh,
          GoMap.update_last _ _ _ _ hfresh, hid]
    · rename_i hgate
      obtain ⟨hb, hk⟩ := Channel.gate_of_not c qo.Channel.Key hgate
      split
      · refine refused _ ?_ ?_ ?_ <;>
          simp [NewSessionPointerWithNameRequest, NewSessionPointerWithName, NewSessionPointer,
            GoMap.store_fresh _ _ _ hfresh, GoMap.remove_last _ _ _ hfresh,
            GoMap.update_last _ _ _ _ hfresh, hid]
      · refine serving _
          (({ NewSessionPointerWithName ids.session now qo.URL.Path with
              ChannelID := (c.withState Using).ID, SourceID := qo.Source.Label,
              TrackID := qo.Track.Label } : Session).setTimeoutInUnit
            qo.Session.Timeout qo.Session.Unit) hb hk ?_ ?_ ?_ ?_ ?_ ?_ ?_ <;>
          simp [NewSessionPointerWithNameRequest, NewSessionPointerWithName, NewSessionPointer,
            GoMap.store_fresh _ _ _ hfresh, GoMap.remove_last _ _ _ hfresh,
            GoMap.update_last _ _ _ _ hfresh, hid]

theorem PangWSSubscriber_admitted (cfg : Config) (d : Studio) (ids : Fresh) (now : Time)
    (qo : QueryOption) (hfresh : d.Sessions.lookup ids.session = none) :
    Admitted false d ids qo (PangWSSubscriber.enter cfg d ids now qo) := by
  unfold PangWSSubscriber.enter
  simp only [setChannelByIDState_eq, Studio.addSession_Channels]
  have hid := Session.setTimeoutInUnit_ids
  have refused : ∀ X : Studio, GoMap.ids X.Channels = GoMap.ids d.Channels →
      X.Sessions = d.Sessions → GoMap.rings X.Channels = GoMap.rings d.Channels →
      Admitted false d ids qo (X, Admission.refused) :=
    fun X h1 h2 h3 => ⟨h1, fun _ => ⟨h2, h3⟩, fun h => by cases h⟩
  cases hc : d.Channels.lookup qo.Channel.ID with
  | none =>
    simp only [Option.map_none']
    refine refused _ ?_ ?_ ?_ <;>
      simp [NewSessionPointerWithNameRequest, NewSessionPointerWithName, NewSessionPointer,
        GoMap.store_fresh _ _ _ hfresh, GoMap.remove_last _ _ _ hfresh,
        GoMap.update_last _ _ _ _ hfresh, hid]
  | some c =>
    simp only [Option.map_some']
    have serving : ∀ (X : Studio) (s : Session), c.Blocked = false →
        (c.StreamKey = [] ∨ c.StreamKey = qo.Channel.Key) →
        GoMap.ids X.Channels = GoMap.ids d.Channels →
        X.Sessions = d.Sessions ++ [(ids.session, s)] → s.ID = ids.session →
        s.Name = qo.URL.Path → s.ChannelID = c.ID → s.SourceID = qo.Source.Label →
        s.TrackID = qo.Track.Label → Admitted false d ids qo (X, Admission.serving) :=
      fun X s hb hk h1 h2 h3 h4 h5 h6 h7 =>
        ⟨h1, fun h => (by cases h), fun _ => ⟨fun h => (by cases h), c, hc, hb, hk, s, h2, h3, h4, h5,
          h6, h7⟩⟩
    split
    · refine refused _ ?_ ?_ ?_ <;>
        simp [NewSessionPointerWithNameRequest, NewSessionPointerWithName, NewSessionPointer,
          GoMap.store_fresh _ _ _ hfresh, GoMap.remove_last _ _ _ hfresh,
          GoMap.update_last _ _ _ _ hfresh, hid]
    · split
      · refine refused _ ?_ ?_ ?_ <;>
          simp [NewSessionPointerWithNameRequest, NewSessionPointerWithName, NewSessionPointer,
            GoMap.store_fresh _ _ _ hfresh, GoMap.remove_last _ _ _ hfresh,
            GoMap.update_last _ _ _ _ hfresh, hid]
      · rename_i hgate
        obtain ⟨hb, hk⟩ := Channel.gate_of_not c qo.Channel.Key hgate
        split
        · refine refused _ ?_ ?_ ?_ <;>
            simp [NewSessionPointerWithNameRequest, NewSessionPointerWithName, NewSessionPointer,
              GoMap.store_fresh _ _ _ hfresh, GoMap.remove_last _ _ _ hfresh,
              GoMap.update_last _ _ _ _ hfresh, hid]
        · refine serving _
            (({ NewSessionPointerWithNameRequest ids.session now qo.URL.Path qo.Session.ReqID with
                ChannelID := (c.withState Using).ID, SourceID := qo.Source.Label,
                TrackID := qo.Track.Label } : Session).setTimeoutInUnit
              qo.Session.Timeout qo.Session.Unit) hb hk ?_ ?_ ?_ ?_ ?_ ?_ ?_ <;>
            simp [NewSessionPointerWithNameRequest, NewSessionPointerWithName, NewSessionPointer,
              GoMap.store_fresh _ _ _ hfresh, GoMap.remove_last _ _ _ hfresh,
              GoMap.update_last _ _ _ _ hfresh, hid]

theorem PangTCPSubscriber_admitted (cfg : Config) (d : Studio) (ids : Fresh) (now : Time)
    (qo : QueryOption) (hfresh : d.Sessions.lookup ids.session = none) :
    Admitted false d ids qo (PangTCPSubscriber.enter cfg d ids now qo) := by
  unfold PangTCPSubscriber.enter
  simp only [setChannelByIDState_eq, Studio.addSession_Channels]
  have hid := Session.setTimeoutInUnit_ids
  have refused : ∀ X : Studio, GoMap.ids X.Channels = GoMap.ids d.Channels →
      X.Sessions = d.Sessions → GoMap.rings X.Channels = GoMap.rings d.Channels →
      Admitted false d ids qo (X, Admission.refused) :=
    fun X h1 h2 h3 => ⟨h1, fun _ => ⟨h2, h3⟩, fun h => by cases h⟩
  cases hc : d.Channels.lookup qo.Channel.ID with
  | none =>
    simp only [Option.map_none']
    refine refused _ ?_ ?_ ?_ <;>
      simp [NewSessionPointerWithNameRequest, NewSessionPointerWithName, NewSessionPointer,
        GoMap.store_fresh _ _ _ hfresh, GoMap.remove_last _ _ _ hfresh,
        GoMap.update_last _ _ _ _ hfresh, hid]
  | some c =>
    simp only [Option.map_some']
    have serving : ∀ (X : Studio) (s : Session), c.Blocked = false →
        (c.StreamKey = [] ∨ c.StreamKey = qo.Channel.Key) →
        GoMap.ids X.Channels = GoMap.ids d.Channels →
        X.Sessions = d.Sessions ++ [(ids.session, s)] → s.ID = ids.session →
        s.Name = qo.URL.Path → s.ChannelID = c.ID → s.SourceID = qo.Source.Label →
        s.TrackID = qo.Track.Label → Admitted false d ids qo (X, Admission.serving) :=
      fun X s hb hk h1 h2 h3 h4 h5 h6 h7 =>
        ⟨h1, fun h => (by cases h), fun _ => ⟨fun h => (by cases h), c, hc, hb, hk, s, h2, h3, h4, h5,
          h6, h7⟩⟩
    split
    · refine refused _ ?_ ?_ ?_ <;>
        simp [NewSessionPointerWithNameRequest, NewSessionPointerWithName, NewSessionPointer,
          GoMap.store_fresh _ _ _ hfresh, GoMap.remove_last _ _ _ hfresh,
          GoMap.update_last _ _ _ _ hfresh, hid]
    · split
      · refine refused _ ?_ ?_ ?_ <;>
          simp [NewSessionPointerWithNameRequest, NewSessionPointerWithName, NewSessionPointer,
            GoMap.store_fresh _ _ _ hfresh, GoMap.remove_last _ _ _ hfresh,
            GoMap.update_last _ _ _ _ hfresh, hid]
      · rename_i hgate
        obtain ⟨hb, hk⟩ := Channel.gate_of_not c qo.Channel.Key hgate
        split
        · refine refused _ ?_ ?_ ?_ <;>
            simp [NewSessionPointerWithNameRequest, NewSessionPointerWithName, NewSessionPointer,
              GoMap.store_fresh _ _ _ hfresh, GoMap.remove_last _ _ _ hfresh,
              GoMap.update_last _ _ _ _ hfresh, hid]
        · refine serving _
            (({ NewSessionPointerWithNameRequest ids.session now qo.URL.Path qo.Session.ReqID with
                ChannelID := (c.withState Using).ID, SourceID := qo.Source.Label,
                TrackID := qo.Track.Label } : Session).setTimeoutInUnit
              qo.Session.Timeout qo.Session.Unit) hb hk ?_ ?_ ?_ ?_ ?_ ?_ ?_ <;>
            simp [NewSessionPointerWithNameRequest, NewSessionPointerWithName, NewSessionPointer,
              GoMap.store_fresh _ _ _ hfresh, GoMap.remove_last _ _ _ hfresh,
              GoMap.update_last _ _ _ _ hfresh, hid]

theorem PangUDPSubscriber_admitted (d : Studio) (ids : Fresh) (now : Time)
    (qo : QueryOption) (hfresh : d.Sessions.lookup ids.session = none) :
    Admitted false d ids qo (PangUDPSubscriber.enter d ids now qo) := by
  unfold PangUDPSubscriber.enter
  simp only [setChannelByIDState_eq, Studio.addSession_Channels]
  have hid := Session.setTimeoutInUnit_ids
  have refused : ∀ X : Studio, GoMap.ids X.Channels = GoMap.ids d.Channels →
      X.Sessions = d.Sessions → GoMap.rings X.Channels = GoMap.rings d.Channels →
      Admitted false d ids qo (X, Admission.refused) :=
    fun X h1 h2 h3 => ⟨h1, fun _ => ⟨h2, h3⟩, fun h => by cases h⟩
  cases hc : d.Channels.lookup qo.Channel.ID with
  | none =>
    simp only [Option.map_none']
    refine refused _ ?_ ?_ ?_ <;>
      simp [NewSessionPointerWithNameRequest, NewSessionPointerWithName, NewSessionPointer,
        GoMap.store_fresh _ _ _ hfresh, GoMap.remove_last _ _ _ hfresh,
        GoMap.update_last _ _ _ _ hfresh, hid]
  | some c =>
    simp only [Option.map_some']
    have serving : ∀ (X : Studio) (s : Session), c.Blocked = false →
        (c.StreamKey = [] ∨ c.StreamKey = qo.Channel.Key) →
        GoMap.ids X.Channels = GoMap.ids d.Channels →
        X.Sessions = d.Sessions ++ [(ids.session, s)] → s.ID = ids.session →
        s.Name = qo.URL.Path → s.ChannelID = c.ID → s.SourceID = qo.Source.Label →
        s.TrackID = qo.Track.Label → Admitted false d ids qo (X, Admission.serving) :=
      fun X s hb hk h1 h2 h3 h4 h5 h6 h7 =>
        ⟨h1, fun h => (by cases h), fun _ => ⟨fun h => (by cases h), c, hc, hb, hk, s, h2, h3, h4, h5,
          h6, h7⟩⟩
    split
    · refine refused _ ?_ ?_ ?_ <;>
        simp [NewSessionPointerWithNameRequest, NewSessionPointerWithName, NewSessionPointer,
          GoMap.store_fresh _ _ _ hfresh, GoMap.remove_last _ _ _ hfresh,
          GoMap.update_last _ _ _ _ hfresh, hid]
    · rename_i hgate
      obtain ⟨hb, hk⟩ := Channel.gate_of_not c qo.Channel.Key hgate
      split
      · refine refused _ ?_ ?_ ?_ <;>
          simp [NewSessionPointerWithNameRequest, NewSessionPointerWithName, NewSessionPointer,
            GoMap.store_fresh _ _ _ hfresh, GoMap.remove_last _ _ _ hfresh,
            GoMap.update_last _ _ _ _ hfresh, hid]
      · refine serving _
          (({ NewSessionPointerWithName ids.session now qo.URL.Path with
              ChannelID := (c.withState Using).ID, SourceID := qo.Source.Label,
              TrackID := qo.Track.Label } : Session).setTimeoutInUnit
            qo.Session.Timeout qo.Session.Unit) hb hk ?_ ?_ ?_ ?_ ?_ ?_ ?_ <;>
          simp [NewSessionPointerWithNameRequest, NewSessionPointerWithName, NewSessionPointer,
            GoMap.store_fresh _ _ _ hfresh, GoMap.remove_last _ _ _ hfresh,
            GoMap.update_last _ _ _ _ hfresh, hid]

theorem CastWSSubscriber_admitted (d : Studio) (ids : Fresh) (now : Time)
    (qo : QueryOption) (hfresh : d.Sessions.lookup ids.session = none) :
    Admitted false d ids qo (CastWSSubscriber.enter d ids now qo) := by
  unfold CastWSSubscriber.enter
  simp only [setChannelByIDState_eq, Studio.addSession_Channels]
  have hid := Session.setTimeoutInUnit_ids
  have refused : ∀ X : Studio, GoMap.ids X.Channels = GoMap.ids d.Channels →
      X.Sessions = d.Sessions → GoMap.rings X.Channels = GoMap.rings d.Channels →
      Admitted false d ids qo (X, Admission.refused) :=
    fun X h1 h2 h3 => ⟨h1, fun _ => ⟨h2, h3⟩, fun h => by cases h⟩
  cases hc : d.Channels.lookup qo.Channel.ID with
  | none =>
    simp only [Option.map_none']
    refine refused _ ?_ ?_ ?_ <;>
      simp [NewSessionPointerWithNameRequest, NewSessionPointerWithName, NewSessionPointer,
        GoMap.store_fresh _ _ _ hfresh, GoMap.remove_last _ _ _ hfresh,
        GoMap.update_last _ _ _ _ hfresh, hid]
  | some c =>
    simp only [Option.map_some']
    have serving : ∀ (X : Studio) (s : Session), c.Blocked = false →
        (c.StreamKey = [] ∨ c.StreamKey = qo.Channel.Key) →
        GoMap.ids X.Channels = GoMap.ids d.Channels →
        X.Sessions = d.Sessions ++ [(ids.session, s)] → s.ID = ids.session →
        s.Name = qo.URL.Path → s.ChannelID = c.ID → s.SourceID = qo.Source.Label →
        s.TrackID = qo.Track.Label → Admitted false d ids qo (X, Admission.serving) :=
      fun X s hb hk h1 h2 h3 h4 h5 h6 h7 =>
        ⟨h1, fun h => (by cases h), fun _ => ⟨fun h => (by cases h), c, hc, hb, hk, s, h2, h3, h4, h5,
          h6, h7⟩⟩
    split
    · refine refused _ ?_ ?_ ?_ <;>
        simp [NewSessionPointerWithNameRequest, NewSessionPointerWithName, NewSessionPointer,
          GoMap.store_fresh _ _ _ hfresh, GoMap.remove_last _ _ _ hfresh,
          GoMap.update_last _ _ _ _ hfresh, hid]
    · rename_i hgate
      obtain ⟨hb, hk⟩ := Channel.gate_of_not c qo.Channel.Key hgate
      split
      · refine refused _ ?_ ?_ ?_ <;>
          simp [NewSessionPointerWithNameRequest, NewSessionPointerWithName, NewSessionPointer,
            GoMap.store_fresh _ _ _ hfresh, GoMap.remove_last _ _ _ hfresh,
            GoMap.update_last _ _ _ _ hfresh, hid]
      · refine serving _
          (({ NewSessionPointerWithName ids.session now qo.URL.Path with
              ChannelID := (c.withState Using).ID, SourceID := qo.Source.Label,
              TrackID := qo.Track.Label } : Session).setTimeoutInUnit
            qo.Session.Timeout qo.Session.Unit) hb hk ?_ ?_ ?_ ?_ ?_ ?_ ?_ <;>
          simp [NewSessionPointerWithNameRequest, NewSessionPointerWithName, NewSessionPointer,
            GoMap.store_fresh _ _ _ hfresh, GoMap.remove_last _ _ _ hfresh,
            GoMap.update_last _ _ _ _ hfresh, hid]


theorem Admitted.gate {check : Bool} {d : Studio} {ids : Fresh} {qo : QueryOption}
    {r : Studio × Admission} (h : Admitted check d ids qo r) :
    (r.2 = Admission.serving →
      ∃ c, d.Channels.lookup qo.Channel.ID = some c ∧ c.Blocked = false ∧
        (c.StreamKey = [] ∨ c.StreamKey = qo.Channel.Key)) ∧
    (∀ c, d.Channels.lookup qo.Channel.ID = some c →
      (c.Blocked = true ∨ (c.StreamKey ≠ [] ∧ c.StreamKey ≠ qo.Channel.Key)) →
      r.2 = Admission.refused ∧ r.1.Sessions = d.Sessions ∧
      GoMap.rings r.1.Channels = GoMap.rings d.Channels) := by
  obtain ⟨_, hr, hs⟩ := h
  refine ⟨fun h2 => ?_, fun c hc hb => ?_⟩
  · obtain ⟨_, c, hc, hb, hk, _⟩ := hs h2
    exact ⟨c, hc, hb, hk⟩
  · have href : r.2 = Admission.refused := by
      cases h2 : r.2 with
      | refused => rfl
      | serving =>
        exfalso
        obtain ⟨_, c1, hc1, hb1, hk1, _⟩ := hs h2
        rw [hc] at hc1
        cases hc1
        rcases hb with hb | ⟨hb2, hb3⟩
        · rw [hb1] at hb
          cases hb
        · rcases hk1 with hk1 | hk1
          · exact hb2 hk1
          · exact hb3 hk1
    exact ⟨href, hr href⟩

/-- C13. In each publisher and subscriber entry point (PangWSPublisher, PangWSSubscriber,
PangTCPPublisher, PangTCPSubscriber, PangUDPPublisher, PangUDPSubscriber, CastWSPublisher,
CastWSSubscriber), called with a fresh session id: the request reaches source/track
allocation and the buffer loop only if its channel exists, is not `Blocked`, and has a
`StreamKey` that is empty or equal to the key of the request; and when the channel is
`Blocked` (whatever the key of the request, the correct one included) or the key does not
match, the entry point returns an error, the session map is as before, and the sources,
tracks and rings of every channel are as before: no source or track is created and no slot
is written. -/
theorem admission_gate (cfg : Config) (d : Studio) (ids : Fresh) (now : Time)
    (qo : QueryOption) (hfresh : d.Sessions.lookup ids.session = none) :
    ∀ r ∈ [PangWSPublisher.enter cfg d ids now qo, PangWSSubscriber.enter cfg d ids now qo,
        PangTCPPublisher.enter cfg d ids now qo, PangTCPSubscriber.enter cfg d ids now qo,
        PangUDPPublisher.enter d ids now qo, PangUDPSubscriber.enter d ids now qo,
        CastWSPublisher.enter d ids now qo, CastWSSubscriber.enter d ids now qo],
      (r.2 = Admission.serving →
        ∃ c, d.Channels.lookup qo.Channel.ID = some c ∧ c.Blocked = false ∧
          (c.StreamKey = [] ∨ c.StreamKey = qo.Channel.Key)) ∧
      (∀ c, d.Channels.lookup qo.Channel.ID = some c →
        (c.Blocked = true ∨ (c.StreamKey ≠ [] ∧ c.StreamKey ≠ qo.Channel.Key)) →
        r.2 = Admission.refused ∧ r.1.Sessions = d.Sessions ∧
        GoMap.rings r.1.Channels = GoMap.rings d.Channels) := by
  intro r hr
  simp only [List.mem_cons, List.mem_singleton, List.not_mem_nil, or_false] at hr
  rcases hr with h | h | h | h | h | h | h | h <;> subst h
  · exact (PangWSPublisher_admitted cfg d ids now qo hfresh).gate
  · exact (PangWSSubscriber_admitted cfg d ids now qo hfresh).gate
  · exact (PangTCPPublisher_admitted cfg d ids now qo hfresh).gate
  · exact (PangTCPSubscriber_admitted cfg d ids now qo hfresh).gate
  · exact (PangUDPPublisher_admitted d ids now qo hfresh).gate
  · exact (PangUDPSubscriber_admitted d ids now qo hfresh).gate
  · exact (CastWSPublisher_admitted d ids now qo hfresh).gate
  · exact (CastWSSubscriber_admitted d ids now qo hfresh).gate

/-- Witness of C13: on the studio `studioK`, whose channel `ch1` is blocked and has the
key `k`, the request `queryK` with the key `k` is refused by `CastWSPublisher` and leaves
sessions, sources, tracks and rings as they were. -/
theorem admission_gate_witness :
    (CastWSPublisher.enter studioK (idsA 1) 7 queryK).2 = Admission.refused ∧
    (CastWSPublisher.enter studioK (idsA 1) 7 queryK).1.Sessions = studioK.Sessions ∧
    GoMap.rings (CastWSPublisher.enter studioK (idsA 1) 7 queryK).1.Channels
      = GoMap.rings studioK.Channels :=
  (admission_gate { NumPubs := 10, NumSubs := 10 } studioK (idsA 1) 7 queryK rfl
    (CastWSPublisher.enter studioK (idsA 1) 7 queryK) (by simp)).2
    { chanA with State := Idle, Blocked := true, StreamKey := go "k" } rfl (Or.inl rfl)


/-! ## One writer on a channel, source and track -/

theorem GoMap.lookup_mem {α : Type} (m : GoMap α) (k : GoString) (v : α)
    (h : m.lookup k = some v) : (k, v) ∈ m := by
  induction m with
  | nil => cases h
  | cons e m ih =>
    obtain ⟨k1, v1⟩ := e
    by_cases h1 : k1 = k
    · simp only [GoMap.lookup, h1, if_true, Option.some.injEq] at h
      rw [h1, h]
      exact List.mem_cons_self _ _
    · simp only [GoMap.lookup, h1, if_false] at h
      exact List.mem_cons_of_mem _ (ih h)

theorem ChannelsById.of_ids {m m1 : GoMap Channel} (h : GoMap.ids m1 = GoMap.ids m)
    (hwf : ChannelsById m) : ChannelsById m1 := by
  have hk : m1.map Prod.fst = m.map Prod.fst := by
    have := congrArg (List.map Prod.fst) h
    simpa [GoMap.ids, List.map_map, Function.comp_def] using this
  refine ⟨?_, ?_⟩
  · unfold GoMap.Keyed
    rw [hk]
    exact hwf.1
  · intro e he
    have hm : (e.1, e.2.ID) ∈ GoMap.ids m1 := List.mem_map.mpr ⟨e, he, rfl⟩
    rw [h] at hm
    obtain ⟨e0, he0, heq⟩ := List.mem_map.mp hm
    have h0 := hwf.2 e0 he0
    simp only [Prod.mk.injEq] at heq
    rw [← heq.1, ← heq.2, h0]

theorem ChannelsById.lookup_ID {m : GoMap Channel} (hwf : ChannelsById m) (k : GoString)
    (c : Channel) (h : m.lookup k = some c) : c.ID = k :=
  hwf.2 (k, c) (GoMap.lookup_mem m k c h)

theorem Writer.path_pub (w : Writer) : Contains w.path (go "/pub") = true := by
  cases w <;> simp only [Writer.path] <;> decide

theorem Admitted.registered {check : Bool} {d : Studio} {ids : Fresh} {qo : QueryOption}
    {r : Studio × Admission} (h : Admitted check d ids qo r) : Registered check d ids qo r := by
  obtain ⟨h1, h2, h3⟩ := h
  refine ⟨h1, fun hr => (h2 hr).1, fun hs => ?_⟩
  obtain ⟨hc, c, hl, _, _, s, hs1⟩ := h3 hs
  exact ⟨hc, c, hl, s, hs1⟩

@[simp]
theorem Studio.onBridge_Sessions (d : Studio) (k : GoString) (f : Bridge → Bridge) :
    (d.onBridge k f).Sessions = d.Sessions := rfl

@[simp]
theorem Studio.onBridge_Channels (d : Studio) (k : GoString) (f : Bridge → Bridge) :
    (d.onBridge k f).Channels = d.Channels := rfl

theorem Studio.setBridgeByIDState_fst (d : Studio) (k : GoString) (st : Moth.State) :
    (d.setBridgeByIDState k st).1.Sessions = d.Sessions ∧
    (d.setBridgeByIDState k st).1.Channels = d.Channels := by
  unfold Studio.setBridgeByIDState
  cases d.Bridges.lookup k <;> exact ⟨rfl, rfl⟩

@[simp]
theorem Studio.afterSetBridge_Sessions (d : Studio) (k : GoString) :
    (d.afterSetBridgeIdleByID k).1.Sessions = d.Sessions := by
  have h := (Studio.setBridgeByIDState_fst d k Idle).1
  unfold Studio.afterSetBridgeIdleByID
  split
  · rcases hr : d.setBridgeByIDState k Idle with ⟨d1, _ | b⟩ <;> rw [hr] at h <;> exact h
  · rfl

@[simp]
theorem Studio.afterSetBridge_Channels (d : Studio) (k : GoString) :
    (d.afterSetBridgeIdleByID k).1.Channels = d.Channels := by
  have h := (Studio.setBridgeByIDState_fst d k Idle).2
  unfold Studio.afterSetBridgeIdleByID
  split
  · rcases hr : d.setBridgeByIDState k Idle with ⟨d1, _ | b⟩ <;> rw [hr] at h <;> exact h
  · rfl

theorem PangWSPuller_registered (cfg : Config) (d : Studio) (ids : Fresh) (now : Time)
    (bid : GoString) (qo : QueryOption) (hfresh : d.Sessions.lookup ids.session = none) :
    Registered false d ids qo (PangWSPuller.enter cfg d ids now bid qo) := by
  unfold PangWSPuller.enter
  simp only [setChannelByIDState_eq, Studio.addSession_Channels, Studio.onBridge_Channels]
  have hid := Session.setTimeoutInUnit_ids
  have refused : ∀ X : Studio, GoMap.ids X.Channels = GoMap.ids d.Channels →
      X.Sessions = d.Sessions → Registered false d ids qo (X, Admission.refused) :=
    fun X h1 h2 => ⟨h1, fun _ => h2, fun h => by cases h⟩
  cases hc : d.Channels.lookup qo.Channel.ID with
  | none =>
    simp only [Option.map_none']
    refine refused _ ?_ ?_ <;>
      simp [NewSessionPointerWithNameRequest, NewSessionPointerWithName, NewSessionPointer,
        GoMap.store_fresh _ _ _ hfresh, GoMap.remove_last _ _ _ hfresh,
        GoMap.update_last _ _ _ _ hfresh, hid]
  | some c =>
    simp only [Option.map_some']
    have serving : ∀ (X : Studio) (s : Session),
        GoMap.ids X.Channels = GoMap.ids d.Channels →
        X.Sessions = d.Sessions ++ [(ids.session, s)] → s.ID = ids.session →
        s.Name = qo.URL.Path → s.ChannelID = c.ID → s.SourceID = qo.Source.Label →
        s.TrackID = qo.Track.Label → Registered false d ids qo (X, Admission.serving) :=
      fun X s h1 h2 h3 h4 h5 h6 h7 =>
        ⟨h1, fun h => (by cases h), fun _ => ⟨fun h => (by cases h), c, hc, s, h2, h3, h4, h5,
          h6, h7⟩⟩
    split
    · refine refused _ ?_ ?_ <;>
        simp [NewSessionPointerWithNameRequest, NewSessionPointerWithName, NewSessionPointer,
          GoMap.store_fresh _ _ _ hfresh, GoMap.remove_last _ _ _ hfresh,
          GoMap.update_last _ _ _ _ hfresh, hid]
    · split
      · refine refused _ ?_ ?_ <;>
          simp [NewSessionPointerWithNameRequest, NewSessionPointerWithName, NewSessionPointer,
            GoMap.store_fresh _ _ _ hfresh, GoMap.remove_last _ _ _ hfresh,
            GoMap.update_last _ _ _ _ hfresh, hid]
      · refine serving _
          (({ NewSessionPointerWithNameRequest ids.session now qo.URL.Path qo.Session.ReqID with
              ChannelID := (c.withState Using).ID, BridgeID := bid,
              SourceID := qo.Source.Label,
              TrackID := qo.Track.Label } : Session).setTimeoutInUnit
            qo.Session.Timeout qo.Session.Unit) ?_ ?_ ?_ ?_ ?_ ?_ ?_ <;>
          simp [NewSessionPointerWithNameRequest, NewSessionPointerWithName, NewSessionPointer,
            GoMap.store_fresh _ _ _ hfresh, GoMap.remove_last _ _ _ hfresh,
            GoMap.update_last _ _ _ _ hfresh, hid]

theorem Writer_registered (w : Writer) (cfg : Config) (d : Studio) (ids : Fresh) (now : Time)
    (qo : QueryOption) (hfresh : d.Sessions.lookup ids.session = none) :
    Registered w.checks d ids (w.dispatch qo) (w.enter cfg d ids now qo) := by
  cases w
  · exact (PangWSPublisher_admitted cfg d ids now _ hfresh).registered
  · exact (PangTCPPublisher_admitted cfg d ids now _ hfresh).registered
  · exact (PangUDPPublisher_admitted d ids now _ hfresh).registered
  · exact (CastWSPublisher_admitted d ids now _ hfresh).registered
  · exact PangWSPuller_registered cfg d ids now _ _ hfresh

theorem Writer.leave_Sessions (w : Writer) (d : Studio) (s : Session) (qo : QueryOption) :
    (w.leave d s qo).Sessions = d.Sessions.remove s.ID := by
  cases w <;>
    simp [Writer.leave, PangWSPublisher.leave, PangTCPPublisher.leave, PangUDPPublisher.leave,
      CastWSPublisher.leave, PangWSPuller.leave]

theorem Writer.leave_ids (w : Writer) (d : Studio) (s : Session) (qo : QueryOption) :
    GoMap.ids (w.leave d s qo).Channels = GoMap.ids d.Channels := by
  cases w <;>
    simp [Writer.leave, PangWSPublisher.leave, PangTCPPublisher.leave, PangUDPPublisher.leave,
      CastWSPublisher.leave, PangWSPuller.leave]

theorem checkResourceAvailable_none (d : Studio) (qo : QueryOption)
    (h : d.checkResourceAvailable qo = true) (hs : qo.Track.Style ≠ go "multi") :
    ∀ e ∈ d.Sessions, e.2.publisherOn qo.Channel.ID qo.Source.Label qo.Track.Label = false := by
  unfold Studio.checkResourceAvailable at h
  have hnone : (d.findPublisherByResource qo.Channel.ID qo.Source.Label qo.Track.Label).isNone
      = true := by
    by_contra hc
    rw [if_neg (by
      rintro (h1 | h1)
      · exact hs h1
      · exact hc h1)] at h
    cases h
  intro e he
  have := (findPublisherByResource_isNone d _ _ _).mp hnone
  by_contra hp
  exact this ⟨e, he, by simpa using hp⟩

theorem GoMap.keys_remove {α : Type} (m : GoMap α) (k : GoString) :
    (m.remove k).map Prod.fst = (m.map Prod.fst).filter (fun x => x != k) := by
  unfold GoMap.remove
  rw [List.filter_map]
  congr 1
  apply List.filter_congr
  intro e _
  simp [bne, beq_eq_decide]

theorem Active.sids_filter (l : List Active) (k : GoString) :
    (l.filter (fun a => a.sid != k)).map Active.sid =
      (l.map Active.sid).filter (fun x => x != k) := by
  rw [List.filter_map]
  rfl

theorem FloorInv.step {cfg : Config} {f f1 : Floor} {m : Move} (hinv : FloorInv f)
    (hstep : f.step cfg m = some f1) (hmono : m.mono = true) : FloorInv f1 := by
  obtain ⟨hwf, hkeys, hreg, hpair⟩ := hinv
  cases m with
  | enter w ids now qo =>
    simp only [Floor.step] at hstep
    by_cases hused : (f.studio.Sessions.lookup ids.session).isSome = true
    · rw [if_pos hused] at hstep
      cases hstep
    rw [if_neg hused] at hstep
    have hfresh : f.studio.Sessions.lookup ids.session = none := by
      cases h : f.studio.Sessions.lookup ids.session with
      | none => rfl
      | some s => exact absurd (by rw [h]; rfl) hused
    have hA := Writer_registered w cfg f.studio ids now qo hfresh
    rcases hr : w.enter cfg f.studio ids now qo with ⟨d1, a⟩
    rw [hr] at hstep hA
    obtain ⟨hids, href, hserv⟩ := hA
    cases a with
    | refused =>
      simp only [Option.some.injEq] at hstep
      subst hstep
      have hS := href rfl
      refine ⟨ChannelsById.of_ids hids hwf, ?_, ?_, hpair⟩
      · show d1.Sessions.map Prod.fst = _
        rw [hS]
        exact hkeys
      · intro a ha
        obtain ⟨s, hs⟩ := hreg a ha
        exact ⟨s, by show GoMap.lookup d1.Sessions a.sid = some s ∧ _; rw [hS]; exact hs⟩
    | serving =>
      by_cases hb : w.binds = true
      swap
      · simp [hb] at hstep
      simp only [hb, if_true, Option.some.injEq] at hstep
      subst hstep
      obtain ⟨hchk, c, hc, s, hS, h1, h2, h3, h4, h5⟩ := hserv rfl
      have hcid : c.ID = qo.Channel.ID := hwf.lookup_ID _ c hc
      refine ⟨ChannelsById.of_ids hids hwf, ?_, ?_, ?_⟩
      · show d1.Sessions.map Prod.fst = _
        rw [hS, List.map_append, List.map_append, hkeys]
        rfl
      · intro a ha
        rcases List.mem_append.mp ha with ha | ha
        · obtain ⟨s0, hl, hs0⟩ := hreg a ha
          refine ⟨s0, ?_, hs0⟩
          show GoMap.lookup d1.Sessions a.sid = some s0
          rw [hS, GoMap.lookup_append, hl]
          rfl
        · rw [List.mem_singleton.mp ha]
          refine ⟨s, ?_, h1, h2, h3.trans hcid, h4, h5⟩
          show GoMap.lookup d1.Sessions ids.session = some s
          rw [hS]
          exact GoMap.lookup_mid _ [] _ _ ((GoMap.lookup_eq_none_iff _ _).mp hfresh)
      · show List.Pairwise _ (f.active ++ [_])
        rw [List.pairwise_append]
        refine ⟨hpair, List.pairwise_singleton _ _, ?_⟩
        intro a ha b hb
        rw [List.mem_singleton.mp hb]
        intro hw hsame
        obtain ⟨s0, hl, _, hn, hci, hsi, hti⟩ := hreg a ha
        have hstyle : (w.dispatch qo).Track.Style ≠ go "multi" := by
          simpa [Move.mono, Writer.dispatch] using hmono
        have hno := checkResourceAvailable_none f.studio (w.dispatch qo) (hchk hw) hstyle
          (a.sid, s0) (GoMap.lookup_mem _ _ _ hl)
        have hyes : s0.publisherOn (w.dispatch qo).Channel.ID (w.dispatch qo).Source.Label
            (w.dispatch qo).Track.Label = true := by
          unfold Session.publisherOn
          rw [hci, hsi, hti, hn, Writer.path_pub]
          simp only [hsame.1, hsame.2.1, hsame.2.2, beq_self_eq_true, Bool.and_self,
            Bool.true_or, Bool.or_true]
        rw [hyes] at hno
        cases hno
  | leave sid =>
    simp only [Floor.step] at hstep
    cases hfind : f.active.find? (fun a => a.sid == sid) with
    | none => simp [hfind] at hstep
    | some a =>
      cases hl : f.studio.Sessions.lookup sid with
      | none => simp [hfind, hl] at hstep
      | some s =>
        simp only [hfind, hl, Option.some.injEq] at hstep
        subst hstep
        have ha : a ∈ f.active := List.mem_of_find?_eq_some hfind
        have hasid : a.sid = sid := by
          have := List.find?_some hfind
          simpa using this
        obtain ⟨s0, hl0, hs0, _⟩ := hreg a ha
        rw [hasid, hl] at hl0
        cases hl0
        have hsid : s.ID = sid := hs0.trans hasid
        refine ⟨ChannelsById.of_ids (Writer.leave_ids _ _ _ _) hwf, ?_, ?_,
          hpair.filter _⟩
        · show (a.writer.leave f.studio s a.qo).Sessions.map Prod.fst = _
          rw [Writer.leave_Sessions, hsid, GoMap.keys_remove, Active.sids_filter, hkeys]
        · intro b hb
          obtain ⟨hb1, hb2⟩ := List.mem_filter.mp hb
          have hne : b.sid ≠ sid := by simpa using hb2
          obtain ⟨s1, hl1, hs1⟩ := hreg b hb1
          refine ⟨s1, ?_, hs1⟩
          show GoMap.lookup (a.writer.leave f.studio s a.qo).Sessions b.sid = some s1
          rw [Writer.leave_Sessions, hsid, GoMap.lookup_remove_ne _ _ _ hne]
          exact hl1

theorem FloorInv.run {cfg : Config} (moves : List Move) :
    ∀ {f f1 : Floor}, FloorInv f → Floor.run cfg f moves = some f1 →
      (∀ m ∈ moves, m.mono = true) → FloorInv f1 := by
  induction moves with
  | nil =>
    intro f f1 hinv hrun _
    simp only [Floor.run, Option.some.injEq] at hrun
    rw [← hrun]
    exact hinv
  | cons m ms ih =>
    intro f f1 hinv hrun hmono
    simp only [Floor.run] at hrun
    cases hs : f.step cfg m with
    | none => simp [hs] at hrun
    | some f2 =>
      simp only [hs] at hrun
      exact ih (hinv.step hs (hmono m (List.mem_cons_self _ _))) hrun
        (fun m1 hm1 => hmono m1 (List.mem_cons_of_mem _ hm1))

/-- From a studio whose channels are stored under their ids and whose session map is
empty, in every sequence of admissions and exits through PangWSPublisher,
PangTCPPublisher, PangUDPPublisher, CastWSPublisher and PangWSPuller that runs without
panic, in which no request uses style `multi` and each request gets a fresh session id: at
any time at most one session admitted through one of the three Pang publishers is in its
loop on a given channel, source and track, no session of these entry points was in its
loop on that resource when it was admitted, and the keys of the session map are the ids of
the sessions in a loop.  The resource check of the three Pang publishers is what gives
this; the puller has none. -/
theorem checked_single_writer (cfg : Config) (d0 : Studio) (hwf : ChannelsById d0.Channels)
    (hs : d0.Sessions = []) (moves : List Move) (hmono : ∀ m ∈ moves, m.mono = true)
    (f : Floor) (hrun : Floor.run cfg { studio := d0, active := [] } moves = some f)
    (c s t : GoString) :
    (f.active.filter (fun a => a.writer.checks && a.on c s t)).length ≤ 1 ∧
    f.active.Pairwise (fun a b => b.writer.checks = true →
      ¬ (a.qo.Channel.ID = b.qo.Channel.ID ∧ a.qo.Source.Label = b.qo.Source.Label ∧
        a.qo.Track.Label = b.qo.Track.Label)) ∧
    f.studio.Sessions.map Prod.fst = f.active.map Active.sid := by
  have h0 : FloorInv { studio := d0, active := [] } := by
    refine ⟨hwf, ?_, ?_, List.Pairwise.nil⟩
    · show d0.Sessions.map Prod.fst = []
      rw [hs]
      rfl
    · intro a ha
      cases ha
  obtain ⟨_, hkeys, _, hpair⟩ := FloorInv.run moves h0 hrun hmono
  refine ⟨?_, hpair, hkeys⟩
  have hp := hpair.filter (fun a => a.writer.checks && a.on c s t)
  have hall : ∀ a ∈ f.active.filter (fun a => a.writer.checks && a.on c s t),
      a.writer.checks = true ∧ a.qo.Channel.ID = c ∧ a.qo.Source.Label = s ∧
        a.qo.Track.Label = t := by
    intro a ha
    have := (List.mem_filter.mp ha).2
    simpa [Active.on, and_assoc] using this
  match hl : f.active.filter (fun a => a.writer.checks && a.on c s t) with
  | [] => rw [hl]; simp
  | [_] => rw [hl]; simp
  | a :: b :: l =>
    exfalso
    rw [hl] at hp hall
    have hab := (List.pairwise_cons.mp hp).1 b (List.mem_cons_self _ _)
    obtain ⟨_, ha1, ha2, ha3⟩ := hall a (List.mem_cons_self _ _)
    obtain ⟨hb0, hb1, hb2, hb3⟩ := hall b (List.mem_cons_of_mem _ (List.mem_cons_self _ _))
    exact hab hb0 ⟨ha1.trans hb1.symm, ha2.trans hb2.symm, ha3.trans hb3.symm⟩

/-- The moves `movesPang` on the studio `studioB`: a request to `PangWSPublisher`, one to
`PangTCPPublisher` on the same resource, the exit of the first session, and a request to
`PangUDPPublisher`; at most one of them is in its loop at the end. -/
theorem checked_single_writer_run :
    ∃ f, Floor.run cfgA floorB movesPang = some f ∧
      (f.active.filter (fun a =>
        a.writer.checks && a.on (go "ch1") (go "base") (go "video"))).length ≤ 1 :=
  have hsome : (Floor.run cfgA floorB movesPang).isSome = true := by decide
  ⟨(Floor.run cfgA floorB movesPang).get hsome, (Option.some_get hsome).symm,
    (checked_single_writer cfgA studioB (by decide) rfl movesPang (by decide)
      ((Floor.run cfgA floorB movesPang).get hsome) (Option.some_get hsome).symm
      (go "ch1") (go "base") (go "video")).1⟩

/-- C12. The claim is evaluated on the floor `floorP`: the studio has the idle channel
`ch1` and the pull bridge `b9` into it.  A request to `PangWSPublisher` on
`(ch1, base, video)` is admitted, and then `PangWSPuller` for the bridge `b9` on the same
channel, source and track, which makes no resource check, is admitted as well, neither
request being of style `multi`: the sessions `s1` and `s2` are both in their loops on that
resource, both registered under the name `/pang/ws/pub`, and `handleBuffersByPangWSAPI`
runs for each of them the receive loop on ring 0 with unlocked writes.  The same second
request through `PangTCPPublisher`, which makes the check, is refused.  A request to
`CastWSPublisher` that passes the gate of the channel reaches its receive loop with
`s.trk` nil and panics. -/
theorem puller_second_writer :
    (∀ m ∈ movesPull, m.mono = true) ∧
    (Floor.run cfgA floorP movesPull).map (fun f =>
        (f.active.filter (fun a => a.on (go "ch1") (go "base") (go "video"))).map
          (fun a => (a.sid, a.writer)))
      = some [(go "s1", Writer.pangWS), (go "s2", Writer.puller (go "b9"))] ∧
    (Floor.run cfgA floorP movesPull).map (fun f =>
        f.studio.Sessions.map (fun e => (e.1, e.2.Name)))
      = some [(go "s1", go "/pang/ws/pub"), (go "s2", go "/pang/ws/pub")] ∧
    (Floor.run cfgA floorP movesPull).map (fun f =>
        f.studio.Sessions.map (fun e => (e.2.ChannelID, e.2.SourceID, e.2.TrackID)))
      = some [(go "ch1", go "base", go "video"), (go "ch1", go "base", go "video")] ∧
    (Floor.run cfgA floorP movesPull).map (fun f => (f.loopOf (go "s1"), f.loopOf (go "s2")))
      = some (some { called := some (Started.recv 0 false) },
              some { called := some (Started.recv 0 false) }) ∧
    (Floor.run cfgA floorP movesTwo).map (fun f => f.active.map Active.sid)
      = some [go "s1"] ∧
    (CastWSPublisher.enter studioB (idsA 1) 7 (Writer.dispatch .castWS (queryA []))).2
      = Admission.serving ∧
    Floor.step cfgA floorB (Move.enter .castWS (idsA 1) 7 (queryA [])) = none := by
  refine ⟨?_, ?_, ?_, ?_, ?_, ?_, ?_, ?_⟩ <;> decide


/-! ## Safety of the ring index -/

/-- C30. For every sequence of `writeSlot` and `setBufferSizeLen` calls (and
`setTrackBufferSize` calls) with arbitrary arguments on the ring of `NewBuffer` with capacity
30 and active length 20, the sequence runs without a panic and in the ring it reaches
`0 ≤ PosWrite < len(Slots) = SizeCap` and `SizeLen ≥ 1`, so that one more `writeSlot`
indexes inside the slot array, takes no remainder by zero and returns. -/
theorem writeSlot_never_panics (id label : GoString) (ops : List RingOp) (b : Slot)
    (flock : Bool) :
    ∃ d0 d, NewBuffer id label BUFFER_CAP_SLOTS BUFFER_LEN_SLOTS = some d0 ∧
      RingOp.run d0 ops = some d ∧
      0 ≤ d.PosWrite ∧ d.PosWrite < d.Slots.length ∧ (d.Slots.length : Int) = d.SizeCap ∧
      1 ≤ d.SizeLen ∧ (d.writeSlot b flock).isSome = true := by
  obtain ⟨d0, h0, hb0⟩ := NewBuffer_bounds id label
  obtain ⟨d, hd, hbd⟩ := RingOp.run_bounds ops d0 hb0
  obtain ⟨h1, h2, h3, h4, h5, h6, h7⟩ := hbd
  have hw := writeSlot_wide d b flock h7 h5 (by omega) (by omega)
  refine ⟨d0, d, h0, hd, h5, by omega, by omega, by omega, ?_⟩
  rw [hw]
  rfl

/-! ## A reader in lock step with the writer -/

theorem lockstep_pair (r : RingRun) (bs : Slot) (flock : Bool) (hfree : r.b.locked = false)
    (hL : 2 ≤ r.b.SizeLen) (hlen : r.b.SizeLen ≤ r.b.Slots.length) (hw0 : 0 ≤ r.b.PosWrite)
    (hw1 : r.b.PosWrite < r.b.SizeLen) (hcur : r.lpos = r.b.PosWrite) :
    ∃ r1, r.run [.write bs flock, .read] = some r1 ∧ r1.written = r.written ++ [bs] ∧
      r1.seen = r.seen ++ [bs] ∧ r1.lpos = r1.b.PosWrite ∧ r1.b.locked = false ∧
      r1.b.SizeLen = r.b.SizeLen ∧ r1.b.Slots.length = r.b.Slots.length ∧
      0 ≤ r1.b.PosWrite ∧ r1.b.PosWrite < r1.b.SizeLen := by
  have hw := writeSlot_eq r.b bs flock hfree hw0 hw1 hlen
  have hlt : r.b.PosWrite.toNat < r.b.Slots.length := by omega
  have hnext0 : 0 ≤ (r.b.PosWrite + 1) % r.b.SizeLen := Int.emod_nonneg _ (by omega)
  have hnext1 : (r.b.PosWrite + 1) % r.b.SizeLen < r.b.SizeLen :=
    Int.emod_lt_of_pos _ (by omega)
  have hne : r.b.PosWrite ≠ (r.b.PosWrite + 1) % r.b.SizeLen := by
    intro h
    by_cases hwrap : r.b.PosWrite + 1 < r.b.SizeLen
    · rw [Int.emod_eq_of_lt (by omega) hwrap] at h
      omega
    · have : r.b.PosWrite + 1 = r.b.SizeLen := by omega
      rw [this, Int.emod_self] at h
      omega
  obtain ⟨b1, hb1⟩ : ∃ b1, b1 = ({ r.b with
      Slots := r.b.Slots.set r.b.PosWrite.toNat bs, PosRead := r.b.PosWrite,
      PosWrite := (r.b.PosWrite + 1) % r.b.SizeLen } : Buffer) := ⟨_, rfl⟩
  have hrd : b1.readSlotByPos r.b.PosWrite = some (bs, b1) := by
    apply readSlotByPos_eq _ _ _ hw0
    rw [hb1]
    simp [hlt]
  have hsr : b1.setReadPos r.b.PosWrite = some ((r.b.PosWrite + 1) % r.b.SizeLen, b1) := by
    rw [setReadPos_eq b1 r.b.PosWrite (by rw [hb1]; show 0 < r.b.SizeLen; omega) hw0]
    have e1 : b1.PosWrite = (r.b.PosWrite + 1) % r.b.SizeLen := by rw [hb1]
    have e2 : b1.SizeLen = r.b.SizeLen := by rw [hb1]
    rw [e1, e2]
    split <;> rfl
  refine ⟨⟨b1, (r.b.PosWrite + 1) % r.b.SizeLen, r.written ++ [bs], r.seen ++ [bs]⟩,
    ?_, rfl, rfl, ?_, ?_, ?_, ?_, ?_, ?_⟩
  · have hcur1 : ¬ r.lpos = b1.PosWrite := by
      rw [hcur, hb1]
      exact hne
    simp only [RingRun.run, RingRun.step, hw, ← hb1, hcur1, if_false]
    rw [hcur, hrd]
    simp only [hsr]
  · rw [hb1]
  · rw [hb1]
    exact hfree
  · rw [hb1]
  · rw [hb1]
    simp
  · rw [hb1]
    exact hnext0
  · rw [hb1]
    exact hnext1

theorem RingRun.run_steps_append (xs ys : List RingStep) (r r1 : RingRun)
    (h : r.run xs = some r1) : r.run (xs ++ ys) = r1.run ys := by
  induction xs generalizing r with
  | nil =>
    simp only [RingRun.run, Option.some.injEq] at h
    rw [h]
    rfl
  | cons x xs ih =>
    simp only [RingRun.run, List.cons_append] at h ⊢
    cases hx : r.step x with
    | none => simp [hx] at h
    | some r2 =>
      simp only [hx] at h ⊢
      exact ih r2 h

/-- C29. On a ring of active length `L ≥ 2` whose mutex is free, with `0 ≤ PosWrite < L ≤
len(Slots)` and a reader whose cursor equals `PosWrite`: when every `writeSlot` is
followed by one pass of the reader (read the slot at the cursor, then
`cursor := setReadPos(cursor)`), then for every finite sequence of written slots the
schedule runs without a panic, the reader reads exactly that sequence, each slot once and
in order, and after the last pass (so after every pass, a prefix of the schedule being such
a schedule) the cursor equals `PosWrite` again, the wrap-around of the ring included. -/
theorem lockstep_reader (r0 : RingRun) (ws : List (Slot × Bool))
    (hfree : r0.b.locked = false) (hL : 2 ≤ r0.b.SizeLen)
    (hlen : r0.b.SizeLen ≤ r0.b.Slots.length) (hw0 : 0 ≤ r0.b.PosWrite)
    (hw1 : r0.b.PosWrite < r0.b.SizeLen) (hcur : r0.lpos = r0.b.PosWrite) :
    ∃ r, r0.run (lockstep ws) = some r ∧ r.written = r0.written ++ ws.map Prod.fst ∧
      r.seen = r0.seen ++ ws.map Prod.fst ∧ r.lpos = r.b.PosWrite ∧
      r.b.SizeLen = r0.b.SizeLen := by
  induction ws generalizing r0 with
  | nil => exact ⟨r0, rfl, by simp, by simp, hcur, rfl⟩
  | cons w ws ih =>
    obtain ⟨r1, hrun, hwr, hseen, hc1, hf1, hs1, hl1, hp0, hp1⟩ :=
      lockstep_pair r0 w.1 w.2 hfree hL hlen hw0 hw1 hcur
    obtain ⟨r, hr, hwr2, hseen2, hc2, hs2⟩ := ih r1 hf1 (by rw [hs1]; exact hL)
      (by rw [hs1, hl1]; exact hlen) hp0 hp1 hc1
    refine ⟨r, ?_, ?_, ?_, hc2, hs2.trans hs1⟩
    · have := RingRun.run_steps_append [.write w.1 w.2, .read] (lockstep ws) r0 r1 hrun
      simpa [lockstep] using this.trans hr
    · rw [hwr2, hwr]
      simp
    · rw [hseen2, hseen]
      simp

/-- Witness of C29: on the ring `ringAt 19` (active length 20, write position on the last
active slot) three writes in lock step with the reader, across the wrap-around. -/
theorem lockstep_reader_witness :
    ∃ r, ({ b := ringAt 19, lpos := 19, written := [], seen := [] } : RingRun).run
        (lockstep [(slotA, false), (slotX, true), (slotA, true)]) = some r ∧
      r.written = [] ++ [(slotA, false), (slotX, true), (slotA, true)].map Prod.fst ∧
      r.seen = [] ++ [(slotA, false), (slotX, true), (slotA, true)].map Prod.fst ∧
      r.lpos = r.b.PosWrite ∧ r.b.SizeLen = (ringAt 19).SizeLen :=
  lockstep_reader { b := ringAt 19, lpos := 19, written := [], seen := [] } _
    rfl (by decide) (by decide) (by decide) (by decide) rfl


/-! ## Extended text messages -/

theorem IsExtTextMessage_frameMIME (body : List Byte) :
    IsExtTextMessage (frameMIME body) = true := by
  have hl : ¬ (frameMIME body).length < 8 := by
    simp [frameMIME, go]
  have ht : (frameMIME body).take 4 = go "REXT" := by
    simp [frameMIME, go]
  simp only [IsExtTextMessage, hl, ht, if_false, if_true]

theorem ProcExtTextMessage_frameMIME (s : Session) (trk : Track) (body : List Byte) :
    ProcExtTextMessage s trk (frameMIME body) =
      if body.length < 4 then some (trk, true) else some ({ trk with Mime := body }, false) := by
  have hlen : (frameMIME body).length = 8 + body.length := by
    simp [frameMIME, go]; omega
  have hh : ((frameMIME body).drop 4).take 4 = go "MIME" := by
    simp [frameMIME, go]
  have hb : (frameMIME body).drop 8 = body := by
    simp [frameMIME, go]
  by_cases h : body.length < 4
  · have h12 : (frameMIME body).length < 12 := by omega
    simp only [ProcExtTextMessage, h12, h, if_true]
  · have h12 : ¬ (frameMIME body).length < 12 := by omega
    simp only [ProcExtTextMessage, h12, h, if_false, hh, hb, if_true]

theorem ProcExtTextMessage_frameCARD (s : Session) (trk : Track) (body : List Byte)
    (hnil : trk.Cards = none) (h4 : 4 ≤ body.length) :
    ProcExtTextMessage s trk (frameCARD body) = none := by
  have h12 : ¬ (frameCARD body).length < 12 := by
    simp [frameCARD, go]; omega
  have hh : ((frameCARD body).drop 4).take 4 = go "CARD" := by
    simp [frameCARD, go]
  have hne : ¬ go "CARD" = go "MIME" := by decide
  simp only [ProcExtTextMessage, h12, if_false, hh, hne, if_true, hnil]

/-- C22, counterexample. The frame `REXT` `MIME` `ab` has a body of two bytes: the
receive pass on it completes and leaves the track MIME as it was (empty), not `ab`. -/
theorem ext_mime_counterexample :
    (recvTrackBufferInWSMessage.pass false (ringAt 0) sessP 5 TextMessage
        (frameMIME (go "ab"))).map (fun r => r.2.trk.Mime) = some [] ∧
    ([] : List Byte) ≠ go "ab" := by
  decide

/-- C22, amended. On a ring with `0 ≤ PosWrite < SizeLen ≤ len(Slots)` whose mutex is
free, the receive pass of `recvTrackBufferInWSMessage` on a text frame `REXT` `MIME` body
completes, for a body of every length.  The frame is written to the ring: the slot at the
old `PosWrite` holds the whole frame as data, with the session id as head, the mark `RTXT`
and the length of the frame, the other slots are unchanged and `PosWrite` has advanced by
one.  The track MIME afterwards is the body when the body has at least 4 bytes, and is
unchanged when the body is shorter (`ProcExtTextMessage` then returns its length error);
it is the whole frame only if it was so before. -/
theorem ext_mime_spec (flock : Bool) (b : Buffer) (s : Session) (clock : Nat)
    (body : List Byte) (hfree : b.locked = false) (h0 : 0 ≤ b.PosWrite)
    (h1 : b.PosWrite < b.SizeLen) (h2 : b.SizeLen ≤ b.Slots.length) :
    ∃ b1 s1 bs, recvTrackBufferInWSMessage.pass flock b s clock TextMessage (frameMIME body)
        = some (b1, s1) ∧
      bs = recvTrackBufferInWSMessage.textSlot s clock (frameMIME body) ∧
      bs.Data = frameMIME body ∧ bs.Head = some s.ID ∧ bs.Mark = RSSP_MARK_RTXT ∧
      bs.FrameType = TextMessage ∧ bs.Length = (frameMIME body).length ∧
      b.writeSlot bs flock = some b1 ∧
      b1 = { b with Slots := b.Slots.set b.PosWrite.toNat bs, PosRead := b.PosWrite,
                    PosWrite := (b.PosWrite + 1) % b.SizeLen } ∧
      b1.Slots[b.PosWrite.toNat]? = some bs ∧
      (∀ i : Nat, i ≠ b.PosWrite.toNat → b1.Slots[i]? = b.Slots[i]?) ∧
      s1.InBytes = s.InBytes + (frameMIME body).length ∧
      (4 ≤ body.length → s1.trk.Mime = body ∧
        ProcExtTextMessage s s.trk (frameMIME body) = some ({ s.trk with Mime := body }, false)) ∧
      (body.length < 4 → s1.trk.Mime = s.trk.Mime ∧
        ProcExtTextMessage s s.trk (frameMIME body) = some (s.trk, true)) ∧
      (s1.trk.Mime = frameMIME body → s.trk.Mime = frameMIME body) := by
  have hx := IsExtTextMessage_frameMIME body
  have hp := ProcExtTextMessage_frameMIME s s.trk body
  have hlen : (frameMIME body).length = 8 + body.length := by
    simp [frameMIME, go]; omega
  have hlt : b.PosWrite.toNat < b.Slots.length := by omega
  have hget : ∀ x : Slot, (b.Slots.set b.PosWrite.toNat x)[b.PosWrite.toNat]? = some x := by
    intro x
    rw [List.getElem?_set_self hlt]
  have hoth : ∀ (x : Slot) (i : Nat), i ≠ b.PosWrite.toNat →
      (b.Slots.set b.PosWrite.toNat x)[i]? = b.Slots[i]? := by
    intro x i hi
    rw [List.getElem?_set_ne (Ne.symm hi)]
  by_cases h : body.length < 4
  · rw [if_pos h] at hp
    simp only [recvTrackBufferInWSMessage.pass, if_true, hx, hp,
      writeSlot_eq _ _ flock hfree h0 h1 h2]
    exact ⟨_, _, _, rfl, rfl, rfl, rfl, rfl, rfl, rfl, rfl, rfl, hget _, hoth _, rfl,
      fun h4 => absurd h (by omega), fun _ => ⟨rfl, trivial⟩, fun hm => hm⟩
  · rw [if_neg h] at hp
    simp only [recvTrackBufferInWSMessage.pass, if_true, hx, hp,
      writeSlot_eq _ _ flock hfree h0 h1 h2]
    refine ⟨_, _, _, rfl, rfl, rfl, rfl, rfl, rfl, rfl, rfl, rfl, hget _, hoth _, rfl,
      fun _ => ⟨rfl, trivial⟩, fun h4 => absurd h4 h, fun hm => ?_⟩
    exfalso
    have hm1 : body = frameMIME body := hm
    have := congrArg List.length hm1
    omega

/-- Witness of C22 (amended): the body `text/plain` on the ring `ringAt 0`. -/
theorem ext_mime_spec_witness :
    ∃ b1 s1 bs, recvTrackBufferInWSMessage.pass false (ringAt 0) sessP 5 TextMessage
        (frameMIME (go "text/plain")) = some (b1, s1) ∧
      bs = recvTrackBufferInWSMessage.textSlot sessP 5 (frameMIME (go "text/plain")) ∧
      bs.Data = frameMIME (go "text/plain") ∧ bs.Head = some sessP.ID ∧
      bs.Mark = RSSP_MARK_RTXT ∧ bs.FrameType = TextMessage ∧
      bs.Length = (frameMIME (go "text/plain")).length ∧
      (ringAt 0).writeSlot bs false = some b1 ∧
      b1 = { ringAt 0 with Slots := (ringAt 0).Slots.set (ringAt 0).PosWrite.toNat bs,
                           PosRead := (ringAt 0).PosWrite,
                           PosWrite := ((ringAt 0).PosWrite + 1) % (ringAt 0).SizeLen } ∧
      b1.Slots[(ringAt 0).PosWrite.toNat]? = some bs ∧
      (∀ i : Nat, i ≠ (ringAt 0).PosWrite.toNat → b1.Slots[i]? = (ringAt 0).Slots[i]?) ∧
      s1.InBytes = sessP.InBytes + (frameMIME (go "text/plain")).length ∧
      (4 ≤ (go "text/plain").length → s1.trk.Mime = go "text/plain" ∧
        ProcExtTextMessage sessP sessP.trk (frameMIME (go "text/plain"))
          = some ({ sessP.trk with Mime := go "text/plain" }, false)) ∧
      ((go "text/plain").length < 4 → s1.trk.Mime = sessP.trk.Mime ∧
        ProcExtTextMessage sessP sessP.trk (frameMIME (go "text/plain"))
          = some (sessP.trk, true)) ∧
      (s1.trk.Mime = frameMIME (go "text/plain") → sessP.trk.Mime = frameMIME (go "text/plain")) :=
  ext_mime_spec false (ringAt 0) sessP 5 (go "text/plain") rfl (by decide) (by decide)
    (by decide)

/-- C23. The claim is evaluated on the track that `addSourceTrackByLabel` creates: its
card map is the nil map, so the frame `REXT` `CARD` `abcd` makes `ProcExtTextMessage`
assign to an entry of a nil map and the receive pass panics instead of completing; nothing
is stored under the session id. -/
theorem ext_card_panics :
    ∃ t, trackNew = some t ∧ t.Rings.length = 2 ∧ t.Cards = none ∧
      ProcExtTextMessage sessP t (frameCARD (go "abcd")) = none ∧
      recvTrackBufferInWSMessage.pass false (ringAt 0) { sessP with trk := t } 5 TextMessage
        (frameCARD (go "abcd")) = none := by
  refine ⟨_, rfl, rfl, rfl, ?_, ?_⟩
  · decide
  · decide


/-! ## The choice of rings -/

/-- C28. For every track with its two rings, every session and every mode,
`handleBuffersByPangWSAPI` selects by session name: `/pang/ws/pub` runs the receive loop
on ring 0 with unlocked writes and starts the send loop on ring 1 exactly when the mode is
`bundle`; `/pang/ws/sub` runs the send loop on ring 0 and starts the receive loop on ring 1
with locked writes exactly when the mode is `bundle`; `/pang/ws/meb` starts the receive
loop on ring 0 with locked writes and runs the send loop on ring 0; for every other
session name, `/pang/ws/zeb` included, and every track, it returns the error of an
unsupported name and starts no loop. -/
theorem handleBuffersByPangWSAPI_spec (trk : Track) (s : Session) (mode : GoString) :
    (2 ≤ trk.Rings.length → s.Name = go "/pang/ws/pub" →
      trk.handleBuffersByPangWSAPI s mode = some
        { spawned := if mode = go "bundle" then some (Started.send 1 false) else none,
          called := some (Started.recv 0 false) }) ∧
    (2 ≤ trk.Rings.length → s.Name = go "/pang/ws/sub" →
      trk.handleBuffersByPangWSAPI s mode = some
        { spawned := if mode = go "bundle" then some (Started.recv 1 true) else none,
          called := some (Started.send 0 true) }) ∧
    (2 ≤ trk.Rings.length → s.Name = go "/pang/ws/meb" →
      trk.handleBuffersByPangWSAPI s mode = some
        { spawned := some (Started.recv 0 true), called := some (Started.send 0 false) }) ∧
    (s.Name ≠ go "/pang/ws/pub" → s.Name ≠ go "/pang/ws/sub" → s.Name ≠ go "/pang/ws/meb" →
      trk.handleBuffersByPangWSAPI s mode = some { unsupported := true }) ∧
    (s.Name = go "/pang/ws/zeb" →
      trk.handleBuffersByPangWSAPI s mode = some { unsupported := true }) := by
  have h01 : ∀ (h2 : 2 ≤ trk.Rings.length),
      ∃ a b, trk.Rings[0]? = some a ∧ trk.Rings[1]? = some b := by
    intro h2
    exact ⟨trk.Rings[0], trk.Rings[1], List.getElem?_eq_getElem _, List.getElem?_eq_getElem _⟩
  have hsp : ¬ go "/pang/ws/sub" = go "/pang/ws/pub" := by decide
  have hmp : ¬ go "/pang/ws/meb" = go "/pang/ws/pub" := by decide
  have hms : ¬ go "/pang/ws/meb" = go "/pang/ws/sub" := by decide
  have hzp : ¬ go "/pang/ws/zeb" = go "/pang/ws/pub" := by decide
  have hzs : ¬ go "/pang/ws/zeb" = go "/pang/ws/sub" := by decide
  have hzm : ¬ go "/pang/ws/zeb" = go "/pang/ws/meb" := by decide
  have hF : BUFFER_NUM_FORE.toNat = 0 := rfl
  have hB : BUFFER_NUM_BACK.toNat = 1 := rfl
  have hF1 : BUFFER_NUM_FORE = 0 := rfl
  have hB1 : BUFFER_NUM_BACK = 1 := rfl
  have h0n : Int.toNat 0 = 0 := rfl
  have h1n : Int.toNat 1 = 1 := rfl
  refine ⟨fun h2 hn => ?_, fun h2 hn => ?_, fun h2 hn => ?_, fun h1 h2 h3 => ?_, fun hn => ?_⟩
  · obtain ⟨a, b, ha, hb⟩ := h01 h2
    simp only [Track.handleBuffersByPangWSAPI, hn, if_true, hF, hB, ha, hb, hF1, hB1, h0n, h1n]
  · obtain ⟨a, b, ha, hb⟩ := h01 h2
    simp only [Track.handleBuffersByPangWSAPI, hn, hsp, if_false, if_true, hF, hB, ha, hb,
      hF1, hB1, h0n, h1n]
  · obtain ⟨a, b, ha, hb⟩ := h01 h2
    simp only [Track.handleBuffersByPangWSAPI, hn, hmp, hms, if_false, if_true, hF, ha, hF1, h0n]
  · simp only [Track.handleBuffersByPangWSAPI, h1, h2, h3, if_false]
  · simp only [Track.handleBuffersByPangWSAPI, hn, hzp, hzs, hzm, if_false]

/-- Witness of C28 on the track `trackA`: the publisher `/pang/ws/pub` in mode `bundle`
and the session `/pang/ws/zeb`. -/
theorem handleBuffersByPangWSAPI_spec_witness :
    trackA.handleBuffersByPangWSAPI sessP (go "bundle") = some
      { spawned := if go "bundle" = go "bundle" then some (Started.send 1 false) else none,
        called := some (Started.recv 0 false) } ∧
    trackA.handleBuffersByPangWSAPI { sessP with Name := go "/pang/ws/zeb" } (go "single")
      = some { unsupported := true } :=
  ⟨(handleBuffersByPangWSAPI_spec trackA sessP (go "bundle")).1 (by decide) rfl,
   (handleBuffersByPangWSAPI_spec trackA { sessP with Name := go "/pang/ws/zeb" }
      (go "single")).2.2.2.2 rfl⟩


/-! ## The sweep of the bridges -/

/-- When no start fails, `checkBridges(attr)` calls `startBridge` on exactly the bridges
that are not blocked and have the attribute, whatever their state. -/
theorem checkBridges_called (remote : Bridge → Option (GoMap Source)) (d : Studio)
    (attr : GoString) (bs : List (GoString × Bridge))
    (hok : ∀ e ∈ bs, (d.startBridge remote e.2).isSome = true) :
    (Studio.checkBridges.loop remote d attr bs).called =
      (bs.filter (fun e => !e.2.Blocked && decide (e.2.Attr = attr))).map (fun e => e.2.ID) := by
  induction bs with
  | nil => rfl
  | cons e rest ih =>
    obtain ⟨k, v⟩ := e
    have ih1 := ih (fun e he => hok e (List.mem_cons_of_mem _ he))
    have hv := hok (k, v) (List.mem_cons_self _ _)
    obtain ⟨rs, hrs⟩ := Option.isSome_iff_exists.mp hv
    by_cases hb : v.Blocked = true
    · simp [Studio.checkBridges.loop, hb, ih1]
    · by_cases ha : v.Attr = attr
      · simp [Studio.checkBridges.loop, hb, ha, hrs, ih1]
      · simp [Studio.checkBridges.loop, hb, ha, ih1]

/-- C24. The claim is evaluated on the studio `studioM`: the sweep `checkBridges("ever")`
calls `startBridge` on the bridge `b1`, which is not blocked, has the attribute `ever` and
is already running (state `Using`), and launches a second push of its track; the command
`run bridge start` refuses the same bridge. The idle bridge `b2` is started, the bridges
`b3` (attribute `none`) and `b4` (blocked) are not. -/
theorem checkBridges_restarts_running :
    (studioM.findBridgeByID (go "b1")).map (fun b => (b.State, b.Blocked, b.Attr))
      = some (Using, false, go "ever") ∧
    (studioM.checkBridges (fun _ => none) (go "ever")).called = [go "b1", go "b2"] ∧
    (studioM.checkBridges (fun _ => none) (go "ever")).relays =
      [{ bridge := go "b1", pull := false, source := go "base", track := go "video" },
       { bridge := go "b2", pull := false, source := go "base", track := go "video" }] ∧
    (studioM.checkBridges (fun _ => none) (go "ever")).err = false ∧
    Command.runBridge.start (fun _ => none) { ID := go "b1", State := go "start" } studioM
      = none ∧
    Command.runBridge.start (fun _ => none) { ID := go "b2", State := go "start" } studioM
      = some [{ bridge := go "b2", pull := false, source := go "base", track := go "video" }] := by
  decide


/-! ## The options of a request -/

namespace GetQueryOptionFromQuery

@[simp] theorem stream_frame (query : Values) (qo : QueryOption) :
    (stream query qo).Format = textOr (go "text") (query.Get (go "format")) ∧
    (stream query qo).Source = qo.Source ∧ (stream query qo).Track = qo.Track ∧
    (stream query qo).Session = qo.Session ∧ (stream query qo).Buffer = qo.Buffer := by
  unfold stream textOr
  split_ifs <;> simp_all

@[simp] theorem channel_frame (query : Values) (qo : QueryOption) :
    (channel query qo).Format = qo.Format ∧
    (channel query qo).Source = qo.Source ∧ (channel query qo).Track = qo.Track ∧
    (channel query qo).Session = qo.Session ∧ (channel query qo).Buffer = qo.Buffer :=
  ⟨rfl, rfl, rfl, rfl, rfl⟩

@[simp] theorem source_frame (query : Values) (qo : QueryOption) :
    (source query qo).Format = qo.Format ∧
    (source query qo).Source.Label = textOr (go "base") (query.Get (go "source")) ∧
    (source query qo).Track = qo.Track ∧
    (source query qo).Session = qo.Session ∧ (source query qo).Buffer = qo.Buffer := by
  unfold source textOr
  split_ifs <;> simp_all

@[simp] theorem track_frame (query : Values) (qo : QueryOption) :
    (track query qo).Format = qo.Format ∧ (track query qo).Source = qo.Source ∧
    (track query qo).Track.Label = textOr (go "video") (query.Get (go "track")) ∧
    (track query qo).Session = qo.Session ∧ (track query qo).Buffer = qo.Buffer := by
  unfold track textOr
  split_ifs <;> simp_all

@[simp] theorem mode_frame (query : Values) (qo : QueryOption) :
    (mode query qo).Format = qo.Format ∧ (mode query qo).Source = qo.Source ∧
    (mode query qo).Track.Label = qo.Track.Label ∧
    (mode query qo).Track.Mode = textOr (go "single") (query.Get (go "mode")) ∧
    (mode query qo).Session = qo.Session ∧ (mode query qo).Buffer = qo.Buffer := by
  unfold mode textOr
  split_ifs <;> simp_all

@[simp] theorem style_frame (query : Values) (qo : QueryOption) :
    (style query qo).Format = qo.Format ∧ (style query qo).Source = qo.Source ∧
    (style query qo).Track.Label = qo.Track.Label ∧
    (style query qo).Track.Mode = qo.Track.Mode ∧
    (style query qo).Track.Style = textOr (go "mono") (query.Get (go "style")) ∧
    (style query qo).Session = qo.Session ∧ (style query qo).Buffer = qo.Buffer := by
  unfold style textOr
  split_ifs <;> simp_all

@[simp] theorem filter_frame (query : Values) (qo : QueryOption) :
    (filter query qo).Format = qo.Format ∧ (filter query qo).Source = qo.Source ∧
    (filter query qo).Track.Label = qo.Track.Label ∧
    (filter query qo).Track.Mode = qo.Track.Mode ∧
    (filter query qo).Track.Style = qo.Track.Style ∧
    (filter query qo).Track.Filter = textOr (go "group") (query.Get (go "filter")) ∧
    (filter query qo).Session = qo.Session ∧ (filter query qo).Buffer = qo.Buffer := by
  unfold filter textOr
  split_ifs <;> simp_all

@[simp] theorem codec_frame (atoi : GoString → Option Int) (query : Values)
    (qo : QueryOption) :
    (codec atoi query qo).Format = qo.Format ∧ (codec atoi query qo).Source = qo.Source ∧
    (codec atoi query qo).Track.Label = qo.Track.Label ∧
    (codec atoi query qo).Track.Mode = qo.Track.Mode ∧
    (codec atoi query qo).Track.Style = qo.Track.Style ∧
    (codec atoi query qo).Track.Filter = qo.Track.Filter ∧
    (codec atoi query qo).Session = qo.Session ∧ (codec atoi query qo).Buffer = qo.Buffer := by
  unfold codec
  by_cases h : query.Get (go "parallel") = []
  · simp [h]
  · cases hq : atoi (query.Get (go "parallel")) <;> simp [h, hq]

@[simp] theorem session_frame (query : Values) (qo : QueryOption) :
    (session query qo).Format = qo.Format ∧ (session query qo).Source = qo.Source ∧
    (session query qo).Track = qo.Track ∧
    (session query qo).Session.Unit = textOr (go "milli") (query.Get (go "unit")) ∧
    (session query qo).Session.Timeout = qo.Session.Timeout ∧
    (session query qo).Buffer = qo.Buffer := by
  unfold session textOr
  split_ifs <;> simp_all

@[simp] theorem timeout_frame (atoi : GoString → Option Int) (query : Values)
    (qo : QueryOption) :
    (timeout atoi query qo).Format = qo.Format ∧ (timeout atoi query qo).Source = qo.Source ∧
    (timeout atoi query qo).Track = qo.Track ∧
    (timeout atoi query qo).Session.Unit = qo.Session.Unit ∧
    (timeout atoi query qo).Session.Timeout =
      (if query.Get (go "timeout") = [] then qo.Session.Timeout
       else (atoi (query.Get (go "timeout"))).getD qo.Session.Timeout) ∧
    (timeout atoi query qo).Buffer = qo.Buffer := by
  unfold timeout
  by_cases h : query.Get (go "timeout") = []
  · simp [h]
  · cases hq : atoi (query.Get (go "timeout")) <;> simp [h, hq]

@[simp] theorem total_frame (atoi : GoString → Option Int) (query : Values)
    (qo : QueryOption) :
    (total atoi query qo).Format = qo.Format ∧ (total atoi query qo).Source = qo.Source ∧
    (total atoi query qo).Track = qo.Track ∧ (total atoi query qo).Session = qo.Session ∧
    (total atoi query qo).Buffer.Cap = qo.Buffer.Cap ∧
    (total atoi query qo).Buffer.Len = qo.Buffer.Len := by
  unfold total
  by_cases h : query.Get (go "buf_total") = []
  · simp [h]
  · by_cases h1 : query.Get (go "buf_order") = []
    · cases hq : atoi (query.Get (go "buf_total")) <;> simp [h, h1, hq]
    · cases hq : atoi (query.Get (go "buf_total")) <;>
        cases hq1 : atoi (query.Get (go "buf_order")) <;> simp [h, h1, hq, hq1]

@[simp] theorem cap_frame (atoi : GoString → Option Int) (query : Values)
    (qo : QueryOption) :
    (cap atoi query qo).Format = qo.Format ∧ (cap atoi query qo).Source = qo.Source ∧
    (cap atoi query qo).Track = qo.Track ∧ (cap atoi query qo).Session = qo.Session ∧
    (cap atoi query qo).Buffer.Cap =
      (if query.Get (go "buf_cap") = [] then qo.Buffer.Cap
       else (atoi (query.Get (go "buf_cap"))).getD qo.Buffer.Cap) ∧
    (cap atoi query qo).Buffer.Len = qo.Buffer.Len := by
  unfold cap
  by_cases h : query.Get (go "buf_cap") = []
  · simp [h]
  · cases hq : atoi (query.Get (go "buf_cap")) <;> simp [h, hq]

@[simp] theorem len_frame (atoi : GoString → Option Int) (query : Values)
    (qo : QueryOption) :
    (len atoi query qo).Format = qo.Format ∧ (len atoi query qo).Source = qo.Source ∧
    (len atoi query qo).Track = qo.Track ∧ (len atoi query qo).Session = qo.Session ∧
    (len atoi query qo).Buffer.Cap = qo.Buffer.Cap ∧
    (len atoi query qo).Buffer.Len =
      (if query.Get (go "buf_len") = [] then qo.Buffer.Len
       else (atoi (query.Get (go "buf_len"))).getD qo.Buffer.Len) := by
  unfold len
  by_cases h : query.Get (go "buf_len") = []
  · simp [h]
  · cases hq : atoi (query.Get (go "buf_len")) <;> simp [h, hq]

theorem read_spec (atoi : GoString → Option Int) (query : Values) :
    (read atoi query).Source.Label = textOr (go "base") (query.Get (go "source")) ∧
    (read atoi query).Track.Label = textOr (go "video") (query.Get (go "track")) ∧
    (read atoi query).Track.Mode = textOr (go "single") (query.Get (go "mode")) ∧
    (read atoi query).Track.Style = textOr (go "mono") (query.Get (go "style")) ∧
    (read atoi query).Track.Filter = textOr (go "group") (query.Get (go "filter")) ∧
    (read atoi query).Session.Unit = textOr (go "milli") (query.Get (go "unit")) ∧
    (read atoi query).Format = textOr (go "text") (query.Get (go "format")) ∧
    (read atoi query).Session.Timeout = parsedOr0 atoi (query.Get (go "timeout")) ∧
    (read atoi query).Buffer.Cap = parsedOr0 atoi (query.Get (go "buf_cap")) ∧
    (read atoi query).Buffer.Len = parsedOr0 atoi (query.Get (go "buf_len")) := by
  simp [read, parsedOr0]

end GetQueryOptionFromQuery

theorem Values.Get_absent (query : Values) (key : GoString)
    (h : GoMap.lookup query key = none) : query.Get key = [] := by
  simp [Values.Get, h]

/-- C21. For every query, every studio, every order in which the channels are met and
every result of `strconv.Atoi`, `GetQueryOptionFromQuery` yields the source label `base`, the track label `video`, the
mode `single`, the style `mono`, the filter `group`, the unit `milli` and the format `text`
when `query.Get` of the parameter is empty (the parameter is absent or its first value is
empty) and the value given otherwise; timeout, buf_cap and buf_len are 0 when the
parameter is empty or `strconv.Atoi` rejects it and the integer parsed otherwise; the
error returned is nil in every case. -/
theorem GetQueryOptionFromQuery_spec (atoi : GoString → Option Int) (isXid : GoString → Bool)
    (order : RangeOrder Channel) (d : Studio) (id : GoString) (now now1 : Time)
    (query : Values) :
    let qo := (GetQueryOptionFromQuery atoi isXid order d id now now1 query).2.1
    let get := fun (key : String) => query.Get (go key)
    qo.Source.Label = (if get "source" = [] then go "base" else get "source") ∧
    qo.Track.Label = (if get "track" = [] then go "video" else get "track") ∧
    qo.Track.Mode = (if get "mode" = [] then go "single" else get "mode") ∧
    qo.Track.Style = (if get "style" = [] then go "mono" else get "style") ∧
    qo.Track.Filter = (if get "filter" = [] then go "group" else get "filter") ∧
    qo.Session.Unit = (if get "unit" = [] then go "milli" else get "unit") ∧
    qo.Format = (if get "format" = [] then go "text" else get "format") ∧
    qo.Session.Timeout = (if get "timeout" = [] then 0 else (atoi (get "timeout")).getD 0) ∧
    qo.Buffer.Cap = (if get "buf_cap" = [] then 0 else (atoi (get "buf_cap")).getD 0) ∧
    qo.Buffer.Len = (if get "buf_len" = [] then 0 else (atoi (get "buf_len")).getD 0) ∧
    (GetQueryOptionFromQuery atoi isXid order d id now now1 query).2.2 = false ∧
    (∀ key, GoMap.lookup query key = none → query.Get key = []) := by
  intro qo get
  have hr := GetQueryOptionFromQuery.read_spec atoi query
  simp only [textOr, parsedOr0] at hr
  obtain ⟨h1, h2, h3, h4, h5, h6, h7, h8, h9, h10⟩ := hr
  have hget : ∀ key, GoMap.lookup query key = none → query.Get key = [] :=
    fun key h => Values.Get_absent query key h
  rcases hs : Studio.setChannelByQueryOption isXid order d id now now1
      (GetQueryOptionFromQuery.read atoi query) with ⟨d1, _ | ch⟩
  · have hq : qo = GetQueryOptionFromQuery.read atoi query := by
      simp only [qo, GetQueryOptionFromQuery, hs]
    have he : (GetQueryOptionFromQuery atoi isXid order d id now now1 query).2.2 = false := by
      simp only [GetQueryOptionFromQuery, hs]
    rw [hq]
    exact ⟨h1, h2, h3, h4, h5, h6, h7, h8, h9, h10, he, hget⟩
  · have hq : qo = { GetQueryOptionFromQuery.read atoi query with
        Channel := { (GetQueryOptionFromQuery.read atoi query).Channel with ID := ch.ID } } := by
      simp only [qo, GetQueryOptionFromQuery, hs]
    have he : (GetQueryOptionFromQuery atoi isXid order d id now now1 query).2.2 = false := by
      simp only [GetQueryOptionFromQuery, hs]
    rw [hq]
    exact ⟨h1, h2, h3, h4, h5, h6, h7, h8, h9, h10, he, hget⟩


/-! ## AES-256-GCM, the single AES block, RSA with OAEP -/

theorem readFull_length (f : Nat → Byte) (n : Nat) :
    ∃ nonce, readFull (some f) n = some nonce ∧ nonce.length = n :=
  ⟨(List.range n).map f, rfl, by simp⟩

theorem toyGCM_law (nonce p a : List Byte) :
    toyGCM.openData nonce (toyGCM.sealData nonce p a) a = some p := by
  simp [toyGCM]

/-- C25. For every secret key of 32 bytes (on which `aes.NewCipher` and `cipher.NewGCM`
succeed with an AEAD that opens what it sealed), every additional data `secondKey`, every
plaintext and every successful read of the random nonce: `AES256GSMEncrypt` returns the
nonce followed by the sealed data, `AES256GSMDecrypt` of that ciphertext with the same
keys returns the plaintext without error, and decryption splits every ciphertext at the
nonce size. -/
theorem AES256GSM_roundtrip {Pub Priv : Type} (lib : CryptoLib Pub Priv) (f : Nat → Byte)
    (secretKey secondKey plaintext : List Byte) (block : Block) (g : AEAD)
    (hkey : secretKey.length = 32) (hc : lib.NewCipher secretKey = some block)
    (hg : lib.NewGCM block = some g)
    (hlaw : ∀ nonce p a, nonce.length = g.NonceSize →
      g.openData nonce (g.sealData nonce p a) a = some p) :
    ∃ nonce, readFull (some f) g.NonceSize = some nonce ∧ nonce.length = g.NonceSize ∧
      AES256GSMEncrypt lib (some f) secretKey secondKey plaintext
        = some (nonce ++ g.sealData nonce plaintext secondKey) ∧
      AES256GSMDecrypt lib secretKey (nonce ++ g.sealData nonce plaintext secondKey) secondKey
        = some (some plaintext) ∧
      ∀ ct : List Byte, g.NonceSize ≤ ct.length →
        AES256GSMDecrypt lib secretKey ct secondKey
          = some (g.Open [] (ct.take g.NonceSize) (ct.drop g.NonceSize) secondKey) := by
  obtain ⟨nonce, hn, hl⟩ := readFull_length f g.NonceSize
  have hk : ¬ secretKey.length ≠ 32 := by simp [hkey]
  have hsplit : ∀ ct : List Byte, g.NonceSize ≤ ct.length →
      AES256GSMDecrypt lib secretKey ct secondKey
        = some (g.Open [] (ct.take g.NonceSize) (ct.drop g.NonceSize) secondKey) := by
    intro ct hct
    have hlt : ¬ ct.length < g.NonceSize := by omega
    simp only [AES256GSMDecrypt, hk, if_false, hc, hg, hlt]
  refine ⟨nonce, hn, hl, ?_, ?_, hsplit⟩
  · simp only [AES256GSMEncrypt, hk, if_false, hc, hg, hn, AEAD.Seal]
  · rw [hsplit _ (by simp [hl])]
    have ht : (nonce ++ g.sealData nonce plaintext secondKey).take g.NonceSize = nonce := by
      rw [← hl]; simp
    have hd : (nonce ++ g.sealData nonce plaintext secondKey).drop g.NonceSize
        = g.sealData nonce plaintext secondKey := by
      rw [← hl]; simp
    rw [ht, hd]
    simp [AEAD.Open, hlaw nonce plaintext secondKey hl]

/-- Witness of C25 on the stand-in library, with the key `key32` and the nonce
`0, 1, ..., 11`. -/
theorem AES256GSM_roundtrip_witness :
    ∃ nonce, readFull (some (fun i => i.toUInt8)) toyGCM.NonceSize = some nonce ∧
      nonce.length = toyGCM.NonceSize ∧
      AES256GSMEncrypt toyLib (some (fun i => i.toUInt8)) key32 (go "k2") (go "hello")
        = some (nonce ++ toyGCM.sealData nonce (go "hello") (go "k2")) ∧
      AES256GSMDecrypt toyLib key32 (nonce ++ toyGCM.sealData nonce (go "hello") (go "k2"))
          (go "k2") = some (some (go "hello")) ∧
      ∀ ct : List Byte, toyGCM.NonceSize ≤ ct.length →
        AES256GSMDecrypt toyLib key32 ct (go "k2")
          = some (toyGCM.Open [] (ct.take toyGCM.NonceSize) (ct.drop toyGCM.NonceSize)
              (go "k2")) :=
  AES256GSM_roundtrip toyLib (fun i => i.toUInt8) key32 (go "k2") (go "hello") toyBlock toyGCM
    (by decide) rfl rfl (fun nonce p a _ => toyGCM_law nonce p a)


/-- C26. For every key on which `aes.NewCipher` succeeds with a block cipher `c` (whose
decryption inverts its encryption on blocks, the codec `hex` decoding what it encoded):
`encryptMessage` panics on a plaintext shorter than a block; on a longer plaintext `p` it
succeeds, and `decryptMessage` of the result is the first block of `p` followed by zero
bytes, which is `p` exactly when every byte of `p` after the first block is zero, as when
`p` is one block. -/
theorem encryptMessage_first_block {Pub Priv : Type} (lib : CryptoLib Pub Priv)
    (key p : GoString) (c : Block) (hc : lib.NewCipher key = some c)
    (hlen : ∀ b : List Byte, b.length = c.BlockSize → (c.enc b).length = c.BlockSize)
    (hinv : ∀ b : List Byte, b.length = c.BlockSize → c.dec (c.enc b) = b)
    (hhex : ∀ x, lib.hexDecode (lib.hexEncode x) = x) :
    (p.length < c.BlockSize → encryptMessage lib key p = none) ∧
    (c.BlockSize ≤ p.length →
      ∃ e, encryptMessage lib key p = some e ∧
        decryptMessage lib key e
          = some (p.take c.BlockSize ++ List.replicate (p.length - c.BlockSize) 0) ∧
        (decryptMessage lib key e = some p ↔
          p.drop c.BlockSize = List.replicate (p.length - c.BlockSize) 0) ∧
        (p.length = c.BlockSize → decryptMessage lib key e = some p)) := by
  constructor
  · intro h
    simp only [encryptMessage, hc, Block.Encrypt, h, if_true]
  · intro h
    have h1 : ¬ p.length < c.BlockSize := by omega
    have ht : (p.take c.BlockSize).length = c.BlockSize := by
      rw [List.length_take]; omega
    have he : encryptMessage lib key p = some (lib.hexEncode
        (c.enc (p.take c.BlockSize) ++ List.replicate (p.length - c.BlockSize) 0)) := by
      simp only [encryptMessage, hc, Block.Encrypt, h1, if_false, List.length_replicate,
        List.drop_replicate]
    have hd : decryptMessage lib key (lib.hexEncode
        (c.enc (p.take c.BlockSize) ++ List.replicate (p.length - c.BlockSize) 0))
        = some (p.take c.BlockSize ++ List.replicate (p.length - c.BlockSize) 0) := by
      have hl : (c.enc (p.take c.BlockSize) ++ List.replicate (p.length - c.BlockSize) 0).length
          = p.length := by
        rw [List.length_append, hlen _ ht, List.length_replicate]; omega
      have htk : (c.enc (p.take c.BlockSize) ++ List.replicate (p.length - c.BlockSize) 0).take
          c.BlockSize = c.enc (p.take c.BlockSize) := by
        exact List.take_left' (hlen _ ht)
      simp only [decryptMessage, hhex, hc, Block.Decrypt, hl, h1, if_false,
        List.length_replicate, List.drop_replicate, htk, hinv _ ht]
    refine ⟨_, he, hd, ?_, ?_⟩
    · rw [hd]
      constructor
      · intro hp
        have hp1 : p.take c.BlockSize ++ List.replicate (p.length - c.BlockSize) 0
            = p.take c.BlockSize ++ p.drop c.BlockSize := by
          rw [List.take_append_drop]; exact Option.some.inj hp
        exact (List.append_cancel_left hp1).symm
      · intro hp
        rw [← hp, List.take_append_drop]
    · intro hp
      rw [hd, hp, Nat.sub_self]
      rw [← hp]
      simp

/-- Witness of C26 on the stand-in library: a plaintext of 17 bytes comes back with its
last byte replaced by zero. -/
theorem encryptMessage_first_block_witness :
    ((go "tiny").length < toyBlock.BlockSize → encryptMessage toyLib key32 (go "tiny") = none) ∧
    (toyBlock.BlockSize ≤ (go "This is a secret!").length →
      ∃ e, encryptMessage toyLib key32 (go "This is a secret!") = some e ∧
        decryptMessage toyLib key32 e
          = some ((go "This is a secret!").take toyBlock.BlockSize
              ++ List.replicate ((go "This is a secret!").length - toyBlock.BlockSize) 0) ∧
        (decryptMessage toyLib key32 e = some (go "This is a secret!") ↔
          (go "This is a secret!").drop toyBlock.BlockSize
            = List.replicate ((go "This is a secret!").length - toyBlock.BlockSize) 0) ∧
        ((go "This is a secret!").length = toyBlock.BlockSize →
          decryptMessage toyLib key32 e = some (go "This is a secret!"))) :=
  ⟨(encryptMessage_first_block toyLib key32 (go "tiny") toyBlock rfl
      (fun b hb => by simpa [toyBlock] using hb) (fun b _ => by simp [toyBlock])
      (fun _ => rfl)).1,
   (encryptMessage_first_block toyLib key32 (go "This is a secret!") toyBlock rfl
      (fun b hb => by simpa [toyBlock] using hb) (fun b _ => by simp [toyBlock])
      (fun _ => rfl)).2⟩

/-- C27, counterexample. With a key of 3072 bits (a modulus of 384 bytes) a message of 255
bytes is too long for OAEP with SHA-512: `EncryptRSAWithPublicKey` returns the empty
string and the decryption of it is the empty string, not the message. -/
theorem RSA_roundtrip_counterexample :
    EncryptRSAWithPublicKey toyLib [] (List.replicate 255 97) 384 = [] ∧
    DecryptRSAWithPrivateKey toyLib
      (EncryptRSAWithPublicKey toyLib [] (List.replicate 255 97) 384) () = [] ∧
    (List.replicate 255 97 : GoString) ≠ [] := by
  have hg : ((List.replicate 255 97 : GoString).length : Int)
      > (toyLib.Size 384 : Int) - 2 * sha512Size - 2 := by
    rw [List.length_replicate]; decide
  have he : EncryptRSAWithPublicKey toyLib [] (List.replicate 255 97) 384 = [] := by
    simp only [EncryptRSAWithPublicKey, CryptoLib.EncryptOAEP, hg, if_true]
  refine ⟨he, ?_, ?_⟩
  · rw [he]; rfl
  · intro h
    have hl := congrArg List.length h
    rw [List.length_replicate] at hl
    exact absurd hl (by decide)

/-- C27, amended. For every key pair whose OAEP decryption inverts its OAEP encryption and
rejects the empty ciphertext (`base64` decoding what it encoded), with a modulus of `k`
bytes, and every message `m`: when `len(m) ≤ k - 130` the decryption of the encryption of
`m` is `m`; when `m` is longer, `EncryptRSAWithPublicKey` returns the empty string and so
does the decryption of it. -/
theorem RSA_roundtrip {Pub Priv : Type} (lib : CryptoLib Pub Priv) (seed : List Byte)
    (pub : Pub) (priv : Priv) (m : GoString)
    (hpair : ∀ seed msg, msg.length + 130 ≤ lib.Size pub →
      lib.oaepDec priv (lib.oaepEnc pub seed msg) = some msg)
    (hempty : lib.oaepDec priv (lib.b64Decode []) = none)
    (hb64 : ∀ x, lib.b64Decode (lib.b64Encode x) = x) :
    (m.length + 130 ≤ lib.Size pub →
      DecryptRSAWithPrivateKey lib (EncryptRSAWithPublicKey lib seed m pub) priv = m) ∧
    (lib.Size pub < m.length + 130 →
      EncryptRSAWithPublicKey lib seed m pub = [] ∧
      DecryptRSAWithPrivateKey lib (EncryptRSAWithPublicKey lib seed m pub) priv = []) := by
  constructor
  · intro h
    have hg : ¬ ((m.length : Int) > (lib.Size pub : Int) - 2 * sha512Size - 2) := by
      simp only [sha512Size]; omega
    simp only [EncryptRSAWithPublicKey, CryptoLib.EncryptOAEP, hg, if_false,
      DecryptRSAWithPrivateKey, hb64, hpair seed m h]
  · intro h
    have hg : (m.length : Int) > (lib.Size pub : Int) - 2 * sha512Size - 2 := by
      simp only [sha512Size]; omega
    have he : EncryptRSAWithPublicKey lib seed m pub = [] := by
      simp only [EncryptRSAWithPublicKey, CryptoLib.EncryptOAEP, hg, if_true]
    refine ⟨he, ?_⟩
    rw [he]
    simp only [DecryptRSAWithPrivateKey, hempty]

/-- Witness of C27 (amended) on the stand-in library: the message `My Secret Text` under a
key of 3072 bits. -/
theorem RSA_roundtrip_witness :
    ((go "My Secret Text").length + 130 ≤ toyLib.Size 384 →
      DecryptRSAWithPrivateKey toyLib
        (EncryptRSAWithPublicKey toyLib [] (go "My Secret Text") 384) () = go "My Secret Text") ∧
    (toyLib.Size 384 < (go "My Secret Text").length + 130 →
      EncryptRSAWithPublicKey toyLib [] (go "My Secret Text") 384 = [] ∧
      DecryptRSAWithPrivateKey toyLib
        (EncryptRSAWithPublicKey toyLib [] (go "My Secret Text") 384) () = []) :=
  RSA_roundtrip toyLib [] 384 () (go "My Secret Text")
    (fun _ msg _ => by simp [toyLib]) rfl (fun _ => rfl)

end Moth
